import Mathlib

/-!
Mrtp (mikraytrace): the geometric intersection engine

A shallow embedding of `src/vector.cpp` and `src/actors.cpp`.

The numeric routines have two readings.  In the first, arithmetic on `double`
is read over an exact linearly ordered field `K` (the theorems take `K = ℝ`):
the square root of `<cmath>` is a parameter `sqrt : K → K` of every routine
that calls it (the theorems pass `Real.sqrt`), and every `/` of the source is
the checked division `divide`, so that a routine that reaches a division by
zero is told apart from one that does not: its result is `none`.  The theorems
of this reading state what the routines compute when no operation is rounded;
they say so in their first words.  In the second reading, the namespace
`Binary64`, arithmetic on `double` is IEEE 754 binary64 arithmetic, modelled by
the type `Double`: every operation is rounded as the format rounds it, and
overflow, underflow and NaN are as in the format.  It decides what the
routines return on a given input, and shows where a statement that holds over
the reals fails of the compiled program.  The vector method
`GenerateUnitVector`, the classes `Color` and `Texture` are declared in headers
that are not part of the sources at hand: they are parameters.
-/

namespace Mrtp

/-! ## Arithmetic -/

/-- Division as written `x / y` in the source, over an exact field: defined for
a non-zero divisor only.  A zero divisor (where a `double` would turn into an
infinity or a NaN) is reported as `none`. -/
def divide {K : Type} [LinearOrderedField K] (x y : K) : Option K :=
  if y = 0 then none else some (x / y)

/-! ## Vectors (`src/vector.cpp`) -/

/-- The class `Vector`: three coordinates `x_`, `y_`, `z_`. -/
structure Vector (K : Type) where
  x_ : K
  y_ : K
  z_ : K
  deriving DecidableEq

namespace Vector

variable {K : Type} [LinearOrderedField K]

/-- The default constructor `Vector::Vector ()`: all coordinates are `0.0`. -/
def zero : Vector K := ⟨0, 0, 0⟩

/-- The method `Vector::Len`. -/
def Len (sqrt : K → K) (v : Vector K) : K :=
  sqrt (v.x_ * v.x_ + v.y_ * v.y_ + v.z_ * v.z_)

/-- The method `Vector::DotSelf`. -/
def DotSelf (v : Vector K) : K :=
  v.x_ * v.x_ + v.y_ * v.y_ + v.z_ * v.z_

/-- The method `Vector::Scale_InPlace`; the updated receiver is the result. -/
def Scale_InPlace (v : Vector K) (scale : K) : Vector K :=
  ⟨v.x_ * scale, v.y_ * scale, v.z_ * scale⟩

/-- The method `Vector::Normalize_InPlace`; the updated receiver is the
result. -/
def Normalize_InPlace (sqrt : K → K) (v : Vector K) : Option (Vector K) :=
  let len := sqrt (v.x_ * v.x_ + v.y_ * v.y_ + v.z_ * v.z_)
  if len ≠ 0 then do
    let scale ← divide 1 len
    pure ⟨v.x_ * scale, v.y_ * scale, v.z_ * scale⟩
  else
    pure ⟨0, 0, 0⟩

/-- The method `Vector::CopyTo`; the updated `other` is the result. -/
def CopyTo (v : Vector K) : Vector K :=
  ⟨v.x_, v.y_, v.z_⟩

/-- The operator `Vector::operator+ (Vector &)`. -/
def add (v other : Vector K) : Vector K :=
  ⟨v.x_ + other.x_, v.y_ + other.y_, v.z_ + other.z_⟩

/-- The operator `Vector::operator- (Vector &)`. -/
def sub (v other : Vector K) : Vector K :=
  ⟨v.x_ - other.x_, v.y_ - other.y_, v.z_ - other.z_⟩

/-- The operator `Vector::operator^ (Vector &)`: the cross product. -/
def cross (v other : Vector K) : Vector K :=
  ⟨v.y_ * other.z_ - v.z_ * other.y_,
   v.z_ * other.x_ - v.x_ * other.z_,
   v.x_ * other.y_ - v.y_ * other.x_⟩

/-- The operator `Vector::operator* (Vector &)`: the dot product. -/
def dot (v other : Vector K) : K :=
  v.x_ * other.x_ + v.y_ * other.y_ + v.z_ * other.z_

/-- The operator `Vector::operator* (double)`. -/
def scale (v : Vector K) (scale : K) : Vector K :=
  ⟨v.x_ * scale, v.y_ * scale, v.z_ * scale⟩

end Vector

/-! ## Utility functions (`src/actors.cpp`) -/

section Solver

variable {K : Type} [LinearOrderedField K]

/-- The function `SolveQuadratic`: the smaller root of `a t² + b t + c`, when
it lies within the limits `mint`, `maxt`; otherwise `-1`. -/
def SolveQuadratic (sqrt : K → K) (a b c mint maxt : K) : Option K :=
  let delta := b * b - 4 * a * c
  if delta < 0 then
    pure (-1)
  else do
    let t ←
      if delta ≠ 0 then do
        let sqdelta := sqrt delta
        let t ← divide 0.5 a
        let ta := (-b - sqdelta) * t
        let tb := (-b + sqdelta) * t
        pure (if ta < tb then ta else tb)
      else
        divide (-b) (2 * a)
    if t < mint ∨ t > maxt then
      pure (-1)
    else
      pure t

end Solver

/-! ## Planes (`src/actors.cpp`) -/

/-- The class `Plane` (the list pointer `next_` apart). -/
structure Plane (K Color Texture : Type) where
  center_ : Vector K
  normal_ : Vector K
  scale_ : K
  color_ : Color
  texture_ : Option Texture
  texturex_ : Vector K
  texturey_ : Vector K

namespace Plane

variable {K Color Texture : Type} [LinearOrderedField K]

/-- The constructor `Plane::Plane (center, normal, scale, color, texture)`.
`GenerateUnitVector` is the vector method of that name; members that the
constructor does not assign keep the value of their default constructor. -/
def new [Inhabited Color] (sqrt : K → K)
    (GenerateUnitVector : Vector K → Vector K)
    (center normal : Vector K) (scale : K) (color : Color)
    (texture : Option Texture) : Option (Plane K Color Texture) := do
  let normal_ ← (normal.CopyTo).Normalize_InPlace sqrt
  match texture with
  | none =>
    pure { center_ := center.CopyTo, normal_ := normal_, scale_ := scale,
           color_ := color, texture_ := none,
           texturex_ := Vector.zero, texturey_ := Vector.zero }
  | some tex =>
    let T := GenerateUnitVector normal_
    let texturex_ ← (T.cross normal_).Normalize_InPlace sqrt
    let texturey_ ← (normal_.cross texturex_).Normalize_InPlace sqrt
    pure { center_ := center.CopyTo, normal_ := normal_, scale_ := scale,
           color_ := default, texture_ := some tex,
           texturex_ := texturex_, texturey_ := texturey_ }

/-- The method `Plane::Solve`. -/
def Solve (p : Plane K Color Texture) (origin direction : Vector K)
    (mind maxd : K) : Option K :=
  let bar := direction.dot p.normal_
  if bar ≠ 0 then do
    let T := origin.sub p.center_
    let d ← divide (-(T.dot p.normal_)) bar
    if d < mind ∨ d > maxd then
      pure (-1)
    else
      pure d
  else
    pure (-1)

/-- The method `Plane::GetNormal`; the vector written to `normal` is the
result. -/
def GetNormal (p : Plane K Color Texture) : Vector K :=
  p.normal_.CopyTo

end Plane

/-! ## Spheres (`src/actors.cpp`) -/

/-- The class `Sphere` (the list pointer `next_` apart). -/
structure Sphere (K Color Texture : Type) where
  center_ : Vector K
  radius_ : K
  color_ : Color
  texture_ : Option Texture
  texturex_ : Vector K
  texturey_ : Vector K
  texturez_ : Vector K

namespace Sphere

variable {K Color Texture : Type} [LinearOrderedField K]

/-- The constructor `Sphere::Sphere (center, radius, axis, color, texture)`. -/
def new [Inhabited Color] (sqrt : K → K)
    (GenerateUnitVector : Vector K → Vector K)
    (center : Vector K) (radius : K) (axis : Vector K) (color : Color)
    (texture : Option Texture) : Option (Sphere K Color Texture) :=
  match texture with
  | none =>
    pure { center_ := center.CopyTo, radius_ := radius, color_ := color,
           texture_ := none, texturex_ := Vector.zero,
           texturey_ := Vector.zero, texturez_ := Vector.zero }
  | some tex => do
    let texturey_ ← (axis.CopyTo).Normalize_InPlace sqrt
    let T := GenerateUnitVector texturey_
    let texturex_ ← (T.cross texturey_).Normalize_InPlace sqrt
    let texturez_ ← (texturey_.cross texturex_).Normalize_InPlace sqrt
    pure { center_ := center.CopyTo, radius_ := radius, color_ := default,
           texture_ := some tex, texturex_ := texturex_,
           texturey_ := texturey_, texturez_ := texturez_ }

/-- The method `Sphere::Solve`. -/
def Solve (sqrt : K → K) (s : Sphere K Color Texture)
    (origin direction : Vector K) (mind maxd : K) : Option K :=
  let T := origin.sub s.center_
  let a := direction.dot direction
  let b := 2 * direction.dot T
  let c := T.dot T - s.radius_ * s.radius_
  SolveQuadratic sqrt a b c mind maxd

/-- The method `Sphere::GetNormal`; the vector written to `normal` is the
result. -/
def GetNormal (sqrt : K → K) (s : Sphere K Color Texture) (hit : Vector K) :
    Option (Vector K) :=
  (hit.sub s.center_).Normalize_InPlace sqrt

end Sphere

/-! ## Cylinders (`src/actors.cpp`) -/

/-- The class `Cylinder` (the list pointer `next_` apart). -/
structure Cylinder (K Color Texture : Type) where
  A_ : Vector K
  B_ : Vector K
  radius_ : K
  span_ : K
  color_ : Color
  texture_ : Option Texture
  texturex_ : Vector K
  texturey_ : Vector K

namespace Cylinder

variable {K Color Texture : Type} [LinearOrderedField K]

/-- The constructor
`Cylinder::Cylinder (center, direction, radius, span, color, texture)`. -/
def new [Inhabited Color] (sqrt : K → K)
    (GenerateUnitVector : Vector K → Vector K)
    (center direction : Vector K) (radius span : K) (color : Color)
    (texture : Option Texture) : Option (Cylinder K Color Texture) := do
  let B_ ← (direction.CopyTo).Normalize_InPlace sqrt
  match texture with
  | none =>
    pure { A_ := center.CopyTo, B_ := B_, radius_ := radius, span_ := span,
           color_ := color, texture_ := none,
           texturex_ := Vector.zero, texturey_ := Vector.zero }
  | some tex =>
    let texturey_ := GenerateUnitVector B_
    let texturex_ ← (texturey_.cross B_).Normalize_InPlace sqrt
    pure { A_ := center.CopyTo, B_ := B_, radius_ := radius, span_ := span,
           color_ := default, texture_ := some tex,
           texturex_ := texturex_, texturey_ := texturey_ }

/-- The method `Cylinder::Solve`. -/
def Solve (sqrt : K → K) (cy : Cylinder K Color Texture) (O D : Vector K)
    (mind maxd : K) : Option K := do
  let T := O.sub cy.A_
  let a := T.dot D
  let b := cy.B_.dot D
  let d := T.dot cy.B_
  let f := cy.radius_ * cy.radius_ - T.dot T
  let aa := 1 - b * b
  let bb := 2 * (a - b * d)
  let cc := -(d * d) - f
  let t ← SolveQuadratic sqrt aa bb cc mind maxd
  if t > 0 then
    if cy.span_ > 0 then
      let alpha := d + t * b
      if alpha < -cy.span_ ∨ alpha > cy.span_ then
        pure (-1)
      else
        pure t
    else
      pure t
  else
    pure t

/-- The method `Cylinder::GetNormal`; the vector written to `normal` is the
result. -/
def GetNormal (sqrt : K → K) (cy : Cylinder K Color Texture)
    (hit : Vector K) : Option (Vector K) :=
  let T := hit.sub cy.A_
  let alpha := cy.B_.dot T
  let T := cy.B_.scale alpha
  let Q := cy.A_.add T
  (hit.sub Q).Normalize_InPlace sqrt

end Cylinder

/-! ## Binary64 arithmetic

The type `double` of the source is the IEEE 754 binary64 format.  Next to the
reading over an exact field above, the numeric routines of `src/vector.cpp`
and `src/actors.cpp` are given a second reading, in the namespace `Binary64`,
in which every `+`, `-`, `*`, `/` and `sqrt` is the correctly rounded
operation of the format (round to nearest, ties to even), one rounding for each
operation the source writes, in the order in which it writes them.  This
reading decides what the compiled routines return on a given input; the
reading over the reals states what they compute when nothing is rounded. -/

/-- A value of the type `double`: a NaN, an infinity with its sign
(`neg = true` for the negative one), or a finite number `± n · 2 ^ (-1074)` with
its sign.  The unit `2 ^ (-1074)` is the smallest positive double, so that
every finite double is `fin neg n` for exactly one `n < 2 ^ 2098`, with at
most 53 significant bits; `fin false 0` and `fin true 0` are the two zeros. -/
inductive Double where
  | nan : Double
  | inf (neg : Bool) : Double
  | fin (neg : Bool) (n : Nat) : Double
  deriving DecidableEq

namespace Double

/-- The search of `log2`: `acc` is raised by `2 ^ k` when `n` has that many
more bits. -/
def log2.go (n : Nat) : Nat → Nat → Nat
  | 0, acc => acc
  | k + 1, acc =>
    if n ≥ 2 ^ (acc + 2 ^ k) then log2.go n k (acc + 2 ^ k) else log2.go n k acc

/-- The position of the leading bit of `n`, for `0 < n < 2 ^ 8192` (`0` for
`n = 0`): `2 ^ log2 n ≤ n < 2 ^ (log2 n + 1)`. -/
def log2 (n : Nat) : Nat :=
  log2.go n 13 0

/-- Rounding to the format: the double nearest to `± (num / den) · 2 ^ (-1074)`,
ties to the even significand.  A quotient below `2 ^ 53` is rounded to an
integer (the subnormal numbers and the first binade), a larger one to 53
significant bits; a result of `2 ^ 1024` or more is the infinity. -/
def round (neg : Bool) (num den : Nat) : Double :=
  let shift := (log2 (num / den) + 1) - 53
  let d := den * 2 ^ shift
  let m := num / d
  let r := num % d
  let m := if 2 * r > d ∨ (2 * r = d ∧ m % 2 = 1) then m + 1 else m
  if m * 2 ^ shift ≥ 2 ^ 2098 then inf neg else fin neg (m * 2 ^ shift)

/-- The double nearest to the rational `± num / den`: the value of a decimal
literal of the source. -/
def ofRat (neg : Bool) (num den : Nat) : Double :=
  round neg (num * 2 ^ 1074) den

/-- Unary minus. -/
def neg : Double → Double
  | nan => nan
  | inf s => inf (!s)
  | fin s n => fin (!s) n

/-- Addition `x + y`. -/
def add : Double → Double → Double
  | nan, _ => nan
  | _, nan => nan
  | inf s, inf t => if s = t then inf s else nan
  | inf s, fin _ _ => inf s
  | fin _ _, inf t => inf t
  | fin s a, fin t b =>
    if s = t then round s (a + b) 1
    else if a > b then round s (a - b) 1
    else if b > a then round t (b - a) 1
    else fin false 0

/-- Subtraction `x - y`. -/
def sub (x y : Double) : Double :=
  add x (neg y)

/-- Multiplication `x * y`. -/
def mul : Double → Double → Double
  | nan, _ => nan
  | _, nan => nan
  | inf s, inf t => inf (xor s t)
  | inf s, fin t b => if b = 0 then nan else inf (xor s t)
  | fin s a, inf t => if a = 0 then nan else inf (xor s t)
  | fin s a, fin t b => round (xor s t) (a * b) (2 ^ 1074)

/-- Division `x / y`. -/
def div : Double → Double → Double
  | nan, _ => nan
  | _, nan => nan
  | inf _, inf _ => nan
  | inf s, fin t _ => inf (xor s t)
  | fin s _, inf t => fin (xor s t) 0
  | fin s a, fin t b =>
    if b = 0 then (if a = 0 then nan else inf (xor s t))
    else round (xor s t) (a * 2 ^ 1074) b

/-- The iteration of `isqrt` (Newton, from above). -/
def isqrt.go (N : Nat) : Nat → Nat → Nat
  | 0, x => x
  | fuel + 1, x =>
    let y := (x + N / x) / 2
    if y < x then isqrt.go N fuel y else x

/-- The integer square root: the largest `r` with `r * r ≤ N`. -/
def isqrt (N : Nat) : Nat :=
  if N = 0 then 0 else isqrt.go N (log2 N + 2) (2 ^ (log2 N / 2 + 1))

/-- The function `sqrt` of `<cmath>`.  For `n · 2 ^ (-1074)` the root is
`√(n · 2 ^ 1074) · 2 ^ (-1074)`; it is handed to `round` as `(2 r + s) / 2`, with
`r` the integer root and `s = 1` when the root is not exact, which rounds as
the root itself does. -/
def sqrt : Double → Double
  | nan => nan
  | inf s => if s then nan else inf false
  | fin s n =>
    if n = 0 then fin s 0
    else if s then nan
    else
      let N := n * 2 ^ 1074
      let r := isqrt N
      round false (2 * r + (if r * r = N then 0 else 1)) 2

/-- The comparison `x < y`: false when an operand is a NaN; the two zeros are
equal. -/
def lt : Double → Double → Bool
  | nan, _ => false
  | _, nan => false
  | inf s, inf t => s && !t
  | inf s, fin _ _ => s
  | fin _ _, inf t => !t
  | fin s a, fin t b =>
    if s then (if t then decide (b < a) else decide (0 < a ∨ 0 < b))
    else (if t then false else decide (a < b))

/-- The comparison `x == y`: false when an operand is a NaN; the two zeros are
equal. -/
def eq : Double → Double → Bool
  | fin s a, fin t b => (decide (a = 0) && decide (b = 0)) || (decide (s = t) && decide (a = b))
  | inf s, inf t => decide (s = t)
  | _, _ => false

/-- The comparison `x != y`. -/
def ne (x y : Double) : Bool :=
  !eq x y

/-- The comparison `x > y`. -/
def gt (x y : Double) : Bool :=
  lt y x

/-- The comparison `x <= y`: false when an operand is a NaN. -/
def le (x y : Double) : Bool :=
  lt x y || eq x y

instance (n : Nat) : OfNat Double n := ⟨ofRat false n 1⟩

instance : OfScientific Double :=
  ⟨fun mantissa exponentSign decimalExponent =>
    if exponentSign then ofRat false mantissa (10 ^ decimalExponent)
    else ofRat false (mantissa * 10 ^ decimalExponent) 1⟩

instance : Neg Double := ⟨neg⟩

instance : Add Double := ⟨add⟩

instance : Sub Double := ⟨sub⟩

instance : Mul Double := ⟨mul⟩

instance : Div Double := ⟨div⟩

end Double

namespace Binary64

/-! ### Vectors (`src/vector.cpp`) -/

/-- The method `Vector::Len`. -/
def Vector.Len (v : Vector Double) : Double :=
  Double.sqrt (v.x_ * v.x_ + v.y_ * v.y_ + v.z_ * v.z_)

/-- The method `Vector::Normalize_InPlace`; the updated receiver is the
result. -/
def Vector.Normalize_InPlace (v : Vector Double) : Vector Double :=
  let len := Double.sqrt (v.x_ * v.x_ + v.y_ * v.y_ + v.z_ * v.z_)
  if Double.ne len 0 then
    let scale := 1 / len
    ⟨v.x_ * scale, v.y_ * scale, v.z_ * scale⟩
  else
    ⟨0, 0, 0⟩

/-- The method `Vector::CopyTo`; the updated `other` is the result. -/
def Vector.CopyTo (v : Vector Double) : Vector Double :=
  ⟨v.x_, v.y_, v.z_⟩

/-- The operator `Vector::operator+ (Vector &)`. -/
def Vector.add (v other : Vector Double) : Vector Double :=
  ⟨v.x_ + other.x_, v.y_ + other.y_, v.z_ + other.z_⟩

/-- The operator `Vector::operator- (Vector &)`. -/
def Vector.sub (v other : Vector Double) : Vector Double :=
  ⟨v.x_ - other.x_, v.y_ - other.y_, v.z_ - other.z_⟩

/-- The operator `Vector::operator^ (Vector &)`: the cross product. -/
def Vector.cross (v other : Vector Double) : Vector Double :=
  ⟨v.y_ * other.z_ - v.z_ * other.y_,
   v.z_ * other.x_ - v.x_ * other.z_,
   v.x_ * other.y_ - v.y_ * other.x_⟩

/-- The operator `Vector::operator* (Vector &)`: the dot product. -/
def Vector.dot (v other : Vector Double) : Double :=
  v.x_ * other.x_ + v.y_ * other.y_ + v.z_ * other.z_

/-- The operator `Vector::operator* (double)`. -/
def Vector.scale (v : Vector Double) (scale : Double) : Vector Double :=
  ⟨v.x_ * scale, v.y_ * scale, v.z_ * scale⟩

/-! ### Solvers and normals (`src/actors.cpp`) -/

/-- The function `SolveQuadratic`. -/
def SolveQuadratic (a b c mint maxt : Double) : Double :=
  let delta := b * b - 4 * a * c
  if Double.lt delta 0 then
    -1
  else
    let t :=
      if Double.ne delta 0 then
        let sqdelta := Double.sqrt delta
        let t := 0.5 / a
        let ta := (-b - sqdelta) * t
        let tb := (-b + sqdelta) * t
        if Double.lt ta tb then ta else tb
      else
        -b / (2 * a)
    if Double.lt t mint || Double.gt t maxt then
      -1
    else
      t

/-- The constructor `Plane::Plane (center, normal, scale, color, texture)`. -/
def Plane.new {Color Texture : Type} [Inhabited Color]
    (GenerateUnitVector : Vector Double → Vector Double)
    (center normal : Vector Double) (scale : Double) (color : Color)
    (texture : Option Texture) : Plane Double Color Texture :=
  let normal_ := Vector.Normalize_InPlace (Vector.CopyTo normal)
  match texture with
  | none =>
    { center_ := Vector.CopyTo center, normal_ := normal_, scale_ := scale,
      color_ := color, texture_ := none,
      texturex_ := ⟨0, 0, 0⟩, texturey_ := ⟨0, 0, 0⟩ }
  | some tex =>
    let T := GenerateUnitVector normal_
    let texturex_ := Vector.Normalize_InPlace (Vector.cross T normal_)
    let texturey_ := Vector.Normalize_InPlace (Vector.cross normal_ texturex_)
    { center_ := Vector.CopyTo center, normal_ := normal_, scale_ := scale,
      color_ := default, texture_ := some tex,
      texturex_ := texturex_, texturey_ := texturey_ }

/-- The method `Plane::Solve`. -/
def Plane.Solve {Color Texture : Type} (p : Plane Double Color Texture)
    (origin direction : Vector Double) (mind maxd : Double) : Double :=
  let bar := Vector.dot direction p.normal_
  if Double.ne bar 0 then
    let T := Vector.sub origin p.center_
    let d := -(Vector.dot T p.normal_) / bar
    if Double.lt d mind || Double.gt d maxd then
      -1
    else
      d
  else
    -1

/-- The method `Sphere::Solve`. -/
def Sphere.Solve {Color Texture : Type} (s : Sphere Double Color Texture)
    (origin direction : Vector Double) (mind maxd : Double) : Double :=
  let T := Vector.sub origin s.center_
  let a := Vector.dot direction direction
  let b := 2 * Vector.dot direction T
  let c := Vector.dot T T - s.radius_ * s.radius_
  SolveQuadratic a b c mind maxd

/-- The method `Sphere::GetNormal`; the vector written to `normal` is the
result. -/
def Sphere.GetNormal {Color Texture : Type} (s : Sphere Double Color Texture)
    (hit : Vector Double) : Vector Double :=
  Vector.Normalize_InPlace (Vector.sub hit s.center_)

/-- The method `Cylinder::Solve`. -/
def Cylinder.Solve {Color Texture : Type} (cy : Cylinder Double Color Texture)
    (O D : Vector Double) (mind maxd : Double) : Double :=
  let T := Vector.sub O cy.A_
  let a := Vector.dot T D
  let b := Vector.dot cy.B_ D
  let d := Vector.dot T cy.B_
  let f := cy.radius_ * cy.radius_ - Vector.dot T T
  let aa := 1 - b * b
  let bb := 2 * (a - b * d)
  let cc := -(d * d) - f
  let t := SolveQuadratic aa bb cc mind maxd
  if Double.gt t 0 then
    if Double.gt cy.span_ 0 then
      let alpha := d + t * b
      if Double.lt alpha (-cy.span_) || Double.gt alpha cy.span_ then
        -1
      else
        t
    else
      t
  else
    t

/-- The method `Cylinder::GetNormal`; the vector written to `normal` is the
result. -/
def Cylinder.GetNormal {Color Texture : Type} (cy : Cylinder Double Color Texture)
    (hit : Vector Double) : Vector Double :=
  let T := Vector.sub hit cy.A_
  let alpha := Vector.dot cy.B_ T
  let T := Vector.scale cy.B_ alpha
  let Q := Vector.add cy.A_ T
  Vector.Normalize_InPlace (Vector.sub hit Q)

end Binary64

/-! ## Colours (`src/actors.cpp`) -/

/-- One call `texture_->GetColor (fracx, fracy, scale)` of the texture
sampler, kept as a record of the texture and the three arguments. -/
structure SamplerCall (K Texture : Type) where
  texture : Texture
  fracx : K
  fracy : K
  scale : K

section Colours

variable {K Color Texture : Type} [LinearOrderedField K]

/-- The method `Plane::DetermineColor`; the colour written to `color` is the
first component of the result, the calls of the sampler `GetColor` made on the
way are the second. -/
def Plane.DetermineColor (GetColor : Texture → K → K → K → Color)
    (p : Plane K Color Texture) (hit : Vector K) :
    Color × List (SamplerCall K Texture) :=
  match p.texture_ with
  | none => (p.color_, [])
  | some tex =>
    let V := hit.sub p.center_
    let vx := V.dot p.texturex_
    let vy := V.dot p.texturey_
    (GetColor tex vx vy p.scale_, [⟨tex, vx, vy, p.scale_⟩])

/-- The method `Sphere::DetermineColor`; `acos`, `sin` and `pi` are `acos`,
`sin` and `M_PI` of `<cmath>`. The result is as for `Plane::DetermineColor`. -/
def Sphere.DetermineColor (acos sin : K → K) (pi : K)
    (GetColor : Texture → K → K → K → Color)
    (s : Sphere K Color Texture) (normal : Vector K) :
    Option (Color × List (SamplerCall K Texture)) :=
  match s.texture_ with
  | none => pure (s.color_, [])
  | some tex => do
    let dot := s.texturey_.dot normal
    let phi := acos (-dot)
    let fracy ← divide phi pi
    let dot := normal.dot s.texturex_
    let q ← divide dot (sin phi)
    let theta ← divide (acos q) (2 * pi)
    let dot := s.texturez_.dot normal
    let fracx := if dot > 0 then theta else 1 - theta
    pure (GetColor tex fracx fracy 1, [⟨tex, fracx, fracy, 1⟩])

/-- The method `Cylinder::DetermineColor`; `acos` and `pi` are `acos` and
`M_PI` of `<cmath>`. The result is as for `Plane::DetermineColor`. -/
def Cylinder.DetermineColor (acos : K → K) (pi : K)
    (GetColor : Texture → K → K → K → Color)
    (cy : Cylinder K Color Texture) (hit normal : Vector K) :
    Option (Color × List (SamplerCall K Texture)) :=
  match cy.texture_ with
  | none => pure (cy.color_, [])
  | some tex => do
    let T := hit.sub cy.A_
    let alpha := cy.B_.dot T
    let dot := cy.texturex_.dot normal
    let fracx ← divide (acos dot) pi
    let fracy ← divide alpha (2 * pi * cy.radius_)
    pure (GetColor tex fracx fracy 1, [⟨tex, fracx, fracy, 1⟩])

end Colours

/-! ## Control flow -/

/-- The outcome of a piece of code inside a function: control goes on with the
state `s`, or the function returns with `r`, or an exception leaves the
function (as `std::out_of_range` out of `at` and `substr`) or the behaviour is
undefined. -/
inductive Flow (ρ σ : Type) where
  | next (s : σ)
  | ret (r : ρ)
  | fault

/-- The loop `for (i = start; i < start + count; i++) body`, without `break`. -/
def forLoop {ρ σ : Type} (body : Nat → σ → Flow ρ σ) : Nat → Nat → σ → Flow ρ σ
  | 0, _, s => Flow.next s
  | count + 1, i, s =>
    match body i s with
    | Flow.next s' => forLoop body count (i + 1) s'
    | Flow.ret r => Flow.ret r
    | Flow.fault => Flow.fault

/-! ## Bit masks and flags -/

/-- Modelled from the spec: the header `motifs.hpp`, which declares the type
`Bitmask_t`, is not among the sources. A mask is an unsigned integer read bit
by bit; no mask of the parser has more than seven bits. -/
abbrev Bitmask_t : Type := Nat

/-- Modelled from the spec: the macro `MAKE_MASK` of `motifs.hpp` (absent),
the mask whose only bit is `bit`. -/
def MAKE_MASK (bit : Nat) : Bitmask_t := 1 <<< bit

/-- Modelled from the spec: the macro `CHECK_BIT` of `motifs.hpp` (absent),
the test of the bit `bit` of `mask`. -/
def CHECK_BIT (mask : Bitmask_t) (bit : Nat) : Bool := mask.testBit bit

/-- Modelled from the spec: the enumerators `flagVector`, ... of `motifs.hpp`
(absent) number the bits of the flags of a parameter; the numbers are taken in
the order below, and only their being distinct matters. -/
def flagVector : Nat := 0

/-- Modelled from the spec: see `flagVector`. -/
def flagReal : Nat := 1

/-- Modelled from the spec: see `flagVector`. -/
def flagText : Nat := 2

/-- Modelled from the spec: see `flagVector`. -/
def flagOptional : Nat := 3

/-- Modelled from the spec: see `flagVector`. -/
def flagCheckZero : Nat := 4

/-- Modelled from the spec: see `flagVector`. -/
def flagCheckPositive : Nat := 5

/-- Modelled from the spec: see `flagVector`. -/
def flagCheckZeroOne : Nat := 6

/-- Modelled from the spec: the macro `BIT_VECTOR` of `motifs.hpp` (absent),
the mask of the flag `flagVector`; likewise for the other `BIT_` macros. -/
def BIT_VECTOR : Bitmask_t := MAKE_MASK flagVector

/-- Modelled from the spec: see `BIT_VECTOR`. -/
def BIT_REAL : Bitmask_t := MAKE_MASK flagReal

/-- Modelled from the spec: see `BIT_VECTOR`. -/
def BIT_TEXT : Bitmask_t := MAKE_MASK flagText

/-- Modelled from the spec: see `BIT_VECTOR`. -/
def BIT_OPTIONAL : Bitmask_t := MAKE_MASK flagOptional

/-- Modelled from the spec: see `BIT_VECTOR`. -/
def BIT_CHECK_ZERO : Bitmask_t := MAKE_MASK flagCheckZero

/-- Modelled from the spec: see `BIT_VECTOR`. -/
def BIT_CHECK_POSITIVE : Bitmask_t := MAKE_MASK flagCheckPositive

/-- Modelled from the spec: see `BIT_VECTOR`. -/
def BIT_CHECK_ZERO_ONE : Bitmask_t := MAKE_MASK flagCheckZeroOne

/-! ## The parser: types and tables (`src/parser.hpp`, `src/parser.cpp`) -/

/-- The macro `MAX_LINES`. -/
def MAX_LINES : Nat := 8

/-- The macro `MAX_TOKENS`. -/
def MAX_TOKENS : Nat := 4

/-- The macro `MAX_COMPONENTS`. -/
def MAX_COMPONENTS : Nat := MAX_TOKENS - 1

/-- The enumeration `ParserCode_t`. -/
inductive ParserCode_t where
  | codeOK | codeUnknown | codeType | codeSize | codeMissing
  | codeRepeated | codeFilename | codeValue | codeConflict
  deriving DecidableEq

/-- The enumeration `ParserStatus_t`. -/
inductive ParserStatus_t where
  | statusOK | statusFail
  deriving DecidableEq

/-- The enumeration `ParserMode_t`. -/
inductive ParserMode_t where
  | modeOpen | modeRead
  deriving DecidableEq

/-- Modelled from the spec: the enumeration `EntryID_t` of `entry.hpp`, which
is not among the sources; its enumerators are those the table `kEntries`
names. -/
inductive EntryID_t where
  | entryCamera | entryLight | entryPlane | entrySphere | entryCylinder
  deriving DecidableEq

/-- The structure `MotifParameter`. -/
structure MotifParameter where
  id : Nat
  replace : Nat
  label : String
  defaults : String
  flags : Bitmask_t

/-- The structure `MotifEntry`; `parameters` is the table the pointer of that
name points to. -/
structure MotifEntry where
  id : EntryID_t
  label : String
  mandatory : Bool
  nallowed : Nat
  nparameters : Nat
  parameters : List MotifParameter

/-- The table `kCamera`. -/
def kCamera : List MotifParameter :=
  [ ⟨1, 0, "position", "", BIT_VECTOR⟩,
    ⟨2, 0, "target", "", BIT_VECTOR⟩,
    ⟨3, 0, "roll", "0.0", BIT_REAL ||| BIT_OPTIONAL⟩ ]

/-- The table `kLight`. -/
def kLight : List MotifParameter :=
  [ ⟨1, 0, "position", "", BIT_VECTOR⟩ ]

/-- The table `kPlane`. -/
def kPlane : List MotifParameter :=
  [ ⟨1, 0, "center", "", BIT_VECTOR⟩,
    ⟨2, 0, "normal", "", BIT_VECTOR ||| BIT_CHECK_ZERO⟩,
    ⟨3, 0, "scale", "", BIT_REAL ||| BIT_CHECK_POSITIVE⟩,
    ⟨4, 0, "reflect", "0.0", BIT_REAL ||| BIT_CHECK_POSITIVE ||| BIT_OPTIONAL⟩,
    ⟨5, 6, "color", "", BIT_VECTOR⟩,
    ⟨6, 5, "texture", "", BIT_TEXT⟩ ]

/-- The table `kSphere`. -/
def kSphere : List MotifParameter :=
  [ ⟨1, 0, "position", "", BIT_VECTOR⟩,
    ⟨2, 0, "radius", "", BIT_REAL ||| BIT_CHECK_POSITIVE⟩,
    ⟨3, 0, "axis", "0.0  0.0  1.0", BIT_VECTOR ||| BIT_CHECK_ZERO ||| BIT_OPTIONAL⟩,
    ⟨4, 0, "reflect", "0.0", BIT_REAL ||| BIT_CHECK_ZERO_ONE ||| BIT_OPTIONAL⟩,
    ⟨5, 6, "color", "", BIT_VECTOR⟩,
    ⟨6, 5, "texture", "", BIT_TEXT⟩ ]

/-- The table `kCylinder`. -/
def kCylinder : List MotifParameter :=
  [ ⟨1, 0, "center", "", BIT_VECTOR⟩,
    ⟨2, 0, "direction", "", BIT_VECTOR ||| BIT_CHECK_ZERO⟩,
    ⟨3, 0, "radius", "", BIT_REAL ||| BIT_CHECK_POSITIVE⟩,
    ⟨4, 0, "span", "-1.0", BIT_REAL ||| BIT_CHECK_ZERO ||| BIT_OPTIONAL⟩,
    ⟨5, 0, "reflect", "0.0", BIT_REAL ||| BIT_CHECK_ZERO_ONE ||| BIT_OPTIONAL⟩,
    ⟨6, 7, "color", "", BIT_VECTOR⟩,
    ⟨7, 6, "texture", "", BIT_TEXT⟩ ]

/-- The table `kEntries`. -/
def kEntries : List MotifEntry :=
  [ ⟨EntryID_t.entryCamera, "camera", true, 1, kCamera.length, kCamera⟩,
    ⟨EntryID_t.entryLight, "light", true, 1, kLight.length, kLight⟩,
    ⟨EntryID_t.entryPlane, "plane", false, 0, kPlane.length, kPlane⟩,
    ⟨EntryID_t.entrySphere, "sphere", false, 0, kSphere.length, kSphere⟩,
    ⟨EntryID_t.entryCylinder, "cylinder", false, 0, kCylinder.length, kCylinder⟩ ]

/-- The constant `kSizeEntries`. -/
def kSizeEntries : Nat := kEntries.length

/-! ## Entries (`src/parser.cpp`) -/

/-- Modelled from the spec: the class `Entry` is declared in `entry.hpp`, which
is not among the sources; its members are those the methods of `parser.cpp`
use. The arrays `keys_`, `text_` and `real_` are maps from indices. -/
structure Entry (K : Type) where
  id_ : Option EntryID_t
  npar_ : Nat
  current_ : Nat
  keys_ : Nat → String
  text_ : Nat → Nat → String
  real_ : Nat → Nat → K

namespace Entry

variable {K : Type} [LinearOrderedField K]

/-- The constructor `Entry::Entry ()`. It assigns `npar_` only: the identifier
is unset, and the other members are shown as zeros and empty strings. -/
def new : Entry K :=
  { id_ := none, npar_ := 0, current_ := 0, keys_ := fun _ => "",
    text_ := fun _ _ => "", real_ := fun _ _ => 0 }

/-- The method `Entry::CheckID`. -/
def CheckID (e : Entry K) (id : EntryID_t) : Bool :=
  if some id = e.id_ then true else false

/-- The method `Entry::SetID`. -/
def SetID (e : Entry K) (id : EntryID_t) : Entry K :=
  { e with id_ := some id }

/-- The method `Entry::AddTextual`. -/
def AddTextual (e : Entry K) (key : String) (text : Nat → String) (ntext : Nat) : Entry K :=
  { e with
    text_ := fun k i => if k = e.npar_ ∧ i < ntext then text i else e.text_ k i
    keys_ := fun k => if k = e.npar_ then key else e.keys_ k
    npar_ := e.npar_ + 1 }

/-- The method `Entry::AddNumerical`. -/
def AddNumerical (e : Entry K) (key : String) (real : Nat → K) (nreal : Nat) : Entry K :=
  { e with
    real_ := fun k i => if k = e.npar_ ∧ i < nreal then real i else e.real_ k i
    keys_ := fun k => if k = e.npar_ then key else e.keys_ k
    npar_ := e.npar_ + 1 }

/-- The method `Entry::StartQuery`. -/
def StartQuery (e : Entry K) : Entry K :=
  { e with current_ := 0 }

/-- The method `Entry::Query`: the key and the two rows of the current
parameter, and the entry moved on by one; `none` stands for `false`. -/
def Query (e : Entry K) : Option (String × (Nat → K) × (Nat → String)) × Entry K :=
  if e.current_ = e.npar_ then
    (none, e)
  else
    (some (e.keys_ e.current_, e.real_ e.current_, e.text_ e.current_),
      { e with current_ := e.current_ + 1 })

end Entry

/-! ## Utility functions of the parser (`src/parser.cpp`) -/

/-- The method `std::string::find` for a pattern of one character: the position
of its first occurrence, `none` for `npos`. -/
def find : List Char → Char → Option Nat
  | [], _ => none
  | x :: xs, c => if x = c then some 0 else (find xs c).map (fun i => i + 1)

/-- The loop of `TokenizeLine`, with `fuel` bounding the number of its
rounds: the result is the returned value, the array `tokens` and the count
`ti`.  The pointer `tokens` is the array of the caller, of `size` strings: the
store `tokens[ti] = token` is within the array when `ti < size`; a store at
`size` or beyond is outside of it, the behaviour of the program is undefined
from there on, and the result is `none`. -/
def TokenizeLine.loop (maxtokens size : Nat) :
    Nat → List Char → Nat → (Nat → String) → Option (Bool × (Nat → String) × Nat)
  | 0, _, _, _ => none
  | fuel + 1, chars, ti, tokens =>
    let i := match find chars ' ' with
      | some i => some i
      | none => find chars '\t'
    match i with
    | some i =>
      let token := if i > 0 then chars.take i else []
      let chars := chars.drop (i + 1)
      if token ≠ [] then
        if ti < size then
          let tokens := fun k => if k = ti then String.mk token else tokens k
          if ti + 1 > maxtokens then
            some (false, tokens, ti + 1)
          else
            TokenizeLine.loop maxtokens size fuel chars (ti + 1) tokens
        else
          none
      else
        TokenizeLine.loop maxtokens size fuel chars ti tokens
    | none =>
      let token := chars
      if token ≠ [] then
        if ti < size then
          let tokens := fun k => if k = ti then String.mk token else tokens k
          if ti + 1 > maxtokens then
            some (false, tokens, ti + 1)
          else
            some (true, tokens, ti + 1)
        else
          none
      else
        some (true, tokens, ti)

/-- The function `TokenizeLine`, called with an array `tokens` of `size`
strings: the returned value, the array `tokens` and the count `*ntokens` after
the call; `none` when a store is outside the array.  Every round but the last
shortens `chars`, so that its length plus one bounds the number of rounds: the
fuel is never used up (`TokenizeLine_props`, `TokenizeLine_size`). -/
def TokenizeLine (line : String) (maxtokens size : Nat) (tokens : Nat → String)
    (ntokens : Nat) : Option (Bool × (Nat → String) × Nat) :=
  let chars := line.data
  let chars := match find chars '#' with
    | some i => chars.take i
    | none => chars
  match TokenizeLine.loop maxtokens size (chars.length + 1) chars 0 tokens with
  | none => none
  | some (true, tokens, ti) => some (true, tokens, ti)
  | some (false, tokens, _) => some (false, tokens, ntokens)

/-- The function `ConvertTokens`: the returned value and the array `out` after
the call. `strtod` is the extraction `convert >> test` of a `double` from a
string stream, `none` when the stream fails. -/
def ConvertTokens {K : Type} (strtod : String → Option K) (tokens : Nat → String) :
    Nat → Nat → (Nat → K) → Bool × (Nat → K)
  | 0, _, out => (true, out)
  | ntokens + 1, i, out =>
    match strtod (tokens i) with
    | none => (false, out)
    | some test =>
      ConvertTokens strtod tokens ntokens (i + 1) (fun k => if k = i then test else out k)

/-- The method `std::string::at`: `none` when `std::out_of_range` is thrown. -/
def at? (s : List Char) (pos : Nat) : Option Char :=
  s.get? pos

/-- The method `std::string::substr (pos, n)`: `none` when
`std::out_of_range` is thrown. -/
def substr (s : List Char) (pos n : Nat) : Option (List Char) :=
  if pos > s.length then none else some ((s.drop pos).take n)

/-- The function `CheckFilename (in, out, ext)`: the returned value and the
string `*out` after the call; `ext = none` is the null pointer. `fileGood`
tells whether a stream opened on a path is good. The variable `position` and
the differences `position - 1`, `position - 4` are of type `unsigned int`, of
32 bits. The result is `none` when `at` or `substr` throws. -/
def CheckFilename (fileGood : String → Bool) (input : String) (out : String)
    (ext : Option String) : Option (Bool × String) :=
  let filename := input.data
  let position := (filename.length + (2 ^ 64 - 1)) % 2 ^ 64 % 2 ^ 32
  match at? filename 0 with
  | none => none
  | some c0 =>
    let quoted : Option Bool :=
      if c0 ≠ '"' then some false
      else match at? filename position with
        | none => none
        | some c1 => some (decide (c1 = '"'))
    match quoted with
    | none => none
    | some false => some (false, out)
    | some true =>
      match substr filename 1 ((position + (2 ^ 32 - 1)) % 2 ^ 32) with
      | none => none
      | some trim =>
        let out := String.mk trim
        match ext with
        | some ext =>
          match substr trim ((position + (2 ^ 32 - 4)) % 2 ^ 32) 3 with
          | none => none
          | some extension =>
            if String.mk extension ≠ ext then
              some (false, out)
            else if ¬ fileGood (String.mk trim) then
              some (false, out)
            else
              some (true, out)
        | none =>
          if ¬ fileGood (String.mk trim) then
            some (false, out)
          else
            some (true, out)

/-! ## The parser (`src/parser.cpp`) -/

/-- The first parameter of a motif whose label is `label`, with its index `j`;
`none` when the search loop of `Parser::CreateEntry` ends with `found`
false. -/
def findParameter : List MotifParameter → String → Option (Nat × MotifParameter)
  | [], _ => none
  | parameter :: rest, label =>
    if parameter.label = label then some (0, parameter)
    else (findParameter rest label).map (fun r => (r.1 + 1, r.2))

/-- The local variables of `Parser::CreateEntry` that live across the rounds
of its loops, and the entry under construction. -/
structure CreateState (K : Type) where
  checklist : Bitmask_t
  ntokens : Nat
  output : Nat → K
  tokens : Nat → String
  filename : String
  entry : Entry K

section CreateEntry

variable {K : Type} [LinearOrderedField K]

/-- The loop of `Parser::CreateEntry` that checks for conflicting parameters:
whether some parameter other than the one of index `j` carries the identifier
`parameter.replace` and is marked in `checklist` (where the method returns
`codeConflict`). -/
def CreateEntry.conflict (motif : MotifEntry) (j : Nat) (parameter : MotifParameter)
    (checklist : Bitmask_t) : Bool :=
  (List.range motif.nparameters).any (fun k =>
    match motif.parameters.get? k with
    | some otherParameter =>
      decide (j ≠ k) && decide (parameter.replace = otherParameter.id) && CHECK_BIT checklist k
    | none => false)

/-- The checks of `Parser::CreateEntry` for invalid values, selected by the
flags of the parameter: `false` where the method returns `codeValue`. -/
def CreateEntry.valid (flags : Bitmask_t) (output : Nat → K) (n : Nat) : Bool :=
  if CHECK_BIT flags flagCheckZero then
    (List.range n).any (fun j => decide (output j ≠ 0))
  else if CHECK_BIT flags flagCheckPositive then
    (List.range n).any (fun j => decide (output j > 0))
  else if CHECK_BIT flags flagCheckZeroOne then
    (List.range n).any (fun j => decide (output j ≥ 0) && decide (output j ≤ 1))
  else
    true

/-- The loop of `Parser::CreateEntry` that looks for the alternative of the
parameter of index `i`: the index `j` at which it stops. -/
def CreateEntry.alternative (motif : MotifEntry) (i : Nat) (parameter : MotifParameter) : Nat :=
  ((List.range motif.nparameters).find? (fun j =>
    match motif.parameters.get? j with
    | some otherParameter => decide (i ≠ j) && decide (parameter.replace = otherParameter.id)
    | none => false)).getD motif.nparameters

/-- One round of the loop of `Parser::CreateEntry` over the collectibles: the
parameter line `i`. A `return` carries the code and the entry as it is then. -/
def CreateEntry.collectible (strtod : String → Option K) (fileGood : String → Bool)
    (motif : MotifEntry) (collect : Nat → Nat → String) (sizes : Nat → Nat)
    (i : Nat) (st : CreateState K) : Flow (ParserCode_t × Entry K) (CreateState K) :=
  let label := collect i 0
  match findParameter (motif.parameters.take motif.nparameters) label with
  | none => Flow.ret (ParserCode_t.codeUnknown, st.entry)
  | some (j, parameter) =>
    if CHECK_BIT st.checklist j then
      Flow.ret (ParserCode_t.codeRepeated, st.entry)
    else
      let checklist := st.checklist ||| MAKE_MASK j
      if CreateEntry.conflict motif j parameter checklist then
        Flow.ret (ParserCode_t.codeConflict, st.entry)
      else
        let ntokens := if CHECK_BIT parameter.flags flagVector then 4 else 2
        if sizes i ≠ ntokens then
          Flow.ret (ParserCode_t.codeSize, st.entry)
        else if ¬ CHECK_BIT parameter.flags flagText then
          match ConvertTokens strtod (fun t => collect i (t + 1)) (ntokens - 1) 0 st.output with
          | (false, _) => Flow.ret (ParserCode_t.codeType, st.entry)
          | (true, output) =>
            if CreateEntry.valid parameter.flags output (ntokens - 1) then
              Flow.next
                { st with
                  checklist := checklist, ntokens := ntokens, output := output,
                  entry := st.entry.AddNumerical label output (ntokens - 1) }
            else
              Flow.ret (ParserCode_t.codeValue, st.entry)
        else
          match CheckFilename fileGood (collect i 1) st.filename (some "png") with
          | none => Flow.fault
          | some (false, _) => Flow.ret (ParserCode_t.codeFilename, st.entry)
          | some (true, filename) =>
            Flow.next
              { st with
                checklist := checklist, ntokens := ntokens, filename := filename,
                entry := st.entry.AddTextual label (fun _ => filename) 1 }

/-- One round of the loop of `Parser::CreateEntry` over the parameters of the
motif: the parameter of index `i`, looked for in the checklist.  The array
`tokens` of the method has `MAX_COMPONENTS` strings. -/
def CreateEntry.parameter (strtod : String → Option K) (motif : MotifEntry)
    (i : Nat) (st : CreateState K) : Flow (ParserCode_t × Entry K) (CreateState K) :=
  match motif.parameters.get? i with
  | none => Flow.fault
  | some parameter =>
    if ¬ CHECK_BIT st.checklist i then
      if CHECK_BIT parameter.flags flagOptional then
        match TokenizeLine parameter.defaults MAX_COMPONENTS MAX_COMPONENTS st.tokens st.ntokens with
        | none => Flow.fault
        | some (_, tokens, ntokens) =>
          if ¬ CHECK_BIT parameter.flags flagText then
            let output := (ConvertTokens strtod tokens ntokens 0 st.output).2
            Flow.next
              { st with
                tokens := tokens, ntokens := ntokens, output := output,
                entry := st.entry.AddNumerical parameter.label output ntokens }
          else
            Flow.next
              { st with
                tokens := tokens, ntokens := ntokens,
                entry := st.entry.AddTextual parameter.label tokens ntokens }
      else if parameter.replace ≠ 0 then
        if ¬ CHECK_BIT st.checklist (CreateEntry.alternative motif i parameter) then
          Flow.ret (ParserCode_t.codeMissing, st.entry)
        else
          Flow.next st
      else
        Flow.ret (ParserCode_t.codeMissing, st.entry)
    else
      Flow.next st

/-- The local variables of `Parser::CreateEntry` when it enters its loops, the
identifier of the motif being set in the entry. Those that are read before they
are assigned are shown as zeros and empty strings. -/
def CreateEntry.init (motif : MotifEntry) (entry : Entry K) : CreateState K :=
  { checklist := 0, ntokens := 0, output := fun _ => 0, tokens := fun _ => "",
    filename := "", entry := entry.SetID motif.id }

/-- The method `Parser::CreateEntry`: the returned code and the entry after
the call; `none` when the label is that of no motif (the search runs off the
table) or an exception leaves the method. -/
def CreateEntry (strtod : String → Option K) (fileGood : String → Bool)
    (entryLabel : String) (collect : Nat → Nat → String) (sizes : Nat → Nat)
    (ncol : Nat) (entry : Entry K) : Option (ParserCode_t × Entry K) :=
  match kEntries.find? (fun motif => motif.label = entryLabel) with
  | none => none
  | some motif =>
    let st := CreateEntry.init motif entry
    match forLoop (CreateEntry.collectible strtod fileGood motif collect sizes) ncol 0 st with
    | Flow.fault => none
    | Flow.ret r => some r
    | Flow.next st =>
      match forLoop (CreateEntry.parameter strtod motif) motif.nparameters 0 st with
      | Flow.fault => none
      | Flow.ret r => some r
      | Flow.next st => some (ParserCode_t.codeOK, st.entry)

end CreateEntry

/-- The class `Parser`; the iterator `currentEntry_` is an index into
`entries_`. -/
structure Parser (K : Type) where
  path_ : String
  status_ : ParserStatus_t
  entries_ : List (Entry K)
  currentEntry_ : Nat

/-- The local variables of `Parser::Parse` that live across the rounds of its
loop over the lines, and the list `entries_`. -/
structure ParseState (K : Type) where
  tokens : Nat → String
  collect : Nat → Nat → String
  item : String
  nlines : Nat
  start : Nat
  npar : Nat
  sizes : Nat → Nat
  ntokens : Nat
  counters : Nat → Nat
  mode : ParserMode_t
  entries_ : List (Entry K)

namespace Parser

variable {K : Type} [LinearOrderedField K]

/-- The constructor `Parser::Parser (path)`. It assigns `path_` only; the list
is empty, and the other members are shown as `statusFail` and `0`. -/
def new (path : String) : Parser K :=
  { path_ := path, status_ := ParserStatus_t.statusFail, entries_ := [], currentEntry_ := 0 }

/-- The method `Parser::Check`: the returned status and `*nentries`. -/
def Check (p : Parser K) : ParserStatus_t × Nat :=
  (p.status_, p.entries_.length)

/-- The method `Parser::StartQuery`. -/
def StartQuery (p : Parser K) : Parser K :=
  { p with currentEntry_ := 0 }

/-- The method `Parser::Query`: the entry written to `*entry` (`none` stands
for `false`) and the parser moved on by one. -/
def Query (p : Parser K) : Option (Entry K) × Parser K :=
  match p.entries_.get? p.currentEntry_ with
  | none => (none, p)
  | some entry => (some entry, { p with currentEntry_ := p.currentEntry_ + 1 })

/-- One round of the loop `while (getline (config, line))` of `Parser::Parse`.
A `return` carries the list `entries_` as it is then, the status being
`statusFail`.  The array `tokens` of the method has `MAX_TOKENS` strings; a
line with more tokens makes `TokenizeLine` store outside of it, and the round
is a fault. -/
def Parse.line (strtod : String → Option K) (fileGood : String → Bool)
    (line : String) (st : ParseState K) : Flow (List (Entry K)) (ParseState K) :=
  let nlines := st.nlines + 1
  match TokenizeLine line MAX_TOKENS MAX_TOKENS st.tokens st.ntokens with
  | none => Flow.fault
  | some (false, _, _) => Flow.ret st.entries_
  | some (true, tokens, ntokens) =>
    if ntokens > 0 then
      if st.mode = ParserMode_t.modeOpen then
        let item := tokens 0
        match (List.range kSizeEntries).find? (fun i =>
            match kEntries.get? i with
            | some motif => decide (motif.label = item)
            | none => false) with
        | some i =>
          let nallowed := match kEntries.get? i with
            | some motif => motif.nallowed
            | none => 0
          let counters := fun k => if k = i then st.counters k + 1 else st.counters k
          if nallowed ≠ 0 ∧ counters i > nallowed then
            Flow.ret st.entries_
          else
            Flow.next
              { st with
                tokens := tokens, ntokens := ntokens, nlines := nlines, item := item,
                npar := 0, start := nlines, mode := ParserMode_t.modeRead,
                counters := counters }
        | none => Flow.ret st.entries_
      else
        if st.npar = MAX_LINES then
          Flow.ret st.entries_
        else
          Flow.next
            { st with
              tokens := tokens, ntokens := ntokens, nlines := nlines,
              collect := fun l i =>
                if l = st.npar ∧ i < ntokens then tokens i else st.collect l i
              sizes := fun l => if l = st.npar then ntokens else st.sizes l
              npar := st.npar + 1 }
    else
      if line.length ≠ 0 then
        Flow.next { st with tokens := tokens, ntokens := ntokens, nlines := nlines }
      else if st.mode = ParserMode_t.modeRead then
        match CreateEntry strtod fileGood st.item st.collect st.sizes st.npar Entry.new with
        | none => Flow.fault
        | some (code, entry) =>
          if code ≠ ParserCode_t.codeOK then
            Flow.ret st.entries_
          else
            Flow.next
              { st with
                tokens := tokens, ntokens := ntokens, nlines := nlines,
                mode := ParserMode_t.modeOpen, entries_ := st.entries_ ++ [entry] }
      else
        Flow.next { st with tokens := tokens, ntokens := ntokens, nlines := nlines }

/-- The loop `while (getline (config, line))` of `Parser::Parse`, over the
lines `getline` delivers. -/
def Parse.lines (strtod : String → Option K) (fileGood : String → Bool) :
    List String → ParseState K → Flow (List (Entry K)) (ParseState K)
  | [], st => Flow.next st
  | line :: rest, st =>
    match Parse.line strtod fileGood line st with
    | Flow.next st => Parse.lines strtod fileGood rest st
    | Flow.ret r => Flow.ret r
    | Flow.fault => Flow.fault

/-- The method `Parser::Parse`. `config` is what the stream opened on `path_`
delivers: `none` when it cannot be opened, otherwise the lines that `getline`
reads one after the other. The local variables that are read before they are
assigned are shown as zeros and empty strings. The result is `none` when an
exception leaves the method. -/
def Parse (strtod : String → Option K) (fileGood : String → Bool)
    (p : Parser K) (config : Option (List String)) : Option (Parser K) :=
  let st : ParseState K :=
    { tokens := fun _ => "", collect := fun _ _ => "", item := "", nlines := 0, start := 0,
      npar := 0, sizes := fun _ => 0, ntokens := 0, counters := fun _ => 0,
      mode := ParserMode_t.modeOpen, entries_ := p.entries_ }
  match config with
  | none => some { p with status_ := ParserStatus_t.statusFail }
  | some lines =>
    match Parse.lines strtod fileGood lines st with
    | Flow.fault => none
    | Flow.ret entries =>
      some { p with status_ := ParserStatus_t.statusFail, entries_ := entries }
    | Flow.next st =>
      if (List.range kSizeEntries).any (fun i =>
          match kEntries.get? i with
          | some motif => motif.mandatory && decide (st.counters i < 1)
          | none => false) then
        some { p with status_ := ParserStatus_t.statusFail, entries_ := st.entries_ }
      else
        let total := ((List.range kSizeEntries).map (fun i =>
          match kEntries.get? i with
          | some motif => if ¬ motif.mandatory then st.counters i else 0
          | none => 0)).sum
        if total < 1 then
          some { p with status_ := ParserStatus_t.statusFail, entries_ := st.entries_ }
        else
          some { p with status_ := ParserStatus_t.statusOK, entries_ := st.entries_ }

end Parser

/-! ## Sample inputs -/

/-- A sample of the extraction of a `double` from a stream, for the examples:
it converts the few numerals listed and fails on every other string. -/
def sampleStrtod (s : String) : Option ℚ :=
  if s = "0" then some 0
  else if s = "1" then some 1
  else if s = "5" then some 5
  else if s = "0.0" then some 0
  else if s = "1.0" then some 1
  else if s = "-1.0" then some (-1)
  else none

/-- The array `collect` that holds the given parameter lines, token by token,
for the examples. -/
def sampleCollect (lines : List (List String)) : Nat → Nat → String :=
  fun l i => (lines.getD l []).getD i ""

/-- The array `sizes` that goes with `sampleCollect`. -/
def sampleSizes (lines : List (List String)) : Nat → Nat :=
  fun l => (lines.getD l []).length

/-! ## The block renderer (`src/world.hpp`)

`World::RenderBlock` and `World::Render` are declared in `src/world.hpp`; their
bodies are in a file that is not part of the sources at hand.  The definitions
of this section follow §4.7 and §5 of the specification. -/

/-- Modelled from the spec: one store of a worker into the shared pixel buffer
(the class `Buffer` is missing): the element it writes, in row-major order, and
the colour it puts there. -/
structure PixelWrite (Color : Type) where
  index : Nat
  color : Color

/-- Modelled from the spec: the shared pixel buffer after the stores `ws`, made
one after the other, starting from `buf` (the methods of `Buffer` are
missing). -/
def Buffer.apply {Color : Type} (buf : Nat → Color) (ws : List (PixelWrite Color)) :
    Nat → Color :=
  ws.foldl (fun b w => Function.update b w.index w.color) buf

namespace World

variable {Color : Type}

/-- Modelled from the spec: the body of `World::RenderBlock` is missing.  The
stores, in order, of the worker of block `block`: for each of the `nlines` rows
of the block, the first of them row `block * (height / nthreads)`, and each
column `x < width`, the colour of the per-pixel pipeline (§4.6), a function
`pixel x y` of the pixel coordinates alone since the scene is read-only, goes to
element `y * width + x` of the row-major buffer. -/
def RenderBlock (pixel : Nat → Nat → Color) (width height nthreads block nlines : Nat) :
    List (PixelWrite Color) :=
  (List.range nlines).flatMap fun j =>
    (List.range width).map fun x =>
      { index := (block * (height / nthreads) + j) * width + x
        color := pixel x (block * (height / nthreads) + j) }

/-- Modelled from the spec: the static partition of `World::Render` (body
missing): one block per worker, `height / nthreads` rows each, the final block
absorbing the remainder rows. -/
def blocks (pixel : Nat → Nat → Color) (width height nthreads : Nat) :
    Nat → List (PixelWrite Color) :=
  fun block =>
    RenderBlock pixel width height nthreads block
      (if block + 1 = nthreads then height - block * (height / nthreads)
       else height / nthreads)

/-- Modelled from the spec: the parallel execution of `nthreads` workers, each
with the stores `workers k` still to make.  The schedule `sched` names, step by
step, the worker that makes its next store; when the schedule is used up the
workers run to completion one after the other (the join after all blocks). -/
def run (nthreads : Nat) :
    List Nat → (Nat → List (PixelWrite Color)) → (Nat → Color) → (Nat → Color)
  | [], workers, buf =>
    (List.range nthreads).foldl (fun b k => Buffer.apply b (workers k)) buf
  | k :: rest, workers, buf =>
    match workers k with
    | a :: ws =>
      if k < nthreads then
        run nthreads rest (Function.update workers k ws)
          (Function.update buf a.index a.color)
      else run nthreads rest workers buf
    | [] => run nthreads rest workers buf

/-- Modelled from the spec: `World::Render` (body missing) with `nthreads`
workers under the schedule `sched`: the pixel buffer after the join, from the
buffer `buf` before. -/
def Render (pixel : Nat → Nat → Color) (width height nthreads : Nat) (sched : List Nat)
    (buf : Nat → Color) : Nat → Color :=
  run nthreads sched (blocks pixel width height nthreads) buf

end World

/-! ## `TokenizeLine` as the specification words it -/

/-- The tokens of a line as the specification words them: the part of the line
before its first `#`, split at spaces, the empty pieces left out. -/
def specTokens (line : String) : List String :=
  (((line.data.takeWhile (fun c => c ≠ '#')).splitOn ' ').filter (fun w => w ≠ [])).map
    String.mk

/-- The rounds of the loop of `TokenizeLine` seen from the pieces of the line:
each non-empty piece is stored at `tokens[ti]`, in the array of `size` strings,
then `++ti > maxtokens` is tested; `none` when the store is outside the
array. -/
def TokenizeLine.store (maxtokens size : Nat) :
    List (List Char) → Nat → (Nat → String) → Option (Bool × (Nat → String) × Nat)
  | [], ti, tokens => some (true, tokens, ti)
  | token :: rest, ti, tokens =>
    if ti < size then
      let tokens := fun k => if k = ti then String.mk token else tokens k
      if ti + 1 > maxtokens then some (false, tokens, ti + 1)
      else TokenizeLine.store maxtokens size rest (ti + 1) tokens
    else none

/-! ## Checked division -/

section Lemmas

variable {K : Type} [LinearOrderedField K]

theorem divide_of_ne (x : K) {y : K} (h : y ≠ 0) : divide x y = some (x / y) := by
  simp [divide, h]

theorem divide_zero (x : K) : divide x (0 : K) = none := by
  simp [divide]

/-! ## The quadratic solver, case by case -/

theorem SolveQuadratic_of_neg (sqrt : K → K) (a b c mint maxt : K)
    (h : b * b - 4 * a * c < 0) :
    SolveQuadratic sqrt a b c mint maxt = some (-1) := by
  simp [SolveQuadratic, h]

theorem SolveQuadratic_of_zero (sqrt : K → K) (a b c mint maxt : K) (ha : a ≠ 0)
    (h : b * b - 4 * a * c = 0) :
    SolveQuadratic sqrt a b c mint maxt
      = some (if -b / (2 * a) < mint ∨ -b / (2 * a) > maxt then -1 else -b / (2 * a)) := by
  have h2 : (2 : K) * a ≠ 0 := mul_ne_zero two_ne_zero ha
  simp only [SolveQuadratic, h, lt_irrefl, if_false, ne_eq, not_true_eq_false,
    divide_of_ne _ h2, Option.bind_eq_bind, Option.some_bind, Option.pure_def]
  split_ifs <;> rfl

theorem SolveQuadratic_of_pos (sqrt : K → K) (a b c mint maxt : K) (ha : a ≠ 0)
    (h : 0 < b * b - 4 * a * c) :
    SolveQuadratic sqrt a b c mint maxt
      = some (if min ((-b - sqrt (b * b - 4 * a * c)) * (0.5 / a))
                    ((-b + sqrt (b * b - 4 * a * c)) * (0.5 / a)) < mint
                ∨ min ((-b - sqrt (b * b - 4 * a * c)) * (0.5 / a))
                    ((-b + sqrt (b * b - 4 * a * c)) * (0.5 / a)) > maxt
              then -1
              else min ((-b - sqrt (b * b - 4 * a * c)) * (0.5 / a))
                    ((-b + sqrt (b * b - 4 * a * c)) * (0.5 / a))) := by
  have hmin : ∀ x y : K, (if x < y then x else y) = min x y := by
    intro x y
    by_cases hxy : x < y
    · simp [hxy, min_eq_left hxy.le]
    · simp [hxy, min_eq_right (not_lt.mp hxy)]
  simp only [SolveQuadratic, not_lt.mpr h.le, if_false, ne_eq, h.ne', not_false_eq_true,
    if_true, divide_of_ne _ ha, Option.bind_eq_bind, Option.some_bind, Option.pure_def, hmin]
  split_ifs <;> rfl

end Lemmas

/-! ## The quadratic solver over the reals -/

/-- For `a ≠ 0` and a non-negative discriminant the quadratic has the roots
`t1 ≤ t2` (a double root when the discriminant is zero), and the solver
answers from `t1` alone. -/
theorem SolveQuadratic_real (a b c mint maxt : ℝ) (ha : a ≠ 0)
    (h : 0 ≤ b * b - 4 * a * c) :
    ∃ t1 t2 : ℝ, t1 ≤ t2 ∧ (0 < b * b - 4 * a * c → t1 < t2) ∧
      (∀ x : ℝ, a * x ^ 2 + b * x + c = 0 ↔ x = t1 ∨ x = t2) ∧
      SolveQuadratic Real.sqrt a b c mint maxt
        = some (if t1 < mint ∨ t1 > maxt then -1 else t1) := by
  have hs0 : 0 ≤ Real.sqrt (b * b - 4 * a * c) := Real.sqrt_nonneg _
  have hss : Real.sqrt (b * b - 4 * a * c) * Real.sqrt (b * b - 4 * a * c)
      = b * b - 4 * a * c := Real.mul_self_sqrt h
  have h2a : (2 : ℝ) * a ≠ 0 := mul_ne_zero two_ne_zero ha
  have hfac : ∀ x : ℝ, a * x ^ 2 + b * x + c
      = a * ((x - (-b - Real.sqrt (b * b - 4 * a * c)) / (2 * a))
          * (x - (-b + Real.sqrt (b * b - 4 * a * c)) / (2 * a))) := by
    intro x
    generalize Real.sqrt (b * b - 4 * a * c) = s at hss
    field_simp
    linear_combination a * hss
  have hroots : ∀ x : ℝ, a * x ^ 2 + b * x + c = 0 ↔
      x = (-b - Real.sqrt (b * b - 4 * a * c)) / (2 * a)
        ∨ x = (-b + Real.sqrt (b * b - 4 * a * c)) / (2 * a) := by
    intro x
    rw [hfac x, mul_eq_zero, mul_eq_zero, sub_eq_zero, sub_eq_zero]
    simp [ha]
  have hhalf : ∀ y : ℝ, y * (0.5 / a) = y / (2 * a) := by
    intro y
    rw [show (0.5 : ℝ) = 1 / 2 by norm_num]
    field_simp
  refine ⟨min ((-b - Real.sqrt (b * b - 4 * a * c)) / (2 * a))
            ((-b + Real.sqrt (b * b - 4 * a * c)) / (2 * a)),
          max ((-b - Real.sqrt (b * b - 4 * a * c)) / (2 * a))
            ((-b + Real.sqrt (b * b - 4 * a * c)) / (2 * a)),
          min_le_max, ?_, ?_, ?_⟩
  · intro hpos
    have hspos : 0 < Real.sqrt (b * b - 4 * a * c) := Real.sqrt_pos.mpr hpos
    have hne : (-b - Real.sqrt (b * b - 4 * a * c)) / (2 * a)
        ≠ (-b + Real.sqrt (b * b - 4 * a * c)) / (2 * a) := by
      intro heq
      have := (div_left_inj' h2a).mp heq
      linarith
    exact min_lt_max.mpr hne
  · intro x
    rw [hroots x]
    rcases le_total ((-b - Real.sqrt (b * b - 4 * a * c)) / (2 * a))
        ((-b + Real.sqrt (b * b - 4 * a * c)) / (2 * a)) with hle | hle
    · rw [min_eq_left hle, max_eq_right hle]
    · rw [min_eq_right hle, max_eq_left hle]
      exact or_comm
  · rcases h.eq_or_lt with h0 | hpos
    · have hz : Real.sqrt (b * b - 4 * a * c) = 0 := by
        rw [← h0]; exact Real.sqrt_zero
      rw [SolveQuadratic_of_zero Real.sqrt a b c mint maxt ha h0.symm, hz]
      simp
    · rw [SolveQuadratic_of_pos Real.sqrt a b c mint maxt ha hpos]
      simp only [hhalf]

/-- The solver evaluated with a known square root `s` of the (positive)
discriminant. -/
theorem SolveQuadratic_eval (a b c mint maxt s : ℝ) (ha : a ≠ 0) (hs : 0 < s)
    (hss : s * s = b * b - 4 * a * c) :
    SolveQuadratic Real.sqrt a b c mint maxt
      = some (if min ((-b - s) / (2 * a)) ((-b + s) / (2 * a)) < mint
                ∨ min ((-b - s) / (2 * a)) ((-b + s) / (2 * a)) > maxt
              then -1 else min ((-b - s) / (2 * a)) ((-b + s) / (2 * a))) := by
  have hpos : 0 < b * b - 4 * a * c := by rw [← hss]; exact mul_pos hs hs
  have hsq : Real.sqrt (b * b - 4 * a * c) = s := by
    rw [← hss]; exact Real.sqrt_mul_self hs.le
  have hhalf : ∀ y : ℝ, y * (0.5 / a) = y / (2 * a) := by
    intro y
    rw [show (0.5 : ℝ) = 1 / 2 by norm_num]
    field_simp
  rw [SolveQuadratic_of_pos Real.sqrt a b c mint maxt ha hpos, hsq]
  simp only [hhalf]

/-! ## The quadratic solver: contract -/

/-- C1: for real `a ≠ 0`, `b`, `c` and a window `mint ≤ maxt`, `SolveQuadratic`
returns the sentinel `-1` when the discriminant is negative; when it is
non-negative the result is the sentinel or a root of `a t² + b t + c` inside the
window, and it is the least root whenever all roots lie inside the window. -/
theorem SolveQuadratic_contract (a b c mint maxt : ℝ) (ha : a ≠ 0) (_hw : mint ≤ maxt) :
    (b * b - 4 * a * c < 0 → SolveQuadratic Real.sqrt a b c mint maxt = some (-1)) ∧
    (0 ≤ b * b - 4 * a * c →
      ∃ t : ℝ, SolveQuadratic Real.sqrt a b c mint maxt = some t ∧
        (t = -1 ∨ (a * t ^ 2 + b * t + c = 0 ∧ mint ≤ t ∧ t ≤ maxt)) ∧
        ((∀ x : ℝ, a * x ^ 2 + b * x + c = 0 → mint ≤ x ∧ x ≤ maxt) →
          a * t ^ 2 + b * t + c = 0 ∧ ∀ x : ℝ, a * x ^ 2 + b * x + c = 0 → t ≤ x)) := by
  refine ⟨SolveQuadratic_of_neg Real.sqrt a b c mint maxt, ?_⟩
  intro h
  obtain ⟨t1, t2, h12, -, hroots, hres⟩ := SolveQuadratic_real a b c mint maxt ha h
  have hr1 : a * t1 ^ 2 + b * t1 + c = 0 := (hroots t1).mpr (Or.inl rfl)
  by_cases hout : t1 < mint ∨ t1 > maxt
  · refine ⟨-1, by rw [hres, if_pos hout], Or.inl rfl, ?_⟩
    intro hall
    have := hall t1 hr1
    rcases hout with hlt | hgt
    · exact absurd this.1 (not_le.mpr hlt)
    · exact absurd this.2 (not_le.mpr hgt)
  · refine ⟨t1, by rw [hres, if_neg hout], Or.inr ⟨hr1, ?_, ?_⟩, ?_⟩
    · exact not_lt.mp (fun hlt => hout (Or.inl hlt))
    · exact not_lt.mp (fun hgt => hout (Or.inr hgt))
    · intro _
      refine ⟨hr1, ?_⟩
      intro x hx
      rcases (hroots x).mp hx with rfl | rfl
      · exact le_rfl
      · exact h12

/-- The contract of C1 at `t² − 4t + 3` (roots `1` and `3`) in the window
`[0, 5]`. -/
theorem SolveQuadratic_contract_witness :
    ((1 : ℝ) ≠ 0 ∧ (0 : ℝ) ≤ 5) ∧
    (((-4 : ℝ) * (-4) - 4 * 1 * 3 < 0 →
        SolveQuadratic Real.sqrt (1 : ℝ) (-4) 3 0 5 = some (-1)) ∧
     ((0 : ℝ) ≤ (-4) * (-4) - 4 * 1 * 3 →
      ∃ t : ℝ, SolveQuadratic Real.sqrt (1 : ℝ) (-4) 3 0 5 = some t ∧
        (t = -1 ∨ ((1 : ℝ) * t ^ 2 + (-4) * t + 3 = 0 ∧ 0 ≤ t ∧ t ≤ 5)) ∧
        ((∀ x : ℝ, (1 : ℝ) * x ^ 2 + (-4) * x + 3 = 0 → 0 ≤ x ∧ x ≤ 5) →
          (1 : ℝ) * t ^ 2 + (-4) * t + 3 = 0 ∧
            ∀ x : ℝ, (1 : ℝ) * x ^ 2 + (-4) * x + 3 = 0 → t ≤ x))) :=
  ⟨⟨by norm_num, by norm_num⟩,
   SolveQuadratic_contract 1 (-4) 3 0 5 (by norm_num) (by norm_num)⟩

/-- C2: for real `a ≠ 0` and a positive discriminant the quadratic has two
roots `t1 < t2`, and `SolveQuadratic` answers from `t1` alone: it returns `t1`
when `t1` lies in the window and the sentinel `-1` otherwise, whatever the
position of `t2`; every hit it reports (a result other than the sentinel) is
`t1`, so `t2` is never reported as a hit. -/
theorem SolveQuadratic_smaller_root_only (a b c mint maxt : ℝ) (ha : a ≠ 0)
    (h : 0 < b * b - 4 * a * c) :
    ∃ t1 t2 : ℝ, t1 < t2 ∧
      (∀ x : ℝ, a * x ^ 2 + b * x + c = 0 ↔ x = t1 ∨ x = t2) ∧
      (mint ≤ t1 ∧ t1 ≤ maxt → SolveQuadratic Real.sqrt a b c mint maxt = some t1) ∧
      (¬ (mint ≤ t1 ∧ t1 ≤ maxt) →
        SolveQuadratic Real.sqrt a b c mint maxt = some (-1)) ∧
      (∀ t : ℝ, SolveQuadratic Real.sqrt a b c mint maxt = some t → t ≠ -1 → t = t1) ∧
      (SolveQuadratic Real.sqrt a b c mint maxt = some t2 →
        t2 = -1 ∧ ¬ (mint ≤ t1 ∧ t1 ≤ maxt)) := by
  obtain ⟨t1, t2, -, hlt, hroots, hres⟩ := SolveQuadratic_real a b c mint maxt ha h.le
  have h12 : t1 < t2 := hlt h
  have hin : mint ≤ t1 ∧ t1 ≤ maxt → ¬ (t1 < mint ∨ t1 > maxt) := by
    rintro ⟨h1, h2⟩ (h3 | h3)
    · exact absurd h1 (not_le.mpr h3)
    · exact absurd h2 (not_le.mpr h3)
  have hout : ¬ (mint ≤ t1 ∧ t1 ≤ maxt) → (t1 < mint ∨ t1 > maxt) := by
    intro hn
    by_contra hc
    exact hn ⟨not_lt.mp (fun h3 => hc (Or.inl h3)), not_lt.mp (fun h3 => hc (Or.inr h3))⟩
  refine ⟨t1, t2, h12, hroots, ?_, ?_, ?_, ?_⟩
  · intro hw
    rw [hres, if_neg (hin hw)]
  · intro hw
    rw [hres, if_pos (hout hw)]
  · intro t ht hne
    rw [hres] at ht
    by_cases hc : t1 < mint ∨ t1 > maxt
    · rw [if_pos hc] at ht
      exact absurd (Option.some.inj ht).symm hne
    · rw [if_neg hc] at ht
      exact (Option.some.inj ht).symm
  · intro ht
    rw [hres] at ht
    by_cases hc : t1 < mint ∨ t1 > maxt
    · rw [if_pos hc] at ht
      refine ⟨(Option.some.inj ht).symm, ?_⟩
      intro hw
      exact hin hw hc
    · rw [if_neg hc] at ht
      exact absurd (Option.some.inj ht) h12.ne

/-- The behaviour of C2 at `t² − 4t + 3` in the window `[2, 5]`: the smaller
root `1` is outside, the larger root `3` inside, the result is the sentinel. -/
theorem SolveQuadratic_smaller_root_only_witness :
    ((1 : ℝ) ≠ 0 ∧ (0 : ℝ) < (-4) * (-4) - 4 * 1 * 3) ∧
    SolveQuadratic Real.sqrt (1 : ℝ) (-4) 3 2 5 = some (-1) ∧
    ∃ t1 t2 : ℝ, t1 < t2 ∧
      (∀ x : ℝ, (1 : ℝ) * x ^ 2 + (-4) * x + 3 = 0 ↔ x = t1 ∨ x = t2) ∧
      (2 ≤ t1 ∧ t1 ≤ 5 → SolveQuadratic Real.sqrt (1 : ℝ) (-4) 3 2 5 = some t1) ∧
      (¬ (2 ≤ t1 ∧ t1 ≤ 5) →
        SolveQuadratic Real.sqrt (1 : ℝ) (-4) 3 2 5 = some (-1)) ∧
      (∀ t : ℝ, SolveQuadratic Real.sqrt (1 : ℝ) (-4) 3 2 5 = some t → t ≠ -1 → t = t1) ∧
      (SolveQuadratic Real.sqrt (1 : ℝ) (-4) 3 2 5 = some t2 →
        t2 = -1 ∧ ¬ (2 ≤ t1 ∧ t1 ≤ 5)) :=
  ⟨⟨by norm_num, by norm_num⟩,
   by
    rw [SolveQuadratic_eval 1 (-4) 3 2 5 2 (by norm_num) (by norm_num) (by norm_num)]
    norm_num,
   SolveQuadratic_smaller_root_only 1 (-4) 3 2 5 (by norm_num) (by norm_num)⟩

/-! ## Spheres: a ray through the centre -/

/-- C3, amended: over exact reals (no operation rounded), for a sphere of
radius `r > 0` and a ray origin `O` at distance `d > r` from the centre `C`,
the ray of direction `(C − O)/d` is answered with exactly `d − r` by
`Sphere::Solve`, for every window with `mind ≤ d − r ≤ maxd`. -/
theorem Sphere_Solve_through_centre {Color Texture : Type}
    (s : Sphere ℝ Color Texture) (O : Vector ℝ) (mind maxd : ℝ)
    (hr : 0 < s.radius_)
    (hd : s.radius_ < Vector.Len Real.sqrt (s.center_.sub O))
    (hlo : mind ≤ Vector.Len Real.sqrt (s.center_.sub O) - s.radius_)
    (hhi : Vector.Len Real.sqrt (s.center_.sub O) - s.radius_ ≤ maxd) :
    Sphere.Solve Real.sqrt s O
        ((s.center_.sub O).scale (1 / Vector.Len Real.sqrt (s.center_.sub O))) mind maxd
      = some (Vector.Len Real.sqrt (s.center_.sub O) - s.radius_) := by
  obtain ⟨C, r, col, tex, tx, ty, tz⟩ := s
  obtain ⟨cx, cy, cz⟩ := C
  obtain ⟨ox, oy, oz⟩ := O
  simp only [Vector.sub, Vector.Len] at hd hlo hhi ⊢
  have hq : 0 ≤ (cx - ox) * (cx - ox) + (cy - oy) * (cy - oy) + (cz - oz) * (cz - oz) :=
    add_nonneg (add_nonneg (mul_self_nonneg _) (mul_self_nonneg _)) (mul_self_nonneg _)
  have hdd := Real.mul_self_sqrt hq
  generalize Real.sqrt ((cx - ox) * (cx - ox) + (cy - oy) * (cy - oy)
    + (cz - oz) * (cz - oz)) = d at hd hlo hhi hdd ⊢
  have hdpos : 0 < d := lt_trans hr hd
  have hdne : d ≠ 0 := hdpos.ne'
  simp only [Sphere.Solve, Vector.sub, Vector.dot, Vector.scale]
  have ha : (cx - ox) * (1 / d) * ((cx - ox) * (1 / d))
      + (cy - oy) * (1 / d) * ((cy - oy) * (1 / d))
      + (cz - oz) * (1 / d) * ((cz - oz) * (1 / d)) = 1 := by
    field_simp
    linarith
  have hb : 2 * ((cx - ox) * (1 / d) * (ox - cx) + (cy - oy) * (1 / d) * (oy - cy)
      + (cz - oz) * (1 / d) * (oz - cz)) = -(2 * d) := by
    field_simp
    linarith
  have hc : (ox - cx) * (ox - cx) + (oy - cy) * (oy - cy) + (oz - cz) * (oz - cz) - r * r
      = d * d - r * r := by
    linarith
  rw [ha, hb, hc,
    SolveQuadratic_eval 1 (-(2 * d)) (d * d - r * r) mind maxd (2 * r) one_ne_zero
      (by linarith) (by ring)]
  have hmin : min ((- -(2 * d) - 2 * r) / (2 * 1)) ((- -(2 * d) + 2 * r) / (2 * 1)) = d - r := by
    rw [min_eq_left (by linarith)]
    ring
  rw [hmin, if_neg]
  rintro (h1 | h1)
  · exact absurd hlo (not_le.mpr h1)
  · exact absurd hhi (not_le.mpr h1)

/-- The statement of C3 at the unit sphere about the origin, seen from
`(3, 0, 4)` (distance `5`): the hit is at distance `4`. -/
theorem Sphere_Solve_through_centre_witness :
    ((0 : ℝ) < 1 ∧
      (1 : ℝ) < Vector.Len Real.sqrt ((⟨0, 0, 0⟩ : Vector ℝ).sub ⟨3, 0, 4⟩) ∧
      (2 : ℝ) ≤ Vector.Len Real.sqrt ((⟨0, 0, 0⟩ : Vector ℝ).sub ⟨3, 0, 4⟩) - 1 ∧
      Vector.Len Real.sqrt ((⟨0, 0, 0⟩ : Vector ℝ).sub ⟨3, 0, 4⟩) - 1 ≤ (10 : ℝ)) ∧
    Sphere.Solve Real.sqrt
        ({ center_ := ⟨0, 0, 0⟩, radius_ := 1, color_ := (), texture_ := none,
           texturex_ := Vector.zero, texturey_ := Vector.zero,
           texturez_ := Vector.zero } : Sphere ℝ Unit Unit)
        ⟨3, 0, 4⟩
        (((⟨0, 0, 0⟩ : Vector ℝ).sub ⟨3, 0, 4⟩).scale
          (1 / Vector.Len Real.sqrt ((⟨0, 0, 0⟩ : Vector ℝ).sub ⟨3, 0, 4⟩))) 2 10
      = some (Vector.Len Real.sqrt ((⟨0, 0, 0⟩ : Vector ℝ).sub ⟨3, 0, 4⟩) - 1) := by
  have hlen : Vector.Len Real.sqrt ((⟨0, 0, 0⟩ : Vector ℝ).sub ⟨3, 0, 4⟩) = 5 := by
    simp only [Vector.Len, Vector.sub]
    rw [show ((0 : ℝ) - 3) * (0 - 3) + (0 - 0) * (0 - 0) + (0 - 4) * (0 - 4) = 5 * 5 by norm_num]
    exact Real.sqrt_mul_self (by norm_num)
  have h1 : (0 : ℝ) < 1 := by norm_num
  have h2 : (1 : ℝ) < Vector.Len Real.sqrt ((⟨0, 0, 0⟩ : Vector ℝ).sub ⟨3, 0, 4⟩) := by
    rw [hlen]; norm_num
  have h3 : (2 : ℝ) ≤ Vector.Len Real.sqrt ((⟨0, 0, 0⟩ : Vector ℝ).sub ⟨3, 0, 4⟩) - 1 := by
    rw [hlen]; norm_num
  have h4 : Vector.Len Real.sqrt ((⟨0, 0, 0⟩ : Vector ℝ).sub ⟨3, 0, 4⟩) - 1 ≤ (10 : ℝ) := by
    rw [hlen]; norm_num
  exact ⟨⟨h1, h2, h3, h4⟩,
    Sphere_Solve_through_centre
      ({ center_ := ⟨0, 0, 0⟩, radius_ := 1, color_ := (), texture_ := none,
         texturex_ := Vector.zero, texturey_ := Vector.zero,
         texturez_ := Vector.zero } : Sphere ℝ Unit Unit)
      ⟨3, 0, 4⟩ 2 10 h1 h2 h3 h4⟩

/-! ## Planes -/

/-- C4, amended: over exact reals (no operation rounded), `Plane::Solve`
returns the sentinel `-1` whenever `D·N = 0`, whatever the origin and the
window; when `D·N ≠ 0` it returns `t = −((O − C)·N)/(D·N)` if
`mind ≤ t ≤ maxd` and `-1` otherwise, and in the first case the point `O + t D`
satisfies `(O + t D − C)·N = 0`. -/
theorem Plane_Solve_spec {Color Texture : Type} (p : Plane ℝ Color Texture)
    (O D : Vector ℝ) (mind maxd : ℝ) :
    (D.dot p.normal_ = 0 → p.Solve O D mind maxd = some (-1)) ∧
    (D.dot p.normal_ ≠ 0 →
      (mind ≤ -((O.sub p.center_).dot p.normal_) / D.dot p.normal_ ∧
          -((O.sub p.center_).dot p.normal_) / D.dot p.normal_ ≤ maxd →
        p.Solve O D mind maxd
            = some (-((O.sub p.center_).dot p.normal_) / D.dot p.normal_) ∧
          ((O.add (D.scale (-((O.sub p.center_).dot p.normal_) / D.dot p.normal_))).sub
              p.center_).dot p.normal_ = 0) ∧
      (¬ (mind ≤ -((O.sub p.center_).dot p.normal_) / D.dot p.normal_ ∧
          -((O.sub p.center_).dot p.normal_) / D.dot p.normal_ ≤ maxd) →
        p.Solve O D mind maxd = some (-1))) := by
  refine ⟨?_, ?_⟩
  · intro h0
    simp [Plane.Solve, h0]
  · intro hne
    have hsolve : p.Solve O D mind maxd
        = some (if -((O.sub p.center_).dot p.normal_) / D.dot p.normal_ < mind
                  ∨ -((O.sub p.center_).dot p.normal_) / D.dot p.normal_ > maxd
                then -1 else -((O.sub p.center_).dot p.normal_) / D.dot p.normal_) := by
      simp only [Plane.Solve, ne_eq, hne, not_false_eq_true, if_true, divide_of_ne _ hne,
        Option.bind_eq_bind, Option.some_bind, Option.pure_def]
      split_ifs <;> rfl
    refine ⟨?_, ?_⟩
    · rintro ⟨h1, h2⟩
      refine ⟨?_, ?_⟩
      · rw [hsolve, if_neg]
        rintro (h3 | h3)
        · exact absurd h1 (not_le.mpr h3)
        · exact absurd h2 (not_le.mpr h3)
      · obtain ⟨ox, oy, oz⟩ := O
        obtain ⟨dx, dy, dz⟩ := D
        simp only [Vector.dot, Vector.sub, Vector.add, Vector.scale] at hne ⊢
        field_simp
        ring
    · intro hn
      rw [hsolve, if_pos]
      by_contra hc
      exact hn ⟨not_lt.mp (fun h3 => hc (Or.inl h3)), not_lt.mp (fun h3 => hc (Or.inr h3))⟩

/-- The statement of C4 at the plane `y = 0` and the ray from `(0, 2, 0)`
straight down: the hit is at distance `2`, inside the window `[1, 10]`. -/
theorem Plane_Solve_spec_witness :
    (Vector.dot (⟨0, -1, 0⟩ : Vector ℝ) ⟨0, 1, 0⟩ ≠ 0 ∧
      ((1 : ℝ) ≤ -(((⟨0, 2, 0⟩ : Vector ℝ).sub ⟨0, 0, 0⟩).dot ⟨0, 1, 0⟩)
          / Vector.dot (⟨0, -1, 0⟩ : Vector ℝ) ⟨0, 1, 0⟩ ∧
        -(((⟨0, 2, 0⟩ : Vector ℝ).sub ⟨0, 0, 0⟩).dot ⟨0, 1, 0⟩)
          / Vector.dot (⟨0, -1, 0⟩ : Vector ℝ) ⟨0, 1, 0⟩ ≤ (10 : ℝ))) ∧
    Plane.Solve
        ({ center_ := ⟨0, 0, 0⟩, normal_ := ⟨0, 1, 0⟩, scale_ := 1, color_ := (),
           texture_ := none, texturex_ := Vector.zero,
           texturey_ := Vector.zero } : Plane ℝ Unit Unit)
        ⟨0, 2, 0⟩ ⟨0, -1, 0⟩ 1 10
      = some (-(((⟨0, 2, 0⟩ : Vector ℝ).sub ⟨0, 0, 0⟩).dot ⟨0, 1, 0⟩)
          / Vector.dot (⟨0, -1, 0⟩ : Vector ℝ) ⟨0, 1, 0⟩) ∧
    -(((⟨0, 2, 0⟩ : Vector ℝ).sub ⟨0, 0, 0⟩).dot ⟨0, 1, 0⟩)
        / Vector.dot (⟨0, -1, 0⟩ : Vector ℝ) ⟨0, 1, 0⟩ = 2 := by
  have hne : Vector.dot (⟨0, -1, 0⟩ : Vector ℝ) ⟨0, 1, 0⟩ ≠ 0 := by
    norm_num [Vector.dot]
  have hval : -(((⟨0, 2, 0⟩ : Vector ℝ).sub ⟨0, 0, 0⟩).dot ⟨0, 1, 0⟩)
      / Vector.dot (⟨0, -1, 0⟩ : Vector ℝ) ⟨0, 1, 0⟩ = 2 := by
    norm_num [Vector.dot, Vector.sub]
  have hwin : (1 : ℝ) ≤ -(((⟨0, 2, 0⟩ : Vector ℝ).sub ⟨0, 0, 0⟩).dot ⟨0, 1, 0⟩)
        / Vector.dot (⟨0, -1, 0⟩ : Vector ℝ) ⟨0, 1, 0⟩ ∧
      -(((⟨0, 2, 0⟩ : Vector ℝ).sub ⟨0, 0, 0⟩).dot ⟨0, 1, 0⟩)
        / Vector.dot (⟨0, -1, 0⟩ : Vector ℝ) ⟨0, 1, 0⟩ ≤ (10 : ℝ) := by
    rw [hval]; norm_num
  exact ⟨⟨hne, hwin⟩,
    (((Plane_Solve_spec
      ({ center_ := ⟨0, 0, 0⟩, normal_ := ⟨0, 1, 0⟩, scale_ := 1, color_ := (),
         texture_ := none, texturex_ := Vector.zero,
         texturey_ := Vector.zero } : Plane ℝ Unit Unit)
      ⟨0, 2, 0⟩ ⟨0, -1, 0⟩ 1 10).2 hne).1 hwin).1, hval⟩

/-! ## Cylinders: the axial test -/

/-- C5: for a cylinder whose span is `≤ 0`, `Cylinder::Solve` returns exactly
the value of `SolveQuadratic (1 − b², 2(a − b d), −d² − f, mind, maxd)` with
`T = O − A`, `a = T·D`, `b = B·D`, `d = T·B`, `f = r² − T·T`. -/
theorem Cylinder_Solve_infinite {Color Texture : Type} (cy : Cylinder ℝ Color Texture)
    (O D : Vector ℝ) (mind maxd : ℝ) (hspan : cy.span_ ≤ 0) :
    cy.Solve Real.sqrt O D mind maxd
      = SolveQuadratic Real.sqrt
          (1 - cy.B_.dot D * cy.B_.dot D)
          (2 * ((O.sub cy.A_).dot D - cy.B_.dot D * (O.sub cy.A_).dot cy.B_))
          (-((O.sub cy.A_).dot cy.B_ * (O.sub cy.A_).dot cy.B_)
            - (cy.radius_ * cy.radius_ - (O.sub cy.A_).dot (O.sub cy.A_)))
          mind maxd := by
  simp only [Cylinder.Solve, Option.bind_eq_bind, Option.pure_def]
  cases SolveQuadratic Real.sqrt
          (1 - cy.B_.dot D * cy.B_.dot D)
          (2 * ((O.sub cy.A_).dot D - cy.B_.dot D * (O.sub cy.A_).dot cy.B_))
          (-((O.sub cy.A_).dot cy.B_ * (O.sub cy.A_).dot cy.B_)
            - (cy.radius_ * cy.radius_ - (O.sub cy.A_).dot (O.sub cy.A_)))
          mind maxd with
  | none => rfl
  | some t =>
    simp only [Option.some_bind, gt_iff_lt, not_lt.mpr hspan, if_false, ite_self]

/-- The statement of C5 at an infinite cylinder (span `-1`) about the z axis:
the hit at axial position `50` is kept. -/
theorem Cylinder_Solve_infinite_witness :
    (-1 : ℝ) ≤ 0 ∧
    Cylinder.Solve Real.sqrt
        ({ A_ := ⟨0, 0, 0⟩, B_ := ⟨0, 0, 1⟩, radius_ := 1, span_ := -1, color_ := (),
           texture_ := none, texturex_ := Vector.zero,
           texturey_ := Vector.zero } : Cylinder ℝ Unit Unit)
        ⟨-2, 0, 50⟩ ⟨1, 0, 0⟩ (1 / 2) 10
      = some 1 := by
  refine ⟨by norm_num, ?_⟩
  rw [Cylinder_Solve_infinite _ _ _ _ _ (by norm_num)]
  simp only [Vector.dot, Vector.sub]
  rw [SolveQuadratic_eval _ _ _ _ _ 2 (by norm_num) (by norm_num) (by norm_num)]
  norm_num

/-- C6, as stated, fails: on the cylinder of radius `1` and span `1` about the
z axis, the ray from `(1, 0, 5)` in direction `(−1, 0, 0)` and the window
`[0, 10]`, the solver delivers the root `0`, which lies in the window, is not
the sentinel and has axial projection `5 > 1`; `Cylinder::Solve` returns `0`,
not `-1`. -/
theorem Cylinder_Solve_span_counterexample :
    (0 : ℝ) < 1 ∧
    SolveQuadratic Real.sqrt
        (1 - Vector.dot (⟨0, 0, 1⟩ : Vector ℝ) ⟨-1, 0, 0⟩
          * Vector.dot (⟨0, 0, 1⟩ : Vector ℝ) ⟨-1, 0, 0⟩)
        (2 * (((⟨1, 0, 5⟩ : Vector ℝ).sub ⟨0, 0, 0⟩).dot ⟨-1, 0, 0⟩
          - Vector.dot (⟨0, 0, 1⟩ : Vector ℝ) ⟨-1, 0, 0⟩
            * ((⟨1, 0, 5⟩ : Vector ℝ).sub ⟨0, 0, 0⟩).dot ⟨0, 0, 1⟩))
        (-(((⟨1, 0, 5⟩ : Vector ℝ).sub ⟨0, 0, 0⟩).dot ⟨0, 0, 1⟩
            * ((⟨1, 0, 5⟩ : Vector ℝ).sub ⟨0, 0, 0⟩).dot ⟨0, 0, 1⟩)
          - ((1 : ℝ) * 1 - ((⟨1, 0, 5⟩ : Vector ℝ).sub ⟨0, 0, 0⟩).dot
              ((⟨1, 0, 5⟩ : Vector ℝ).sub ⟨0, 0, 0⟩)))
        0 10 = some 0 ∧
    ((0 : ℝ) ≤ 0 ∧ (0 : ℝ) ≤ 10 ∧ (0 : ℝ) ≠ -1) ∧
    ((⟨1, 0, 5⟩ : Vector ℝ).sub ⟨0, 0, 0⟩).dot ⟨0, 0, 1⟩
        + 0 * Vector.dot (⟨0, 0, 1⟩ : Vector ℝ) ⟨-1, 0, 0⟩ > (1 : ℝ) ∧
    Cylinder.Solve Real.sqrt
        ({ A_ := ⟨0, 0, 0⟩, B_ := ⟨0, 0, 1⟩, radius_ := 1, span_ := 1, color_ := (),
           texture_ := none, texturex_ := Vector.zero,
           texturey_ := Vector.zero } : Cylinder ℝ Unit Unit)
        ⟨1, 0, 5⟩ ⟨-1, 0, 0⟩ 0 10
      = some 0 ∧
    Cylinder.Solve Real.sqrt
        ({ A_ := ⟨0, 0, 0⟩, B_ := ⟨0, 0, 1⟩, radius_ := 1, span_ := 1, color_ := (),
           texture_ := none, texturex_ := Vector.zero,
           texturey_ := Vector.zero } : Cylinder ℝ Unit Unit)
        ⟨1, 0, 5⟩ ⟨-1, 0, 0⟩ 0 10
      ≠ some (-1) := by
  have hsq : SolveQuadratic Real.sqrt
        (1 - Vector.dot (⟨0, 0, 1⟩ : Vector ℝ) ⟨-1, 0, 0⟩
          * Vector.dot (⟨0, 0, 1⟩ : Vector ℝ) ⟨-1, 0, 0⟩)
        (2 * (((⟨1, 0, 5⟩ : Vector ℝ).sub ⟨0, 0, 0⟩).dot ⟨-1, 0, 0⟩
          - Vector.dot (⟨0, 0, 1⟩ : Vector ℝ) ⟨-1, 0, 0⟩
            * ((⟨1, 0, 5⟩ : Vector ℝ).sub ⟨0, 0, 0⟩).dot ⟨0, 0, 1⟩))
        (-(((⟨1, 0, 5⟩ : Vector ℝ).sub ⟨0, 0, 0⟩).dot ⟨0, 0, 1⟩
            * ((⟨1, 0, 5⟩ : Vector ℝ).sub ⟨0, 0, 0⟩).dot ⟨0, 0, 1⟩)
          - ((1 : ℝ) * 1 - ((⟨1, 0, 5⟩ : Vector ℝ).sub ⟨0, 0, 0⟩).dot
              ((⟨1, 0, 5⟩ : Vector ℝ).sub ⟨0, 0, 0⟩)))
        0 10 = some 0 := by
    simp only [Vector.dot, Vector.sub]
    rw [SolveQuadratic_eval _ _ _ _ _ 2 (by norm_num) (by norm_num) (by norm_num)]
    norm_num
  have hsolve : Cylinder.Solve Real.sqrt
        ({ A_ := ⟨0, 0, 0⟩, B_ := ⟨0, 0, 1⟩, radius_ := 1, span_ := 1, color_ := (),
           texture_ := none, texturex_ := Vector.zero,
           texturey_ := Vector.zero } : Cylinder ℝ Unit Unit)
        ⟨1, 0, 5⟩ ⟨-1, 0, 0⟩ 0 10
      = some 0 := by
    simp only [Cylinder.Solve, hsq, Option.bind_eq_bind, Option.some_bind, Option.pure_def,
      gt_iff_lt, lt_irrefl, if_false]
  refine ⟨by norm_num, hsq, ⟨le_rfl, by norm_num, by norm_num⟩, ?_, hsolve, ?_⟩
  · norm_num [Vector.dot, Vector.sub]
  · rw [hsolve]
    norm_num

/-- C6, amended: for a cylinder with span `> 0`, when the root `t` delivered by
the shared solver is positive and its axial projection `d + t b` lies outside
`[−span, span]`, `Cylinder::Solve` returns the sentinel `-1`; a delivered root
`t ≤ 0` is returned as it is, without the axial test. -/
theorem Cylinder_Solve_span_rejects {Color Texture : Type} (cy : Cylinder ℝ Color Texture)
    (O D : Vector ℝ) (mind maxd t : ℝ) (hspan : 0 < cy.span_)
    (hsq : SolveQuadratic Real.sqrt
          (1 - cy.B_.dot D * cy.B_.dot D)
          (2 * ((O.sub cy.A_).dot D - cy.B_.dot D * (O.sub cy.A_).dot cy.B_))
          (-((O.sub cy.A_).dot cy.B_ * (O.sub cy.A_).dot cy.B_)
            - (cy.radius_ * cy.radius_ - (O.sub cy.A_).dot (O.sub cy.A_)))
          mind maxd = some t) :
    (0 < t →
      ((O.sub cy.A_).dot cy.B_ + t * cy.B_.dot D < -cy.span_
        ∨ (O.sub cy.A_).dot cy.B_ + t * cy.B_.dot D > cy.span_) →
      cy.Solve Real.sqrt O D mind maxd = some (-1)) ∧
    (t ≤ 0 → cy.Solve Real.sqrt O D mind maxd = some t) := by
  refine ⟨?_, ?_⟩
  · intro ht halpha
    simp only [Cylinder.Solve, hsq, Option.bind_eq_bind, Option.some_bind, Option.pure_def,
      gt_iff_lt, ht, hspan, if_true]
    rw [if_pos halpha]
  · intro ht
    simp only [Cylinder.Solve, hsq, Option.bind_eq_bind, Option.some_bind, Option.pure_def,
      gt_iff_lt, not_lt.mpr ht, if_false]

/-- The amended C6 at the cylinder of radius `1` and span `1` about the z axis:
the ray from `(−2, 0, 5)` along `(1, 0, 0)` meets the infinite cylinder at
distance `1`, at axial position `5`, and is rejected. -/
theorem Cylinder_Solve_span_rejects_witness :
    ((0 : ℝ) < 1 ∧ (0 : ℝ) < 1 ∧
      ((⟨-2, 0, 5⟩ : Vector ℝ).sub ⟨0, 0, 0⟩).dot ⟨0, 0, 1⟩
        + 1 * Vector.dot (⟨0, 0, 1⟩ : Vector ℝ) ⟨1, 0, 0⟩ > (1 : ℝ)) ∧
    Cylinder.Solve Real.sqrt
        ({ A_ := ⟨0, 0, 0⟩, B_ := ⟨0, 0, 1⟩, radius_ := 1, span_ := 1, color_ := (),
           texture_ := none, texturex_ := Vector.zero,
           texturey_ := Vector.zero } : Cylinder ℝ Unit Unit)
        ⟨-2, 0, 5⟩ ⟨1, 0, 0⟩ (1 / 2) 10
      = some (-1) := by
  have hsq : SolveQuadratic Real.sqrt
        (1 - Vector.dot (⟨0, 0, 1⟩ : Vector ℝ) ⟨1, 0, 0⟩
          * Vector.dot (⟨0, 0, 1⟩ : Vector ℝ) ⟨1, 0, 0⟩)
        (2 * (((⟨-2, 0, 5⟩ : Vector ℝ).sub ⟨0, 0, 0⟩).dot ⟨1, 0, 0⟩
          - Vector.dot (⟨0, 0, 1⟩ : Vector ℝ) ⟨1, 0, 0⟩
            * ((⟨-2, 0, 5⟩ : Vector ℝ).sub ⟨0, 0, 0⟩).dot ⟨0, 0, 1⟩))
        (-(((⟨-2, 0, 5⟩ : Vector ℝ).sub ⟨0, 0, 0⟩).dot ⟨0, 0, 1⟩
            * ((⟨-2, 0, 5⟩ : Vector ℝ).sub ⟨0, 0, 0⟩).dot ⟨0, 0, 1⟩)
          - ((1 : ℝ) * 1 - ((⟨-2, 0, 5⟩ : Vector ℝ).sub ⟨0, 0, 0⟩).dot
              ((⟨-2, 0, 5⟩ : Vector ℝ).sub ⟨0, 0, 0⟩)))
        (1 / 2) 10 = some 1 := by
    simp only [Vector.dot, Vector.sub]
    rw [SolveQuadratic_eval _ _ _ _ _ 2 (by norm_num) (by norm_num) (by norm_num)]
    norm_num
  have halpha : ((⟨-2, 0, 5⟩ : Vector ℝ).sub ⟨0, 0, 0⟩).dot ⟨0, 0, 1⟩
        + 1 * Vector.dot (⟨0, 0, 1⟩ : Vector ℝ) ⟨1, 0, 0⟩ > (1 : ℝ) := by
    norm_num [Vector.dot, Vector.sub]
  exact ⟨⟨by norm_num, by norm_num, halpha⟩,
    (Cylinder_Solve_span_rejects
      ({ A_ := ⟨0, 0, 0⟩, B_ := ⟨0, 0, 1⟩, radius_ := 1, span_ := 1, color_ := (),
         texture_ := none, texturex_ := Vector.zero,
         texturey_ := Vector.zero } : Cylinder ℝ Unit Unit)
      ⟨-2, 0, 5⟩ ⟨1, 0, 0⟩ (1 / 2) 10 1 (by norm_num) hsq).1 (by norm_num) (Or.inr halpha)⟩

/-! ## Normalisation -/

theorem Vector.sumsq_nonneg (x y z : ℝ) : 0 ≤ x * x + y * y + z * z :=
  add_nonneg (add_nonneg (mul_self_nonneg _) (mul_self_nonneg _)) (mul_self_nonneg _)

theorem Vector.Len_nonneg (v : Vector ℝ) : 0 ≤ Vector.Len Real.sqrt v :=
  Real.sqrt_nonneg _

theorem Vector.Len_mul_self (v : Vector ℝ) :
    Vector.Len Real.sqrt v * Vector.Len Real.sqrt v = v.dot v :=
  Real.mul_self_sqrt (Vector.sumsq_nonneg _ _ _)

theorem Vector.Len_eq_zero_iff (v : Vector ℝ) :
    Vector.Len Real.sqrt v = 0 ↔ v = Vector.zero := by
  obtain ⟨x, y, z⟩ := v
  simp only [Vector.Len, Vector.zero, Vector.mk.injEq]
  rw [Real.sqrt_eq_zero (Vector.sumsq_nonneg x y z)]
  constructor
  · intro h
    have hx := mul_self_nonneg x
    have hy := mul_self_nonneg y
    have hz := mul_self_nonneg z
    refine ⟨?_, ?_, ?_⟩
    · exact mul_self_eq_zero.mp (by linarith)
    · exact mul_self_eq_zero.mp (by linarith)
    · exact mul_self_eq_zero.mp (by linarith)
  · rintro ⟨rfl, rfl, rfl⟩
    simp

theorem Vector.Normalize_InPlace_zero :
    Vector.Normalize_InPlace Real.sqrt (Vector.zero : Vector ℝ) = some Vector.zero := by
  simp [Vector.Normalize_InPlace, Vector.zero]

/-- A non-zero vector is scaled by the reciprocal of its length. -/
theorem Vector.Normalize_InPlace_of_ne (v : Vector ℝ) (hv : v ≠ Vector.zero) :
    Vector.Normalize_InPlace Real.sqrt v = some (v.scale (1 / Vector.Len Real.sqrt v)) := by
  have hlen : Vector.Len Real.sqrt v ≠ 0 := fun h => hv ((Vector.Len_eq_zero_iff v).mp h)
  simp only [Vector.Len] at hlen
  simp only [Vector.Normalize_InPlace, ne_eq, hlen, not_false_eq_true, if_true,
    divide_of_ne _ hlen, Option.bind_eq_bind, Option.some_bind, Option.pure_def,
    Vector.scale, Vector.Len]

/-- The normalisation never fails. -/
theorem Vector.Normalize_InPlace_total (v : Vector ℝ) :
    ∃ w : Vector ℝ, Vector.Normalize_InPlace Real.sqrt v = some w := by
  by_cases hv : v = Vector.zero
  · exact ⟨Vector.zero, by rw [hv]; exact Vector.Normalize_InPlace_zero⟩
  · exact ⟨_, Vector.Normalize_InPlace_of_ne v hv⟩

/-- A non-zero vector scaled by the reciprocal of its length has length 1. -/
theorem Vector.Len_scale_inv (v : Vector ℝ) (hv : v ≠ Vector.zero) :
    Vector.Len Real.sqrt (v.scale (1 / Vector.Len Real.sqrt v)) = 1 := by
  have hlen : Vector.Len Real.sqrt v ≠ 0 := fun h => hv ((Vector.Len_eq_zero_iff v).mp h)
  have hsq := Vector.Len_mul_self v
  obtain ⟨x, y, z⟩ := v
  simp only [Vector.dot] at hsq
  simp only [Vector.Len, Vector.scale] at hlen hsq ⊢
  generalize Real.sqrt (x * x + y * y + z * z) = l at hlen hsq ⊢
  have h1 : x * (1 / l) * (x * (1 / l)) + y * (1 / l) * (y * (1 / l))
      + z * (1 / l) * (z * (1 / l)) = 1 := by
    field_simp
    linarith
  rw [h1, Real.sqrt_one]

theorem Vector.dot_self_of_Len_eq_one (w : Vector ℝ) (h : Vector.Len Real.sqrt w = 1) :
    w.dot w = 1 := by
  rw [← Vector.Len_mul_self, h, mul_one]

/-- C8, amended: over exact reals (no operation rounded),
`Vector::Normalize_InPlace` maps the zero vector to the zero vector without a
failure, and maps every non-zero vector `v` to `v/|v|`: the result has length
`1`, is a positive multiple of `v`, and is left unchanged by a second
normalisation. -/
theorem Normalize_InPlace_spec :
    Vector.Normalize_InPlace Real.sqrt (Vector.zero : Vector ℝ) = some Vector.zero ∧
    ∀ v : Vector ℝ, v ≠ Vector.zero →
      ∃ w : Vector ℝ, Vector.Normalize_InPlace Real.sqrt v = some w ∧
        (w.x_ = v.x_ / Vector.Len Real.sqrt v ∧ w.y_ = v.y_ / Vector.Len Real.sqrt v
          ∧ w.z_ = v.z_ / Vector.Len Real.sqrt v) ∧
        Vector.Len Real.sqrt w = 1 ∧
        (∃ k : ℝ, 0 < k ∧ w = v.scale k) ∧
        Vector.Normalize_InPlace Real.sqrt w = some w := by
  refine ⟨Vector.Normalize_InPlace_zero, ?_⟩
  intro v hv
  have hlen : Vector.Len Real.sqrt v ≠ 0 := fun h => hv ((Vector.Len_eq_zero_iff v).mp h)
  have hpos : 0 < Vector.Len Real.sqrt v := lt_of_le_of_ne (Vector.Len_nonneg v) (Ne.symm hlen)
  have hunit := Vector.Len_scale_inv v hv
  refine ⟨v.scale (1 / Vector.Len Real.sqrt v), Vector.Normalize_InPlace_of_ne v hv,
    ?_, hunit, ⟨1 / Vector.Len Real.sqrt v, one_div_pos.mpr hpos, rfl⟩, ?_⟩
  · simp only [Vector.scale]
    refine ⟨?_, ?_, ?_⟩ <;> ring
  · have hw : v.scale (1 / Vector.Len Real.sqrt v) ≠ Vector.zero := by
      intro h0
      rw [h0] at hunit
      have hz : Vector.Len Real.sqrt (Vector.zero : Vector ℝ) = 0 :=
        (Vector.Len_eq_zero_iff _).mpr rfl
      rw [hz] at hunit
      exact zero_ne_one hunit
    rw [Vector.Normalize_InPlace_of_ne _ hw, hunit]
    simp [Vector.scale]

/-- The statement of C8 at `(3, 0, 4)`, of length `5`. -/
theorem Normalize_InPlace_spec_witness :
    (⟨3, 0, 4⟩ : Vector ℝ) ≠ Vector.zero ∧
    ∃ w : Vector ℝ, Vector.Normalize_InPlace Real.sqrt (⟨3, 0, 4⟩ : Vector ℝ) = some w ∧
      (w.x_ = 3 / Vector.Len Real.sqrt (⟨3, 0, 4⟩ : Vector ℝ)
        ∧ w.y_ = 0 / Vector.Len Real.sqrt (⟨3, 0, 4⟩ : Vector ℝ)
        ∧ w.z_ = 4 / Vector.Len Real.sqrt (⟨3, 0, 4⟩ : Vector ℝ)) ∧
      Vector.Len Real.sqrt w = 1 ∧
      (∃ k : ℝ, 0 < k ∧ w = (⟨3, 0, 4⟩ : Vector ℝ).scale k) ∧
      Vector.Normalize_InPlace Real.sqrt w = some w := by
  have hne : (⟨3, 0, 4⟩ : Vector ℝ) ≠ Vector.zero := by
    simp [Vector.zero]
  exact ⟨hne, Normalize_InPlace_spec.2 ⟨3, 0, 4⟩ hne⟩

/-! ## Normals -/

/-- The normal of a sphere at a point other than its centre has length 1. -/
theorem Sphere.GetNormal_unit {Color Texture : Type} (s : Sphere ℝ Color Texture)
    (hit : Vector ℝ) (h : hit.sub s.center_ ≠ Vector.zero) :
    ∃ n : Vector ℝ, s.GetNormal Real.sqrt hit = some n ∧ Vector.Len Real.sqrt n = 1 :=
  ⟨_, Vector.Normalize_InPlace_of_ne _ h, Vector.Len_scale_inv _ h⟩

/-- The point `Q` of `Cylinder::GetNormal` is the foot of the perpendicular
from `hit` to the axis, when the stored direction is a unit vector. -/
theorem Cylinder.foot_eq (A B hit : Vector ℝ) (β : ℝ) (hB : B.dot B = 1)
    (hperp : (hit.sub (A.add (B.scale β))).dot B = 0) :
    A.add (B.scale (B.dot (hit.sub A))) = A.add (B.scale β) := by
  obtain ⟨ax, ay, az⟩ := A
  obtain ⟨bx, byy, bz⟩ := B
  obtain ⟨hx, hy, hz⟩ := hit
  simp only [Vector.dot, Vector.sub, Vector.add, Vector.scale] at hB hperp ⊢
  have hβ : bx * (hx - ax) + byy * (hy - ay) + bz * (hz - az) = β := by
    have : bx * (hx - ax) + byy * (hy - ay) + bz * (hz - az)
        - β * (bx * bx + byy * byy + bz * bz) = 0 := by
      linarith
    rw [hB] at this
    linarith
  rw [hβ]

theorem Vector.dot_scale (u v : Vector ℝ) (k : ℝ) : u.dot (v.scale k) = u.dot v * k := by
  simp only [Vector.dot, Vector.scale]
  ring

theorem Vector.CopyTo_eq {K : Type} [LinearOrderedField K] (v : Vector K) : v.CopyTo = v :=
  rfl

/-- The plane constructor never fails; it stores the normalised normal. -/
theorem Plane_new_some {Color Texture : Type} [Inhabited Color]
    (gen : Vector ℝ → Vector ℝ) (center normal : Vector ℝ) (scale : ℝ) (color : Color)
    (texture : Option Texture) :
    ∃ p : Plane ℝ Color Texture,
      Plane.new Real.sqrt gen center normal scale color texture = some p ∧
      Vector.Normalize_InPlace Real.sqrt normal = some p.normal_ ∧
      p.center_ = center ∧ p.texture_ = texture := by
  obtain ⟨w, hw⟩ := Vector.Normalize_InPlace_total normal
  cases texture with
  | none =>
    simp [Plane.new, Vector.CopyTo_eq, hw]
  | some tex =>
    obtain ⟨tx, htx⟩ := Vector.Normalize_InPlace_total ((gen w).cross w)
    obtain ⟨ty, hty⟩ := Vector.Normalize_InPlace_total (w.cross tx)
    simp [Plane.new, Vector.CopyTo_eq, hw, htx, hty]

/-- The cylinder constructor never fails; it stores the normalised
direction. -/
theorem Cylinder_new_some {Color Texture : Type} [Inhabited Color]
    (gen : Vector ℝ → Vector ℝ) (center direction : Vector ℝ) (radius span : ℝ)
    (color : Color) (texture : Option Texture) :
    ∃ cy : Cylinder ℝ Color Texture,
      Cylinder.new Real.sqrt gen center direction radius span color texture = some cy ∧
      Vector.Normalize_InPlace Real.sqrt direction = some cy.B_ ∧
      cy.A_ = center ∧ cy.radius_ = radius ∧ cy.span_ = span ∧ cy.texture_ = texture := by
  obtain ⟨w, hw⟩ := Vector.Normalize_InPlace_total direction
  cases texture with
  | none =>
    simp [Cylinder.new, Vector.CopyTo_eq, hw]
  | some tex =>
    obtain ⟨tx, htx⟩ := Vector.Normalize_InPlace_total ((gen w).cross w)
    simp [Cylinder.new, Vector.CopyTo_eq, hw, htx]

/-- C7: every primitive returns a normal of length 1 on its surface: the plane
built from a non-zero normal; the sphere at every hit with
`|hit − centre| = r > 0`; the cylinder built from a non-zero direction at every
hit whose distance from the axis is `r > 0` (the foot `X` of the perpendicular
from the hit lies on the axis, and `|hit − X| = r`). -/
theorem normals_unit {Color Texture : Type} [Inhabited Color] :
    (∀ (gen : Vector ℝ → Vector ℝ) (center normal : Vector ℝ) (scale : ℝ) (color : Color)
        (texture : Option Texture), normal ≠ Vector.zero →
      ∃ p : Plane ℝ Color Texture,
        Plane.new Real.sqrt gen center normal scale color texture = some p ∧
        Vector.Len Real.sqrt p.GetNormal = 1) ∧
    (∀ (s : Sphere ℝ Color Texture) (hit : Vector ℝ), 0 < s.radius_ →
      Vector.Len Real.sqrt (hit.sub s.center_) = s.radius_ →
      ∃ n : Vector ℝ, s.GetNormal Real.sqrt hit = some n ∧ Vector.Len Real.sqrt n = 1) ∧
    (∀ (gen : Vector ℝ → Vector ℝ) (center direction : Vector ℝ) (radius span : ℝ)
        (color : Color) (texture : Option Texture), direction ≠ Vector.zero → 0 < radius →
      ∃ cy : Cylinder ℝ Color Texture,
        Cylinder.new Real.sqrt gen center direction radius span color texture = some cy ∧
        ∀ (hit : Vector ℝ) (β : ℝ),
          (hit.sub (center.add (direction.scale β))).dot direction = 0 →
          Vector.Len Real.sqrt (hit.sub (center.add (direction.scale β))) = radius →
          ∃ n : Vector ℝ, cy.GetNormal Real.sqrt hit = some n ∧
            Vector.Len Real.sqrt n = 1) := by
  refine ⟨?_, ?_, ?_⟩
  · intro gen center normal scale color texture hn
    obtain ⟨p, hp, hnorm, -, -⟩ := Plane_new_some gen center normal scale color texture
    refine ⟨p, hp, ?_⟩
    rw [Vector.Normalize_InPlace_of_ne normal hn] at hnorm
    have := Vector.Len_scale_inv normal hn
    rw [Option.some.inj hnorm] at this
    exact this
  · intro s hit hr hlen
    apply Sphere.GetNormal_unit
    intro h0
    rw [(Vector.Len_eq_zero_iff _).mpr h0] at hlen
    exact hr.ne hlen
  · intro gen center direction radius span color texture hd hr
    obtain ⟨cy, hcy, hnorm, hA, -, -, -⟩ :=
      Cylinder_new_some gen center direction radius span color texture
    refine ⟨cy, hcy, ?_⟩
    intro hit β hperp hdist
    rw [Vector.Normalize_InPlace_of_ne direction hd] at hnorm
    have hB := Option.some.inj hnorm
    have hunit : cy.B_.dot cy.B_ = 1 := by
      rw [← hB]
      exact Vector.dot_self_of_Len_eq_one _ (Vector.Len_scale_inv direction hd)
    have hlen : Vector.Len Real.sqrt direction ≠ 0 :=
      fun h => hd ((Vector.Len_eq_zero_iff direction).mp h)
    have hX : cy.A_.add (cy.B_.scale (β * Vector.Len Real.sqrt direction))
        = center.add (direction.scale β) := by
      rw [hA, ← hB]
      simp only [Vector.add, Vector.scale, Vector.mk.injEq]
      refine ⟨?_, ?_, ?_⟩ <;> field_simp <;> ring
    have hperp2 : (hit.sub (cy.A_.add (cy.B_.scale (β * Vector.Len Real.sqrt direction)))).dot
        cy.B_ = 0 := by
      rw [hX, ← hB, Vector.dot_scale, hperp, zero_mul]
    have hfoot := Cylinder.foot_eq cy.A_ cy.B_ hit _ hunit hperp2
    have hne : hit.sub (cy.A_.add (cy.B_.scale (cy.B_.dot (hit.sub cy.A_)))) ≠ Vector.zero := by
      intro h0
      rw [hfoot, hX] at h0
      rw [(Vector.Len_eq_zero_iff _).mpr h0] at hdist
      exact hr.ne hdist
    exact ⟨_, Vector.Normalize_InPlace_of_ne _ hne, Vector.Len_scale_inv _ hne⟩

/-- The statement of C7 at the plane of normal `(0, 2, 0)`, at the point
`(1, 0, 0)` of the unit sphere, and at the point `(1, 0, 7)` of the cylinder
of radius `1` about the z axis, built from the direction `(0, 0, 2)`. -/
theorem normals_unit_witness :
    ((⟨0, 2, 0⟩ : Vector ℝ) ≠ Vector.zero ∧
      ∃ p : Plane ℝ Unit Unit,
        Plane.new Real.sqrt (fun v => v) ⟨0, 0, 0⟩ ⟨0, 2, 0⟩ 1 () none = some p ∧
        Vector.Len Real.sqrt p.GetNormal = 1) ∧
    (((0 : ℝ) < 1 ∧ Vector.Len Real.sqrt ((⟨1, 0, 0⟩ : Vector ℝ).sub ⟨0, 0, 0⟩) = 1) ∧
      ∃ n : Vector ℝ,
        Sphere.GetNormal Real.sqrt
          ({ center_ := ⟨0, 0, 0⟩, radius_ := 1, color_ := (), texture_ := none,
             texturex_ := Vector.zero, texturey_ := Vector.zero,
             texturez_ := Vector.zero } : Sphere ℝ Unit Unit) ⟨1, 0, 0⟩ = some n ∧
        Vector.Len Real.sqrt n = 1) ∧
    (((⟨0, 0, 2⟩ : Vector ℝ) ≠ Vector.zero ∧ (0 : ℝ) < 1) ∧
      ∃ cy : Cylinder ℝ Unit Unit,
        Cylinder.new Real.sqrt (fun v => v) ⟨0, 0, 0⟩ ⟨0, 0, 2⟩ 1 (-1) () none = some cy ∧
        ((⟨1, 0, 7⟩ : Vector ℝ).sub
            ((⟨0, 0, 0⟩ : Vector ℝ).add ((⟨0, 0, 2⟩ : Vector ℝ).scale (7 / 2)))).dot
            ⟨0, 0, 2⟩ = 0 ∧
        Vector.Len Real.sqrt ((⟨1, 0, 7⟩ : Vector ℝ).sub
            ((⟨0, 0, 0⟩ : Vector ℝ).add ((⟨0, 0, 2⟩ : Vector ℝ).scale (7 / 2)))) = 1 ∧
        ∃ n : Vector ℝ, cy.GetNormal Real.sqrt ⟨1, 0, 7⟩ = some n ∧
          Vector.Len Real.sqrt n = 1) := by
  have hp : (⟨0, 2, 0⟩ : Vector ℝ) ≠ Vector.zero := by simp [Vector.zero]
  have hs : Vector.Len Real.sqrt ((⟨1, 0, 0⟩ : Vector ℝ).sub ⟨0, 0, 0⟩) = 1 := by
    simp [Vector.Len, Vector.sub]
  have hc : (⟨0, 0, 2⟩ : Vector ℝ) ≠ Vector.zero := by simp [Vector.zero]
  have hperp : ((⟨1, 0, 7⟩ : Vector ℝ).sub
      ((⟨0, 0, 0⟩ : Vector ℝ).add ((⟨0, 0, 2⟩ : Vector ℝ).scale (7 / 2)))).dot
      ⟨0, 0, 2⟩ = 0 := by
    norm_num [Vector.dot, Vector.sub, Vector.add, Vector.scale]
  have hdist : Vector.Len Real.sqrt ((⟨1, 0, 7⟩ : Vector ℝ).sub
      ((⟨0, 0, 0⟩ : Vector ℝ).add ((⟨0, 0, 2⟩ : Vector ℝ).scale (7 / 2)))) = 1 := by
    norm_num [Vector.Len, Vector.sub, Vector.add, Vector.scale]
  have hall := @normals_unit Unit Unit inferInstance
  refine ⟨⟨hp, hall.1 (fun v => v) ⟨0, 0, 0⟩ ⟨0, 2, 0⟩ 1 () none hp⟩,
    ⟨⟨by norm_num, hs⟩, hall.2.1 _ ⟨1, 0, 0⟩ (by norm_num) hs⟩, ⟨hc, by norm_num⟩, ?_⟩
  obtain ⟨cy, hcy, hn⟩ :=
    hall.2.2 (fun v => v) ⟨0, 0, 0⟩ ⟨0, 0, 2⟩ 1 (-1) () none hc (by norm_num)
  exact ⟨cy, hcy, hperp, hdist, hn ⟨1, 0, 7⟩ (7 / 2) hperp hdist⟩

/-! ## The result convention -/

theorem Plane.Solve_of_eq_zero {Color Texture : Type} (p : Plane ℝ Color Texture)
    (O D : Vector ℝ) (mind maxd : ℝ) (h : D.dot p.normal_ = 0) :
    p.Solve O D mind maxd = some (-1) := by
  simp [Plane.Solve, h]

theorem Plane.Solve_of_ne {Color Texture : Type} (p : Plane ℝ Color Texture)
    (O D : Vector ℝ) (mind maxd : ℝ) (h : D.dot p.normal_ ≠ 0) :
    p.Solve O D mind maxd
      = some (if -((O.sub p.center_).dot p.normal_) / D.dot p.normal_ < mind
                ∨ -((O.sub p.center_).dot p.normal_) / D.dot p.normal_ > maxd
              then -1 else -((O.sub p.center_).dot p.normal_) / D.dot p.normal_) := by
  simp only [Plane.Solve, ne_eq, h, not_false_eq_true, if_true, divide_of_ne _ h,
    Option.bind_eq_bind, Option.some_bind, Option.pure_def]
  split_ifs <;> rfl

/-- A value that is `-1` or the candidate `t`, according to a window test on
`t`, is the sentinel or lies in the window. -/
theorem window_cases (t mind maxd : ℝ) :
    (if t < mind ∨ t > maxd then (-1 : ℝ) else t) = -1
      ∨ (mind ≤ (if t < mind ∨ t > maxd then (-1 : ℝ) else t)
        ∧ (if t < mind ∨ t > maxd then (-1 : ℝ) else t) ≤ maxd) := by
  by_cases h : t < mind ∨ t > maxd
  · left
    rw [if_pos h]
  · right
    rw [if_neg h]
    exact ⟨not_lt.mp (fun h3 => h (Or.inl h3)), not_lt.mp (fun h3 => h (Or.inr h3))⟩

/-- With a non-zero leading coefficient the solver returns the sentinel or a
value inside the window. -/
theorem SolveQuadratic_range (a b c mint maxt : ℝ) (ha : a ≠ 0) :
    ∃ t : ℝ, SolveQuadratic Real.sqrt a b c mint maxt = some t ∧
      (t = -1 ∨ (mint ≤ t ∧ t ≤ maxt)) := by
  rcases lt_or_le (b * b - 4 * a * c) 0 with h | h
  · exact ⟨-1, SolveQuadratic_of_neg Real.sqrt a b c mint maxt h, Or.inl rfl⟩
  · obtain ⟨t1, -, -, -, -, hres⟩ := SolveQuadratic_real a b c mint maxt ha h
    exact ⟨_, hres, window_cases t1 mint maxt⟩

theorem neg_iff_sentinel (t mind maxd : ℝ) (hmind : 0 < mind)
    (h : t = -1 ∨ (mind ≤ t ∧ t ≤ maxd)) : t < 0 ↔ t = -1 := by
  constructor
  · intro hneg
    rcases h with h | h
    · exact h
    · linarith [h.1]
  · intro h1
    rw [h1]
    norm_num

/-- C9, amended: over exact reals (no operation rounded), for every window
`0 < mind ≤ maxd` and every ray for which the quadratic's leading coefficient is
non-zero, each of `Plane::Solve`, `Sphere::Solve` and `Cylinder::Solve` returns
the sentinel `-1` or a distance `t` with `mind ≤ t ≤ maxd`; so the result is
negative exactly when it is the sentinel. -/
theorem Solve_result_convention {Color Texture : Type} (O D : Vector ℝ) (mind maxd : ℝ)
    (hmind : 0 < mind) (_hw : mind ≤ maxd) :
    (∀ p : Plane ℝ Color Texture,
      ∃ t : ℝ, p.Solve O D mind maxd = some t ∧
        (t = -1 ∨ (mind ≤ t ∧ t ≤ maxd)) ∧ (t < 0 ↔ t = -1)) ∧
    (∀ s : Sphere ℝ Color Texture, D.dot D ≠ 0 →
      ∃ t : ℝ, s.Solve Real.sqrt O D mind maxd = some t ∧
        (t = -1 ∨ (mind ≤ t ∧ t ≤ maxd)) ∧ (t < 0 ↔ t = -1)) ∧
    (∀ cy : Cylinder ℝ Color Texture, 1 - cy.B_.dot D * cy.B_.dot D ≠ 0 →
      ∃ t : ℝ, cy.Solve Real.sqrt O D mind maxd = some t ∧
        (t = -1 ∨ (mind ≤ t ∧ t ≤ maxd)) ∧ (t < 0 ↔ t = -1)) := by
  refine ⟨?_, ?_, ?_⟩
  · intro p
    by_cases h : D.dot p.normal_ = 0
    · exact ⟨-1, Plane.Solve_of_eq_zero p O D mind maxd h, Or.inl rfl,
        neg_iff_sentinel _ mind maxd hmind (Or.inl rfl)⟩
    · exact ⟨_, Plane.Solve_of_ne p O D mind maxd h, window_cases _ mind maxd,
        neg_iff_sentinel _ mind maxd hmind (window_cases _ mind maxd)⟩
  · intro s ha
    obtain ⟨t, ht, hrange⟩ := SolveQuadratic_range (D.dot D) (2 * D.dot (O.sub s.center_))
      ((O.sub s.center_).dot (O.sub s.center_) - s.radius_ * s.radius_) mind maxd ha
    exact ⟨t, ht, hrange, neg_iff_sentinel t mind maxd hmind hrange⟩
  · intro cy ha
    obtain ⟨t, ht, hrange⟩ := SolveQuadratic_range (1 - cy.B_.dot D * cy.B_.dot D)
      (2 * ((O.sub cy.A_).dot D - cy.B_.dot D * (O.sub cy.A_).dot cy.B_))
      (-((O.sub cy.A_).dot cy.B_ * (O.sub cy.A_).dot cy.B_)
        - (cy.radius_ * cy.radius_ - (O.sub cy.A_).dot (O.sub cy.A_))) mind maxd ha
    have hsolve : cy.Solve Real.sqrt O D mind maxd = some t
        ∨ cy.Solve Real.sqrt O D mind maxd = some (-1) := by
      simp only [Cylinder.Solve, ht, Option.bind_eq_bind, Option.some_bind, Option.pure_def]
      split_ifs <;> simp
    rcases hsolve with h | h
    · exact ⟨t, h, hrange, neg_iff_sentinel t mind maxd hmind hrange⟩
    · exact ⟨-1, h, Or.inl rfl, neg_iff_sentinel _ mind maxd hmind (Or.inl rfl)⟩

/-- The statement of C9 for the ray from `(−5, 0, 0)` along `(1, 0, 0)` and the
window `[1, 10]`, at the plane `x = 0`, the unit sphere and the unit cylinder
of span `1` about the z axis: the plane is hit at distance `5`, the sphere and
the cylinder at distance `4`, all within the window; the ray from `(−5, 0, 5)`
passes the sphere and the span of the cylinder and is answered with the
sentinel. -/
theorem Solve_result_convention_witness :
    ((0 : ℝ) < 1 ∧ (1 : ℝ) ≤ 10 ∧
      Vector.dot (⟨1, 0, 0⟩ : Vector ℝ) ⟨1, 0, 0⟩ ≠ 0 ∧
      1 - Vector.dot (⟨0, 0, 1⟩ : Vector ℝ) ⟨1, 0, 0⟩
        * Vector.dot (⟨0, 0, 1⟩ : Vector ℝ) ⟨1, 0, 0⟩ ≠ 0) ∧
    (∃ t : ℝ, Plane.Solve
        ({ center_ := ⟨0, 0, 0⟩, normal_ := ⟨1, 0, 0⟩, scale_ := 1, color_ := (),
           texture_ := none, texturex_ := Vector.zero,
           texturey_ := Vector.zero } : Plane ℝ Unit Unit)
        ⟨-5, 0, 0⟩ ⟨1, 0, 0⟩ 1 10 = some t ∧
      (t = -1 ∨ (1 ≤ t ∧ t ≤ 10)) ∧ (t < 0 ↔ t = -1)) ∧
    (∃ t : ℝ, Sphere.Solve Real.sqrt
        ({ center_ := ⟨0, 0, 0⟩, radius_ := 1, color_ := (), texture_ := none,
           texturex_ := Vector.zero, texturey_ := Vector.zero,
           texturez_ := Vector.zero } : Sphere ℝ Unit Unit)
        ⟨-5, 0, 0⟩ ⟨1, 0, 0⟩ 1 10 = some t ∧
      (t = -1 ∨ (1 ≤ t ∧ t ≤ 10)) ∧ (t < 0 ↔ t = -1)) ∧
    (∃ t : ℝ, Cylinder.Solve Real.sqrt
        ({ A_ := ⟨0, 0, 0⟩, B_ := ⟨0, 0, 1⟩, radius_ := 1, span_ := 1, color_ := (),
           texture_ := none, texturex_ := Vector.zero,
           texturey_ := Vector.zero } : Cylinder ℝ Unit Unit)
        ⟨-5, 0, 0⟩ ⟨1, 0, 0⟩ 1 10 = some t ∧
      (t = -1 ∨ (1 ≤ t ∧ t ≤ 10)) ∧ (t < 0 ↔ t = -1)) ∧
    (Plane.Solve
        ({ center_ := ⟨0, 0, 0⟩, normal_ := ⟨1, 0, 0⟩, scale_ := 1, color_ := (),
           texture_ := none, texturex_ := Vector.zero,
           texturey_ := Vector.zero } : Plane ℝ Unit Unit)
        ⟨-5, 0, 0⟩ ⟨1, 0, 0⟩ 1 10 = some 5 ∧
      Sphere.Solve Real.sqrt
        ({ center_ := ⟨0, 0, 0⟩, radius_ := 1, color_ := (), texture_ := none,
           texturex_ := Vector.zero, texturey_ := Vector.zero,
           texturez_ := Vector.zero } : Sphere ℝ Unit Unit)
        ⟨-5, 0, 0⟩ ⟨1, 0, 0⟩ 1 10 = some 4 ∧
      Cylinder.Solve Real.sqrt
        ({ A_ := ⟨0, 0, 0⟩, B_ := ⟨0, 0, 1⟩, radius_ := 1, span_ := 1, color_ := (),
           texture_ := none, texturex_ := Vector.zero,
           texturey_ := Vector.zero } : Cylinder ℝ Unit Unit)
        ⟨-5, 0, 0⟩ ⟨1, 0, 0⟩ 1 10 = some 4) ∧
    (Sphere.Solve Real.sqrt
        ({ center_ := ⟨0, 0, 0⟩, radius_ := 1, color_ := (), texture_ := none,
           texturex_ := Vector.zero, texturey_ := Vector.zero,
           texturez_ := Vector.zero } : Sphere ℝ Unit Unit)
        ⟨-5, 0, 5⟩ ⟨1, 0, 0⟩ 1 10 = some (-1) ∧
      Cylinder.Solve Real.sqrt
        ({ A_ := ⟨0, 0, 0⟩, B_ := ⟨0, 0, 1⟩, radius_ := 1, span_ := 1, color_ := (),
           texture_ := none, texturex_ := Vector.zero,
           texturey_ := Vector.zero } : Cylinder ℝ Unit Unit)
        ⟨-5, 0, 5⟩ ⟨1, 0, 0⟩ 1 10 = some (-1)) := by
  have hs : Vector.dot (⟨1, 0, 0⟩ : Vector ℝ) ⟨1, 0, 0⟩ ≠ 0 := by
    norm_num [Vector.dot]
  have hc : 1 - Vector.dot (⟨0, 0, 1⟩ : Vector ℝ) ⟨1, 0, 0⟩
      * Vector.dot (⟨0, 0, 1⟩ : Vector ℝ) ⟨1, 0, 0⟩ ≠ 0 := by
    norm_num [Vector.dot]
  have hall := @Solve_result_convention Unit Unit ⟨-5, 0, 0⟩ ⟨1, 0, 0⟩ 1 10
    (by norm_num) (by norm_num)
  refine ⟨⟨by norm_num, by norm_num, hs, hc⟩, hall.1 _, hall.2.1 _ hs, hall.2.2 _ hc,
    ⟨?_, ?_, ?_⟩, ⟨?_, ?_⟩⟩
  · rw [Plane.Solve_of_ne _ _ _ _ _ (by norm_num [Vector.dot])]
    norm_num [Vector.dot, Vector.sub]
  · simp only [Sphere.Solve, Vector.sub, Vector.dot]
    rw [SolveQuadratic_eval _ _ _ _ _ 2 (by norm_num) (by norm_num) (by norm_num)]
    norm_num
  · simp only [Cylinder.Solve, Vector.sub, Vector.dot]
    rw [SolveQuadratic_eval _ _ _ _ _ 2 (by norm_num) (by norm_num) (by norm_num)]
    norm_num
  · simp only [Sphere.Solve, Vector.sub, Vector.dot]
    rw [SolveQuadratic_of_neg _ _ _ _ _ _ (by norm_num)]
  · simp only [Cylinder.Solve, Vector.sub, Vector.dot]
    rw [SolveQuadratic_eval _ _ _ _ _ 2 (by norm_num) (by norm_num) (by norm_num)]
    norm_num

/-! ## Degenerate rays -/

/-- A ray of zero direction is parallel to every plane: `Plane::Solve` returns
the sentinel, and divides nowhere. -/
theorem Plane_Solve_zero_direction {Color Texture : Type} (p : Plane ℝ Color Texture)
    (O : Vector ℝ) (mind maxd : ℝ) :
    p.Solve O Vector.zero mind maxd = some (-1) := by
  apply Plane.Solve_of_eq_zero
  simp [Vector.dot, Vector.zero]

/-- For a ray of zero direction the quadratic of `Cylinder::Solve` has the
leading coefficient `1`; no root is positive, so the sentinel is returned in
every window with `mind > 0`. -/
theorem Cylinder_Solve_zero_direction {Color Texture : Type} (cy : Cylinder ℝ Color Texture)
    (O : Vector ℝ) (mind maxd : ℝ) (hmind : 0 < mind) :
    cy.Solve Real.sqrt O Vector.zero mind maxd = some (-1) := by
  have hsq : ∀ c : ℝ, SolveQuadratic Real.sqrt 1 0 c mind maxd = some (-1) := by
    intro c
    rcases lt_or_le ((0 : ℝ) * 0 - 4 * 1 * c) 0 with h | h
    · exact SolveQuadratic_of_neg Real.sqrt 1 0 c mind maxd h
    · rcases h.eq_or_lt with h0 | hpos
      · rw [SolveQuadratic_of_zero Real.sqrt 1 0 c mind maxd one_ne_zero h0.symm, if_pos]
        left
        simpa using hmind
      · have hspos : 0 < Real.sqrt ((0 : ℝ) * 0 - 4 * 1 * c) := Real.sqrt_pos.mpr hpos
        rw [SolveQuadratic_eval 1 0 c mind maxd _ one_ne_zero hspos (Real.mul_self_sqrt h),
          if_pos]
        left
        refine lt_of_le_of_lt (min_le_left _ _) ?_
        have : (-0 - Real.sqrt ((0 : ℝ) * 0 - 4 * 1 * c)) / (2 * 1) < 0 :=
          div_neg_of_neg_of_pos (by linarith) (by norm_num)
        linarith
  have h0 : ∀ v : Vector ℝ, v.dot Vector.zero = 0 := by
    intro v
    simp [Vector.dot, Vector.zero]
  have h1 : ∀ v : Vector ℝ, Vector.dot Vector.zero v = 0 := by
    intro v
    simp [Vector.dot, Vector.zero]
  simp only [Cylinder.Solve, h0, mul_zero, sub_zero, zero_mul, Option.bind_eq_bind]
  rw [hsq]
  simp

/-- C10 fails at spheres: for a ray of zero direction the quadratic of
`Sphere::Solve` has `a = 0`, `b = 0` and the discriminant `0`, so that
`SolveQuadratic` divides `-b` by `2 a = 0`; no sentinel is returned. This holds
for every sphere, every origin and every window, in particular for the unit
sphere about the origin, the origin `(2, 0, 0)` and the window `[1, 10]`. -/
theorem Sphere_Solve_zero_direction {Color Texture : Type} (s : Sphere ℝ Color Texture)
    (O : Vector ℝ) (mind maxd : ℝ) :
    s.Solve Real.sqrt O Vector.zero mind maxd = none := by
  simp [Sphere.Solve, SolveQuadratic, Vector.dot, Vector.zero, divide]

/-! ## A zero normal, a zero direction -/

theorem Vector.dot_zero_right (v : Vector ℝ) : v.dot Vector.zero = 0 := by
  simp [Vector.dot, Vector.zero]

theorem Vector.dot_zero_left (v : Vector ℝ) : Vector.dot Vector.zero v = 0 := by
  simp [Vector.dot, Vector.zero]

/-- With the zero vector as its axis, `Cylinder::Solve` is the solver applied
to `t² + 2 (T·D) t + (T·T − r²)`, `T = O − A`: the axial position of every
point is `0`, which passes the axial test of every span. -/
theorem Cylinder.Solve_of_zero_axis {Color Texture : Type} (cy : Cylinder ℝ Color Texture)
    (hB : cy.B_ = Vector.zero) (O D : Vector ℝ) (mind maxd : ℝ) :
    cy.Solve Real.sqrt O D mind maxd
      = SolveQuadratic Real.sqrt 1 (2 * (O.sub cy.A_).dot D)
          ((O.sub cy.A_).dot (O.sub cy.A_) - cy.radius_ * cy.radius_) mind maxd := by
  have hcc : -(0 : ℝ) - (cy.radius_ * cy.radius_ - (O.sub cy.A_).dot (O.sub cy.A_))
      = (O.sub cy.A_).dot (O.sub cy.A_) - cy.radius_ * cy.radius_ := by ring
  simp only [Cylinder.Solve, hB, Vector.dot_zero_left, Vector.dot_zero_right, mul_zero,
    sub_zero, add_zero, hcc, Option.bind_eq_bind, Option.pure_def]
  cases SolveQuadratic Real.sqrt 1 (2 * (O.sub cy.A_).dot D)
      ((O.sub cy.A_).dot (O.sub cy.A_) - cy.radius_ * cy.radius_) mind maxd with
  | none => rfl
  | some t =>
    simp only [Option.some_bind]
    by_cases hs : cy.span_ > 0
    · have h1 : ¬ ((0 : ℝ) < -cy.span_ ∨ (0 : ℝ) > cy.span_) := by
        rintro (h | h) <;> linarith
      simp only [hs, if_true, h1, if_false, ite_self]
    · simp only [hs, if_false, ite_self]

/-- C11, as stated, fails at cylinders: the cylinder built from the zero
direction with origin `(0, 0, 0)` and radius `1` answers the ray from
`(−2, 0, 0)` along `(1, 0, 0)` in the window `[1/2, 10]` with the hit `1`, not
with the sentinel. -/
theorem zero_direction_cylinder_counterexample :
    ((0 : ℝ) < 1 ∧ (0 : ℝ) < 1 / 2) ∧
    ∃ cy : Cylinder ℝ Unit Unit,
      Cylinder.new Real.sqrt (fun v => v) ⟨0, 0, 0⟩ Vector.zero 1 (-1) () none = some cy ∧
      cy.Solve Real.sqrt ⟨-2, 0, 0⟩ ⟨1, 0, 0⟩ (1 / 2) 10 = some 1 ∧
      cy.Solve Real.sqrt ⟨-2, 0, 0⟩ ⟨1, 0, 0⟩ (1 / 2) 10 ≠ some (-1) := by
  refine ⟨⟨by norm_num, by norm_num⟩, ?_⟩
  obtain ⟨cy, hcy, hnorm, hA, hr, -, -⟩ :=
    @Cylinder_new_some Unit Unit inferInstance (fun v => v) ⟨0, 0, 0⟩ Vector.zero 1 (-1) () none
  rw [Vector.Normalize_InPlace_zero] at hnorm
  have hB : cy.B_ = Vector.zero := (Option.some.inj hnorm).symm
  have hval : cy.Solve Real.sqrt ⟨-2, 0, 0⟩ ⟨1, 0, 0⟩ (1 / 2) 10 = some 1 := by
    rw [Cylinder.Solve_of_zero_axis cy hB, hA, hr]
    simp only [Vector.dot, Vector.sub]
    rw [SolveQuadratic_eval _ _ _ _ _ 2 (by norm_num) (by norm_num) (by norm_num)]
    norm_num
  refine ⟨cy, hcy, hval, ?_⟩
  rw [hval]
  norm_num

/-- C11, amended: a plane constructed from the zero normal returns the
sentinel `-1` from `Solve` for every ray and every window; a cylinder
constructed from the zero direction stores the zero axis, and its `Solve`
returns the value of `SolveQuadratic (1, 2 (T·D), T·T − r², mind, maxd)` with
`T = O − A`. -/
theorem zero_normalize_at_construction {Color Texture : Type} [Inhabited Color] :
    (∀ (gen : Vector ℝ → Vector ℝ) (center : Vector ℝ) (scale : ℝ) (color : Color)
        (texture : Option Texture),
      ∃ p : Plane ℝ Color Texture,
        Plane.new Real.sqrt gen center Vector.zero scale color texture = some p ∧
        ∀ (O D : Vector ℝ) (mind maxd : ℝ), p.Solve O D mind maxd = some (-1)) ∧
    (∀ (gen : Vector ℝ → Vector ℝ) (center : Vector ℝ) (radius span : ℝ) (color : Color)
        (texture : Option Texture),
      ∃ cy : Cylinder ℝ Color Texture,
        Cylinder.new Real.sqrt gen center Vector.zero radius span color texture = some cy ∧
        ∀ (O D : Vector ℝ) (mind maxd : ℝ),
          cy.Solve Real.sqrt O D mind maxd
            = SolveQuadratic Real.sqrt 1 (2 * (O.sub center).dot D)
                ((O.sub center).dot (O.sub center) - radius * radius) mind maxd) := by
  refine ⟨?_, ?_⟩
  · intro gen center scale color texture
    obtain ⟨p, hp, hnorm, -, -⟩ := Plane_new_some gen center Vector.zero scale color texture
    rw [Vector.Normalize_InPlace_zero] at hnorm
    have hN : p.normal_ = Vector.zero := (Option.some.inj hnorm).symm
    refine ⟨p, hp, ?_⟩
    intro O D mind maxd
    apply Plane.Solve_of_eq_zero
    rw [hN]
    exact Vector.dot_zero_right D
  · intro gen center radius span color texture
    obtain ⟨cy, hcy, hnorm, hA, hr, -, -⟩ :=
      Cylinder_new_some gen center Vector.zero radius span color texture
    rw [Vector.Normalize_InPlace_zero] at hnorm
    have hB : cy.B_ = Vector.zero := (Option.some.inj hnorm).symm
    refine ⟨cy, hcy, ?_⟩
    intro O D mind maxd
    rw [Cylinder.Solve_of_zero_axis cy hB, hA, hr]

/-! ## The normals of cylinders and spheres -/

theorem Vector.sub_eq_zero_iff (u v : Vector ℝ) : u.sub v = Vector.zero ↔ u = v := by
  obtain ⟨ux, uy, uz⟩ := u
  obtain ⟨vx, vy, vz⟩ := v
  simp only [Vector.sub, Vector.zero, Vector.mk.injEq, sub_eq_zero]

theorem Vector.dot_comm (u v : Vector ℝ) : u.dot v = v.dot u := by
  simp only [Vector.dot]
  ring

/-- The vector from the point `Q` of `Cylinder::GetNormal` to the hit is
perpendicular to a unit axis. -/
theorem Cylinder.perp_axis (A B hit : Vector ℝ) (hB : B.dot B = 1) :
    (hit.sub (A.add (B.scale ((hit.sub A).dot B)))).dot B = 0 := by
  obtain ⟨ax, ay, az⟩ := A
  obtain ⟨bx, byy, bz⟩ := B
  obtain ⟨hx, hy, hz⟩ := hit
  simp only [Vector.dot, Vector.sub, Vector.add, Vector.scale] at hB ⊢
  have : (hx - (ax + bx * ((hx - ax) * bx + (hy - ay) * byy + (hz - az) * bz))) * bx
      + (hy - (ay + byy * ((hx - ax) * bx + (hy - ay) * byy + (hz - az) * bz))) * byy
      + (hz - (az + bz * ((hx - ax) * bx + (hy - ay) * byy + (hz - az) * bz))) * bz
      = ((hx - ax) * bx + (hy - ay) * byy + (hz - az) * bz)
        * (1 - (bx * bx + byy * byy + bz * bz)) := by ring
  rw [this, hB, sub_self, mul_zero]

/-- The squared distance from the hit to the axis point of parameter `α`
exceeds the squared distance to `Q` by the square of `α − (hit − A)·B`. -/
theorem Cylinder.dist_axis_point (A B hit : Vector ℝ) (α : ℝ) (hB : B.dot B = 1) :
    (hit.sub (A.add (B.scale α))).dot (hit.sub (A.add (B.scale α)))
      = (hit.sub (A.add (B.scale ((hit.sub A).dot B)))).dot
          (hit.sub (A.add (B.scale ((hit.sub A).dot B))))
        + (α - (hit.sub A).dot B) * (α - (hit.sub A).dot B) := by
  obtain ⟨ax, ay, az⟩ := A
  obtain ⟨bx, byy, bz⟩ := B
  obtain ⟨hx, hy, hz⟩ := hit
  simp only [Vector.dot, Vector.sub, Vector.add, Vector.scale] at hB ⊢
  linear_combination (α * α - ((hx - ax) * bx + (hy - ay) * byy + (hz - az) * bz)
    * ((hx - ax) * bx + (hy - ay) * byy + (hz - az) * bz)) * hB

/-- The axis point closest to the hit is the point `Q` of
`Cylinder::GetNormal`. -/
theorem Cylinder.closest_eq (A B hit : Vector ℝ) (α : ℝ) (hB : B.dot B = 1)
    (hmin : ∀ β : ℝ, Vector.Len Real.sqrt (hit.sub (A.add (B.scale α)))
      ≤ Vector.Len Real.sqrt (hit.sub (A.add (B.scale β)))) :
    A.add (B.scale ((hit.sub A).dot B)) = A.add (B.scale α) := by
  have h1 := hmin ((hit.sub A).dot B)
  have h2 := mul_self_le_mul_self (Vector.Len_nonneg _) h1
  rw [Vector.Len_mul_self, Vector.Len_mul_self, Cylinder.dist_axis_point A B hit α hB] at h2
  have h3 : (α - (hit.sub A).dot B) * (α - (hit.sub A).dot B) ≤ 0 := by linarith
  have h4 : α - (hit.sub A).dot B = 0 :=
    mul_self_eq_zero.mp (le_antisymm h3 (mul_self_nonneg _))
  have h5 : (hit.sub A).dot B = α := by linarith
  rw [h5]

theorem Vector.scale_dot (u v : Vector ℝ) (k : ℝ) : (u.scale k).dot v = u.dot v * k := by
  simp only [Vector.dot, Vector.scale]
  ring

/-- C12, amended: over exact reals (no operation rounded), for a cylinder
with unit axis `B` and origin `A` and a hit point not on the axis,
`Cylinder::GetNormal` returns the normalised vector
`hit − (A + ((hit − A)·B) B)`; this normal has length `1`, is perpendicular to
the axis, and equals `(hit − X)/r` when `X` is the axis point closest to the hit
and `r` its distance from the hit. `Sphere::GetNormal` returns
`(hit − centre)/|hit − centre|` for a hit other than the centre. -/
theorem GetNormal_spec {Color Texture : Type} :
    (∀ (cy : Cylinder ℝ Color Texture) (hit : Vector ℝ), cy.B_.dot cy.B_ = 1 →
      (∀ α : ℝ, hit ≠ cy.A_.add (cy.B_.scale α)) →
      ∃ n : Vector ℝ, cy.GetNormal Real.sqrt hit = some n ∧
        n = (hit.sub (cy.A_.add (cy.B_.scale ((hit.sub cy.A_).dot cy.B_)))).scale
              (1 / Vector.Len Real.sqrt
                (hit.sub (cy.A_.add (cy.B_.scale ((hit.sub cy.A_).dot cy.B_))))) ∧
        Vector.Len Real.sqrt n = 1 ∧
        n.dot cy.B_ = 0 ∧
        ∀ α r : ℝ,
          (∀ β : ℝ, Vector.Len Real.sqrt (hit.sub (cy.A_.add (cy.B_.scale α)))
            ≤ Vector.Len Real.sqrt (hit.sub (cy.A_.add (cy.B_.scale β)))) →
          Vector.Len Real.sqrt (hit.sub (cy.A_.add (cy.B_.scale α))) = r →
          n = (hit.sub (cy.A_.add (cy.B_.scale α))).scale (1 / r)) ∧
    (∀ (s : Sphere ℝ Color Texture) (hit : Vector ℝ), hit ≠ s.center_ →
      ∃ n : Vector ℝ, s.GetNormal Real.sqrt hit = some n ∧
        n = (hit.sub s.center_).scale (1 / Vector.Len Real.sqrt (hit.sub s.center_)) ∧
        Vector.Len Real.sqrt n = 1) := by
  refine ⟨?_, ?_⟩
  · intro cy hit hB hoff
    have hne : hit.sub (cy.A_.add (cy.B_.scale ((hit.sub cy.A_).dot cy.B_))) ≠ Vector.zero := by
      intro h0
      exact hoff _ ((Vector.sub_eq_zero_iff _ _).mp h0)
    refine ⟨_, ?_, rfl, Vector.Len_scale_inv _ hne, ?_, ?_⟩
    · simp only [Cylinder.GetNormal]
      rw [Vector.dot_comm cy.B_ (hit.sub cy.A_)]
      exact Vector.Normalize_InPlace_of_ne _ hne
    · rw [Vector.scale_dot, Cylinder.perp_axis cy.A_ cy.B_ hit hB, zero_mul]
    · intro α r hmin hr
      rw [Cylinder.closest_eq cy.A_ cy.B_ hit α hB hmin, hr]
  · intro s hit hne
    have h0 : hit.sub s.center_ ≠ Vector.zero := by
      intro h
      exact hne ((Vector.sub_eq_zero_iff _ _).mp h)
    exact ⟨_, Vector.Normalize_InPlace_of_ne _ h0, rfl, Vector.Len_scale_inv _ h0⟩

/-- The statement of C12 at the cylinder about the z axis and the hit
`(3, 4, 7)`, and at the sphere about the origin and the hit `(3, 0, 4)`. -/
theorem GetNormal_spec_witness :
    (Vector.dot (⟨0, 0, 1⟩ : Vector ℝ) ⟨0, 0, 1⟩ = 1 ∧
      (∀ α : ℝ, (⟨3, 4, 7⟩ : Vector ℝ)
        ≠ (⟨0, 0, 0⟩ : Vector ℝ).add ((⟨0, 0, 1⟩ : Vector ℝ).scale α)) ∧
      (⟨3, 0, 4⟩ : Vector ℝ) ≠ ⟨0, 0, 0⟩) ∧
    (∃ n : Vector ℝ,
      Cylinder.GetNormal Real.sqrt
        ({ A_ := ⟨0, 0, 0⟩, B_ := ⟨0, 0, 1⟩, radius_ := 5, span_ := -1, color_ := (),
           texture_ := none, texturex_ := Vector.zero,
           texturey_ := Vector.zero } : Cylinder ℝ Unit Unit) ⟨3, 4, 7⟩ = some n ∧
      Vector.Len Real.sqrt n = 1 ∧ n.dot ⟨0, 0, 1⟩ = 0) ∧
    (∃ n : Vector ℝ,
      Sphere.GetNormal Real.sqrt
        ({ center_ := ⟨0, 0, 0⟩, radius_ := 5, color_ := (), texture_ := none,
           texturex_ := Vector.zero, texturey_ := Vector.zero,
           texturez_ := Vector.zero } : Sphere ℝ Unit Unit) ⟨3, 0, 4⟩ = some n ∧
      n = ((⟨3, 0, 4⟩ : Vector ℝ).sub ⟨0, 0, 0⟩).scale
        (1 / Vector.Len Real.sqrt ((⟨3, 0, 4⟩ : Vector ℝ).sub ⟨0, 0, 0⟩)) ∧
      Vector.Len Real.sqrt n = 1) := by
  have hB : Vector.dot (⟨0, 0, 1⟩ : Vector ℝ) ⟨0, 0, 1⟩ = 1 := by
    norm_num [Vector.dot]
  have hoff : ∀ α : ℝ, (⟨3, 4, 7⟩ : Vector ℝ)
      ≠ (⟨0, 0, 0⟩ : Vector ℝ).add ((⟨0, 0, 1⟩ : Vector ℝ).scale α) := by
    intro α h
    simp only [Vector.add, Vector.scale, Vector.mk.injEq] at h
    norm_num at h
  have hs : (⟨3, 0, 4⟩ : Vector ℝ) ≠ ⟨0, 0, 0⟩ := by
    intro h
    simp only [Vector.mk.injEq] at h
    norm_num at h
  have hall := @GetNormal_spec Unit Unit
  refine ⟨⟨hB, hoff, hs⟩, ?_, hall.2 _ ⟨3, 0, 4⟩ hs⟩
  obtain ⟨n, hn, -, hlen, hperp, -⟩ := hall.1
    ({ A_ := ⟨0, 0, 0⟩, B_ := ⟨0, 0, 1⟩, radius_ := 5, span_ := -1, color_ := (),
       texture_ := none, texturex_ := Vector.zero,
       texturey_ := Vector.zero } : Cylinder ℝ Unit Unit) ⟨3, 4, 7⟩ hB hoff
  exact ⟨n, hn, hlen, hperp⟩

/-! ## Untextured primitives -/

theorem Plane_new_untextured {Color Texture : Type} [Inhabited Color]
    (gen : Vector ℝ → Vector ℝ) (center normal : Vector ℝ) (scale : ℝ) (color : Color) :
    ∃ p : Plane ℝ Color Texture,
      Plane.new Real.sqrt gen center normal scale color none = some p ∧
      p.color_ = color ∧ p.texture_ = none := by
  obtain ⟨w, hw⟩ := Vector.Normalize_InPlace_total normal
  simp [Plane.new, Vector.CopyTo_eq, hw]

theorem Cylinder_new_untextured {Color Texture : Type} [Inhabited Color]
    (gen : Vector ℝ → Vector ℝ) (center direction : Vector ℝ) (radius span : ℝ)
    (color : Color) :
    ∃ cy : Cylinder ℝ Color Texture,
      Cylinder.new Real.sqrt gen center direction radius span color none = some cy ∧
      cy.color_ = color ∧ cy.texture_ = none := by
  obtain ⟨w, hw⟩ := Vector.Normalize_InPlace_total direction
  simp [Cylinder.new, Vector.CopyTo_eq, hw]

/-- C13: a plane, sphere or cylinder constructed without a texture returns from
`DetermineColor` exactly the colour passed to its constructor, for every hit
point and every normal, and makes no call of the texture sampler. -/
theorem DetermineColor_untextured {Color Texture : Type} [Inhabited Color]
    (acos sin : ℝ → ℝ) (pi : ℝ) (gen : Vector ℝ → Vector ℝ)
    (GetColor : Texture → ℝ → ℝ → ℝ → Color) (color : Color) :
    (∀ (center normal : Vector ℝ) (scale : ℝ),
      ∃ p : Plane ℝ Color Texture,
        Plane.new Real.sqrt gen center normal scale color none = some p ∧
        ∀ hit : Vector ℝ, p.DetermineColor GetColor hit = (color, [])) ∧
    (∀ (center : Vector ℝ) (radius : ℝ) (axis : Vector ℝ),
      ∃ s : Sphere ℝ Color Texture,
        Sphere.new Real.sqrt gen center radius axis color none = some s ∧
        ∀ normal : Vector ℝ,
          s.DetermineColor acos sin pi GetColor normal = some (color, [])) ∧
    (∀ (center direction : Vector ℝ) (radius span : ℝ),
      ∃ cy : Cylinder ℝ Color Texture,
        Cylinder.new Real.sqrt gen center direction radius span color none = some cy ∧
        ∀ hit normal : Vector ℝ,
          cy.DetermineColor acos pi GetColor hit normal = some (color, [])) := by
  refine ⟨?_, ?_, ?_⟩
  · intro center normal scale
    obtain ⟨p, hp, hcol, htex⟩ :=
      @Plane_new_untextured Color Texture inferInstance gen center normal scale color
    refine ⟨p, hp, ?_⟩
    intro hit
    simp only [Plane.DetermineColor, htex, hcol]
  · intro center radius axis
    refine ⟨_, rfl, ?_⟩
    intro normal
    simp only [Sphere.DetermineColor, Option.pure_def]
  · intro center direction radius span
    obtain ⟨cy, hcy, hcol, htex⟩ :=
      @Cylinder_new_untextured Color Texture inferInstance gen center direction radius span
        color
    refine ⟨cy, hcy, ?_⟩
    intro hit normal
    simp only [Cylinder.DetermineColor, htex, hcol, Option.pure_def]

/-! ## Texture bases -/

theorem Vector.cross_dot_left (u v : Vector ℝ) : (u.cross v).dot u = 0 := by
  simp only [Vector.dot, Vector.cross]
  ring

theorem Vector.cross_dot_right (u v : Vector ℝ) : (u.cross v).dot v = 0 := by
  simp only [Vector.dot, Vector.cross]
  ring

/-- The identity of Lagrange for the cross product. -/
theorem Vector.cross_dot_self (u v : Vector ℝ) :
    (u.cross v).dot (u.cross v) = u.dot u * v.dot v - u.dot v * u.dot v := by
  simp only [Vector.dot, Vector.cross]
  ring

theorem Vector.ne_zero_of_dot_self (v : Vector ℝ) (h : v.dot v ≠ 0) : v ≠ Vector.zero := by
  intro h0
  apply h
  rw [h0]
  simp [Vector.dot, Vector.zero]

/-- The cross product of two orthogonal unit vectors is not zero. -/
theorem Vector.cross_ne_zero (u v : Vector ℝ) (hu : u.dot u = 1) (hv : v.dot v = 1)
    (huv : u.dot v = 0) : u.cross v ≠ Vector.zero := by
  apply Vector.ne_zero_of_dot_self
  rw [Vector.cross_dot_self, hu, hv, huv]
  norm_num

/-- What the normalisation of a non-zero vector keeps: the result has length 1
and is orthogonal to whatever the vector was orthogonal to. -/
theorem Vector.Normalize_InPlace_props (v w : Vector ℝ) (hv : v ≠ Vector.zero)
    (hw : Vector.Normalize_InPlace Real.sqrt v = some w) :
    Vector.Len Real.sqrt w = 1 ∧ w.dot w = 1 ∧ ∀ x : Vector ℝ, v.dot x = 0 → w.dot x = 0 := by
  rw [Vector.Normalize_InPlace_of_ne v hv] at hw
  have hw2 := Option.some.inj hw
  have hlen : Vector.Len Real.sqrt w = 1 := by
    rw [← hw2]
    exact Vector.Len_scale_inv v hv
  refine ⟨hlen, Vector.dot_self_of_Len_eq_one w hlen, ?_⟩
  intro x hx
  rw [← hw2, Vector.scale_dot, hx, zero_mul]

theorem Plane_new_textured {Color Texture : Type} [Inhabited Color]
    (gen : Vector ℝ → Vector ℝ) (center normal : Vector ℝ) (scale : ℝ) (color : Color)
    (tex : Texture) :
    ∃ (p : Plane ℝ Color Texture) (N tx ty : Vector ℝ),
      Plane.new Real.sqrt gen center normal scale color (some tex) = some p ∧
      Vector.Normalize_InPlace Real.sqrt normal = some N ∧
      Vector.Normalize_InPlace Real.sqrt ((gen N).cross N) = some tx ∧
      Vector.Normalize_InPlace Real.sqrt (N.cross tx) = some ty ∧
      p.normal_ = N ∧ p.texturex_ = tx ∧ p.texturey_ = ty := by
  obtain ⟨N, hN⟩ := Vector.Normalize_InPlace_total normal
  obtain ⟨tx, htx⟩ := Vector.Normalize_InPlace_total ((gen N).cross N)
  obtain ⟨ty, hty⟩ := Vector.Normalize_InPlace_total (N.cross tx)
  refine ⟨{ center_ := center, normal_ := N, scale_ := scale, color_ := default,
             texture_ := some tex, texturex_ := tx, texturey_ := ty },
    N, tx, ty, ?_, hN, htx, hty, rfl, rfl, rfl⟩
  simp [Plane.new, Vector.CopyTo_eq, hN, htx, hty]

theorem Sphere_new_textured {Color Texture : Type} [Inhabited Color]
    (gen : Vector ℝ → Vector ℝ) (center : Vector ℝ) (radius : ℝ) (axis : Vector ℝ)
    (color : Color) (tex : Texture) :
    ∃ (s : Sphere ℝ Color Texture) (tx ty tz : Vector ℝ),
      Sphere.new Real.sqrt gen center radius axis color (some tex) = some s ∧
      Vector.Normalize_InPlace Real.sqrt axis = some ty ∧
      Vector.Normalize_InPlace Real.sqrt ((gen ty).cross ty) = some tx ∧
      Vector.Normalize_InPlace Real.sqrt (ty.cross tx) = some tz ∧
      s.texturex_ = tx ∧ s.texturey_ = ty ∧ s.texturez_ = tz := by
  obtain ⟨ty, hty⟩ := Vector.Normalize_InPlace_total axis
  obtain ⟨tx, htx⟩ := Vector.Normalize_InPlace_total ((gen ty).cross ty)
  obtain ⟨tz, htz⟩ := Vector.Normalize_InPlace_total (ty.cross tx)
  refine ⟨{ center_ := center, radius_ := radius, color_ := default, texture_ := some tex,
             texturex_ := tx, texturey_ := ty, texturez_ := tz },
    tx, ty, tz, ?_, hty, htx, htz, rfl, rfl, rfl⟩
  simp [Sphere.new, Vector.CopyTo_eq, hty, htx, htz]

/-- The frame `(x, y)` built from a unit vector `n` and a vector `t` with
`t × n ≠ 0` by `x = normalise (t × n)`, `y = normalise (n × x)` is orthonormal
and orthogonal to `n`. -/
theorem frame_orthonormal (n t x y : Vector ℝ) (hn : n.dot n = 1)
    (ht : t.cross n ≠ Vector.zero)
    (hx : Vector.Normalize_InPlace Real.sqrt (t.cross n) = some x)
    (hy : Vector.Normalize_InPlace Real.sqrt (n.cross x) = some y) :
    Vector.Len Real.sqrt x = 1 ∧ Vector.Len Real.sqrt y = 1 ∧
      x.dot y = 0 ∧ x.dot n = 0 ∧ y.dot n = 0 := by
  obtain ⟨hxlen, hxx, hxperp⟩ := Vector.Normalize_InPlace_props _ x ht hx
  have hxn : x.dot n = 0 := hxperp n (Vector.cross_dot_right t n)
  have hnx : n.dot x = 0 := by rw [Vector.dot_comm, hxn]
  have hne : n.cross x ≠ Vector.zero := Vector.cross_ne_zero n x hn hxx hnx
  obtain ⟨hylen, -, hyperp⟩ := Vector.Normalize_InPlace_props _ y hne hy
  have hyx : y.dot x = 0 := hyperp x (Vector.cross_dot_right n x)
  exact ⟨hxlen, hylen, by rw [Vector.dot_comm, hyx], hxn, hyperp n (Vector.cross_dot_left n x)⟩

/-- C19, amended: over exact reals (no operation rounded), the texture bases
built by the constructors are orthonormal, provided `GenerateUnitVector`
returns a vector not parallel to its receiver (their cross product is not
zero): for a textured plane built from a non-zero normal,
`texturex_` and `texturey_` have length 1, are orthogonal to each other and to
`normal_`; for a textured sphere built from a non-zero axis, `texturex_`,
`texturey_` and `texturez_` have length 1 and are pairwise orthogonal. -/
theorem texture_bases_orthonormal {Color Texture : Type} [Inhabited Color]
    (gen : Vector ℝ → Vector ℝ) :
    (∀ (center normal : Vector ℝ) (scale : ℝ) (color : Color) (tex : Texture),
      normal ≠ Vector.zero →
      (∀ N : Vector ℝ, Vector.Normalize_InPlace Real.sqrt normal = some N →
        (gen N).cross N ≠ Vector.zero) →
      ∃ p : Plane ℝ Color Texture,
        Plane.new Real.sqrt gen center normal scale color (some tex) = some p ∧
        Vector.Len Real.sqrt p.texturex_ = 1 ∧ Vector.Len Real.sqrt p.texturey_ = 1 ∧
        p.texturex_.dot p.texturey_ = 0 ∧
        p.texturex_.dot p.normal_ = 0 ∧ p.texturey_.dot p.normal_ = 0) ∧
    (∀ (center : Vector ℝ) (radius : ℝ) (axis : Vector ℝ) (color : Color) (tex : Texture),
      axis ≠ Vector.zero →
      (∀ N : Vector ℝ, Vector.Normalize_InPlace Real.sqrt axis = some N →
        (gen N).cross N ≠ Vector.zero) →
      ∃ s : Sphere ℝ Color Texture,
        Sphere.new Real.sqrt gen center radius axis color (some tex) = some s ∧
        Vector.Len Real.sqrt s.texturex_ = 1 ∧ Vector.Len Real.sqrt s.texturey_ = 1 ∧
        Vector.Len Real.sqrt s.texturez_ = 1 ∧
        s.texturex_.dot s.texturey_ = 0 ∧ s.texturex_.dot s.texturez_ = 0 ∧
        s.texturey_.dot s.texturez_ = 0) := by
  refine ⟨?_, ?_⟩
  · intro center normal scale color tex hn hgen
    obtain ⟨p, N, tx, ty, hp, hN, htx, hty, h1, h2, h3⟩ :=
      @Plane_new_textured Color Texture inferInstance gen center normal scale color tex
    obtain ⟨-, hNN, -⟩ := Vector.Normalize_InPlace_props normal N hn hN
    obtain ⟨hx, hy, hxy, hxn, hyn⟩ := frame_orthonormal N (gen N) tx ty hNN (hgen N hN) htx hty
    refine ⟨p, hp, ?_, ?_, ?_, ?_, ?_⟩
    · rw [h2]; exact hx
    · rw [h3]; exact hy
    · rw [h2, h3]; exact hxy
    · rw [h2, h1]; exact hxn
    · rw [h3, h1]; exact hyn
  · intro center radius axis color tex ha hgen
    obtain ⟨s, tx, ty, tz, hs, hty, htx, htz, h1, h2, h3⟩ :=
      @Sphere_new_textured Color Texture inferInstance gen center radius axis color tex
    obtain ⟨hylen, hyy, -⟩ := Vector.Normalize_InPlace_props axis ty ha hty
    obtain ⟨hx, hz, hxz, hxy, hzy⟩ :=
      frame_orthonormal ty (gen ty) tx tz hyy (hgen ty hty) htx htz
    refine ⟨s, hs, ?_, ?_, ?_, ?_, ?_, ?_⟩
    · rw [h1]; exact hx
    · rw [h2]; exact hylen
    · rw [h3]; exact hz
    · rw [h1, h2]; exact hxy
    · rw [h1, h3]; exact hxz
    · rw [h2, h3, Vector.dot_comm]; exact hzy

/-- The statement of C19 at the textured plane of normal `(0, 1, 0)` and the
textured sphere of axis `(0, 0, 1)`, with `(1, 0, 0)` as the vector returned by
`GenerateUnitVector`. -/
theorem texture_bases_orthonormal_witness :
    ((⟨0, 1, 0⟩ : Vector ℝ) ≠ Vector.zero ∧ (⟨0, 0, 1⟩ : Vector ℝ) ≠ Vector.zero ∧
      (∀ N : Vector ℝ, Vector.Normalize_InPlace Real.sqrt ⟨0, 1, 0⟩ = some N →
        Vector.cross ⟨1, 0, 0⟩ N ≠ Vector.zero) ∧
      (∀ N : Vector ℝ, Vector.Normalize_InPlace Real.sqrt ⟨0, 0, 1⟩ = some N →
        Vector.cross ⟨1, 0, 0⟩ N ≠ Vector.zero)) ∧
    (∃ p : Plane ℝ Unit Unit,
      Plane.new Real.sqrt (fun _ => ⟨1, 0, 0⟩) ⟨0, 0, 0⟩ ⟨0, 1, 0⟩ 1 () (some ()) = some p ∧
      Vector.Len Real.sqrt p.texturex_ = 1 ∧ Vector.Len Real.sqrt p.texturey_ = 1 ∧
      p.texturex_.dot p.texturey_ = 0 ∧
      p.texturex_.dot p.normal_ = 0 ∧ p.texturey_.dot p.normal_ = 0) ∧
    (∃ s : Sphere ℝ Unit Unit,
      Sphere.new Real.sqrt (fun _ => ⟨1, 0, 0⟩) ⟨0, 0, 0⟩ 1 ⟨0, 0, 1⟩ () (some ()) = some s ∧
      Vector.Len Real.sqrt s.texturex_ = 1 ∧ Vector.Len Real.sqrt s.texturey_ = 1 ∧
      Vector.Len Real.sqrt s.texturez_ = 1 ∧
      s.texturex_.dot s.texturey_ = 0 ∧ s.texturex_.dot s.texturez_ = 0 ∧
      s.texturey_.dot s.texturez_ = 0) := by
  have hp : (⟨0, 1, 0⟩ : Vector ℝ) ≠ Vector.zero := by simp [Vector.zero]
  have hs : (⟨0, 0, 1⟩ : Vector ℝ) ≠ Vector.zero := by simp [Vector.zero]
  have hgp : ∀ N : Vector ℝ, Vector.Normalize_InPlace Real.sqrt ⟨0, 1, 0⟩ = some N →
      Vector.cross ⟨1, 0, 0⟩ N ≠ Vector.zero := by
    intro N hN
    rw [Vector.Normalize_InPlace_of_ne _ hp] at hN
    rw [← Option.some.inj hN]
    simp [Vector.Len, Vector.scale, Vector.cross, Vector.zero]
  have hgs : ∀ N : Vector ℝ, Vector.Normalize_InPlace Real.sqrt ⟨0, 0, 1⟩ = some N →
      Vector.cross ⟨1, 0, 0⟩ N ≠ Vector.zero := by
    intro N hN
    rw [Vector.Normalize_InPlace_of_ne _ hs] at hN
    rw [← Option.some.inj hN]
    simp [Vector.Len, Vector.scale, Vector.cross, Vector.zero]
  have hall := @texture_bases_orthonormal Unit Unit inferInstance (fun _ => ⟨1, 0, 0⟩)
  exact ⟨⟨hp, hs, hgp, hgs⟩, hall.1 ⟨0, 0, 0⟩ ⟨0, 1, 0⟩ 1 () () hp hgp,
    hall.2 ⟨0, 0, 0⟩ 1 ⟨0, 0, 1⟩ () () hs hgs⟩

/-! ## Loops -/

theorem forLoop_add {ρ σ : Type} (body : Nat → σ → Flow ρ σ) (m n : Nat) :
    ∀ (i : Nat) (s : σ), forLoop body (m + n) i s
      = match forLoop body m i s with
        | Flow.next s' => forLoop body n (i + m) s'
        | Flow.ret r => Flow.ret r
        | Flow.fault => Flow.fault := by
  induction m with
  | zero =>
    intro i s
    simp [forLoop]
  | succ m ih =>
    intro i s
    rw [Nat.succ_add]
    simp only [forLoop]
    cases hb : body i s with
    | next s' =>
      simp only []
      rw [ih (i + 1) s']
      have : i + 1 + m = i + (m + 1) := by omega
      rw [this]
    | ret r => rfl
    | fault => rfl

/-- An invariant of the rounds of a loop holds when the loop is through. -/
theorem forLoop_inv {ρ σ : Type} (body : Nat → σ → Flow ρ σ) (P : Nat → σ → Prop)
    (hstep : ∀ (i : Nat) (s s' : σ), P i s → body i s = Flow.next s' → P (i + 1) s') :
    ∀ (count i : Nat) (s s' : σ), P i s → forLoop body count i s = Flow.next s' →
      P (i + count) s' := by
  intro count
  induction count with
  | zero =>
    intro i s s' hP h
    simp only [forLoop, Flow.next.injEq] at h
    rw [← h]
    exact hP
  | succ count ih =>
    intro i s s' hP h
    simp only [forLoop] at h
    cases hb : body i s with
    | next s1 =>
      rw [hb] at h
      have := ih (i + 1) s1 s' (hstep i s s1 hP hb) h
      have e : i + 1 + count = i + (count + 1) := by omega
      rw [e] at this
      exact this
    | ret r => rw [hb] at h; cases h
    | fault => rw [hb] at h; cases h

/-- A loop that is through has been through each of its rounds. -/
theorem forLoop_round {ρ σ : Type} (body : Nat → σ → Flow ρ σ) (count i : Nat) (s s' : σ)
    (h : forLoop body count i s = Flow.next s') (m : Nat) (hm : m < count) :
    ∃ s1 s2 : σ, forLoop body m i s = Flow.next s1 ∧ body (i + m) s1 = Flow.next s2 ∧
      forLoop body (count - (m + 1)) (i + m + 1) s2 = Flow.next s' := by
  have e : count = m + (1 + (count - (m + 1))) := by omega
  rw [e, forLoop_add] at h
  cases h1 : forLoop body m i s with
  | next s1 =>
    rw [h1] at h
    simp only [] at h
    rw [forLoop_add] at h
    simp only [forLoop] at h
    cases h2 : body (i + m) s1 with
    | next s2 =>
      rw [h2] at h
      simp only [] at h
      exact ⟨s1, s2, rfl, h2, h⟩
    | ret r => rw [h2] at h; cases h
    | fault => rw [h2] at h; cases h
  | ret r => rw [h1] at h; cases h
  | fault => rw [h1] at h; cases h

/-! ## Bit masks -/

theorem CHECK_BIT_zero (k : Nat) : CHECK_BIT 0 k = false := by
  simp [CHECK_BIT]

theorem CHECK_BIT_or_MAKE_MASK (m : Bitmask_t) (j k : Nat) :
    CHECK_BIT (m ||| MAKE_MASK j) k = (CHECK_BIT m k || decide (j = k)) := by
  simp only [CHECK_BIT, MAKE_MASK]
  rw [Nat.testBit_or, Nat.one_shiftLeft, Nat.testBit_two_pow]

/-! ## The search for a parameter -/

theorem findParameter_some (ps : List MotifParameter) (label : String) (j : Nat)
    (p : MotifParameter) (h : findParameter ps label = some (j, p)) :
    ps.get? j = some p ∧ p.label = label := by
  induction ps generalizing j with
  | nil => simp [findParameter] at h
  | cons q rest ih =>
    simp only [findParameter] at h
    by_cases hq : q.label = label
    · rw [if_pos hq] at h
      simp only [Option.some.injEq, Prod.mk.injEq] at h
      obtain ⟨rfl, rfl⟩ := h
      exact ⟨rfl, hq⟩
    · rw [if_neg hq] at h
      cases hr : findParameter rest label with
      | none => rw [hr] at h; simp at h
      | some r =>
        rw [hr] at h
        simp only [Option.map_some', Option.some.injEq, Prod.mk.injEq] at h
        obtain ⟨rfl, rfl⟩ := h
        obtain ⟨h1, h2⟩ := ih r.1 (by rw [hr])
        exact ⟨by simpa using h1, h2⟩

theorem findParameter_none (ps : List MotifParameter) (label : String)
    (h : findParameter ps label = none) : ∀ p ∈ ps, p.label ≠ label := by
  induction ps with
  | nil => simp
  | cons q rest ih =>
    simp only [findParameter] at h
    by_cases hq : q.label = label
    · rw [if_pos hq] at h
      cases h
    · rw [if_neg hq] at h
      have hr : findParameter rest label = none := by
        cases hr : findParameter rest label with
        | none => rfl
        | some r => rw [hr] at h; simp at h
      intro p hp
      rcases List.mem_cons.mp hp with rfl | hp
      · exact hq
      · exact ih hr p hp

/-! ## One parameter line -/

/-- What a round over a parameter line that does not return has found. -/
theorem CreateEntry.collectible_next {K : Type} [LinearOrderedField K]
    (strtod : String → Option K) (fileGood : String → Bool) (motif : MotifEntry)
    (collect : Nat → Nat → String) (sizes : Nat → Nat) (i : Nat) (st st' : CreateState K)
    (h : CreateEntry.collectible strtod fileGood motif collect sizes i st = Flow.next st') :
    ∃ (j : Nat) (parameter : MotifParameter),
      findParameter (motif.parameters.take motif.nparameters) (collect i 0)
        = some (j, parameter) ∧
      CHECK_BIT st.checklist j = false ∧
      CreateEntry.conflict motif j parameter (st.checklist ||| MAKE_MASK j) = false ∧
      sizes i = (if CHECK_BIT parameter.flags flagVector then 4 else 2) ∧
      st'.checklist = st.checklist ||| MAKE_MASK j ∧
      ((CHECK_BIT parameter.flags flagText = false ∧
          ∃ output : Nat → K,
            ConvertTokens strtod (fun t => collect i (t + 1))
              ((if CHECK_BIT parameter.flags flagVector then 4 else 2) - 1) 0 st.output
              = (true, output) ∧
            CreateEntry.valid parameter.flags output
              ((if CHECK_BIT parameter.flags flagVector then 4 else 2) - 1) = true ∧
            st'.entry = st.entry.AddNumerical (collect i 0) output
              ((if CHECK_BIT parameter.flags flagVector then 4 else 2) - 1)) ∨
       (CHECK_BIT parameter.flags flagText = true ∧
          ∃ filename : String,
            CheckFilename fileGood (collect i 1) st.filename (some "png")
              = some (true, filename) ∧
            st'.entry = st.entry.AddTextual (collect i 0) (fun _ => filename) 1)) := by
  unfold CreateEntry.collectible at h
  simp only [] at h
  cases hfind : findParameter (motif.parameters.take motif.nparameters) (collect i 0) with
  | none =>
    rw [hfind] at h
    cases h
  | some jp =>
    obtain ⟨j, parameter⟩ := jp
    rw [hfind] at h
    simp only [] at h
    refine ⟨j, parameter, rfl, ?_⟩
    generalize (if CHECK_BIT parameter.flags flagVector = true then 4 else 2) = nt at h ⊢
    by_cases hbit : CHECK_BIT st.checklist j = true
    · rw [if_pos hbit] at h
      cases h
    · rw [if_neg hbit] at h
      by_cases hconf : CreateEntry.conflict motif j parameter (st.checklist ||| MAKE_MASK j) = true
      · rw [if_pos hconf] at h
        cases h
      · rw [if_neg hconf] at h
        by_cases hsize : sizes i ≠ nt
        · rw [if_pos hsize] at h
          cases h
        · rw [if_neg hsize] at h
          refine ⟨by simpa using hbit, by simpa using hconf, by simpa using hsize, ?_⟩
          by_cases htext : ¬ CHECK_BIT parameter.flags flagText = true
          · rw [if_pos htext] at h
            cases hconv : ConvertTokens strtod (fun t => collect i (t + 1)) (nt - 1) 0 st.output with
            | mk ok output =>
              rw [hconv] at h
              cases ok with
              | false => cases h
              | true =>
                simp only [] at h
                by_cases hvalid : CreateEntry.valid parameter.flags output (nt - 1) = true
                · rw [if_pos hvalid] at h
                  simp only [Flow.next.injEq] at h
                  subst h
                  exact ⟨rfl, Or.inl ⟨by simpa using htext, output, rfl, hvalid, rfl⟩⟩
                · rw [if_neg hvalid] at h
                  cases h
          · rw [if_neg htext] at h
            cases hfile : CheckFilename fileGood (collect i 1) st.filename (some "png") with
            | none =>
              rw [hfile] at h
              cases h
            | some r =>
              obtain ⟨ok, filename⟩ := r
              rw [hfile] at h
              cases ok with
              | false => cases h
              | true =>
                simp only [Flow.next.injEq] at h
                subst h
                exact ⟨rfl, Or.inr ⟨by simpa using htext, filename, rfl, rfl⟩⟩

theorem get?_of_take {α : Type} (l : List α) (n j : Nat) (p : α)
    (h : (l.take n).get? j = some p) : l.get? j = some p ∧ j < n := by
  rw [List.get?_eq_getElem?, List.getElem?_take] at h
  split at h
  · exact ⟨by rw [List.get?_eq_getElem?]; exact h, by assumption⟩
  · cases h

/-! ## The conversion of tokens -/

/-- A conversion that succeeds has converted each token; it leaves the rest
of `out` as it was. -/
theorem ConvertTokens_true {K : Type} (strtod : String → Option K) (tokens : Nat → String) :
    ∀ (n i : Nat) (out out' : Nat → K),
      ConvertTokens strtod tokens n i out = (true, out') →
      (∀ c : Nat, i ≤ c → c < i + n → strtod (tokens c) = some (out' c)) ∧
      (∀ c : Nat, c < i ∨ i + n ≤ c → out' c = out c) := by
  intro n
  induction n with
  | zero =>
    intro i out out' h
    simp only [ConvertTokens, Prod.mk.injEq, true_and] at h
    subst h
    exact ⟨fun c h1 h2 => by omega, fun c _ => rfl⟩
  | succ n ih =>
    intro i out out' h
    simp only [ConvertTokens] at h
    cases hs : strtod (tokens i) with
    | none =>
      rw [hs] at h
      simp at h
    | some v =>
      rw [hs] at h
      simp only [] at h
      obtain ⟨h1, h2⟩ := ih (i + 1) _ out' h
      refine ⟨?_, ?_⟩
      · intro c hc1 hc2
        by_cases hci : c = i
        · subst hci
          rw [h2 c (Or.inl (by omega)), if_pos rfl, hs]
        · exact h1 c (by omega) (by omega)
      · intro c hc
        rw [h2 c (by omega)]
        have : c ≠ i := by omega
        rw [if_neg this]

theorem any_range_congr (n : Nat) (p q : Nat → Bool) (h : ∀ j < n, p j = q j) :
    (List.range n).any p = (List.range n).any q := by
  rw [Bool.eq_iff_iff, List.any_eq_true, List.any_eq_true]
  constructor
  · rintro ⟨j, hj, hp⟩
    exact ⟨j, hj, by rw [← h j (List.mem_range.mp hj)]; exact hp⟩
  · rintro ⟨j, hj, hq⟩
    exact ⟨j, hj, by rw [h j (List.mem_range.mp hj)]; exact hq⟩

/-- The check of the values reads the first `n` components only. -/
theorem CreateEntry.valid_congr {K : Type} [LinearOrderedField K] (flags : Bitmask_t)
    (f g : Nat → K) (n : Nat) (h : ∀ j < n, f j = g j) :
    CreateEntry.valid flags f n = CreateEntry.valid flags g n := by
  have h1 : (List.range n).any (fun j => decide (f j ≠ 0))
      = (List.range n).any (fun j => decide (g j ≠ 0)) := by
    apply any_range_congr
    intro j hj
    simp only [h j hj]
  have h2 : (List.range n).any (fun j => decide (f j > 0))
      = (List.range n).any (fun j => decide (g j > 0)) := by
    apply any_range_congr
    intro j hj
    simp only [h j hj]
  have h3 : (List.range n).any (fun j => decide (f j ≥ 0) && decide (f j ≤ 1))
      = (List.range n).any (fun j => decide (g j ≥ 0) && decide (g j ≤ 1)) := by
    apply any_range_congr
    intro j hj
    simp only [h j hj]
  simp only [CreateEntry.valid, h1, h2, h3]

/-! ## The loop over the parameter lines -/

/-- The bits of the checklist after the loop over the parameter lines are
those of before and the indices of the parameters the lines name. -/
theorem CreateEntry.collectibles_bits {K : Type} [LinearOrderedField K]
    (strtod : String → Option K) (fileGood : String → Bool) (motif : MotifEntry)
    (collect : Nat → Nat → String) (sizes : Nat → Nat) (count : Nat) (st0 st : CreateState K)
    (h : forLoop (CreateEntry.collectible strtod fileGood motif collect sizes) count 0 st0
      = Flow.next st) (k : Nat) :
    CHECK_BIT st.checklist k = true ↔
      (CHECK_BIT st0.checklist k = true ∨ ∃ i < count, ∃ p : MotifParameter,
        findParameter (motif.parameters.take motif.nparameters) (collect i 0) = some (k, p)) := by
  have key := forLoop_inv (CreateEntry.collectible strtod fileGood motif collect sizes)
    (fun i s => ∀ k : Nat, CHECK_BIT s.checklist k = true ↔
      (CHECK_BIT st0.checklist k = true ∨ ∃ i' < i, ∃ p : MotifParameter,
        findParameter (motif.parameters.take motif.nparameters) (collect i' 0) = some (k, p)))
    (by
      intro i s s' hP hb k
      obtain ⟨j, parameter, hfind, -, -, -, hck, -⟩ :=
        CreateEntry.collectible_next strtod fileGood motif collect sizes i s s' hb
      rw [hck, CHECK_BIT_or_MAKE_MASK, Bool.or_eq_true, hP k, decide_eq_true_eq]
      constructor
      · rintro ((h0 | ⟨i', hi', p, hp⟩) | hjk)
        · exact Or.inl h0
        · exact Or.inr ⟨i', by omega, p, hp⟩
        · subst hjk
          exact Or.inr ⟨i, by omega, parameter, hfind⟩
      · rintro (h0 | ⟨i', hi', p, hp⟩)
        · exact Or.inl (Or.inl h0)
        · by_cases hii : i' = i
          · subst hii
            rw [hfind] at hp
            simp only [Option.some.injEq, Prod.mk.injEq] at hp
            exact Or.inr hp.1
          · exact Or.inl (Or.inr ⟨i', by omega, p, hp⟩))
    count 0 st0 st
    (by
      intro k
      constructor
      · intro h0
        exact Or.inl h0
      · rintro (h0 | ⟨i', hi', -⟩)
        · exact h0
        · omega)
    h
  simpa using key k

/-- What the loop over the parameter lines has written to the entry: one row
for each line, in their order, under the label of the line; the numbers of a
row are the converted tokens of the line and pass the check of its parameter. -/
theorem CreateEntry.collectibles_rows {K : Type} [LinearOrderedField K]
    (strtod : String → Option K) (fileGood : String → Bool) (motif : MotifEntry)
    (collect : Nat → Nat → String) (sizes : Nat → Nat) (count : Nat) (st0 st : CreateState K)
    (h : forLoop (CreateEntry.collectible strtod fileGood motif collect sizes) count 0 st0
      = Flow.next st) :
    st.entry.npar_ = st0.entry.npar_ + count ∧ st.entry.id_ = st0.entry.id_ ∧
    ∀ i < count, st.entry.keys_ (st0.entry.npar_ + i) = collect i 0 ∧
      ∃ (j : Nat) (p : MotifParameter),
        findParameter (motif.parameters.take motif.nparameters) (collect i 0) = some (j, p) ∧
        sizes i = (if CHECK_BIT p.flags flagVector then 4 else 2) ∧
        (CHECK_BIT p.flags flagText = false →
          CreateEntry.valid p.flags (st.entry.real_ (st0.entry.npar_ + i))
            ((if CHECK_BIT p.flags flagVector then 4 else 2) - 1) = true ∧
          ∀ c < (if CHECK_BIT p.flags flagVector then 4 else 2) - 1,
            strtod (collect i (c + 1)) = some (st.entry.real_ (st0.entry.npar_ + i) c)) ∧
        (CHECK_BIT p.flags flagText = true →
          ∃ old : String, CheckFilename fileGood (collect i 1) old (some "png")
            = some (true, st.entry.text_ (st0.entry.npar_ + i) 0)) := by
  have key := forLoop_inv (CreateEntry.collectible strtod fileGood motif collect sizes)
    (fun n s => s.entry.npar_ = st0.entry.npar_ + n ∧ s.entry.id_ = st0.entry.id_ ∧
      ∀ i < n, s.entry.keys_ (st0.entry.npar_ + i) = collect i 0 ∧
        ∃ (j : Nat) (p : MotifParameter),
          findParameter (motif.parameters.take motif.nparameters) (collect i 0) = some (j, p) ∧
          sizes i = (if CHECK_BIT p.flags flagVector then 4 else 2) ∧
          (CHECK_BIT p.flags flagText = false →
            CreateEntry.valid p.flags (s.entry.real_ (st0.entry.npar_ + i))
              ((if CHECK_BIT p.flags flagVector then 4 else 2) - 1) = true ∧
            ∀ c < (if CHECK_BIT p.flags flagVector then 4 else 2) - 1,
              strtod (collect i (c + 1)) = some (s.entry.real_ (st0.entry.npar_ + i) c)) ∧
          (CHECK_BIT p.flags flagText = true →
            ∃ old : String, CheckFilename fileGood (collect i 1) old (some "png")
              = some (true, s.entry.text_ (st0.entry.npar_ + i) 0)))
    (by
      intro n s s' hP hb
      obtain ⟨hnpar, hid, hrows⟩ := hP
      obtain ⟨j, parameter, hfind, -, -, hsize, -, hcase⟩ :=
        CreateEntry.collectible_next strtod fileGood motif collect sizes n s s' hb
      rcases hcase with ⟨htext, output, hconv, hvalid, hentry⟩ | ⟨htext, filename, hfile, hentry⟩
      · refine ⟨by rw [hentry]; simp only [Entry.AddNumerical]; omega,
          by rw [hentry]; exact hid, ?_⟩
        intro i hi
        by_cases hin : i = n
        · subst hin
          refine ⟨by rw [hentry]; simp only [Entry.AddNumerical, hnpar, if_true],
            j, parameter, hfind, hsize, ?_, ?_⟩
          · intro _
            have hrow : ∀ c < (if CHECK_BIT parameter.flags flagVector then 4 else 2) - 1,
                s'.entry.real_ (st0.entry.npar_ + i) c = output c := by
              intro c hc
              rw [hentry]
              simp only [Entry.AddNumerical, hnpar, true_and, hc, if_true]
            refine ⟨?_, ?_⟩
            · rw [CreateEntry.valid_congr _ _ output _ hrow]
              exact hvalid
            · intro c hc
              rw [hrow c hc]
              have := (ConvertTokens_true strtod (fun t => collect i (t + 1)) _ 0 _ _ hconv).1 c
                (Nat.zero_le c) (by omega)
              exact this
          · intro ht
            rw [htext] at ht
            cases ht
        · obtain ⟨hk, j', p', hf', hs', hnum, htxt⟩ := hrows i (by omega)
          have hne : st0.entry.npar_ + i ≠ s.entry.npar_ := by omega
          refine ⟨by rw [hentry]; simp only [Entry.AddNumerical, hne, if_false]; exact hk,
            j', p', hf', hs', ?_, ?_⟩
          · intro ht
            obtain ⟨hv, hc⟩ := hnum ht
            have hrow : ∀ c : Nat, s'.entry.real_ (st0.entry.npar_ + i) c
                = s.entry.real_ (st0.entry.npar_ + i) c := by
              intro c
              rw [hentry]
              simp only [Entry.AddNumerical, hne, false_and, if_false]
            refine ⟨?_, ?_⟩
            · rw [CreateEntry.valid_congr _ _ _ _ (fun c _ => hrow c)]
              exact hv
            · intro c hcc
              rw [hrow c]
              exact hc c hcc
          · intro ht
            obtain ⟨old, hold⟩ := htxt ht
            refine ⟨old, ?_⟩
            rw [hentry]
            simp only [Entry.AddNumerical]
            exact hold
      · refine ⟨by rw [hentry]; simp only [Entry.AddTextual]; omega,
          by rw [hentry]; exact hid, ?_⟩
        intro i hi
        by_cases hin : i = n
        · subst hin
          refine ⟨by rw [hentry]; simp only [Entry.AddTextual, hnpar, if_true],
            j, parameter, hfind, hsize, ?_, ?_⟩
          · intro hf
            rw [htext] at hf
            cases hf
          · intro _
            refine ⟨s.filename, ?_⟩
            rw [hentry]
            simp only [Entry.AddTextual, hnpar, true_and, Nat.lt_one_iff, if_true]
            exact hfile
        · obtain ⟨hk, j', p', hf', hs', hnum, htxt⟩ := hrows i (by omega)
          have hne : st0.entry.npar_ + i ≠ s.entry.npar_ := by omega
          refine ⟨by rw [hentry]; simp only [Entry.AddTextual, hne, if_false]; exact hk,
            j', p', hf', hs', ?_, ?_⟩
          · intro ht
            obtain ⟨hv, hc⟩ := hnum ht
            rw [hentry]
            simp only [Entry.AddTextual]
            exact ⟨hv, hc⟩
          · intro ht
            obtain ⟨old, hold⟩ := htxt ht
            refine ⟨old, ?_⟩
            rw [hentry]
            simp only [Entry.AddTextual, hne, false_and, if_false]
            exact hold)
    count 0 st0 st
    ⟨by omega, rfl, fun i hi => by omega⟩
    h
  simpa using key

/-- The checklist after the loop over the parameter lines marks no two
parameters that replace each other. -/
theorem CreateEntry.collectibles_exclusive {K : Type} [LinearOrderedField K]
    (strtod : String → Option K) (fileGood : String → Bool) (motif : MotifEntry)
    (collect : Nat → Nat → String) (sizes : Nat → Nat) (count : Nat) (st0 st : CreateState K)
    (h0 : st0.checklist = 0)
    (h : forLoop (CreateEntry.collectible strtod fileGood motif collect sizes) count 0 st0
      = Flow.next st)
    (j k : Nat) (pj pk : MotifParameter) (hj : motif.parameters.get? j = some pj)
    (hk : motif.parameters.get? k = some pk) (hjn : j < motif.nparameters)
    (hkn : k < motif.nparameters) (hjk : j ≠ k)
    (hbj : CHECK_BIT st.checklist j = true) (hbk : CHECK_BIT st.checklist k = true) :
    ¬ (pj.replace = pk.id ∧ pk.replace = pj.id) := by
  have key := forLoop_inv (CreateEntry.collectible strtod fileGood motif collect sizes)
    (fun _ s => ∀ (j k : Nat) (pj pk : MotifParameter), motif.parameters.get? j = some pj →
      motif.parameters.get? k = some pk → j < motif.nparameters → k < motif.nparameters →
      j ≠ k → CHECK_BIT s.checklist j = true →
      CHECK_BIT s.checklist k = true → ¬ (pj.replace = pk.id ∧ pk.replace = pj.id))
    (by
      intro i s s' hP hb j k pj pk hj hk hjn hkn hjk hbj hbk
      obtain ⟨j0, parameter, hfind, -, hconf, -, hck, -⟩ :=
        CreateEntry.collectible_next strtod fileGood motif collect sizes i s s' hb
      obtain ⟨hget, hlt⟩ := get?_of_take _ _ _ _ (findParameter_some _ _ _ _ hfind).1
      have hno : ∀ (k : Nat) (pk : MotifParameter), motif.parameters.get? k = some pk →
          k < motif.nparameters → j0 ≠ k → CHECK_BIT s'.checklist k = true →
          parameter.replace ≠ pk.id := by
        intro k pk hk hklt hne hbit heq
        have := List.any_eq_false.mp hconf k (List.mem_range.mpr hklt)
        rw [hk] at this
        simp only [Bool.and_eq_true, decide_eq_true_eq, not_and] at this
        rw [← hck] at this
        exact this ⟨hne, heq⟩ hbit
      rw [hck, CHECK_BIT_or_MAKE_MASK, Bool.or_eq_true, decide_eq_true_eq] at hbj hbk
      rcases hbj with hbj | hbj
      · rcases hbk with hbk | hbk
        · exact hP j k pj pk hj hk hjn hkn hjk hbj hbk
        · subst hbk
          rw [hget] at hk
          cases hk
          intro hc
          exact hno j pj hj hjn (Ne.symm hjk) (by
            rw [hck, CHECK_BIT_or_MAKE_MASK, hbj]; rfl) hc.2
      · subst hbj
        rw [hget] at hj
        cases hj
        intro hc
        have hbk' : CHECK_BIT s'.checklist k = true := by
          rw [hck, CHECK_BIT_or_MAKE_MASK, Bool.or_eq_true, decide_eq_true_eq]
          exact hbk
        exact hno k pk hk hkn hjk hbk' hc.1)
    count 0 st0 st
    (by
      intro j k pj pk _ _ _ _ _ hbj _
      rw [h0, CHECK_BIT_zero] at hbj
      cases hbj)
    h
  exact key j k pj pk hj hk hjn hkn hjk hbj hbk

/-! ## The loop over the parameters of the motif -/

/-- What a round over a parameter of the motif that does not return has
done: nothing when the parameter is marked or its alternative is; it has added
the defaults when the parameter is optional and not marked. -/
theorem CreateEntry.parameter_next {K : Type} [LinearOrderedField K]
    (strtod : String → Option K) (motif : MotifEntry) (i : Nat) (st st' : CreateState K)
    (h : CreateEntry.parameter strtod motif i st = Flow.next st') :
    ∃ p : MotifParameter, motif.parameters.get? i = some p ∧
      st'.checklist = st.checklist ∧
      ((CHECK_BIT st.checklist i = true ∧ st'.entry = st.entry) ∨
       (CHECK_BIT st.checklist i = false ∧ CHECK_BIT p.flags flagOptional = false ∧
          p.replace ≠ 0 ∧
          CHECK_BIT st.checklist (CreateEntry.alternative motif i p) = true ∧
          st'.entry = st.entry) ∨
       (CHECK_BIT st.checklist i = false ∧ CHECK_BIT p.flags flagOptional = true ∧
          ∃ (b : Bool) (tokens : Nat → String) (ntokens : Nat),
            TokenizeLine p.defaults MAX_COMPONENTS MAX_COMPONENTS st.tokens st.ntokens
              = some (b, tokens, ntokens) ∧
            ((CHECK_BIT p.flags flagText = false ∧
                st'.entry = st.entry.AddNumerical p.label
                  (ConvertTokens strtod tokens ntokens 0 st.output).2 ntokens) ∨
             (CHECK_BIT p.flags flagText = true ∧
                st'.entry = st.entry.AddTextual p.label tokens ntokens)))) := by
  unfold CreateEntry.parameter at h
  cases hget : motif.parameters.get? i with
  | none =>
    rw [hget] at h
    cases h
  | some p =>
    rw [hget] at h
    simp only [] at h
    refine ⟨p, rfl, ?_⟩
    by_cases hbit : CHECK_BIT st.checklist i = true
    · rw [if_neg (not_not.mpr hbit)] at h
      simp only [Flow.next.injEq] at h
      subst h
      exact ⟨rfl, Or.inl ⟨hbit, rfl⟩⟩
    · rw [if_pos hbit] at h
      have hbit' : CHECK_BIT st.checklist i = false := by simpa using hbit
      by_cases hopt : CHECK_BIT p.flags flagOptional = true
      · rw [if_pos hopt] at h
        cases htok : TokenizeLine p.defaults MAX_COMPONENTS MAX_COMPONENTS st.tokens st.ntokens with
        | none =>
          rw [htok] at h
          cases h
        | some r =>
          obtain ⟨b, tokens, ntokens⟩ := r
          rw [htok] at h
          simp only [] at h
          by_cases htext : ¬ CHECK_BIT p.flags flagText = true
          · rw [if_pos htext] at h
            simp only [Flow.next.injEq] at h
            subst h
            exact ⟨rfl, Or.inr (Or.inr ⟨hbit', hopt, b, tokens, ntokens, rfl,
              Or.inl ⟨by simpa using htext, rfl⟩⟩)⟩
          · rw [if_neg htext] at h
            simp only [Flow.next.injEq] at h
            subst h
            exact ⟨rfl, Or.inr (Or.inr ⟨hbit', hopt, b, tokens, ntokens, rfl,
              Or.inr ⟨by simpa using htext, rfl⟩⟩)⟩
      · rw [if_neg hopt] at h
        by_cases hrep : p.replace ≠ 0
        · rw [if_pos hrep] at h
          by_cases halt : ¬ CHECK_BIT st.checklist (CreateEntry.alternative motif i p) = true
          · rw [if_pos halt] at h
            cases h
          · rw [if_neg halt] at h
            simp only [Flow.next.injEq] at h
            subst h
            exact ⟨rfl, Or.inr (Or.inl ⟨hbit', by simpa using hopt, hrep,
              by simpa using halt, rfl⟩)⟩
        · rw [if_neg hrep] at h
          cases h

/-- The loop over the parameters of the motif, when it is through: the
checklist is as before; every parameter is marked, or optional, or has its
alternative marked; the rows of the entry that were there are as before; and
the defaults of every optional parameter that is not marked are in a row of
their own, under its label. -/
theorem CreateEntry.parameters_through {K : Type} [LinearOrderedField K]
    (strtod : String → Option K) (motif : MotifEntry) (count : Nat) (st1 st2 : CreateState K)
    (h : forLoop (CreateEntry.parameter strtod motif) count 0 st1 = Flow.next st2) :
    st2.checklist = st1.checklist ∧ st2.entry.id_ = st1.entry.id_ ∧
    st1.entry.npar_ ≤ st2.entry.npar_ ∧
    (∀ k < st1.entry.npar_, st2.entry.keys_ k = st1.entry.keys_ k ∧
      st2.entry.real_ k = st1.entry.real_ k ∧ st2.entry.text_ k = st1.entry.text_ k) ∧
    (∀ i < count, ∃ p : MotifParameter, motif.parameters.get? i = some p ∧
      (CHECK_BIT st1.checklist i = true ∨ CHECK_BIT p.flags flagOptional = true ∨
        (p.replace ≠ 0 ∧ CHECK_BIT st1.checklist (CreateEntry.alternative motif i p) = true))) ∧
    (∀ k : Nat, st1.entry.npar_ ≤ k → k < st2.entry.npar_ →
      ∃ i < count, ∃ p : MotifParameter, motif.parameters.get? i = some p ∧
        CHECK_BIT st1.checklist i = false ∧ CHECK_BIT p.flags flagOptional = true ∧
        st2.entry.keys_ k = p.label) ∧
    (∀ i < count, ∀ p : MotifParameter, motif.parameters.get? i = some p →
      CHECK_BIT st1.checklist i = false → CHECK_BIT p.flags flagOptional = true →
      ∃ k : Nat, st1.entry.npar_ ≤ k ∧ k < st2.entry.npar_ ∧ st2.entry.keys_ k = p.label ∧
        ∃ (s : CreateState K) (b : Bool) (tokens : Nat → String) (ntokens : Nat),
          TokenizeLine p.defaults MAX_COMPONENTS MAX_COMPONENTS s.tokens s.ntokens
            = some (b, tokens, ntokens) ∧
          (CHECK_BIT p.flags flagText = false → ∀ c < ntokens,
            st2.entry.real_ k c = (ConvertTokens strtod tokens ntokens 0 s.output).2 c) ∧
          (CHECK_BIT p.flags flagText = true → ∀ c < ntokens,
            st2.entry.text_ k c = tokens c)) := by
  have key := forLoop_inv (CreateEntry.parameter strtod motif)
    (fun n s2 => s2.checklist = st1.checklist ∧ s2.entry.id_ = st1.entry.id_ ∧
      st1.entry.npar_ ≤ s2.entry.npar_ ∧
      (∀ k < st1.entry.npar_, s2.entry.keys_ k = st1.entry.keys_ k ∧
        s2.entry.real_ k = st1.entry.real_ k ∧ s2.entry.text_ k = st1.entry.text_ k) ∧
      (∀ i < n, ∃ p : MotifParameter, motif.parameters.get? i = some p ∧
        (CHECK_BIT st1.checklist i = true ∨ CHECK_BIT p.flags flagOptional = true ∨
          (p.replace ≠ 0 ∧
            CHECK_BIT st1.checklist (CreateEntry.alternative motif i p) = true))) ∧
      (∀ k : Nat, st1.entry.npar_ ≤ k → k < s2.entry.npar_ →
        ∃ i < n, ∃ p : MotifParameter, motif.parameters.get? i = some p ∧
          CHECK_BIT st1.checklist i = false ∧ CHECK_BIT p.flags flagOptional = true ∧
          s2.entry.keys_ k = p.label) ∧
      (∀ i < n, ∀ p : MotifParameter, motif.parameters.get? i = some p →
        CHECK_BIT st1.checklist i = false → CHECK_BIT p.flags flagOptional = true →
        ∃ k : Nat, st1.entry.npar_ ≤ k ∧ k < s2.entry.npar_ ∧ s2.entry.keys_ k = p.label ∧
          ∃ (s : CreateState K) (b : Bool) (tokens : Nat → String) (ntokens : Nat),
            TokenizeLine p.defaults MAX_COMPONENTS MAX_COMPONENTS s.tokens s.ntokens
              = some (b, tokens, ntokens) ∧
            (CHECK_BIT p.flags flagText = false → ∀ c < ntokens,
              s2.entry.real_ k c = (ConvertTokens strtod tokens ntokens 0 s.output).2 c) ∧
            (CHECK_BIT p.flags flagText = true → ∀ c < ntokens,
              s2.entry.text_ k c = tokens c)))
    (by
      intro n s s' hP hb
      obtain ⟨hck, hid, hle, hold, hall, hnew, hdef⟩ := hP
      obtain ⟨p, hget, hck', hcase⟩ := CreateEntry.parameter_next strtod motif n s s' hb
      have hstay : s'.entry = s.entry →
          (fun (n : Nat) (s2 : CreateState K) => s2.checklist = st1.checklist ∧
            s2.entry.id_ = st1.entry.id_ ∧ st1.entry.npar_ ≤ s2.entry.npar_ ∧
            (∀ k < st1.entry.npar_, s2.entry.keys_ k = st1.entry.keys_ k ∧
              s2.entry.real_ k = st1.entry.real_ k ∧ s2.entry.text_ k = st1.entry.text_ k) ∧
            (∀ k : Nat, st1.entry.npar_ ≤ k → k < s2.entry.npar_ →
              ∃ i < n, ∃ p : MotifParameter, motif.parameters.get? i = some p ∧
                CHECK_BIT st1.checklist i = false ∧ CHECK_BIT p.flags flagOptional = true ∧
                s2.entry.keys_ k = p.label)) (n + 1) s' := by
        intro he
        refine ⟨by rw [hck', hck], by rw [he]; exact hid, by rw [he]; exact hle,
          by rw [he]; exact hold, ?_⟩
        intro k hk1 hk2
        rw [he] at hk2 ⊢
        obtain ⟨i, hi, q, hq⟩ := hnew k hk1 hk2
        exact ⟨i, by omega, q, hq⟩
      have hdefstay : s'.entry = s.entry →
          (CHECK_BIT st1.checklist n = true ∨ CHECK_BIT p.flags flagOptional = false) →
          ∀ i < n + 1, ∀ p : MotifParameter, motif.parameters.get? i = some p →
            CHECK_BIT st1.checklist i = false → CHECK_BIT p.flags flagOptional = true →
            ∃ k : Nat, st1.entry.npar_ ≤ k ∧ k < s'.entry.npar_ ∧ s'.entry.keys_ k = p.label ∧
              ∃ (s : CreateState K) (b : Bool) (tokens : Nat → String) (ntokens : Nat),
                TokenizeLine p.defaults MAX_COMPONENTS MAX_COMPONENTS s.tokens s.ntokens
                  = some (b, tokens, ntokens) ∧
                (CHECK_BIT p.flags flagText = false → ∀ c < ntokens,
                  s'.entry.real_ k c = (ConvertTokens strtod tokens ntokens 0 s.output).2 c) ∧
                (CHECK_BIT p.flags flagText = true → ∀ c < ntokens,
                  s'.entry.text_ k c = tokens c) := by
        intro he hnot i hi q hq hb1 hb2
        by_cases hin : i = n
        · subst hin
          rw [hget] at hq
          cases hq
          rcases hnot with hnot | hnot
          · rw [hnot] at hb1; cases hb1
          · rw [hnot] at hb2; cases hb2
        · rw [he]
          exact hdef i (by omega) q hq hb1 hb2
      rcases hcase with ⟨hbit, he⟩ | ⟨hbit, hopt, hrep, halt, he⟩ | ⟨hbit, hopt, b, tokens, ntokens, htok, hadd⟩
      · obtain ⟨a1, a2, a3, a4, a5⟩ := hstay he
        refine ⟨a1, a2, a3, a4, ?_, a5, hdefstay he (Or.inl (by rw [← hck]; exact hbit))⟩
        intro i hi
        by_cases hin : i = n
        · subst hin
          exact ⟨p, hget, Or.inl (by rw [← hck]; exact hbit)⟩
        · exact hall i (by omega)
      · obtain ⟨a1, a2, a3, a4, a5⟩ := hstay he
        refine ⟨a1, a2, a3, a4, ?_, a5, hdefstay he (Or.inr hopt)⟩
        intro i hi
        by_cases hin : i = n
        · subst hin
          exact ⟨p, hget, Or.inr (Or.inr ⟨hrep, by rw [← hck]; exact halt⟩)⟩
        · exact hall i (by omega)
      · have hkeys : s'.entry.npar_ = s.entry.npar_ + 1 ∧ s'.entry.id_ = s.entry.id_ ∧
            (∀ k, s'.entry.keys_ k = if k = s.entry.npar_ then p.label else s.entry.keys_ k) ∧
            (∀ k, k ≠ s.entry.npar_ → s'.entry.real_ k = s.entry.real_ k ∧
              s'.entry.text_ k = s.entry.text_ k) ∧
            (CHECK_BIT p.flags flagText = false → ∀ c < ntokens,
              s'.entry.real_ s.entry.npar_ c
                = (ConvertTokens strtod tokens ntokens 0 s.output).2 c) ∧
            (CHECK_BIT p.flags flagText = true → ∀ c < ntokens,
              s'.entry.text_ s.entry.npar_ c = tokens c) := by
          rcases hadd with ⟨ht, he⟩ | ⟨ht, he⟩
          · rw [he]
            refine ⟨rfl, rfl, fun k => rfl, ?_, ?_, ?_⟩
            · intro k hk
              refine ⟨?_, rfl⟩
              funext c
              simp only [Entry.AddNumerical, hk, false_and, if_false]
            · intro _ c hc
              simp only [Entry.AddNumerical, true_and, hc, if_true]
            · intro ht2
              rw [ht] at ht2
              cases ht2
          · rw [he]
            refine ⟨rfl, rfl, fun k => rfl, ?_, ?_, ?_⟩
            · intro k hk
              refine ⟨rfl, ?_⟩
              funext c
              simp only [Entry.AddTextual, hk, false_and, if_false]
            · intro ht2
              rw [ht] at ht2
              cases ht2
            · intro _ c hc
              simp only [Entry.AddTextual, true_and, hc, if_true]
        obtain ⟨e1, e2, e3, e4, e5, e6⟩ := hkeys
        refine ⟨by rw [hck', hck], by rw [e2]; exact hid, by omega, ?_, ?_, ?_, ?_⟩
        · intro k hk
          have hne : k ≠ s.entry.npar_ := by omega
          obtain ⟨o1, o2, o3⟩ := hold k hk
          rw [e3 k, if_neg hne, (e4 k hne).1, (e4 k hne).2]
          exact ⟨o1, o2, o3⟩
        · intro i hi
          by_cases hin : i = n
          · subst hin
            exact ⟨p, hget, Or.inr (Or.inl hopt)⟩
          · exact hall i (by omega)
        · intro k hk1 hk2
          by_cases hkn : k = s.entry.npar_
          · subst hkn
            refine ⟨n, by omega, p, hget, by rw [← hck]; exact hbit, hopt, ?_⟩
            rw [e3, if_pos rfl]
          · obtain ⟨i, hi, q, hq1, hq2, hq3, hq4⟩ := hnew k hk1 (by omega)
            refine ⟨i, by omega, q, hq1, hq2, hq3, ?_⟩
            rw [e3, if_neg hkn]
            exact hq4
        · intro i hi q hq hb1 hb2
          by_cases hin : i = n
          · subst hin
            rw [hget] at hq
            cases hq
            refine ⟨s.entry.npar_, hle, by omega, by rw [e3, if_pos rfl], s, b, tokens, ntokens,
              htok, e5, e6⟩
          · obtain ⟨k, hk1, hk2, hk3, s0, b0, t0, n0, ht0, hr0, hx0⟩ :=
              hdef i (by omega) q hq hb1 hb2
            have hne : k ≠ s.entry.npar_ := by omega
            refine ⟨k, hk1, by omega, by rw [e3, if_neg hne]; exact hk3, s0, b0, t0, n0, ht0,
              ?_, ?_⟩
            · intro ht c hc
              rw [(e4 k hne).1]
              exact hr0 ht c hc
            · intro ht c hc
              rw [(e4 k hne).2]
              exact hx0 ht c hc)
    count 0 st1 st2
    ⟨rfl, rfl, le_refl _, fun k _ => ⟨rfl, rfl, rfl⟩, fun i hi => by omega,
      fun k h1 h2 => by omega, fun i hi => by omega⟩
    h
  simpa using key

/-- A loop that returns does so in one of its rounds, having been through
the rounds before. -/
theorem forLoop_ret {ρ σ : Type} (body : Nat → σ → Flow ρ σ) :
    ∀ (count i : Nat) (s : σ) (r : ρ), forLoop body count i s = Flow.ret r →
      ∃ m < count, ∃ s1 : σ, forLoop body m i s = Flow.next s1 ∧
        body (i + m) s1 = Flow.ret r := by
  intro count
  induction count with
  | zero =>
    intro i s r h
    simp [forLoop] at h
  | succ count ih =>
    intro i s r h
    simp only [forLoop] at h
    cases hb : body i s with
    | next s' =>
      rw [hb] at h
      obtain ⟨m, hm, s1, h1, h2⟩ := ih (i + 1) s' r h
      refine ⟨m + 1, by omega, s1, ?_, ?_⟩
      · simp only [forLoop, hb]
        exact h1
      · have e : i + (m + 1) = i + 1 + m := by omega
        rw [e]
        exact h2
    | ret r' =>
      rw [hb] at h
      exact ⟨0, by omega, s, rfl, by simpa using hb.trans h⟩
    | fault =>
      rw [hb] at h
      cases h

/-- A round that returns ends the loop with what it returns. -/
theorem forLoop_ret_at {ρ σ : Type} (body : Nat → σ → Flow ρ σ) (count m : Nat) (s s1 : σ)
    (r : ρ) (hm : m < count) (h1 : forLoop body m 0 s = Flow.next s1)
    (h2 : body m s1 = Flow.ret r) : forLoop body count 0 s = Flow.ret r := by
  have e : count = m + (1 + (count - (m + 1))) := by omega
  rw [e, forLoop_add, h1]
  simp only []
  rw [forLoop_add]
  simp only [forLoop, Nat.zero_add, h2]

/-- The codes a round over a parameter line can return. -/
theorem CreateEntry.collectible_ret {K : Type} [LinearOrderedField K]
    (strtod : String → Option K) (fileGood : String → Bool) (motif : MotifEntry)
    (collect : Nat → Nat → String) (sizes : Nat → Nat) (i : Nat) (st : CreateState K)
    (code : ParserCode_t) (e : Entry K)
    (h : CreateEntry.collectible strtod fileGood motif collect sizes i st = Flow.ret (code, e)) :
    code ≠ ParserCode_t.codeOK ∧ code ≠ ParserCode_t.codeMissing := by
  unfold CreateEntry.collectible at h
  simp only [] at h
  cases hfind : findParameter (motif.parameters.take motif.nparameters) (collect i 0) with
  | none =>
    rw [hfind] at h
    simp only [Flow.ret.injEq, Prod.mk.injEq] at h
    rw [← h.1]
    exact ⟨by decide, by decide⟩
  | some jp =>
    obtain ⟨j, parameter⟩ := jp
    rw [hfind] at h
    simp only [] at h
    generalize (if CHECK_BIT parameter.flags flagVector = true then 4 else 2) = nt at h
    by_cases hbit : CHECK_BIT st.checklist j = true
    · rw [if_pos hbit] at h
      simp only [Flow.ret.injEq, Prod.mk.injEq] at h
      rw [← h.1]
      exact ⟨by decide, by decide⟩
    · rw [if_neg hbit] at h
      by_cases hconf : CreateEntry.conflict motif j parameter (st.checklist ||| MAKE_MASK j) = true
      · rw [if_pos hconf] at h
        simp only [Flow.ret.injEq, Prod.mk.injEq] at h
        rw [← h.1]
        exact ⟨by decide, by decide⟩
      · rw [if_neg hconf] at h
        by_cases hsize : sizes i ≠ nt
        · rw [if_pos hsize] at h
          simp only [Flow.ret.injEq, Prod.mk.injEq] at h
          rw [← h.1]
          exact ⟨by decide, by decide⟩
        · rw [if_neg hsize] at h
          by_cases htext : ¬ CHECK_BIT parameter.flags flagText = true
          · rw [if_pos htext] at h
            cases hconv : ConvertTokens strtod (fun t => collect i (t + 1)) (nt - 1) 0 st.output with
            | mk ok output =>
              rw [hconv] at h
              cases ok with
              | false =>
                simp only [Flow.ret.injEq, Prod.mk.injEq] at h
                rw [← h.1]
                exact ⟨by decide, by decide⟩
              | true =>
                simp only [] at h
                by_cases hvalid : CreateEntry.valid parameter.flags output (nt - 1) = true
                · rw [if_pos hvalid] at h
                  cases h
                · rw [if_neg hvalid] at h
                  simp only [Flow.ret.injEq, Prod.mk.injEq] at h
                  rw [← h.1]
                  exact ⟨by decide, by decide⟩
          · rw [if_neg htext] at h
            cases hfile : CheckFilename fileGood (collect i 1) st.filename (some "png") with
            | none =>
              rw [hfile] at h
              cases h
            | some r =>
              obtain ⟨ok, filename⟩ := r
              rw [hfile] at h
              cases ok with
              | false =>
                simp only [Flow.ret.injEq, Prod.mk.injEq] at h
                rw [← h.1]
                exact ⟨by decide, by decide⟩
              | true => cases h

/-- The only code a round over a parameter of the motif can return. -/
theorem CreateEntry.parameter_ret {K : Type} [LinearOrderedField K]
    (strtod : String → Option K) (motif : MotifEntry) (i : Nat) (st : CreateState K)
    (code : ParserCode_t) (e : Entry K)
    (h : CreateEntry.parameter strtod motif i st = Flow.ret (code, e)) :
    code = ParserCode_t.codeMissing := by
  unfold CreateEntry.parameter at h
  cases hget : motif.parameters.get? i with
  | none =>
    rw [hget] at h
    cases h
  | some p =>
    rw [hget] at h
    simp only [] at h
    by_cases hbit : CHECK_BIT st.checklist i = true
    · rw [if_neg (not_not.mpr hbit)] at h
      cases h
    · rw [if_pos hbit] at h
      by_cases hopt : CHECK_BIT p.flags flagOptional = true
      · rw [if_pos hopt] at h
        cases htok : TokenizeLine p.defaults MAX_COMPONENTS MAX_COMPONENTS st.tokens st.ntokens with
        | none =>
          rw [htok] at h
          cases h
        | some r =>
          obtain ⟨b, tokens, ntokens⟩ := r
          rw [htok] at h
          simp only [] at h
          by_cases htext : ¬ CHECK_BIT p.flags flagText = true
          · rw [if_pos htext] at h
            cases h
          · rw [if_neg htext] at h
            cases h
      · rw [if_neg hopt] at h
        by_cases hrep : p.replace ≠ 0
        · rw [if_pos hrep] at h
          by_cases halt : ¬ CHECK_BIT st.checklist (CreateEntry.alternative motif i p) = true
          · rw [if_pos halt] at h
            simp only [Flow.ret.injEq, Prod.mk.injEq] at h
            exact h.1.symm
          · rw [if_neg halt] at h
            cases h
        · rw [if_neg hrep] at h
          simp only [Flow.ret.injEq, Prod.mk.injEq] at h
          exact h.1.symm

/-! ## `Parser::CreateEntry` as a whole -/

/-- The ways `Parser::CreateEntry` can end, by the course of its two loops. -/
theorem CreateEntry_cases {K : Type} [LinearOrderedField K]
    (strtod : String → Option K) (fileGood : String → Bool) (entryLabel : String)
    (collect : Nat → Nat → String) (sizes : Nat → Nat) (ncol : Nat) (entry : Entry K)
    (motif : MotifEntry)
    (hfind : kEntries.find? (fun motif => decide (motif.label = entryLabel)) = some motif) :
    (∀ r : ParserCode_t × Entry K,
      forLoop (CreateEntry.collectible strtod fileGood motif collect sizes) ncol 0
          (CreateEntry.init motif entry) = Flow.ret r →
      CreateEntry strtod fileGood entryLabel collect sizes ncol entry = some r) ∧
    (∀ (st1 : CreateState K) (r : ParserCode_t × Entry K),
      forLoop (CreateEntry.collectible strtod fileGood motif collect sizes) ncol 0
          (CreateEntry.init motif entry) = Flow.next st1 →
      forLoop (CreateEntry.parameter strtod motif) motif.nparameters 0 st1 = Flow.ret r →
      CreateEntry strtod fileGood entryLabel collect sizes ncol entry = some r) ∧
    (∀ st1 st2 : CreateState K,
      forLoop (CreateEntry.collectible strtod fileGood motif collect sizes) ncol 0
          (CreateEntry.init motif entry) = Flow.next st1 →
      forLoop (CreateEntry.parameter strtod motif) motif.nparameters 0 st1 = Flow.next st2 →
      CreateEntry strtod fileGood entryLabel collect sizes ncol entry
        = some (ParserCode_t.codeOK, st2.entry)) := by
  refine ⟨?_, ?_, ?_⟩
  · intro r h
    simp only [CreateEntry, hfind, h]
  · intro st1 r h1 h2
    simp only [CreateEntry, hfind, h1, h2]
  · intro st1 st2 h1 h2
    simp only [CreateEntry, hfind, h1, h2]

/-- When `Parser::CreateEntry` returns `codeOK` or `codeMissing`, its loop over
the parameter lines is through: no line has been rejected. -/
theorem CreateEntry_lines_accepted {K : Type} [LinearOrderedField K]
    (strtod : String → Option K) (fileGood : String → Bool) (entryLabel : String)
    (collect : Nat → Nat → String) (sizes : Nat → Nat) (ncol : Nat) (entry : Entry K)
    (motif : MotifEntry)
    (hfind : kEntries.find? (fun motif => decide (motif.label = entryLabel)) = some motif)
    (code : ParserCode_t) (e : Entry K)
    (h : CreateEntry strtod fileGood entryLabel collect sizes ncol entry = some (code, e))
    (hcode : code = ParserCode_t.codeOK ∨ code = ParserCode_t.codeMissing) :
    ∃ st1 : CreateState K,
      forLoop (CreateEntry.collectible strtod fileGood motif collect sizes) ncol 0
        (CreateEntry.init motif entry) = Flow.next st1 := by
  simp only [CreateEntry, hfind] at h
  cases h1 : forLoop (CreateEntry.collectible strtod fileGood motif collect sizes) ncol 0
      (CreateEntry.init motif entry) with
  | next st1 => exact ⟨st1, rfl⟩
  | ret r =>
    rw [h1] at h
    simp only [Option.some.injEq] at h
    subst h
    obtain ⟨m, -, s1, -, hret⟩ := forLoop_ret _ _ _ _ _ h1
    have := CreateEntry.collectible_ret strtod fileGood motif collect sizes _ s1 code e hret
    rcases hcode with hc | hc
    · exact absurd hc this.1
    · exact absurd hc this.2
  | fault =>
    rw [h1] at h
    cases h

/-- When `Parser::CreateEntry` returns `codeOK`, both its loops are through,
and the entry is the one they have built. -/
theorem CreateEntry_codeOK {K : Type} [LinearOrderedField K]
    (strtod : String → Option K) (fileGood : String → Bool) (entryLabel : String)
    (collect : Nat → Nat → String) (sizes : Nat → Nat) (ncol : Nat) (entry : Entry K)
    (motif : MotifEntry)
    (hfind : kEntries.find? (fun motif => decide (motif.label = entryLabel)) = some motif)
    (e : Entry K)
    (h : CreateEntry strtod fileGood entryLabel collect sizes ncol entry
      = some (ParserCode_t.codeOK, e)) :
    ∃ st1 st2 : CreateState K,
      forLoop (CreateEntry.collectible strtod fileGood motif collect sizes) ncol 0
        (CreateEntry.init motif entry) = Flow.next st1 ∧
      forLoop (CreateEntry.parameter strtod motif) motif.nparameters 0 st1 = Flow.next st2 ∧
      e = st2.entry := by
  obtain ⟨st1, h1⟩ := CreateEntry_lines_accepted strtod fileGood entryLabel collect sizes ncol
    entry motif hfind _ e h (Or.inl rfl)
  simp only [CreateEntry, hfind, h1] at h
  cases h2 : forLoop (CreateEntry.parameter strtod motif) motif.nparameters 0 st1 with
  | next st2 =>
    rw [h2] at h
    simp only [Option.some.injEq, Prod.mk.injEq, true_and] at h
    exact ⟨st1, st2, h1, h2, h.symm⟩
  | ret r =>
    rw [h2] at h
    simp only [Option.some.injEq] at h
    subst h
    obtain ⟨m, -, s1, -, hret⟩ := forLoop_ret _ _ _ _ _ h2
    have := CreateEntry.parameter_ret strtod motif _ s1 _ e hret
    cases this
  | fault =>
    rw [h2] at h
    cases h

theorem find_camera : kEntries.find? (fun motif => decide (motif.label = "camera"))
    = some ⟨EntryID_t.entryCamera, "camera", true, 1, kCamera.length, kCamera⟩ := rfl

theorem find_light : kEntries.find? (fun motif => decide (motif.label = "light"))
    = some ⟨EntryID_t.entryLight, "light", true, 1, kLight.length, kLight⟩ := rfl

theorem find_plane : kEntries.find? (fun motif => decide (motif.label = "plane"))
    = some ⟨EntryID_t.entryPlane, "plane", false, 0, kPlane.length, kPlane⟩ := rfl

theorem find_sphere : kEntries.find? (fun motif => decide (motif.label = "sphere"))
    = some ⟨EntryID_t.entrySphere, "sphere", false, 0, kSphere.length, kSphere⟩ := rfl

theorem find_cylinder : kEntries.find? (fun motif => decide (motif.label = "cylinder"))
    = some ⟨EntryID_t.entryCylinder, "cylinder", false, 0, kCylinder.length, kCylinder⟩ := rfl

theorem mem_of_get? {α : Type} (l : List α) (i : Nat) (a : α) (h : l.get? i = some a) :
    a ∈ l := by
  rw [List.get?_eq_getElem?, List.getElem?_eq_some] at h
  obtain ⟨hi, rfl⟩ := h
  exact List.getElem_mem hi

/-- A conversion succeeds when each token converts. -/
theorem ConvertTokens_of_some {K : Type} (strtod : String → Option K) (tokens : Nat → String) :
    ∀ (n i : Nat) (out : Nat → K),
      (∀ c : Nat, i ≤ c → c < i + n → ∃ v : K, strtod (tokens c) = some v) →
      ∃ out' : Nat → K, ConvertTokens strtod tokens n i out = (true, out') := by
  intro n
  induction n with
  | zero =>
    intro i out _
    exact ⟨out, rfl⟩
  | succ n ih =>
    intro i out h
    obtain ⟨v, hv⟩ := h i (le_refl i) (by omega)
    simp only [ConvertTokens, hv]
    exact ih (i + 1) _ (fun c h1 h2 => h c (by omega) (by omega))

/-- A parameter that replaces none is in conflict with none, the identifiers
of the table being other than `0`. -/
theorem CreateEntry.conflict_of_replace_zero (motif : MotifEntry) (j : Nat)
    (p : MotifParameter) (checklist : Bitmask_t) (hrep : p.replace = 0)
    (hids : ∀ q ∈ motif.parameters, q.id ≠ 0) :
    CreateEntry.conflict motif j p checklist = false := by
  simp only [CreateEntry.conflict]
  rw [List.any_eq_false]
  intro k _
  cases hget : motif.parameters.get? k with
  | none => simp
  | some q =>
    have hq := hids q (mem_of_get? _ _ _ hget)
    simp only [Bool.and_eq_true, decide_eq_true_eq, not_and]
    intro h1
    rw [hrep] at h1
    exact absurd h1.2.symm hq

/-- The entry of a `codeOK` holds a row for every parameter that is neither
optional nor replaceable, and the numbers of every row under its label have
passed the check of the parameter. -/
theorem CreateEntry_checked_parameter {K : Type} [LinearOrderedField K]
    (strtod : String → Option K) (fileGood : String → Bool) (entryLabel : String)
    (collect : Nat → Nat → String) (sizes : Nat → Nat) (ncol : Nat) (entry e : Entry K)
    (motif : MotifEntry)
    (hfind : kEntries.find? (fun motif => decide (motif.label = entryLabel)) = some motif)
    (hn : motif.nparameters = motif.parameters.length)
    (j : Nat) (p : MotifParameter) (hjn : j < motif.nparameters)
    (hfirst : findParameter motif.parameters p.label = some (j, p))
    (hopt : ∀ q ∈ motif.parameters, CHECK_BIT q.flags flagOptional = true → q.label ≠ p.label)
    (hrep : p.replace = 0) (htext : CHECK_BIT p.flags flagText = false)
    (hfresh : entry.npar_ = 0)
    (h : CreateEntry strtod fileGood entryLabel collect sizes ncol entry
      = some (ParserCode_t.codeOK, e)) :
    (∃ k < e.npar_, e.keys_ k = p.label) ∧
    ∀ k < e.npar_, e.keys_ k = p.label →
      CreateEntry.valid p.flags (e.real_ k)
        ((if CHECK_BIT p.flags flagVector then 4 else 2) - 1) = true := by
  obtain ⟨st1, st2, h1, h2, he⟩ := CreateEntry_codeOK strtod fileGood entryLabel collect sizes
    ncol entry motif hfind e h
  have htake : motif.parameters.take motif.nparameters = motif.parameters := by
    rw [hn, List.take_length]
  obtain ⟨r1, -, r3⟩ := CreateEntry.collectibles_rows strtod fileGood motif collect sizes ncol
    _ st1 h1
  have hinit : (CreateEntry.init motif entry).entry.npar_ = 0 := hfresh
  rw [hinit] at r1 r3
  obtain ⟨t1, -, t3, t4, t5, t6, -⟩ := CreateEntry.parameters_through strtod motif _ st1 st2 h2
  have hbits := CreateEntry.collectibles_bits strtod fileGood motif collect sizes ncol _ st1 h1
  have hget := (findParameter_some _ _ _ _ hfirst).1
  have hoptp : CHECK_BIT p.flags flagOptional = false := by
    cases hb : CHECK_BIT p.flags flagOptional with
    | false => rfl
    | true => exact absurd rfl (hopt p (mem_of_get? _ _ _ hget) hb)
  subst he
  refine ⟨?_, ?_⟩
  · obtain ⟨q, hq, hcase⟩ := t5 j hjn
    rw [hget] at hq
    cases hq
    have hbit : CHECK_BIT st1.checklist j = true := by
      rcases hcase with hc | hc | hc
      · exact hc
      · rw [hoptp] at hc; cases hc
      · exact absurd hrep hc.1
    rcases (hbits j).mp hbit with h0 | ⟨i, hi, q, hq⟩
    · have : CHECK_BIT (CreateEntry.init motif entry).checklist j = false := CHECK_BIT_zero j
      rw [this] at h0
      cases h0
    · rw [htake] at hq
      obtain ⟨hq1, hq2⟩ := findParameter_some _ _ _ _ hq
      rw [hget] at hq1
      cases hq1
      refine ⟨i, by omega, ?_⟩
      rw [(t4 i (by omega)).1]
      have := (r3 i hi).1
      simp only [Nat.zero_add] at this
      rw [this, hq2]
  · intro k hk hkey
    by_cases hk1 : k < st1.entry.npar_
    · obtain ⟨o1, o2, -⟩ := t4 k hk1
      rw [o2]
      rw [o1] at hkey
      obtain ⟨hkeys, j', p', hf', -, hnum, -⟩ := r3 k (by omega)
      simp only [Nat.zero_add] at hkeys hnum
      rw [htake, ← hkeys, hkey, hfirst] at hf'
      simp only [Option.some.injEq, Prod.mk.injEq] at hf'
      obtain ⟨-, rfl⟩ := hf'
      exact (hnum htext).1
    · obtain ⟨i, -, q, hq1, -, hq3, hq4⟩ := t6 k (by omega) hk
      exact absurd (hq4.symm.trans hkey) (hopt q (mem_of_get? _ _ _ hq1) hq3)

/-- A round over a parameter line whose values fail the check returns
`codeValue`. -/
theorem CreateEntry.collectible_codeValue {K : Type} [LinearOrderedField K]
    (strtod : String → Option K) (fileGood : String → Bool) (motif : MotifEntry)
    (collect : Nat → Nat → String) (sizes : Nat → Nat) (i : Nat) (st : CreateState K)
    (j : Nat) (p : MotifParameter) (output : Nat → K)
    (hfind : findParameter (motif.parameters.take motif.nparameters) (collect i 0) = some (j, p))
    (hbit : CHECK_BIT st.checklist j = false)
    (hconf : CreateEntry.conflict motif j p (st.checklist ||| MAKE_MASK j) = false)
    (hsize : sizes i = (if CHECK_BIT p.flags flagVector then 4 else 2))
    (htext : CHECK_BIT p.flags flagText = false)
    (hconv : ConvertTokens strtod (fun t => collect i (t + 1))
      ((if CHECK_BIT p.flags flagVector then 4 else 2) - 1) 0 st.output = (true, output))
    (hvalid : CreateEntry.valid p.flags output
      ((if CHECK_BIT p.flags flagVector then 4 else 2) - 1) = false) :
    CreateEntry.collectible strtod fileGood motif collect sizes i st
      = Flow.ret (ParserCode_t.codeValue, st.entry) := by
  unfold CreateEntry.collectible
  simp only [hfind, hbit, hconf, hsize, htext, hconv, hvalid, Bool.false_eq_true, if_false,
    ne_eq, not_true_eq_false, not_false_eq_true, if_true]

/-- A round over a parameter line that names the alternative of a parameter
already marked returns `codeConflict`. -/
theorem CreateEntry.collectible_codeConflict {K : Type} [LinearOrderedField K]
    (strtod : String → Option K) (fileGood : String → Bool) (motif : MotifEntry)
    (collect : Nat → Nat → String) (sizes : Nat → Nat) (i : Nat) (st : CreateState K)
    (j : Nat) (p : MotifParameter)
    (hfind : findParameter (motif.parameters.take motif.nparameters) (collect i 0) = some (j, p))
    (hbit : CHECK_BIT st.checklist j = false)
    (hconf : CreateEntry.conflict motif j p (st.checklist ||| MAKE_MASK j) = true) :
    CreateEntry.collectible strtod fileGood motif collect sizes i st
      = Flow.ret (ParserCode_t.codeConflict, st.entry) := by
  unfold CreateEntry.collectible
  simp only [hfind, hbit, hconf, Bool.false_eq_true, if_false, if_true]

/-- A parameter line that is the first under its label is not marked in the
checklist when the loop comes to it. -/
theorem CreateEntry.first_not_marked {K : Type} [LinearOrderedField K]
    (strtod : String → Option K) (fileGood : String → Bool) (motif : MotifEntry)
    (collect : Nat → Nat → String) (sizes : Nat → Nat) (i : Nat) (entry : Entry K)
    (st : CreateState K)
    (h : forLoop (CreateEntry.collectible strtod fileGood motif collect sizes) i 0
      (CreateEntry.init motif entry) = Flow.next st)
    (j : Nat) (label : String)
    (hnew : ∀ i' < i, collect i' 0 ≠ label)
    (hj : ∀ q : MotifParameter,
      (motif.parameters.take motif.nparameters).get? j = some q → q.label = label) :
    CHECK_BIT st.checklist j = false := by
  cases hb : CHECK_BIT st.checklist j with
  | false => rfl
  | true =>
    rcases (CreateEntry.collectibles_bits strtod fileGood motif collect sizes i _ st h j).mp hb
      with h0 | ⟨i', hi', q, hq⟩
    · have : CHECK_BIT (CreateEntry.init motif entry).checklist j = false := CHECK_BIT_zero j
      rw [this] at h0
      cases h0
    · obtain ⟨hq1, hq2⟩ := findParameter_some _ _ _ _ hq
      exact absurd (hq2.symm.trans (hj q hq1)) (hnew i' hi')

/-- A value that fails the check of its parameter makes `Parser::CreateEntry`
return `codeValue`, when the lines before are accepted and the line is well
formed. -/
theorem CreateEntry_codeValue {K : Type} [LinearOrderedField K]
    (strtod : String → Option K) (fileGood : String → Bool) (entryLabel : String)
    (collect : Nat → Nat → String) (sizes : Nat → Nat) (ncol : Nat) (entry : Entry K)
    (motif : MotifEntry)
    (hfind : kEntries.find? (fun motif => decide (motif.label = entryLabel)) = some motif)
    (hn : motif.nparameters = motif.parameters.length)
    (j : Nat) (p : MotifParameter)
    (hfirst : findParameter motif.parameters p.label = some (j, p))
    (hrep : p.replace = 0) (hids : ∀ q ∈ motif.parameters, q.id ≠ 0)
    (htext : CHECK_BIT p.flags flagText = false)
    (i : Nat) (hi : i < ncol)
    (hacc : ∃ (code : ParserCode_t) (e1 : Entry K),
      CreateEntry strtod fileGood entryLabel collect sizes i entry = some (code, e1) ∧
      (code = ParserCode_t.codeOK ∨ code = ParserCode_t.codeMissing))
    (hlab : collect i 0 = p.label) (hnew : ∀ i' < i, collect i' 0 ≠ p.label)
    (hsize : sizes i = (if CHECK_BIT p.flags flagVector then 4 else 2))
    (hconv : ∀ c < (if CHECK_BIT p.flags flagVector then 4 else 2) - 1,
      ∃ v : K, strtod (collect i (c + 1)) = some v)
    (hinvalid : ∀ out : Nat → K,
      (∀ c < (if CHECK_BIT p.flags flagVector then 4 else 2) - 1,
        strtod (collect i (c + 1)) = some (out c)) →
      CreateEntry.valid p.flags out ((if CHECK_BIT p.flags flagVector then 4 else 2) - 1)
        = false) :
    ∃ e2 : Entry K, CreateEntry strtod fileGood entryLabel collect sizes ncol entry
      = some (ParserCode_t.codeValue, e2) := by
  obtain ⟨code, e1, hc1, hc2⟩ := hacc
  obtain ⟨st, hst⟩ := CreateEntry_lines_accepted strtod fileGood entryLabel collect sizes i
    entry motif hfind code e1 hc1 hc2
  have htake : motif.parameters.take motif.nparameters = motif.parameters := by
    rw [hn, List.take_length]
  have hget := (findParameter_some _ _ _ _ hfirst).1
  have hbit : CHECK_BIT st.checklist j = false := by
    apply CreateEntry.first_not_marked strtod fileGood motif collect sizes i entry st hst j
      p.label hnew
    intro q hq
    rw [htake, hget] at hq
    cases hq
    rfl
  obtain ⟨out', hout⟩ := ConvertTokens_of_some strtod (fun t => collect i (t + 1))
    ((if CHECK_BIT p.flags flagVector then 4 else 2) - 1) 0 st.output
    (fun c _ hc => hconv c (by omega))
  have hvals := (ConvertTokens_true strtod (fun t => collect i (t + 1)) _ 0 _ _ hout).1
  have hval := hinvalid out' (fun c hc => hvals c (Nat.zero_le c) (by omega))
  have hround := CreateEntry.collectible_codeValue strtod fileGood motif collect sizes i st j p
    out' (by rw [htake, hlab]; exact hfirst) hbit
    (CreateEntry.conflict_of_replace_zero motif j p _ hrep hids) hsize htext hout hval
  exact ⟨st.entry, (CreateEntry_cases strtod fileGood entryLabel collect sizes ncol entry motif
    hfind).1 _ (forLoop_ret_at _ ncol i _ st _ hi hst hround)⟩

/-! ## The construction-time invariants -/

theorem CreateEntry.valid_positive_scalar {K : Type} [LinearOrderedField K] (row : Nat → K)
    (h : CreateEntry.valid (BIT_REAL ||| BIT_CHECK_POSITIVE) row 1 = true) : 0 < row 0 := by
  have h1 : CHECK_BIT (BIT_REAL ||| BIT_CHECK_POSITIVE) flagCheckZero = false := by decide
  have h2 : CHECK_BIT (BIT_REAL ||| BIT_CHECK_POSITIVE) flagCheckPositive = true := by decide
  simpa [CreateEntry.valid, h1, h2] using h

theorem CreateEntry.valid_positive_scalar_false {K : Type} [LinearOrderedField K]
    (row : Nat → K) (h : ¬ 0 < row 0) :
    CreateEntry.valid (BIT_REAL ||| BIT_CHECK_POSITIVE) row 1 = false := by
  have h1 : CHECK_BIT (BIT_REAL ||| BIT_CHECK_POSITIVE) flagCheckZero = false := by decide
  have h2 : CHECK_BIT (BIT_REAL ||| BIT_CHECK_POSITIVE) flagCheckPositive = true := by decide
  simpa [CreateEntry.valid, h1, h2] using h

theorem CreateEntry.valid_nonzero_vector {K : Type} [LinearOrderedField K] (row : Nat → K)
    (h : CreateEntry.valid (BIT_VECTOR ||| BIT_CHECK_ZERO) row 3 = true) :
    ∃ c < 3, row c ≠ 0 := by
  have h1 : CHECK_BIT (BIT_VECTOR ||| BIT_CHECK_ZERO) flagCheckZero = true := by decide
  simp only [CreateEntry.valid, h1, if_true, List.any_eq_true, List.mem_range,
    decide_eq_true_eq] at h
  exact h

theorem CreateEntry.valid_nonzero_vector_false {K : Type} [LinearOrderedField K]
    (row : Nat → K) (h : ∀ c < 3, row c = 0) :
    CreateEntry.valid (BIT_VECTOR ||| BIT_CHECK_ZERO) row 3 = false := by
  have h1 : CHECK_BIT (BIT_VECTOR ||| BIT_CHECK_ZERO) flagCheckZero = true := by decide
  simp only [CreateEntry.valid, h1, if_true]
  rw [List.any_eq_false]
  intro c hc
  simp only [decide_eq_true_eq, not_not]
  exact h c (List.mem_range.mp hc)

/-- C14: `Parser::CreateEntry` returns `codeOK` for a sphere or a cylinder only
with a radius `> 0` in the entry, for a plane only with a normal other than the
zero vector, for a cylinder only with a direction other than the zero vector
(the entry being empty at the call). A radius that is not `> 0`, a normal or a
direction whose three components are `0` makes it return `codeValue`, when the
lines before are accepted (alone, they make `CreateEntry` return `codeOK` or
`codeMissing`), the line is the first under its label, has the right number of
tokens and converts. -/
theorem CreateEntry_enforces_invariants {K : Type} [LinearOrderedField K]
    (strtod : String → Option K) (fileGood : String → Bool)
    (collect : Nat → Nat → String) (sizes : Nat → Nat) (ncol : Nat) (entry : Entry K)
    (hfresh : entry.npar_ = 0) :
    (∀ e : Entry K,
      CreateEntry strtod fileGood "sphere" collect sizes ncol entry
        = some (ParserCode_t.codeOK, e) →
      (∃ k < e.npar_, e.keys_ k = "radius") ∧
      ∀ k < e.npar_, e.keys_ k = "radius" → 0 < e.real_ k 0) ∧
    (∀ e : Entry K,
      CreateEntry strtod fileGood "cylinder" collect sizes ncol entry
        = some (ParserCode_t.codeOK, e) →
      ((∃ k < e.npar_, e.keys_ k = "radius") ∧
        ∀ k < e.npar_, e.keys_ k = "radius" → 0 < e.real_ k 0) ∧
      ((∃ k < e.npar_, e.keys_ k = "direction") ∧
        ∀ k < e.npar_, e.keys_ k = "direction" → ∃ c < 3, e.real_ k c ≠ 0)) ∧
    (∀ e : Entry K,
      CreateEntry strtod fileGood "plane" collect sizes ncol entry
        = some (ParserCode_t.codeOK, e) →
      (∃ k < e.npar_, e.keys_ k = "normal") ∧
      ∀ k < e.npar_, e.keys_ k = "normal" → ∃ c < 3, e.real_ k c ≠ 0) ∧
    (∀ (lab : String) (i : Nat) (v : K), lab = "sphere" ∨ lab = "cylinder" → i < ncol →
      (∃ (code : ParserCode_t) (e1 : Entry K),
        CreateEntry strtod fileGood lab collect sizes i entry = some (code, e1) ∧
        (code = ParserCode_t.codeOK ∨ code = ParserCode_t.codeMissing)) →
      collect i 0 = "radius" → (∀ i' < i, collect i' 0 ≠ "radius") → sizes i = 2 →
      strtod (collect i 1) = some v → ¬ 0 < v →
      ∃ e2 : Entry K, CreateEntry strtod fileGood lab collect sizes ncol entry
        = some (ParserCode_t.codeValue, e2)) ∧
    (∀ (lab par : String) (i : Nat),
      (lab = "plane" ∧ par = "normal") ∨ (lab = "cylinder" ∧ par = "direction") → i < ncol →
      (∃ (code : ParserCode_t) (e1 : Entry K),
        CreateEntry strtod fileGood lab collect sizes i entry = some (code, e1) ∧
        (code = ParserCode_t.codeOK ∨ code = ParserCode_t.codeMissing)) →
      collect i 0 = par → (∀ i' < i, collect i' 0 ≠ par) → sizes i = 4 →
      strtod (collect i 1) = some 0 → strtod (collect i 2) = some 0 →
      strtod (collect i 3) = some 0 →
      ∃ e2 : Entry K, CreateEntry strtod fileGood lab collect sizes ncol entry
        = some (ParserCode_t.codeValue, e2)) := by
  refine ⟨?_, ?_, ?_, ?_, ?_⟩
  · intro e h
    obtain ⟨h1, h2⟩ := CreateEntry_checked_parameter strtod fileGood "sphere" collect sizes ncol
      entry e _ find_sphere rfl 1 ⟨2, 0, "radius", "", BIT_REAL ||| BIT_CHECK_POSITIVE⟩
      (by decide) rfl (by decide) rfl (by decide) hfresh h
    exact ⟨h1, fun k hk hkey => CreateEntry.valid_positive_scalar _ (h2 k hk hkey)⟩
  · intro e h
    obtain ⟨h1, h2⟩ := CreateEntry_checked_parameter strtod fileGood "cylinder" collect sizes
      ncol entry e _ find_cylinder rfl 2 ⟨3, 0, "radius", "", BIT_REAL ||| BIT_CHECK_POSITIVE⟩
      (by decide) rfl (by decide) rfl (by decide) hfresh h
    obtain ⟨h3, h4⟩ := CreateEntry_checked_parameter strtod fileGood "cylinder" collect sizes
      ncol entry e _ find_cylinder rfl 1 ⟨2, 0, "direction", "", BIT_VECTOR ||| BIT_CHECK_ZERO⟩
      (by decide) rfl (by decide) rfl (by decide) hfresh h
    exact ⟨⟨h1, fun k hk hkey => CreateEntry.valid_positive_scalar _ (h2 k hk hkey)⟩,
      ⟨h3, fun k hk hkey => CreateEntry.valid_nonzero_vector _ (h4 k hk hkey)⟩⟩
  · intro e h
    obtain ⟨h1, h2⟩ := CreateEntry_checked_parameter strtod fileGood "plane" collect sizes ncol
      entry e _ find_plane rfl 1 ⟨2, 0, "normal", "", BIT_VECTOR ||| BIT_CHECK_ZERO⟩
      (by decide) rfl (by decide) rfl (by decide) hfresh h
    exact ⟨h1, fun k hk hkey => CreateEntry.valid_nonzero_vector _ (h2 k hk hkey)⟩
  · intro lab i v hlab hi hacc hkey hnew hsize hconv hv
    have hc : ∀ c < 1, ∃ w : K, strtod (collect i (c + 1)) = some w := by
      intro c hc
      have : c = 0 := by omega
      subst this
      exact ⟨v, hconv⟩
    have hinv : ∀ out : Nat → K, (∀ c < 1, strtod (collect i (c + 1)) = some (out c)) →
        CreateEntry.valid (BIT_REAL ||| BIT_CHECK_POSITIVE) out 1 = false := by
      intro out hout
      apply CreateEntry.valid_positive_scalar_false
      have := hout 0 (by omega)
      rw [hconv] at this
      rw [← Option.some.inj this]
      exact hv
    rcases hlab with rfl | rfl
    · exact CreateEntry_codeValue strtod fileGood "sphere" collect sizes ncol entry _ find_sphere
        rfl 1 ⟨2, 0, "radius", "", BIT_REAL ||| BIT_CHECK_POSITIVE⟩ rfl rfl (by decide)
        (by decide) i hi hacc hkey hnew hsize hc hinv
    · exact CreateEntry_codeValue strtod fileGood "cylinder" collect sizes ncol entry _
        find_cylinder rfl 2 ⟨3, 0, "radius", "", BIT_REAL ||| BIT_CHECK_POSITIVE⟩ rfl rfl
        (by decide) (by decide) i hi hacc hkey hnew hsize hc hinv
  · intro lab par i hlab hi hacc hkey hnew hsize h1 h2 h3
    have hc : ∀ c < 3, ∃ w : K, strtod (collect i (c + 1)) = some w := by
      intro c hc
      interval_cases c
      · exact ⟨0, h1⟩
      · exact ⟨0, h2⟩
      · exact ⟨0, h3⟩
    have hinv : ∀ out : Nat → K, (∀ c < 3, strtod (collect i (c + 1)) = some (out c)) →
        CreateEntry.valid (BIT_VECTOR ||| BIT_CHECK_ZERO) out 3 = false := by
      intro out hout
      apply CreateEntry.valid_nonzero_vector_false
      intro c hc
      have := hout c hc
      interval_cases c
      · rw [h1] at this
        exact (Option.some.inj this).symm
      · rw [h2] at this
        exact (Option.some.inj this).symm
      · rw [h3] at this
        exact (Option.some.inj this).symm
    rcases hlab with ⟨rfl, rfl⟩ | ⟨rfl, rfl⟩
    · exact CreateEntry_codeValue strtod fileGood "plane" collect sizes ncol entry _ find_plane
        rfl 1 ⟨2, 0, "normal", "", BIT_VECTOR ||| BIT_CHECK_ZERO⟩ rfl rfl (by decide)
        (by decide) i hi hacc hkey hnew hsize hc hinv
    · exact CreateEntry_codeValue strtod fileGood "cylinder" collect sizes ncol entry _
        find_cylinder rfl 1 ⟨2, 0, "direction", "", BIT_VECTOR ||| BIT_CHECK_ZERO⟩ rfl rfl
        (by decide) (by decide) i hi hacc hkey hnew hsize hc hinv

/-- The statement of C14 at a sphere entry with the lines `position 0 0 0`,
`radius 1`, `color 1 1 1`, which is accepted with the radius `1`, and at the
same entry with `radius 0`, which yields `codeValue`. -/
theorem CreateEntry_enforces_invariants_witness :
    ((Entry.new : Entry ℚ).npar_ = 0 ∧ (1 : Nat) < 3 ∧
      (∃ (code : ParserCode_t) (e1 : Entry ℚ),
        CreateEntry sampleStrtod (fun _ => true) "sphere"
          (sampleCollect [["position", "0", "0", "0"], ["radius", "0"], ["color", "1", "1", "1"]])
          (sampleSizes [["position", "0", "0", "0"], ["radius", "0"], ["color", "1", "1", "1"]])
          1 Entry.new = some (code, e1) ∧
        (code = ParserCode_t.codeOK ∨ code = ParserCode_t.codeMissing)) ∧
      sampleStrtod "0" = some 0 ∧ ¬ (0 : ℚ) < 0) ∧
    (∃ e : Entry ℚ,
      CreateEntry sampleStrtod (fun _ => true) "sphere"
        (sampleCollect [["position", "0", "0", "0"], ["radius", "1"], ["color", "1", "1", "1"]])
        (sampleSizes [["position", "0", "0", "0"], ["radius", "1"], ["color", "1", "1", "1"]])
        3 Entry.new = some (ParserCode_t.codeOK, e) ∧
      (∃ k < e.npar_, e.keys_ k = "radius") ∧
      ∀ k < e.npar_, e.keys_ k = "radius" → 0 < e.real_ k 0) ∧
    (∃ e2 : Entry ℚ,
      CreateEntry sampleStrtod (fun _ => true) "sphere"
        (sampleCollect [["position", "0", "0", "0"], ["radius", "0"], ["color", "1", "1", "1"]])
        (sampleSizes [["position", "0", "0", "0"], ["radius", "0"], ["color", "1", "1", "1"]])
        3 Entry.new = some (ParserCode_t.codeValue, e2)) := by
  have hacc : ∃ (code : ParserCode_t) (e1 : Entry ℚ),
      CreateEntry sampleStrtod (fun _ => true) "sphere"
        (sampleCollect [["position", "0", "0", "0"], ["radius", "0"], ["color", "1", "1", "1"]])
        (sampleSizes [["position", "0", "0", "0"], ["radius", "0"], ["color", "1", "1", "1"]])
        1 Entry.new = some (code, e1) ∧
      (code = ParserCode_t.codeOK ∨ code = ParserCode_t.codeMissing) :=
    ⟨ParserCode_t.codeMissing, _, rfl, Or.inr rfl⟩
  have hv : ¬ (0 : ℚ) < 0 := lt_irrefl 0
  refine ⟨⟨rfl, by decide, hacc, rfl, hv⟩, ?_, ?_⟩
  · refine ⟨_, rfl, ?_⟩
    exact (CreateEntry_enforces_invariants sampleStrtod (fun _ => true)
      (sampleCollect [["position", "0", "0", "0"], ["radius", "1"], ["color", "1", "1", "1"]])
      (sampleSizes [["position", "0", "0", "0"], ["radius", "1"], ["color", "1", "1", "1"]])
      3 Entry.new rfl).1 _ rfl
  · exact (CreateEntry_enforces_invariants sampleStrtod (fun _ => true)
      (sampleCollect [["position", "0", "0", "0"], ["radius", "0"], ["color", "1", "1", "1"]])
      (sampleSizes [["position", "0", "0", "0"], ["radius", "0"], ["color", "1", "1", "1"]])
      3 Entry.new rfl).2.2.2.1 "sphere" 1 0 (Or.inl rfl) (by decide) hacc rfl
      (by
        intro i' hi'
        have : i' = 0 := by omega
        subst this
        decide)
      rfl rfl hv

/-! ## Alternatives -/

/-- After the loop over the parameter lines a parameter is marked exactly when
a line names it. -/
theorem CreateEntry.marked_iff_listed {K : Type} [LinearOrderedField K]
    (strtod : String → Option K) (fileGood : String → Bool) (motif : MotifEntry)
    (collect : Nat → Nat → String) (sizes : Nat → Nat) (ncol : Nat) (entry : Entry K)
    (st1 : CreateState K)
    (h1 : forLoop (CreateEntry.collectible strtod fileGood motif collect sizes) ncol 0
      (CreateEntry.init motif entry) = Flow.next st1)
    (hn : motif.nparameters = motif.parameters.length)
    (j : Nat) (p : MotifParameter)
    (hfirst : findParameter motif.parameters p.label = some (j, p)) :
    CHECK_BIT st1.checklist j = true ↔ ∃ i < ncol, collect i 0 = p.label := by
  have htake : motif.parameters.take motif.nparameters = motif.parameters := by
    rw [hn, List.take_length]
  have hget := (findParameter_some _ _ _ _ hfirst).1
  rw [CreateEntry.collectibles_bits strtod fileGood motif collect sizes ncol _ st1 h1 j]
  constructor
  · rintro (h0 | ⟨i, hi, q, hq⟩)
    · have : CHECK_BIT (CreateEntry.init motif entry).checklist j = false := CHECK_BIT_zero j
      rw [this] at h0
      cases h0
    · rw [htake] at hq
      obtain ⟨hq1, hq2⟩ := findParameter_some _ _ _ _ hq
      rw [hget] at hq1
      cases hq1
      exact ⟨i, hi, hq2.symm⟩
  · rintro ⟨i, hi, hlab⟩
    obtain ⟨-, -, r3⟩ := CreateEntry.collectibles_rows strtod fileGood motif collect sizes ncol
      _ st1 h1
    obtain ⟨-, j', p', hf', -⟩ := r3 i hi
    refine Or.inr ⟨i, hi, p', ?_⟩
    have hf2 := hf'
    rw [htake, hlab, hfirst] at hf2
    simp only [Option.some.injEq, Prod.mk.injEq] at hf2
    rw [hf2.1]
    exact hf'

/-- Of two parameters that replace each other, the entry of a `codeOK` lists
exactly one. -/
theorem CreateEntry_exactly_one {K : Type} [LinearOrderedField K]
    (strtod : String → Option K) (fileGood : String → Bool) (entryLabel : String)
    (collect : Nat → Nat → String) (sizes : Nat → Nat) (ncol : Nat) (entry e : Entry K)
    (motif : MotifEntry)
    (hfind : kEntries.find? (fun motif => decide (motif.label = entryLabel)) = some motif)
    (hn : motif.nparameters = motif.parameters.length)
    (j1 j2 : Nat) (p1 p2 : MotifParameter)
    (hfirst1 : findParameter motif.parameters p1.label = some (j1, p1))
    (hfirst2 : findParameter motif.parameters p2.label = some (j2, p2))
    (hj1 : j1 < motif.nparameters) (hj2 : j2 < motif.nparameters) (hne : j1 ≠ j2)
    (hrep1 : p1.replace = p2.id) (hrep2 : p2.replace = p1.id)
    (hopt : CHECK_BIT p1.flags flagOptional = false)
    (halt : CreateEntry.alternative motif j1 p1 = j2)
    (h : CreateEntry strtod fileGood entryLabel collect sizes ncol entry
      = some (ParserCode_t.codeOK, e)) :
    ((∃ i < ncol, collect i 0 = p1.label) ∧ ¬ ∃ i < ncol, collect i 0 = p2.label) ∨
    ((¬ ∃ i < ncol, collect i 0 = p1.label) ∧ ∃ i < ncol, collect i 0 = p2.label) := by
  obtain ⟨st1, st2, h1, h2, -⟩ := CreateEntry_codeOK strtod fileGood entryLabel collect sizes
    ncol entry motif hfind e h
  have m1 := CreateEntry.marked_iff_listed strtod fileGood motif collect sizes ncol entry st1 h1
    hn j1 p1 hfirst1
  have m2 := CreateEntry.marked_iff_listed strtod fileGood motif collect sizes ncol entry st1 h1
    hn j2 p2 hfirst2
  have hget1 := (findParameter_some _ _ _ _ hfirst1).1
  have hget2 := (findParameter_some _ _ _ _ hfirst2).1
  rw [← m1, ← m2]
  have hnot : ¬ (CHECK_BIT st1.checklist j1 = true ∧ CHECK_BIT st1.checklist j2 = true) := by
    rintro ⟨hb1, hb2⟩
    exact CreateEntry.collectibles_exclusive strtod fileGood motif collect sizes ncol _ st1 rfl
      h1 j1 j2 p1 p2 hget1 hget2 hj1 hj2 hne hb1 hb2 ⟨hrep1, hrep2⟩
  obtain ⟨-, -, -, -, t5, -, -⟩ := CreateEntry.parameters_through strtod motif _ st1 st2 h2
  obtain ⟨q, hq, hcase⟩ := t5 j1 hj1
  rw [hget1] at hq
  cases hq
  rcases hcase with hc | hc | hc
  · exact Or.inl ⟨hc, fun hb2 => hnot ⟨hc, hb2⟩⟩
  · rw [hopt] at hc
    cases hc
  · rw [halt] at hc
    exact Or.inr ⟨fun hb1 => hnot ⟨hb1, hc.2⟩, hc.2⟩

/-- A line that names the alternative of a parameter named by a line before
makes `Parser::CreateEntry` return `codeConflict`, when the lines before it
are accepted. -/
theorem CreateEntry_codeConflict {K : Type} [LinearOrderedField K]
    (strtod : String → Option K) (fileGood : String → Bool) (entryLabel : String)
    (collect : Nat → Nat → String) (sizes : Nat → Nat) (ncol : Nat) (entry : Entry K)
    (motif : MotifEntry)
    (hfind : kEntries.find? (fun motif => decide (motif.label = entryLabel)) = some motif)
    (hn : motif.nparameters = motif.parameters.length)
    (j1 j2 : Nat) (p1 p2 : MotifParameter)
    (hfirst1 : findParameter motif.parameters p1.label = some (j1, p1))
    (hfirst2 : findParameter motif.parameters p2.label = some (j2, p2))
    (hj1 : j1 < motif.nparameters) (hj2 : j2 < motif.nparameters) (hne : j1 ≠ j2)
    (hrep1 : p1.replace = p2.id) (hrep2 : p2.replace = p1.id)
    (i1 i2 : Nat) (hi1 : i1 < i2) (hi2 : i2 < ncol)
    (hacc : ∃ (code : ParserCode_t) (e1 : Entry K),
      CreateEntry strtod fileGood entryLabel collect sizes i2 entry = some (code, e1) ∧
      (code = ParserCode_t.codeOK ∨ code = ParserCode_t.codeMissing))
    (hlab1 : collect i1 0 = p1.label) (hlab2 : collect i2 0 = p2.label) :
    ∃ e2 : Entry K, CreateEntry strtod fileGood entryLabel collect sizes ncol entry
      = some (ParserCode_t.codeConflict, e2) := by
  obtain ⟨code, e1, hc1, hc2⟩ := hacc
  obtain ⟨st, hst⟩ := CreateEntry_lines_accepted strtod fileGood entryLabel collect sizes i2
    entry motif hfind code e1 hc1 hc2
  have htake : motif.parameters.take motif.nparameters = motif.parameters := by
    rw [hn, List.take_length]
  have hget1 := (findParameter_some _ _ _ _ hfirst1).1
  have hget2 := (findParameter_some _ _ _ _ hfirst2).1
  have hb1 : CHECK_BIT st.checklist j1 = true :=
    (CreateEntry.marked_iff_listed strtod fileGood motif collect sizes i2 entry st hst hn j1 p1
      hfirst1).mpr ⟨i1, hi1, hlab1⟩
  have hb2 : CHECK_BIT st.checklist j2 = false := by
    cases hb : CHECK_BIT st.checklist j2 with
    | false => rfl
    | true =>
      exact absurd ⟨hrep1, hrep2⟩
        (CreateEntry.collectibles_exclusive strtod fileGood motif collect sizes i2 _ st rfl hst
          j1 j2 p1 p2 hget1 hget2 hj1 hj2 hne hb1 hb)
  have hconf : CreateEntry.conflict motif j2 p2 (st.checklist ||| MAKE_MASK j2) = true := by
    simp only [CreateEntry.conflict]
    rw [List.any_eq_true]
    refine ⟨j1, List.mem_range.mpr hj1, ?_⟩
    rw [hget1]
    simp only [Bool.and_eq_true, decide_eq_true_eq]
    refine ⟨⟨Ne.symm hne, hrep2⟩, ?_⟩
    rw [CHECK_BIT_or_MAKE_MASK, hb1]
    rfl
  have hround := CreateEntry.collectible_codeConflict strtod fileGood motif collect sizes i2 st
    j2 p2 (by rw [htake, hlab2]; exact hfirst2) hb2 hconf
  exact ⟨st.entry, (CreateEntry_cases strtod fileGood entryLabel collect sizes ncol entry motif
    hfind).1 _ (forLoop_ret_at _ ncol i2 _ st _ hi2 hst hround)⟩

/-- The three facts about two parameters of a motif that replace each other:
a `codeOK` lists exactly one of them; a line that names one after a line that
names the other yields `codeConflict`; and when the lines are accepted and name
neither, the code is `codeMissing`. -/
theorem CreateEntry_alternatives {K : Type} [LinearOrderedField K]
    (strtod : String → Option K) (fileGood : String → Bool) (entryLabel : String)
    (collect : Nat → Nat → String) (sizes : Nat → Nat) (ncol : Nat) (entry : Entry K)
    (motif : MotifEntry)
    (hfind : kEntries.find? (fun motif => decide (motif.label = entryLabel)) = some motif)
    (hn : motif.nparameters = motif.parameters.length)
    (j1 j2 : Nat) (p1 p2 : MotifParameter)
    (hfirst1 : findParameter motif.parameters p1.label = some (j1, p1))
    (hfirst2 : findParameter motif.parameters p2.label = some (j2, p2))
    (hj1 : j1 < motif.nparameters) (hj2 : j2 < motif.nparameters) (hne : j1 ≠ j2)
    (hrep1 : p1.replace = p2.id) (hrep2 : p2.replace = p1.id)
    (hopt : CHECK_BIT p1.flags flagOptional = false)
    (halt : CreateEntry.alternative motif j1 p1 = j2) :
    (∀ e : Entry K,
      CreateEntry strtod fileGood entryLabel collect sizes ncol entry
        = some (ParserCode_t.codeOK, e) →
      ((∃ i < ncol, collect i 0 = p1.label) ∧ ¬ ∃ i < ncol, collect i 0 = p2.label) ∨
      ((¬ ∃ i < ncol, collect i 0 = p1.label) ∧ ∃ i < ncol, collect i 0 = p2.label)) ∧
    (∀ (i1 i2 : Nat) (a b : String), i1 < i2 → i2 < ncol →
      (∃ (code : ParserCode_t) (e1 : Entry K),
        CreateEntry strtod fileGood entryLabel collect sizes i2 entry = some (code, e1) ∧
        (code = ParserCode_t.codeOK ∨ code = ParserCode_t.codeMissing)) →
      (a = p1.label ∧ b = p2.label) ∨ (a = p2.label ∧ b = p1.label) →
      collect i1 0 = a → collect i2 0 = b →
      ∃ e2 : Entry K, CreateEntry strtod fileGood entryLabel collect sizes ncol entry
        = some (ParserCode_t.codeConflict, e2)) ∧
    (∀ (code : ParserCode_t) (e : Entry K),
      CreateEntry strtod fileGood entryLabel collect sizes ncol entry = some (code, e) →
      code = ParserCode_t.codeOK ∨ code = ParserCode_t.codeMissing →
      (¬ ∃ i < ncol, collect i 0 = p1.label) → (¬ ∃ i < ncol, collect i 0 = p2.label) →
      code = ParserCode_t.codeMissing) := by
  have hone := fun e : Entry K => CreateEntry_exactly_one strtod fileGood entryLabel collect
    sizes ncol entry e motif hfind hn j1 j2 p1 p2 hfirst1 hfirst2 hj1 hj2 hne hrep1 hrep2 hopt
    halt
  refine ⟨hone, ?_, ?_⟩
  · intro i1 i2 a b hi1 hi2 hacc hab ha hb
    rcases hab with ⟨rfl, rfl⟩ | ⟨rfl, rfl⟩
    · exact CreateEntry_codeConflict strtod fileGood entryLabel collect sizes ncol entry motif
        hfind hn j1 j2 p1 p2 hfirst1 hfirst2 hj1 hj2 hne hrep1 hrep2 i1 i2 hi1 hi2 hacc ha hb
    · exact CreateEntry_codeConflict strtod fileGood entryLabel collect sizes ncol entry motif
        hfind hn j2 j1 p2 p1 hfirst2 hfirst1 hj2 hj1 (Ne.symm hne) hrep2 hrep1 i1 i2 hi1 hi2
        hacc ha hb
  · intro code e h hcode hno1 hno2
    rcases hcode with rfl | rfl
    · rcases hone e h with hc | hc
      · exact absurd hc.1 hno1
      · exact absurd hc.2 hno2
    · rfl

/-- C16: for a plane, sphere or cylinder entry, `Parser::CreateEntry` returns
`codeOK` only if exactly one of the parameters `color` and `texture` is listed;
an entry that lists one after the other yields `codeConflict`, when the lines
before the second are accepted; an entry whose lines are accepted and list
neither yields `codeMissing`. A set of lines is accepted when, alone, it makes
`CreateEntry` return `codeOK` or `codeMissing`. -/
theorem color_texture_exclusive {K : Type} [LinearOrderedField K]
    (strtod : String → Option K) (fileGood : String → Bool)
    (collect : Nat → Nat → String) (sizes : Nat → Nat) (ncol : Nat) (entry : Entry K)
    (lab : String) (hlab : lab = "plane" ∨ lab = "sphere" ∨ lab = "cylinder") :
    (∀ e : Entry K,
      CreateEntry strtod fileGood lab collect sizes ncol entry
        = some (ParserCode_t.codeOK, e) →
      ((∃ i < ncol, collect i 0 = "color") ∧ ¬ ∃ i < ncol, collect i 0 = "texture") ∨
      ((¬ ∃ i < ncol, collect i 0 = "color") ∧ ∃ i < ncol, collect i 0 = "texture")) ∧
    (∀ (i1 i2 : Nat) (a b : String), i1 < i2 → i2 < ncol →
      (∃ (code : ParserCode_t) (e1 : Entry K),
        CreateEntry strtod fileGood lab collect sizes i2 entry = some (code, e1) ∧
        (code = ParserCode_t.codeOK ∨ code = ParserCode_t.codeMissing)) →
      (a = "color" ∧ b = "texture") ∨ (a = "texture" ∧ b = "color") →
      collect i1 0 = a → collect i2 0 = b →
      ∃ e2 : Entry K, CreateEntry strtod fileGood lab collect sizes ncol entry
        = some (ParserCode_t.codeConflict, e2)) ∧
    (∀ (code : ParserCode_t) (e : Entry K),
      CreateEntry strtod fileGood lab collect sizes ncol entry = some (code, e) →
      code = ParserCode_t.codeOK ∨ code = ParserCode_t.codeMissing →
      (¬ ∃ i < ncol, collect i 0 = "color") → (¬ ∃ i < ncol, collect i 0 = "texture") →
      code = ParserCode_t.codeMissing) := by
  rcases hlab with rfl | rfl | rfl
  · exact CreateEntry_alternatives strtod fileGood "plane" collect sizes ncol entry _ find_plane
      rfl 4 5 ⟨5, 6, "color", "", BIT_VECTOR⟩ ⟨6, 5, "texture", "", BIT_TEXT⟩ rfl rfl
      (by decide) (by decide) (by decide) rfl rfl (by decide) (by decide)
  · exact CreateEntry_alternatives strtod fileGood "sphere" collect sizes ncol entry _
      find_sphere rfl 4 5 ⟨5, 6, "color", "", BIT_VECTOR⟩ ⟨6, 5, "texture", "", BIT_TEXT⟩ rfl
      rfl (by decide) (by decide) (by decide) rfl rfl (by decide) (by decide)
  · exact CreateEntry_alternatives strtod fileGood "cylinder" collect sizes ncol entry _
      find_cylinder rfl 5 6 ⟨6, 7, "color", "", BIT_VECTOR⟩ ⟨7, 6, "texture", "", BIT_TEXT⟩ rfl
      rfl (by decide) (by decide) (by decide) rfl rfl (by decide) (by decide)

/-- The statement of C16 at plane entries: with `color` and `texture` the code
is `codeConflict`, with neither it is `codeMissing`, with `color` alone it is
`codeOK`. -/
theorem color_texture_exclusive_witness :
    (("plane" = "plane" ∨ "plane" = "sphere" ∨ "plane" = "cylinder") ∧
      ((3 : Nat) < 4 ∧ (4 : Nat) < 5) ∧
      (∃ (code : ParserCode_t) (e1 : Entry ℚ),
        CreateEntry sampleStrtod (fun _ => true) "plane"
          (sampleCollect [["center", "0", "0", "0"], ["normal", "0", "1", "0"], ["scale", "1"],
            ["color", "1", "1", "1"], ["texture", "\"abc.png\""]])
          (sampleSizes [["center", "0", "0", "0"], ["normal", "0", "1", "0"], ["scale", "1"],
            ["color", "1", "1", "1"], ["texture", "\"abc.png\""]])
          4 Entry.new = some (code, e1) ∧
        (code = ParserCode_t.codeOK ∨ code = ParserCode_t.codeMissing))) ∧
    (∃ e2 : Entry ℚ,
      CreateEntry sampleStrtod (fun _ => true) "plane"
        (sampleCollect [["center", "0", "0", "0"], ["normal", "0", "1", "0"], ["scale", "1"],
          ["color", "1", "1", "1"], ["texture", "\"abc.png\""]])
        (sampleSizes [["center", "0", "0", "0"], ["normal", "0", "1", "0"], ["scale", "1"],
          ["color", "1", "1", "1"], ["texture", "\"abc.png\""]])
        5 Entry.new = some (ParserCode_t.codeConflict, e2)) ∧
    (∃ e : Entry ℚ,
      CreateEntry sampleStrtod (fun _ => true) "plane"
        (sampleCollect [["center", "0", "0", "0"], ["normal", "0", "1", "0"], ["scale", "1"]])
        (sampleSizes [["center", "0", "0", "0"], ["normal", "0", "1", "0"], ["scale", "1"]])
        3 Entry.new = some (ParserCode_t.codeMissing, e)) ∧
    (∃ e : Entry ℚ,
      CreateEntry sampleStrtod (fun _ => true) "plane"
        (sampleCollect [["center", "0", "0", "0"], ["normal", "0", "1", "0"], ["scale", "1"],
          ["color", "1", "1", "1"]])
        (sampleSizes [["center", "0", "0", "0"], ["normal", "0", "1", "0"], ["scale", "1"],
          ["color", "1", "1", "1"]])
        4 Entry.new = some (ParserCode_t.codeOK, e) ∧
      (((∃ i < 4, sampleCollect [["center", "0", "0", "0"], ["normal", "0", "1", "0"],
            ["scale", "1"], ["color", "1", "1", "1"]] i 0 = "color") ∧
          ¬ ∃ i < 4, sampleCollect [["center", "0", "0", "0"], ["normal", "0", "1", "0"],
            ["scale", "1"], ["color", "1", "1", "1"]] i 0 = "texture") ∨
        ((¬ ∃ i < 4, sampleCollect [["center", "0", "0", "0"], ["normal", "0", "1", "0"],
            ["scale", "1"], ["color", "1", "1", "1"]] i 0 = "color") ∧
          ∃ i < 4, sampleCollect [["center", "0", "0", "0"], ["normal", "0", "1", "0"],
            ["scale", "1"], ["color", "1", "1", "1"]] i 0 = "texture"))) := by
  have hacc : ∃ (code : ParserCode_t) (e1 : Entry ℚ),
      CreateEntry sampleStrtod (fun _ => true) "plane"
        (sampleCollect [["center", "0", "0", "0"], ["normal", "0", "1", "0"], ["scale", "1"],
          ["color", "1", "1", "1"], ["texture", "\"abc.png\""]])
        (sampleSizes [["center", "0", "0", "0"], ["normal", "0", "1", "0"], ["scale", "1"],
          ["color", "1", "1", "1"], ["texture", "\"abc.png\""]])
        4 Entry.new = some (code, e1) ∧
      (code = ParserCode_t.codeOK ∨ code = ParserCode_t.codeMissing) :=
    ⟨ParserCode_t.codeOK, _, rfl, Or.inl rfl⟩
  refine ⟨⟨Or.inl rfl, ⟨by decide, by decide⟩, hacc⟩, ?_, ?_, ?_⟩
  · exact (color_texture_exclusive sampleStrtod (fun _ => true)
      (sampleCollect [["center", "0", "0", "0"], ["normal", "0", "1", "0"], ["scale", "1"],
        ["color", "1", "1", "1"], ["texture", "\"abc.png\""]])
      (sampleSizes [["center", "0", "0", "0"], ["normal", "0", "1", "0"], ["scale", "1"],
        ["color", "1", "1", "1"], ["texture", "\"abc.png\""]])
      5 Entry.new "plane" (Or.inl rfl)).2.1 3 4 "color" "texture" (by decide) (by decide) hacc
      (Or.inl ⟨rfl, rfl⟩) rfl rfl
  · exact ⟨_, rfl⟩
  · refine ⟨_, rfl, ?_⟩
    exact (color_texture_exclusive sampleStrtod (fun _ => true)
      (sampleCollect [["center", "0", "0", "0"], ["normal", "0", "1", "0"], ["scale", "1"],
        ["color", "1", "1", "1"]])
      (sampleSizes [["center", "0", "0", "0"], ["normal", "0", "1", "0"], ["scale", "1"],
        ["color", "1", "1", "1"]])
      4 Entry.new "plane" (Or.inl rfl)).1 _ rfl

/-! ## The reflectance of a plane -/

/-- C15 fails at planes: the plane entry with the lines `center 0 0 0`,
`normal 0 1 0`, `scale 1`, `reflect 5`, `color 1 1 1` is accepted with the
reflectance `5`, which is not in `[0, 1]`; and with `reflect 0.0` in the place
of `reflect 5`, a value in `[0, 1]`, the same entry yields `codeValue`. The
sphere entries with the same two lines behave as C15 says: `reflect 5` yields
`codeValue`, `reflect 0.0` is accepted. -/
theorem plane_reflect_not_checked :
    (∃ e : Entry ℚ,
      CreateEntry sampleStrtod (fun _ => true) "plane"
        (sampleCollect [["center", "0", "0", "0"], ["normal", "0", "1", "0"], ["scale", "1"],
          ["reflect", "5"], ["color", "1", "1", "1"]])
        (sampleSizes [["center", "0", "0", "0"], ["normal", "0", "1", "0"], ["scale", "1"],
          ["reflect", "5"], ["color", "1", "1", "1"]])
        5 Entry.new = some (ParserCode_t.codeOK, e) ∧
      e.keys_ 3 = "reflect" ∧ e.real_ 3 0 = 5 ∧ ¬ ((0 : ℚ) ≤ 5 ∧ (5 : ℚ) ≤ 1)) ∧
    (∃ e : Entry ℚ,
      CreateEntry sampleStrtod (fun _ => true) "plane"
        (sampleCollect [["center", "0", "0", "0"], ["normal", "0", "1", "0"], ["scale", "1"],
          ["reflect", "0.0"], ["color", "1", "1", "1"]])
        (sampleSizes [["center", "0", "0", "0"], ["normal", "0", "1", "0"], ["scale", "1"],
          ["reflect", "0.0"], ["color", "1", "1", "1"]])
        5 Entry.new = some (ParserCode_t.codeValue, e) ∧
      sampleStrtod "0.0" = some 0 ∧ ((0 : ℚ) ≤ 0 ∧ (0 : ℚ) ≤ 1)) ∧
    (∃ e : Entry ℚ,
      CreateEntry sampleStrtod (fun _ => true) "sphere"
        (sampleCollect [["position", "0", "0", "0"], ["radius", "1"], ["reflect", "5"],
          ["color", "1", "1", "1"]])
        (sampleSizes [["position", "0", "0", "0"], ["radius", "1"], ["reflect", "5"],
          ["color", "1", "1", "1"]])
        4 Entry.new = some (ParserCode_t.codeValue, e)) ∧
    (∃ e : Entry ℚ,
      CreateEntry sampleStrtod (fun _ => true) "sphere"
        (sampleCollect [["position", "0", "0", "0"], ["radius", "1"], ["reflect", "0.0"],
          ["color", "1", "1", "1"]])
        (sampleSizes [["position", "0", "0", "0"], ["radius", "1"], ["reflect", "0.0"],
          ["color", "1", "1", "1"]])
        4 Entry.new = some (ParserCode_t.codeOK, e)) := by
  refine ⟨⟨_, rfl, rfl, rfl, by norm_num⟩, ⟨_, rfl, rfl, by norm_num⟩, ⟨_, rfl⟩, ⟨_, rfl⟩⟩

/-! ## The entries of a configuration file -/

/-- C17 fails for a file that does not end with an empty line: on the eleven
lines below (a camera, a light and a sphere, the last line being the last
parameter of the sphere) `Parser::Parse` ends with `statusOK`, having counted
one camera, one light and one sphere; but the entries it yields are the camera
and the light alone, the sphere being created only by an empty line after
it. With an empty twelfth line the three entries are yielded. -/
theorem Parse_drops_last_entry :
    (∃ p : Parser ℚ,
      Parser.Parse sampleStrtod (fun _ => true) (Parser.new "scene")
        (some ["camera", "position 0 0 0", "target 0 0 1", "",
               "light", "position 0 1 0", "",
               "sphere", "position 0 0 0", "radius 1", "color 1 1 1"]) = some p ∧
      p.status_ = ParserStatus_t.statusOK ∧
      p.entries_.map (fun e => e.id_)
        = [some EntryID_t.entryCamera, some EntryID_t.entryLight]) ∧
    (∃ p : Parser ℚ,
      Parser.Parse sampleStrtod (fun _ => true) (Parser.new "scene")
        (some ["camera", "position 0 0 0", "target 0 0 1", "",
               "light", "position 0 1 0", "",
               "sphere", "position 0 0 0", "radius 1", "color 1 1 1", ""]) = some p ∧
      p.status_ = ParserStatus_t.statusOK ∧
      p.entries_.map (fun e => e.id_)
        = [some EntryID_t.entryCamera, some EntryID_t.entryLight,
           some EntryID_t.entrySphere]) := by
  refine ⟨⟨_, rfl, rfl, rfl⟩, ⟨_, rfl, rfl, rfl⟩⟩

/-! ## Defaults -/

/-- A loop is through when each of its rounds goes on, the rounds keeping a
property of the state. -/
theorem forLoop_through {ρ σ : Type} (body : Nat → σ → Flow ρ σ) (Q : σ → Prop) :
    ∀ (count i : Nat) (s : σ), Q s →
      (∀ m : Nat, i ≤ m → m < i + count → ∀ s : σ, Q s →
        ∃ s' : σ, body m s = Flow.next s' ∧ Q s') →
      ∃ s' : σ, forLoop body count i s = Flow.next s' ∧ Q s' := by
  intro count
  induction count with
  | zero =>
    intro i s hQ _
    exact ⟨s, rfl, hQ⟩
  | succ count ih =>
    intro i s hQ hstep
    obtain ⟨s1, h1, hQ1⟩ := hstep i (le_refl i) (by omega) s hQ
    obtain ⟨s2, h2, hQ2⟩ := ih (i + 1) s1 hQ1
      (fun m hm1 hm2 t ht => hstep m (by omega) (by omega) t ht)
    refine ⟨s2, ?_, hQ2⟩
    simp only [forLoop, h1]
    exact h2

/-- A round over a parameter of the motif goes on when the parameter is
marked, or is optional with defaults that can be split, or has its alternative
marked; it leaves the checklist as it is. -/
theorem CreateEntry.parameter_goes_on {K : Type} [LinearOrderedField K]
    (strtod : String → Option K) (motif : MotifEntry) (i : Nat) (st : CreateState K)
    (p : MotifParameter) (hget : motif.parameters.get? i = some p)
    (h : CHECK_BIT st.checklist i = true ∨
      (CHECK_BIT p.flags flagOptional = true ∧
        ∀ (t : Nat → String) (m : Nat),
          ∃ r, TokenizeLine p.defaults MAX_COMPONENTS MAX_COMPONENTS t m = some r) ∨
      (CHECK_BIT p.flags flagOptional = false ∧ p.replace ≠ 0 ∧
        CHECK_BIT st.checklist (CreateEntry.alternative motif i p) = true)) :
    ∃ st' : CreateState K, CreateEntry.parameter strtod motif i st = Flow.next st' ∧
      st'.checklist = st.checklist := by
  unfold CreateEntry.parameter
  rw [hget]
  simp only []
  by_cases hbit : CHECK_BIT st.checklist i = true
  · rw [if_neg (not_not.mpr hbit)]
    exact ⟨st, rfl, rfl⟩
  · rw [if_pos hbit]
    rcases h with h | ⟨hopt, htok⟩ | ⟨hopt, hrep, halt⟩
    · exact absurd h hbit
    · rw [if_pos hopt]
      obtain ⟨r, hr⟩ := htok st.tokens st.ntokens
      obtain ⟨b, tokens, ntokens⟩ := r
      rw [hr]
      simp only []
      by_cases htext : ¬ CHECK_BIT p.flags flagText = true
      · rw [if_pos htext]
        exact ⟨_, rfl, rfl⟩
      · rw [if_neg htext]
        exact ⟨_, rfl, rfl⟩
    · have hopt' : ¬ CHECK_BIT p.flags flagOptional = true := by
        rw [hopt]
        simp
      rw [if_neg hopt', if_pos hrep, if_neg (not_not.mpr halt)]
      exact ⟨st, rfl, rfl⟩

/-- `Parser::CreateEntry` returns `codeOK` when its lines are accepted and
every parameter of the motif is marked, or optional, or has its alternative
marked. -/
theorem CreateEntry_through {K : Type} [LinearOrderedField K]
    (strtod : String → Option K) (fileGood : String → Bool) (entryLabel : String)
    (collect : Nat → Nat → String) (sizes : Nat → Nat) (ncol : Nat) (entry : Entry K)
    (motif : MotifEntry)
    (hfind : kEntries.find? (fun motif => decide (motif.label = entryLabel)) = some motif)
    (st1 : CreateState K)
    (h1 : forLoop (CreateEntry.collectible strtod fileGood motif collect sizes) ncol 0
      (CreateEntry.init motif entry) = Flow.next st1)
    (hall : ∀ i < motif.nparameters, ∃ p : MotifParameter,
      motif.parameters.get? i = some p ∧
      (CHECK_BIT st1.checklist i = true ∨
        (CHECK_BIT p.flags flagOptional = true ∧
          ∀ (t : Nat → String) (m : Nat),
            ∃ r, TokenizeLine p.defaults MAX_COMPONENTS MAX_COMPONENTS t m = some r) ∨
        (CHECK_BIT p.flags flagOptional = false ∧ p.replace ≠ 0 ∧
          CHECK_BIT st1.checklist (CreateEntry.alternative motif i p) = true))) :
    ∃ st2 : CreateState K,
      forLoop (CreateEntry.parameter strtod motif) motif.nparameters 0 st1 = Flow.next st2 ∧
      CreateEntry strtod fileGood entryLabel collect sizes ncol entry
        = some (ParserCode_t.codeOK, st2.entry) := by
  obtain ⟨st2, h2, -⟩ := forLoop_through (CreateEntry.parameter strtod motif)
    (fun s => s.checklist = st1.checklist) motif.nparameters 0 st1 rfl
    (by
      intro m _ hm s hs
      obtain ⟨p, hget, hcase⟩ := hall m (by omega)
      obtain ⟨s', h1', h2'⟩ := CreateEntry.parameter_goes_on strtod motif m s p hget
        (by rw [hs]; exact hcase)
      exact ⟨s', h1', h2'.trans hs⟩)
  exact ⟨st2, h2, (CreateEntry_cases strtod fileGood entryLabel collect sizes ncol entry motif
    hfind).2.2 st1 st2 h1 h2⟩

/-- The numbers a conversion leaves in `out` where each token converts. -/
theorem ConvertTokens_values {K : Type} (strtod : String → Option K) (tokens : Nat → String)
    (n : Nat) (out : Nat → K) (vals : Nat → K)
    (h : ∀ c < n, strtod (tokens c) = some (vals c)) :
    ∀ c < n, (ConvertTokens strtod tokens n 0 out).2 c = vals c := by
  obtain ⟨out', hout⟩ := ConvertTokens_of_some strtod tokens n 0 out
    (fun c _ hc => ⟨vals c, h c (by omega)⟩)
  intro c hc
  rw [hout]
  have := (ConvertTokens_true strtod tokens n 0 out out' hout).1 c (Nat.zero_le c) (by omega)
  rw [h c hc] at this
  exact (Option.some.inj this).symm

/-- The row of defaults of an optional parameter with numbers that no line
names, in the entry the loop over the parameters has built. -/
theorem CreateEntry.default_row {K : Type} [LinearOrderedField K]
    (strtod : String → Option K) (motif : MotifEntry) (st1 st2 : CreateState K)
    (h2 : forLoop (CreateEntry.parameter strtod motif) motif.nparameters 0 st1 = Flow.next st2)
    (j : Nat) (p : MotifParameter) (hj : j < motif.nparameters)
    (hget : motif.parameters.get? j = some p)
    (hbit : CHECK_BIT st1.checklist j = false)
    (hopt : CHECK_BIT p.flags flagOptional = true)
    (htext : CHECK_BIT p.flags flagText = false)
    (n0 : Nat) (toks : Nat → String) (vals : Nat → K)
    (htok : ∀ (t : Nat → String) (m : Nat), ∃ t' : Nat → String,
      TokenizeLine p.defaults MAX_COMPONENTS MAX_COMPONENTS t m = some (true, t', n0) ∧
      ∀ c < n0, t' c = toks c)
    (hvals : ∀ c < n0, strtod (toks c) = some (vals c)) :
    ∃ k < st2.entry.npar_, st2.entry.keys_ k = p.label ∧
      ∀ c < n0, st2.entry.real_ k c = vals c := by
  obtain ⟨-, -, -, -, -, -, t7⟩ := CreateEntry.parameters_through strtod motif _ st1 st2 h2
  obtain ⟨k, -, hk2, hk3, s, b, tokens, ntokens, ht, hr, -⟩ := t7 j hj p hget hbit hopt
  obtain ⟨t', ht', htoks⟩ := htok s.tokens s.ntokens
  rw [ht'] at ht
  simp only [Option.some.injEq, Prod.mk.injEq] at ht
  obtain ⟨-, rfl, rfl⟩ := ht
  refine ⟨k, hk2, hk3, ?_⟩
  intro c hc
  rw [hr htext c hc]
  exact ConvertTokens_values strtod t' n0 s.output vals
    (fun c hc => by rw [htoks c hc]; exact hvals c hc) c hc

/-- The defaults `0.0` split into one token. -/
theorem TokenizeLine_default_zero (t : Nat → String) (m : Nat) :
    ∃ t' : Nat → String, TokenizeLine "0.0" MAX_COMPONENTS MAX_COMPONENTS t m = some (true, t', 1) ∧
      ∀ c < 1, t' c = (fun _ => "0.0") c :=
  ⟨_, rfl, fun c hc => by
    have : c = 0 := by omega
    subst this
    rfl⟩

/-- The defaults `-1.0` split into one token. -/
theorem TokenizeLine_default_minus_one (t : Nat → String) (m : Nat) :
    ∃ t' : Nat → String, TokenizeLine "-1.0" MAX_COMPONENTS MAX_COMPONENTS t m = some (true, t', 1) ∧
      ∀ c < 1, t' c = (fun _ => "-1.0") c :=
  ⟨_, rfl, fun c hc => by
    have : c = 0 := by omega
    subst this
    rfl⟩

/-- The defaults `0.0  0.0  1.0` split into three tokens. -/
theorem TokenizeLine_default_axis (t : Nat → String) (m : Nat) :
    ∃ t' : Nat → String,
      TokenizeLine "0.0  0.0  1.0" MAX_COMPONENTS MAX_COMPONENTS t m = some (true, t', 3) ∧
      ∀ c < 3, t' c = (fun c => if c = 2 then "1.0" else "0.0") c :=
  ⟨_, rfl, fun c hc => by
    interval_cases c <;> rfl⟩

/-- C18: an entry whose lines are accepted (they make `CreateEntry` return
`codeOK` or `codeMissing`) and which lists every parameter that is not
optional, `color` or `texture` standing for each other, makes
`Parser::CreateEntry` return `codeOK`; and every optional parameter it does not
list is in the entry with its default value: `axis = (0, 0, 1)` for a sphere,
`span = -1` for a cylinder, `roll = 0` for a camera, `reflect = 0` for a plane,
a sphere and a cylinder. The extraction `strtod` is taken to convert the
numerals `0.0`, `1.0` and `-1.0` of the tables. -/
theorem CreateEntry_defaults {K : Type} [LinearOrderedField K]
    (strtod : String → Option K) (h0 : strtod "0.0" = some 0) (h1 : strtod "1.0" = some 1)
    (hm : strtod "-1.0" = some (-1)) (fileGood : String → Bool)
    (collect : Nat → Nat → String) (sizes : Nat → Nat) (ncol : Nat) (entry : Entry K) :
    ((∃ (code : ParserCode_t) (e1 : Entry K),
        CreateEntry strtod fileGood "sphere" collect sizes ncol entry = some (code, e1) ∧
        (code = ParserCode_t.codeOK ∨ code = ParserCode_t.codeMissing)) →
      (∃ i < ncol, collect i 0 = "position") → (∃ i < ncol, collect i 0 = "radius") →
      ((∃ i < ncol, collect i 0 = "color") ∨ (∃ i < ncol, collect i 0 = "texture")) →
      ∃ e : Entry K,
        CreateEntry strtod fileGood "sphere" collect sizes ncol entry
          = some (ParserCode_t.codeOK, e) ∧
        ((¬ ∃ i < ncol, collect i 0 = "axis") →
          ∃ k < e.npar_, e.keys_ k = "axis" ∧
            e.real_ k 0 = 0 ∧ e.real_ k 1 = 0 ∧ e.real_ k 2 = 1) ∧
        ((¬ ∃ i < ncol, collect i 0 = "reflect") →
          ∃ k < e.npar_, e.keys_ k = "reflect" ∧ e.real_ k 0 = 0)) ∧
    ((∃ (code : ParserCode_t) (e1 : Entry K),
        CreateEntry strtod fileGood "cylinder" collect sizes ncol entry = some (code, e1) ∧
        (code = ParserCode_t.codeOK ∨ code = ParserCode_t.codeMissing)) →
      (∃ i < ncol, collect i 0 = "center") → (∃ i < ncol, collect i 0 = "direction") →
      (∃ i < ncol, collect i 0 = "radius") →
      ((∃ i < ncol, collect i 0 = "color") ∨ (∃ i < ncol, collect i 0 = "texture")) →
      ∃ e : Entry K,
        CreateEntry strtod fileGood "cylinder" collect sizes ncol entry
          = some (ParserCode_t.codeOK, e) ∧
        ((¬ ∃ i < ncol, collect i 0 = "span") →
          ∃ k < e.npar_, e.keys_ k = "span" ∧ e.real_ k 0 = -1) ∧
        ((¬ ∃ i < ncol, collect i 0 = "reflect") →
          ∃ k < e.npar_, e.keys_ k = "reflect" ∧ e.real_ k 0 = 0)) ∧
    ((∃ (code : ParserCode_t) (e1 : Entry K),
        CreateEntry strtod fileGood "camera" collect sizes ncol entry = some (code, e1) ∧
        (code = ParserCode_t.codeOK ∨ code = ParserCode_t.codeMissing)) →
      (∃ i < ncol, collect i 0 = "position") → (∃ i < ncol, collect i 0 = "target") →
      ∃ e : Entry K,
        CreateEntry strtod fileGood "camera" collect sizes ncol entry
          = some (ParserCode_t.codeOK, e) ∧
        ((¬ ∃ i < ncol, collect i 0 = "roll") →
          ∃ k < e.npar_, e.keys_ k = "roll" ∧ e.real_ k 0 = 0)) ∧
    ((∃ (code : ParserCode_t) (e1 : Entry K),
        CreateEntry strtod fileGood "plane" collect sizes ncol entry = some (code, e1) ∧
        (code = ParserCode_t.codeOK ∨ code = ParserCode_t.codeMissing)) →
      (∃ i < ncol, collect i 0 = "center") → (∃ i < ncol, collect i 0 = "normal") →
      (∃ i < ncol, collect i 0 = "scale") →
      ((∃ i < ncol, collect i 0 = "color") ∨ (∃ i < ncol, collect i 0 = "texture")) →
      ∃ e : Entry K,
        CreateEntry strtod fileGood "plane" collect sizes ncol entry
          = some (ParserCode_t.codeOK, e) ∧
        ((¬ ∃ i < ncol, collect i 0 = "reflect") →
          ∃ k < e.npar_, e.keys_ k = "reflect" ∧ e.real_ k 0 = 0)) := by
  have hzero : ∀ c < 1, strtod ((fun _ => "0.0") c) = some ((fun _ => (0 : K)) c) :=
    fun c _ => h0
  have hminus : ∀ c < 1, strtod ((fun _ => "-1.0") c) = some ((fun _ => (-1 : K)) c) :=
    fun c _ => hm
  have haxis : ∀ c < 3, strtod ((fun c => if c = 2 then "1.0" else "0.0") c)
      = some ((fun c => if c = 2 then (1 : K) else 0) c) := by
    intro c hc
    interval_cases c
    · exact h0
    · exact h0
    · exact h1
  have tot0 : ∀ (t : Nat → String) (m : Nat),
      ∃ r, TokenizeLine "0.0" MAX_COMPONENTS MAX_COMPONENTS t m = some r := fun t m =>
    (TokenizeLine_default_zero t m).elim (fun _ h => ⟨_, h.1⟩)
  have totm : ∀ (t : Nat → String) (m : Nat),
      ∃ r, TokenizeLine "-1.0" MAX_COMPONENTS MAX_COMPONENTS t m = some r := fun t m =>
    (TokenizeLine_default_minus_one t m).elim (fun _ h => ⟨_, h.1⟩)
  have tota : ∀ (t : Nat → String) (m : Nat),
      ∃ r, TokenizeLine "0.0  0.0  1.0" MAX_COMPONENTS MAX_COMPONENTS t m = some r := fun t m =>
    (TokenizeLine_default_axis t m).elim (fun _ h => ⟨_, h.1⟩)
  refine ⟨?_, ?_, ?_, ?_⟩
  · rintro ⟨code, e1, hc1, hc2⟩ hpos hrad hcol
    obtain ⟨st1, hl⟩ := CreateEntry_lines_accepted strtod fileGood "sphere" collect sizes ncol
      entry _ find_sphere code e1 hc1 hc2
    have m := fun (j : Nat) (p : MotifParameter) hfirst =>
      CreateEntry.marked_iff_listed strtod fileGood _ collect sizes ncol entry st1 hl rfl j p
        hfirst
    have b0 := (m 0 ⟨1, 0, "position", "", BIT_VECTOR⟩ rfl).mpr hpos
    have b1 := (m 1 ⟨2, 0, "radius", "", BIT_REAL ||| BIT_CHECK_POSITIVE⟩ rfl).mpr hrad
    have b45 : CHECK_BIT st1.checklist 4 = true ∨ CHECK_BIT st1.checklist 5 = true :=
      hcol.imp (m 4 ⟨5, 6, "color", "", BIT_VECTOR⟩ rfl).mpr
        (m 5 ⟨6, 5, "texture", "", BIT_TEXT⟩ rfl).mpr
    obtain ⟨st2, hp, hok⟩ := CreateEntry_through strtod fileGood "sphere" collect sizes ncol
      entry _ find_sphere st1 hl (by
        intro i hi
        have hi6 : i < 6 := hi
        interval_cases i
        · exact ⟨_, rfl, Or.inl b0⟩
        · exact ⟨_, rfl, Or.inl b1⟩
        · exact ⟨_, rfl, Or.inr (Or.inl ⟨by decide, tota⟩)⟩
        · exact ⟨_, rfl, Or.inr (Or.inl ⟨by decide, tot0⟩)⟩
        · rcases b45 with b | b
          · exact ⟨_, rfl, Or.inl b⟩
          · exact ⟨_, rfl, Or.inr (Or.inr ⟨by decide, by decide, b⟩)⟩
        · rcases b45 with b | b
          · exact ⟨_, rfl, Or.inr (Or.inr ⟨by decide, by decide, b⟩)⟩
          · exact ⟨_, rfl, Or.inl b⟩)
    refine ⟨st2.entry, hok, ?_, ?_⟩
    · intro hno
      have nb : CHECK_BIT st1.checklist 2 = false := by
        cases hb : CHECK_BIT st1.checklist 2 with
        | false => rfl
        | true =>
          exact absurd ((m 2 ⟨3, 0, "axis", "0.0  0.0  1.0",
            BIT_VECTOR ||| BIT_CHECK_ZERO ||| BIT_OPTIONAL⟩ rfl).mp hb) hno
      obtain ⟨k, hk, hkey, hv⟩ := CreateEntry.default_row strtod _ st1 st2 hp 2
        ⟨3, 0, "axis", "0.0  0.0  1.0", BIT_VECTOR ||| BIT_CHECK_ZERO ||| BIT_OPTIONAL⟩
        (by decide) rfl nb (by decide) (by decide) 3 _ _ TokenizeLine_default_axis haxis
      exact ⟨k, hk, hkey, hv 0 (by omega), hv 1 (by omega), hv 2 (by omega)⟩
    · intro hno
      have nb : CHECK_BIT st1.checklist 3 = false := by
        cases hb : CHECK_BIT st1.checklist 3 with
        | false => rfl
        | true =>
          exact absurd ((m 3 ⟨4, 0, "reflect", "0.0",
            BIT_REAL ||| BIT_CHECK_ZERO_ONE ||| BIT_OPTIONAL⟩ rfl).mp hb) hno
      obtain ⟨k, hk, hkey, hv⟩ := CreateEntry.default_row strtod _ st1 st2 hp 3
        ⟨4, 0, "reflect", "0.0", BIT_REAL ||| BIT_CHECK_ZERO_ONE ||| BIT_OPTIONAL⟩
        (by decide) rfl nb (by decide) (by decide) 1 _ _ TokenizeLine_default_zero hzero
      exact ⟨k, hk, hkey, hv 0 (by omega)⟩
  · rintro ⟨code, e1, hc1, hc2⟩ hcen hdir hrad hcol
    obtain ⟨st1, hl⟩ := CreateEntry_lines_accepted strtod fileGood "cylinder" collect sizes ncol
      entry _ find_cylinder code e1 hc1 hc2
    have m := fun (j : Nat) (p : MotifParameter) hfirst =>
      CreateEntry.marked_iff_listed strtod fileGood _ collect sizes ncol entry st1 hl rfl j p
        hfirst
    have b0 := (m 0 ⟨1, 0, "center", "", BIT_VECTOR⟩ rfl).mpr hcen
    have b1 := (m 1 ⟨2, 0, "direction", "", BIT_VECTOR ||| BIT_CHECK_ZERO⟩ rfl).mpr hdir
    have b2 := (m 2 ⟨3, 0, "radius", "", BIT_REAL ||| BIT_CHECK_POSITIVE⟩ rfl).mpr hrad
    have b56 : CHECK_BIT st1.checklist 5 = true ∨ CHECK_BIT st1.checklist 6 = true :=
      hcol.imp (m 5 ⟨6, 7, "color", "", BIT_VECTOR⟩ rfl).mpr
        (m 6 ⟨7, 6, "texture", "", BIT_TEXT⟩ rfl).mpr
    obtain ⟨st2, hp, hok⟩ := CreateEntry_through strtod fileGood "cylinder" collect sizes ncol
      entry _ find_cylinder st1 hl (by
        intro i hi
        have hi7 : i < 7 := hi
        interval_cases i
        · exact ⟨_, rfl, Or.inl b0⟩
        · exact ⟨_, rfl, Or.inl b1⟩
        · exact ⟨_, rfl, Or.inl b2⟩
        · exact ⟨_, rfl, Or.inr (Or.inl ⟨by decide, totm⟩)⟩
        · exact ⟨_, rfl, Or.inr (Or.inl ⟨by decide, tot0⟩)⟩
        · rcases b56 with b | b
          · exact ⟨_, rfl, Or.inl b⟩
          · exact ⟨_, rfl, Or.inr (Or.inr ⟨by decide, by decide, b⟩)⟩
        · rcases b56 with b | b
          · exact ⟨_, rfl, Or.inr (Or.inr ⟨by decide, by decide, b⟩)⟩
          · exact ⟨_, rfl, Or.inl b⟩)
    refine ⟨st2.entry, hok, ?_, ?_⟩
    · intro hno
      have nb : CHECK_BIT st1.checklist 3 = false := by
        cases hb : CHECK_BIT st1.checklist 3 with
        | false => rfl
        | true =>
          exact absurd ((m 3 ⟨4, 0, "span", "-1.0",
            BIT_REAL ||| BIT_CHECK_ZERO ||| BIT_OPTIONAL⟩ rfl).mp hb) hno
      obtain ⟨k, hk, hkey, hv⟩ := CreateEntry.default_row strtod _ st1 st2 hp 3
        ⟨4, 0, "span", "-1.0", BIT_REAL ||| BIT_CHECK_ZERO ||| BIT_OPTIONAL⟩
        (by decide) rfl nb (by decide) (by decide) 1 _ _ TokenizeLine_default_minus_one hminus
      exact ⟨k, hk, hkey, hv 0 (by omega)⟩
    · intro hno
      have nb : CHECK_BIT st1.checklist 4 = false := by
        cases hb : CHECK_BIT st1.checklist 4 with
        | false => rfl
        | true =>
          exact absurd ((m 4 ⟨5, 0, "reflect", "0.0",
            BIT_REAL ||| BIT_CHECK_ZERO_ONE ||| BIT_OPTIONAL⟩ rfl).mp hb) hno
      obtain ⟨k, hk, hkey, hv⟩ := CreateEntry.default_row strtod _ st1 st2 hp 4
        ⟨5, 0, "reflect", "0.0", BIT_REAL ||| BIT_CHECK_ZERO_ONE ||| BIT_OPTIONAL⟩
        (by decide) rfl nb (by decide) (by decide) 1 _ _ TokenizeLine_default_zero hzero
      exact ⟨k, hk, hkey, hv 0 (by omega)⟩
  · rintro ⟨code, e1, hc1, hc2⟩ hpos htar
    obtain ⟨st1, hl⟩ := CreateEntry_lines_accepted strtod fileGood "camera" collect sizes ncol
      entry _ find_camera code e1 hc1 hc2
    have m := fun (j : Nat) (p : MotifParameter) hfirst =>
      CreateEntry.marked_iff_listed strtod fileGood _ collect sizes ncol entry st1 hl rfl j p
        hfirst
    have b0 := (m 0 ⟨1, 0, "position", "", BIT_VECTOR⟩ rfl).mpr hpos
    have b1 := (m 1 ⟨2, 0, "target", "", BIT_VECTOR⟩ rfl).mpr htar
    obtain ⟨st2, hp, hok⟩ := CreateEntry_through strtod fileGood "camera" collect sizes ncol
      entry _ find_camera st1 hl (by
        intro i hi
        have hi3 : i < 3 := hi
        interval_cases i
        · exact ⟨_, rfl, Or.inl b0⟩
        · exact ⟨_, rfl, Or.inl b1⟩
        · exact ⟨_, rfl, Or.inr (Or.inl ⟨by decide, tot0⟩)⟩)
    refine ⟨st2.entry, hok, ?_⟩
    intro hno
    have nb : CHECK_BIT st1.checklist 2 = false := by
      cases hb : CHECK_BIT st1.checklist 2 with
      | false => rfl
      | true =>
        exact absurd ((m 2 ⟨3, 0, "roll", "0.0", BIT_REAL ||| BIT_OPTIONAL⟩ rfl).mp hb) hno
    obtain ⟨k, hk, hkey, hv⟩ := CreateEntry.default_row strtod _ st1 st2 hp 2
      ⟨3, 0, "roll", "0.0", BIT_REAL ||| BIT_OPTIONAL⟩
      (by decide) rfl nb (by decide) (by decide) 1 _ _ TokenizeLine_default_zero hzero
    exact ⟨k, hk, hkey, hv 0 (by omega)⟩
  · rintro ⟨code, e1, hc1, hc2⟩ hcen hnor hsca hcol
    obtain ⟨st1, hl⟩ := CreateEntry_lines_accepted strtod fileGood "plane" collect sizes ncol
      entry _ find_plane code e1 hc1 hc2
    have m := fun (j : Nat) (p : MotifParameter) hfirst =>
      CreateEntry.marked_iff_listed strtod fileGood _ collect sizes ncol entry st1 hl rfl j p
        hfirst
    have b0 := (m 0 ⟨1, 0, "center", "", BIT_VECTOR⟩ rfl).mpr hcen
    have b1 := (m 1 ⟨2, 0, "normal", "", BIT_VECTOR ||| BIT_CHECK_ZERO⟩ rfl).mpr hnor
    have b2 := (m 2 ⟨3, 0, "scale", "", BIT_REAL ||| BIT_CHECK_POSITIVE⟩ rfl).mpr hsca
    have b45 : CHECK_BIT st1.checklist 4 = true ∨ CHECK_BIT st1.checklist 5 = true :=
      hcol.imp (m 4 ⟨5, 6, "color", "", BIT_VECTOR⟩ rfl).mpr
        (m 5 ⟨6, 5, "texture", "", BIT_TEXT⟩ rfl).mpr
    obtain ⟨st2, hp, hok⟩ := CreateEntry_through strtod fileGood "plane" collect sizes ncol
      entry _ find_plane st1 hl (by
        intro i hi
        have hi6 : i < 6 := hi
        interval_cases i
        · exact ⟨_, rfl, Or.inl b0⟩
        · exact ⟨_, rfl, Or.inl b1⟩
        · exact ⟨_, rfl, Or.inl b2⟩
        · exact ⟨_, rfl, Or.inr (Or.inl ⟨by decide, tot0⟩)⟩
        · rcases b45 with b | b
          · exact ⟨_, rfl, Or.inl b⟩
          · exact ⟨_, rfl, Or.inr (Or.inr ⟨by decide, by decide, b⟩)⟩
        · rcases b45 with b | b
          · exact ⟨_, rfl, Or.inr (Or.inr ⟨by decide, by decide, b⟩)⟩
          · exact ⟨_, rfl, Or.inl b⟩)
    refine ⟨st2.entry, hok, ?_⟩
    intro hno
    have nb : CHECK_BIT st1.checklist 3 = false := by
      cases hb : CHECK_BIT st1.checklist 3 with
      | false => rfl
      | true =>
        exact absurd ((m 3 ⟨4, 0, "reflect", "0.0",
          BIT_REAL ||| BIT_CHECK_POSITIVE ||| BIT_OPTIONAL⟩ rfl).mp hb) hno
    obtain ⟨k, hk, hkey, hv⟩ := CreateEntry.default_row strtod _ st1 st2 hp 3
      ⟨4, 0, "reflect", "0.0", BIT_REAL ||| BIT_CHECK_POSITIVE ||| BIT_OPTIONAL⟩
      (by decide) rfl nb (by decide) (by decide) 1 _ _ TokenizeLine_default_zero hzero
    exact ⟨k, hk, hkey, hv 0 (by omega)⟩

theorem CreateEntry_defaults_witness :
    (sampleStrtod "0.0" = some 0 ∧ sampleStrtod "1.0" = some 1 ∧
      sampleStrtod "-1.0" = some (-1)) ∧
    ((∃ i < 3, sampleCollect [["position", "0", "0", "0"], ["radius", "1"],
        ["color", "1", "1", "1"]] i 0 = "position") ∧
      (∃ i < 3, sampleCollect [["position", "0", "0", "0"], ["radius", "1"],
        ["color", "1", "1", "1"]] i 0 = "radius") ∧
      (¬ ∃ i < 3, sampleCollect [["position", "0", "0", "0"], ["radius", "1"],
        ["color", "1", "1", "1"]] i 0 = "axis") ∧
      (¬ ∃ i < 3, sampleCollect [["position", "0", "0", "0"], ["radius", "1"],
        ["color", "1", "1", "1"]] i 0 = "reflect")) ∧
    (∃ e : Entry ℚ,
      CreateEntry sampleStrtod (fun _ => true) "sphere"
        (sampleCollect [["position", "0", "0", "0"], ["radius", "1"], ["color", "1", "1", "1"]])
        (sampleSizes [["position", "0", "0", "0"], ["radius", "1"], ["color", "1", "1", "1"]])
        3 Entry.new = some (ParserCode_t.codeOK, e) ∧
      (∃ k < e.npar_, e.keys_ k = "axis" ∧
        e.real_ k 0 = 0 ∧ e.real_ k 1 = 0 ∧ e.real_ k 2 = 1) ∧
      (∃ k < e.npar_, e.keys_ k = "reflect" ∧ e.real_ k 0 = 0)) ∧
    (∃ e : Entry ℚ,
      CreateEntry sampleStrtod (fun _ => true) "cylinder"
        (sampleCollect [["center", "0", "0", "0"], ["direction", "0", "1", "0"],
          ["radius", "1"], ["color", "1", "1", "1"]])
        (sampleSizes [["center", "0", "0", "0"], ["direction", "0", "1", "0"],
          ["radius", "1"], ["color", "1", "1", "1"]])
        4 Entry.new = some (ParserCode_t.codeOK, e) ∧
      (∃ k < e.npar_, e.keys_ k = "span" ∧ e.real_ k 0 = -1) ∧
      (∃ k < e.npar_, e.keys_ k = "reflect" ∧ e.real_ k 0 = 0)) ∧
    (∃ e : Entry ℚ,
      CreateEntry sampleStrtod (fun _ => true) "camera"
        (sampleCollect [["position", "0", "0", "0"], ["target", "0", "1", "0"]])
        (sampleSizes [["position", "0", "0", "0"], ["target", "0", "1", "0"]])
        2 Entry.new = some (ParserCode_t.codeOK, e) ∧
      (∃ k < e.npar_, e.keys_ k = "roll" ∧ e.real_ k 0 = 0)) ∧
    (∃ e : Entry ℚ,
      CreateEntry sampleStrtod (fun _ => true) "plane"
        (sampleCollect [["center", "0", "0", "0"], ["normal", "0", "1", "0"], ["scale", "1"],
          ["color", "1", "1", "1"]])
        (sampleSizes [["center", "0", "0", "0"], ["normal", "0", "1", "0"], ["scale", "1"],
          ["color", "1", "1", "1"]])
        4 Entry.new = some (ParserCode_t.codeOK, e) ∧
      (∃ k < e.npar_, e.keys_ k = "reflect" ∧ e.real_ k 0 = 0)) := by
  have hnoS : ∀ s : String, s ≠ "position" → s ≠ "radius" → s ≠ "color" →
      ¬ ∃ i < 3, sampleCollect [["position", "0", "0", "0"], ["radius", "1"],
        ["color", "1", "1", "1"]] i 0 = s := by
    rintro s h1 h2 h3 ⟨i, hi, h⟩
    interval_cases i
    · exact h1 h.symm
    · exact h2 h.symm
    · exact h3 h.symm
  have hnoC : ∀ s : String, s ≠ "center" → s ≠ "direction" → s ≠ "radius" → s ≠ "color" →
      ¬ ∃ i < 4, sampleCollect [["center", "0", "0", "0"], ["direction", "0", "1", "0"],
          ["radius", "1"], ["color", "1", "1", "1"]] i 0 = s := by
    rintro s h1 h2 h3 h4 ⟨i, hi, h⟩
    interval_cases i
    · exact h1 h.symm
    · exact h2 h.symm
    · exact h3 h.symm
    · exact h4 h.symm
  have hnoK : ¬ ∃ i < 2, sampleCollect [["position", "0", "0", "0"],
      ["target", "0", "1", "0"]] i 0 = "roll" := by
    rintro ⟨i, hi, h⟩
    interval_cases i
    · exact absurd h (by decide)
    · exact absurd h (by decide)
  have hnoP : ¬ ∃ i < 4, sampleCollect [["center", "0", "0", "0"], ["normal", "0", "1", "0"],
      ["scale", "1"], ["color", "1", "1", "1"]] i 0 = "reflect" := by
    rintro ⟨i, hi, h⟩
    interval_cases i
    · exact absurd h (by decide)
    · exact absurd h (by decide)
    · exact absurd h (by decide)
    · exact absurd h (by decide)
  have hall := CreateEntry_defaults sampleStrtod rfl rfl rfl (fun _ => true)
  refine ⟨⟨rfl, rfl, rfl⟩,
    ⟨⟨0, by decide, rfl⟩, ⟨1, by decide, rfl⟩, hnoS _ (by decide) (by decide) (by decide),
      hnoS _ (by decide) (by decide) (by decide)⟩, ?_, ?_, ?_, ?_⟩
  · obtain ⟨e, he, hax, hre⟩ := (hall
      (sampleCollect [["position", "0", "0", "0"], ["radius", "1"], ["color", "1", "1", "1"]])
      (sampleSizes [["position", "0", "0", "0"], ["radius", "1"], ["color", "1", "1", "1"]])
      3 Entry.new).1 ⟨_, _, rfl, Or.inl rfl⟩
      ⟨0, by decide, rfl⟩ ⟨1, by decide, rfl⟩ (Or.inl ⟨2, by decide, rfl⟩)
    exact ⟨e, he, hax (hnoS _ (by decide) (by decide) (by decide)),
      hre (hnoS _ (by decide) (by decide) (by decide))⟩
  · obtain ⟨e, he, hsp, hre⟩ := (hall
      (sampleCollect [["center", "0", "0", "0"], ["direction", "0", "1", "0"],
        ["radius", "1"], ["color", "1", "1", "1"]])
      (sampleSizes [["center", "0", "0", "0"], ["direction", "0", "1", "0"],
        ["radius", "1"], ["color", "1", "1", "1"]])
      4 Entry.new).2.1 ⟨_, _, rfl, Or.inl rfl⟩
      ⟨0, by decide, rfl⟩ ⟨1, by decide, rfl⟩ ⟨2, by decide, rfl⟩ (Or.inl ⟨3, by decide, rfl⟩)
    exact ⟨e, he, hsp (hnoC _ (by decide) (by decide) (by decide) (by decide)),
      hre (hnoC _ (by decide) (by decide) (by decide) (by decide))⟩
  · obtain ⟨e, he, hro⟩ := (hall
      (sampleCollect [["position", "0", "0", "0"], ["target", "0", "1", "0"]])
      (sampleSizes [["position", "0", "0", "0"], ["target", "0", "1", "0"]])
      2 Entry.new).2.2.1 ⟨_, _, rfl, Or.inl rfl⟩
      ⟨0, by decide, rfl⟩ ⟨1, by decide, rfl⟩
    exact ⟨e, he, hro hnoK⟩
  · obtain ⟨e, he, hre⟩ := (hall
      (sampleCollect [["center", "0", "0", "0"], ["normal", "0", "1", "0"],
        ["scale", "1"], ["color", "1", "1", "1"]])
      (sampleSizes [["center", "0", "0", "0"], ["normal", "0", "1", "0"],
        ["scale", "1"], ["color", "1", "1", "1"]])
      4 Entry.new).2.2.2 ⟨_, _, rfl, Or.inl rfl⟩
      ⟨0, by decide, rfl⟩ ⟨1, by decide, rfl⟩ ⟨2, by decide, rfl⟩ (Or.inl ⟨3, by decide, rfl⟩)
    exact ⟨e, he, hre hnoP⟩

/-! ## The block renderer: the buffer does not depend on the schedule -/

theorem Buffer.apply_at {Color : Type} (f : Nat → Color) (ws : List (PixelWrite Color))
    (hf : ∀ w ∈ ws, w.color = f w.index) (buf : Nat → Color) (i : Nat) :
    Buffer.apply buf ws i = if ∃ w ∈ ws, w.index = i then f i else buf i := by
  induction ws generalizing buf with
  | nil => simp [Buffer.apply]
  | cons a ws ih =>
    have h := ih (fun w hw => hf w (List.mem_cons_of_mem _ hw))
      (Function.update buf a.index a.color)
    simp only [Buffer.apply, List.foldl_cons] at h ⊢
    rw [h]
    by_cases hex : ∃ w ∈ ws, w.index = i
    · have : ∃ w ∈ a :: ws, w.index = i := by
        obtain ⟨w, hw, hi⟩ := hex
        exact ⟨w, List.mem_cons_of_mem _ hw, hi⟩
      rw [if_pos hex, if_pos this]
    · rw [if_neg hex]
      by_cases hai : a.index = i
      · have : ∃ w ∈ a :: ws, w.index = i := ⟨a, List.mem_cons_self _ _, hai⟩
        rw [if_pos this, ← hai, Function.update_same]
        exact hf a (List.mem_cons_self _ _)
      · have : ¬ ∃ w ∈ a :: ws, w.index = i := by
          rintro ⟨w, hw, hi⟩
          rcases List.mem_cons.1 hw with rfl | hw
          · exact hai hi
          · exact hex ⟨w, hw, hi⟩
        rw [if_neg this, Function.update_noteq (Ne.symm hai)]

theorem Buffer.apply_join {Color : Type} (f : Nat → Color)
    (workers : Nat → List (PixelWrite Color)) (l : List Nat)
    (hf : ∀ k ∈ l, ∀ w ∈ workers k, w.color = f w.index) (buf : Nat → Color) (i : Nat) :
    l.foldl (fun b k => Buffer.apply b (workers k)) buf i
      = if ∃ k ∈ l, ∃ w ∈ workers k, w.index = i then f i else buf i := by
  induction l generalizing buf with
  | nil => simp
  | cons k l ih =>
    rw [List.foldl_cons, ih (fun k hk => hf k (List.mem_cons_of_mem _ hk)),
      Buffer.apply_at f (workers k) (hf k (List.mem_cons_self _ _))]
    by_cases h1 : ∃ k ∈ l, ∃ w ∈ workers k, w.index = i
    · have : ∃ k' ∈ k :: l, ∃ w ∈ workers k', w.index = i := by
        obtain ⟨k', hk', h⟩ := h1
        exact ⟨k', List.mem_cons_of_mem _ hk', h⟩
      rw [if_pos h1, if_pos this]
    · rw [if_neg h1]
      by_cases h2 : ∃ w ∈ workers k, w.index = i
      · have : ∃ k' ∈ k :: l, ∃ w ∈ workers k', w.index = i :=
          ⟨k, List.mem_cons_self _ _, h2⟩
        rw [if_pos h2, if_pos this]
      · have : ¬ ∃ k' ∈ k :: l, ∃ w ∈ workers k', w.index = i := by
          rintro ⟨k', hk', h⟩
          rcases List.mem_cons.1 hk' with rfl | hk'
          · exact h2 h
          · exact h1 ⟨k', hk', h⟩
        rw [if_neg h2, if_neg this]

theorem World.run_at {Color : Type} (f : Nat → Color) (nthreads : Nat) (sched : List Nat)
    (workers : Nat → List (PixelWrite Color))
    (hf : ∀ k < nthreads, ∀ w ∈ workers k, w.color = f w.index) (buf : Nat → Color)
    (i : Nat) :
    World.run nthreads sched workers buf i
      = if ∃ k < nthreads, ∃ w ∈ workers k, w.index = i then f i else buf i := by
  induction sched generalizing workers buf with
  | nil =>
    rw [World.run, Buffer.apply_join f workers (List.range nthreads)
      (fun k hk => hf k (List.mem_range.1 hk))]
    simp only [List.mem_range]
  | cons k rest ih =>
    rw [World.run]
    cases hk : workers k with
    | nil => exact ih workers hf buf
    | cons a ws =>
      simp only []
      by_cases hkn : k < nthreads
      · rw [if_pos hkn]
        have ha : a.color = f a.index := hf k hkn a (by rw [hk]; exact List.mem_cons_self _ _)
        have hf2 : ∀ k' < nthreads, ∀ w ∈ Function.update workers k ws k',
            w.color = f w.index := by
          intro k' hk' w hw
          by_cases e : k' = k
          · subst e
            rw [Function.update_same] at hw
            exact hf k' hk' w (by rw [hk]; exact List.mem_cons_of_mem _ hw)
          · rw [Function.update_noteq e] at hw
            exact hf k' hk' w hw
        rw [ih (Function.update workers k ws) hf2]
        by_cases h2 : ∃ k' < nthreads, ∃ w ∈ Function.update workers k ws k', w.index = i
        · have : ∃ k' < nthreads, ∃ w ∈ workers k', w.index = i := by
            obtain ⟨k', hk', w, hw, hi⟩ := h2
            by_cases e : k' = k
            · subst e
              rw [Function.update_same] at hw
              exact ⟨k', hk', w, by rw [hk]; exact List.mem_cons_of_mem _ hw, hi⟩
            · rw [Function.update_noteq e] at hw
              exact ⟨k', hk', w, hw, hi⟩
          rw [if_pos h2, if_pos this]
        · rw [if_neg h2]
          by_cases hai : a.index = i
          · have : ∃ k' < nthreads, ∃ w ∈ workers k', w.index = i :=
              ⟨k, hkn, a, by rw [hk]; exact List.mem_cons_self _ _, hai⟩
            rw [if_pos this, ← hai, Function.update_same]
            exact ha
          · have : ¬ ∃ k' < nthreads, ∃ w ∈ workers k', w.index = i := by
              rintro ⟨k', hk', w, hw, hi⟩
              by_cases e : k' = k
              · subst e
                rw [hk] at hw
                rcases List.mem_cons.1 hw with rfl | hw
                · exact hai hi
                · exact h2 ⟨k', hk', w, by rw [Function.update_same]; exact hw, hi⟩
              · exact h2 ⟨k', hk', w, by rw [Function.update_noteq e]; exact hw, hi⟩
            rw [if_neg this, Function.update_noteq (Ne.symm hai)]
      · rw [if_neg hkn]
        exact ih workers hf buf

theorem World.index_div {width x : Nat} (y : Nat) (hx : x < width) :
    (y * width + x) / width = y ∧ (y * width + x) % width = x := by
  have hw : 0 < width := Nat.lt_of_le_of_lt (Nat.zero_le _) hx
  constructor
  · rw [Nat.add_comm, Nat.add_mul_div_right _ _ hw, Nat.div_eq_of_lt hx, Nat.zero_add]
  · rw [Nat.add_comm, Nat.add_mul_mod_self_right, Nat.mod_eq_of_lt hx]

theorem World.mem_RenderBlock {Color : Type} (pixel : Nat → Nat → Color)
    (width height nthreads block nlines : Nat) (w : PixelWrite Color) :
    w ∈ World.RenderBlock pixel width height nthreads block nlines ↔
      ∃ j < nlines, ∃ x < width,
        w.index = (block * (height / nthreads) + j) * width + x ∧
        w.color = pixel x (block * (height / nthreads) + j) := by
  unfold World.RenderBlock
  constructor
  · intro h
    obtain ⟨j, hj, hw⟩ := List.mem_flatMap.1 h
    obtain ⟨x, hx, rfl⟩ := List.mem_map.1 hw
    exact ⟨j, List.mem_range.1 hj, x, List.mem_range.1 hx, rfl, rfl⟩
  · rintro ⟨j, hj, x, hx, hi, hc⟩
    refine List.mem_flatMap.2 ⟨j, List.mem_range.2 hj, List.mem_map.2 ⟨x, List.mem_range.2 hx, ?_⟩⟩
    cases w
    simp only at hi hc
    rw [hi, hc]

theorem World.mem_blocks {Color : Type} (pixel : Nat → Nat → Color)
    (width height nthreads block : Nat) (w : PixelWrite Color) :
    w ∈ World.blocks pixel width height nthreads block ↔
      ∃ y x, block * (height / nthreads) ≤ y ∧
        y < (if block + 1 = nthreads then height else (block + 1) * (height / nthreads)) ∧
        x < width ∧ w.index = y * width + x ∧ w.color = pixel x y := by
  unfold World.blocks
  rw [World.mem_RenderBlock]
  constructor
  · rintro ⟨j, hj, x, hx, hi, hc⟩
    refine ⟨block * (height / nthreads) + j, x, Nat.le_add_right _ _, ?_, hx, hi, hc⟩
    by_cases hb : block + 1 = nthreads
    · rw [if_pos hb] at hj ⊢
      omega
    · rw [if_neg hb] at hj ⊢
      rw [Nat.add_mul, Nat.one_mul]
      omega
  · rintro ⟨y, x, hy1, hy2, hx, hi, hc⟩
    refine ⟨y - block * (height / nthreads), ?_, x, hx, ?_, ?_⟩
    · by_cases hb : block + 1 = nthreads
      · rw [if_pos hb] at hy2 ⊢
        omega
      · rw [if_neg hb] at hy2 ⊢
        rw [Nat.add_mul, Nat.one_mul] at hy2
        omega
    · rw [Nat.add_sub_cancel' hy1]
      exact hi
    · rw [Nat.add_sub_cancel' hy1]
      exact hc

theorem World.block_end_le (height nthreads block : Nat) (hb : block < nthreads) :
    (if block + 1 = nthreads then height else (block + 1) * (height / nthreads)) ≤ height := by
  by_cases h : block + 1 = nthreads
  · rw [if_pos h]
  · rw [if_neg h]
    calc (block + 1) * (height / nthreads) ≤ nthreads * (height / nthreads) :=
          Nat.mul_le_mul_right _ hb
      _ ≤ height := Nat.mul_div_le _ _

theorem World.block_end_le_start (height nthreads block block2 : Nat) (h12 : block < block2)
    (hb : block2 < nthreads) :
    (if block + 1 = nthreads then height else (block + 1) * (height / nthreads))
      ≤ block2 * (height / nthreads) := by
  rw [if_neg (by omega)]
  exact Nat.mul_le_mul_right _ h12

theorem World.rows_covered (height nthreads y : Nat) (hn : 0 < nthreads) :
    (∃ block < nthreads, block * (height / nthreads) ≤ y ∧
      y < (if block + 1 = nthreads then height else (block + 1) * (height / nthreads)))
      ↔ y < height := by
  constructor
  · rintro ⟨block, hb, _, h2⟩
    exact Nat.lt_of_lt_of_le h2 (World.block_end_le height nthreads block hb)
  · intro hy
    by_cases hlast : (nthreads - 1) * (height / nthreads) ≤ y
    · refine ⟨nthreads - 1, by omega, hlast, ?_⟩
      rw [if_pos (by omega)]
      exact hy
    · have hq : 0 < height / nthreads := by
        rcases Nat.eq_zero_or_pos (height / nthreads) with h0 | h0
        · rw [h0, Nat.mul_zero] at hlast
          exact absurd (Nat.zero_le _) hlast
        · exact h0
      have hlt : y / (height / nthreads) < nthreads - 1 := by
        rw [Nat.div_lt_iff_lt_mul hq]
        omega
      refine ⟨y / (height / nthreads), by omega, ?_, ?_⟩
      · exact Nat.div_mul_le_self _ _
      · rw [if_neg (by omega)]
        have h1 := Nat.div_add_mod y (height / nthreads)
        have h2 := Nat.mod_lt y hq
        rw [Nat.add_mul, Nat.one_mul, Nat.mul_comm]
        omega

theorem World.blocks_color {Color : Type} (pixel : Nat → Nat → Color)
    (width height nthreads block : Nat) (w : PixelWrite Color)
    (hw : w ∈ World.blocks pixel width height nthreads block) :
    w.color = pixel (w.index % width) (w.index / width) := by
  obtain ⟨y, x, _, _, hx, hi, hc⟩ := (World.mem_blocks pixel width height nthreads block w).1 hw
  rw [hi, (World.index_div y hx).1, (World.index_div y hx).2]
  exact hc

theorem World.blocks_written {Color : Type} (pixel : Nat → Nat → Color)
    (width height nthreads : Nat) (hn : 0 < nthreads) (i : Nat) :
    (∃ block < nthreads, ∃ w ∈ World.blocks pixel width height nthreads block, w.index = i)
      ↔ i < height * width := by
  constructor
  · rintro ⟨block, hb, w, hw, rfl⟩
    obtain ⟨y, x, _, hy, hx, hi, _⟩ :=
      (World.mem_blocks pixel width height nthreads block w).1 hw
    have hyh : y + 1 ≤ height :=
      Nat.lt_of_lt_of_le hy (World.block_end_le height nthreads block hb)
    have h1 : (y + 1) * width ≤ height * width := Nat.mul_le_mul_right _ hyh
    rw [Nat.add_mul, Nat.one_mul] at h1
    omega
  · intro hi
    have hw : 0 < width := by
      rcases Nat.eq_zero_or_pos width with h0 | h0
      · rw [h0, Nat.mul_zero] at hi
        exact absurd hi (Nat.not_lt_zero _)
      · exact h0
    have hy : i / width < height := (Nat.div_lt_iff_lt_mul hw).2 hi
    obtain ⟨block, hb, h1, h2⟩ := (World.rows_covered height nthreads (i / width) hn).2 hy
    refine ⟨block, hb, ⟨i, pixel (i % width) (i / width)⟩, ?_, rfl⟩
    refine (World.mem_blocks pixel width height nthreads block _).2
      ⟨i / width, i % width, h1, h2, Nat.mod_lt _ hw, ?_, rfl⟩
    have := Nat.div_add_mod i width
    rw [Nat.mul_comm] at this
    exact this.symm

theorem World.Render_at {Color : Type} (pixel : Nat → Nat → Color)
    (width height nthreads : Nat) (hn : 0 < nthreads) (sched : List Nat) (buf : Nat → Color)
    (i : Nat) :
    World.Render pixel width height nthreads sched buf i
      = if i < height * width then pixel (i % width) (i / width) else buf i := by
  unfold World.Render
  rw [World.run_at (fun i => pixel (i % width) (i / width)) nthreads sched _
    (fun k _ w hw => World.blocks_color pixel width height nthreads k w hw)]
  by_cases h : i < height * width
  · rw [if_pos h, if_pos ((World.blocks_written pixel width height nthreads hn i).2 h)]
  · rw [if_neg h, if_neg (fun h2 => h ((World.blocks_written pixel width height nthreads hn i).1 h2))]

theorem World.blocks_disjoint {Color : Type} (pixel : Nat → Nat → Color)
    (width height nthreads block block2 : Nat) (h12 : block < block2)
    (hb : block2 < nthreads) (w w2 : PixelWrite Color)
    (hw : w ∈ World.blocks pixel width height nthreads block)
    (hw2 : w2 ∈ World.blocks pixel width height nthreads block2) :
    w.index ≠ w2.index := by
  obtain ⟨y, x, _, hy, hx, hi, _⟩ := (World.mem_blocks pixel width height nthreads block w).1 hw
  obtain ⟨y2, x2, hy2, _, hx2, hi2, _⟩ :=
    (World.mem_blocks pixel width height nthreads block2 w2).1 hw2
  have hlt : y < y2 := Nat.lt_of_lt_of_le hy
    ((World.block_end_le_start height nthreads block block2 h12 hb).trans hy2)
  intro h
  have hd : w.index / width = w2.index / width := by rw [h]
  rw [hi, hi2, (World.index_div y hx).1, (World.index_div y2 hx2).1] at hd
  omega

/-- C20: rendering does not depend on the number of workers.  For every
per-pixel pipeline `pixel`, image size and `nthreads ≥ 1`, under every schedule
of the workers `World::Render` with `nthreads` workers leaves the same pixel
buffer as with one worker; the stores of a block stay within the rows of that
block, and two different blocks never store into the same element. -/
theorem Render_worker_count_independent {Color : Type} (pixel : Nat → Nat → Color)
    (width height nthreads : Nat) (hn : 0 < nthreads) (buf : Nat → Color) :
    (∀ sched1 schedN : List Nat,
      World.Render pixel width height nthreads schedN buf
        = World.Render pixel width height 1 sched1 buf) ∧
    (∀ block < nthreads, ∀ w ∈ World.blocks pixel width height nthreads block,
      block * (height / nthreads) ≤ w.index / width ∧
      w.index / width
        < (if block + 1 = nthreads then height else (block + 1) * (height / nthreads))) ∧
    (∀ block < nthreads, ∀ block2 < nthreads, block ≠ block2 →
      ∀ w ∈ World.blocks pixel width height nthreads block,
      ∀ w2 ∈ World.blocks pixel width height nthreads block2, w.index ≠ w2.index) := by
  refine ⟨?_, ?_, ?_⟩
  · intro sched1 schedN
    funext i
    rw [World.Render_at pixel width height nthreads hn schedN buf i,
      World.Render_at pixel width height 1 Nat.one_pos sched1 buf i]
  · intro block _ w hw
    obtain ⟨y, x, h1, h2, hx, hi, _⟩ :=
      (World.mem_blocks pixel width height nthreads block w).1 hw
    rw [hi, (World.index_div y hx).1]
    exact ⟨h1, h2⟩
  · intro block hb block2 hb2 hne w hw w2 hw2
    rcases Nat.lt_or_gt_of_ne hne with h | h
    · exact World.blocks_disjoint pixel width height nthreads block block2 h hb2 w w2 hw hw2
    · exact (World.blocks_disjoint pixel width height nthreads block2 block h hb w2 w hw2 hw).symm

theorem Render_worker_count_independent_witness :
    (0 < 2) ∧
    ((∀ sched1 schedN : List Nat,
      World.Render (fun x y => 10 * y + x) 2 5 2 schedN (fun _ => 0)
        = World.Render (fun x y => 10 * y + x) 2 5 1 sched1 (fun _ => 0)) ∧
    (∀ block < 2, ∀ w ∈ World.blocks (fun x y => 10 * y + x) 2 5 2 block,
      block * (5 / 2) ≤ w.index / 2 ∧
      w.index / 2 < (if block + 1 = 2 then 5 else (block + 1) * (5 / 2))) ∧
    (∀ block < 2, ∀ block2 < 2, block ≠ block2 →
      ∀ w ∈ World.blocks (fun x y => 10 * y + x) 2 5 2 block,
      ∀ w2 ∈ World.blocks (fun x y => 10 * y + x) 2 5 2 block2, w.index ≠ w2.index)) ∧
    World.Render (fun x y => 10 * y + x) 2 5 2 [1, 0, 1, 1] (fun _ => 0) 7 = 31 ∧
    World.Render (fun x y => 10 * y + x) 2 5 1 [] (fun _ => 0) 7 = 31 ∧
    World.Render (fun x y => 10 * y + x) 2 5 2 [1, 0, 1, 1] (fun _ => 0) 10 = 0 :=
  ⟨by decide, Render_worker_count_independent (fun x y => 10 * y + x) 2 5 2 (by decide)
    (fun _ => 0), by decide, by decide, by decide⟩

/-! ## Reported distances are intersections -/

/-- A value other than the sentinel that the solver returns for a non-zero
leading coefficient is a root of the quadratic, inside the window. -/
theorem SolveQuadratic_root (a b c mint maxt t : ℝ) (ha : a ≠ 0)
    (hres : SolveQuadratic Real.sqrt a b c mint maxt = some t) (ht : t ≠ -1) :
    a * t ^ 2 + b * t + c = 0 ∧ mint ≤ t ∧ t ≤ maxt := by
  rcases lt_or_le (b * b - 4 * a * c) 0 with h | h
  · rw [SolveQuadratic_of_neg Real.sqrt a b c mint maxt h] at hres
    exact absurd (Option.some.inj hres).symm ht
  · obtain ⟨t1, t2, -, -, hroots, hval⟩ := SolveQuadratic_real a b c mint maxt ha h
    rw [hval] at hres
    have ht1 := Option.some.inj hres
    by_cases hw : t1 < mint ∨ t1 > maxt
    · rw [if_pos hw] at ht1
      exact absurd ht1.symm ht
    · rw [if_neg hw] at ht1
      subst ht1
      exact ⟨(hroots t1).2 (Or.inl rfl), not_lt.mp (fun h3 => hw (Or.inl h3)),
        not_lt.mp (fun h3 => hw (Or.inr h3))⟩

theorem Vector.dot_self_pos (v : Vector ℝ) (hv : v ≠ Vector.zero) : 0 < v.dot v := by
  obtain ⟨x, y, z⟩ := v
  simp only [Vector.dot]
  have h0 : 0 ≤ x * x + y * y + z * z := Vector.sumsq_nonneg x y z
  rcases h0.eq_or_lt with h | h
  · exfalso
    apply hv
    have hx : x = 0 := by nlinarith [mul_self_nonneg x, mul_self_nonneg y, mul_self_nonneg z]
    have hy : y = 0 := by nlinarith [mul_self_nonneg x, mul_self_nonneg y, mul_self_nonneg z]
    have hz : z = 0 := by nlinarith [mul_self_nonneg x, mul_self_nonneg y, mul_self_nonneg z]
    rw [hx, hy, hz]
    rfl
  · exact h

/-- C21, amended: over exact reals (no operation rounded), for every sphere,
every ray `(O, D)` with `D ≠ 0` and every window with `mind > 0`,
`Sphere::Solve` returns a value; and if that value `t` is not
the sentinel `-1`, it is positive and the point `P = O + t D` lies on the
sphere: `|P − C|² = r²`. -/
theorem Sphere_Solve_hit_on_sphere {Color Texture : Type} (s : Sphere ℝ Color Texture)
    (O D : Vector ℝ) (mind maxd : ℝ) (hD : D ≠ Vector.zero) (hmind : 0 < mind) :
    (∃ t : ℝ, s.Solve Real.sqrt O D mind maxd = some t) ∧
    ∀ t : ℝ, s.Solve Real.sqrt O D mind maxd = some t → t ≠ -1 →
      0 < t ∧
      ((O.add (D.scale t)).sub s.center_).dot ((O.add (D.scale t)).sub s.center_)
        = s.radius_ * s.radius_ := by
  have ha : D.dot D ≠ 0 := (Vector.dot_self_pos D hD).ne'
  constructor
  · obtain ⟨t, ht, -⟩ := SolveQuadratic_range (D.dot D) (2 * D.dot (O.sub s.center_))
      ((O.sub s.center_).dot (O.sub s.center_) - s.radius_ * s.radius_) mind maxd ha
    exact ⟨t, ht⟩
  · intro t hres ht
    obtain ⟨hroot, hlo, -⟩ := SolveQuadratic_root _ _ _ mind maxd t ha hres ht
    refine ⟨lt_of_lt_of_le hmind hlo, ?_⟩
    obtain ⟨C, r, col, tex, tx, ty, tz⟩ := s
    obtain ⟨cx, cy, cz⟩ := C
    obtain ⟨ox, oy, oz⟩ := O
    obtain ⟨dx, dy, dz⟩ := D
    simp only [Vector.sub, Vector.dot, Vector.add, Vector.scale] at hroot ⊢
    linear_combination hroot

theorem Sphere_Solve_hit_on_sphere_witness :
    ((⟨-2, 0, 0⟩ : Vector ℝ) ≠ Vector.zero ∧ (0 : ℝ) < 1 / 2) ∧
    (∃ t : ℝ,
      Sphere.Solve Real.sqrt
        ({ center_ := ⟨0, 0, 0⟩, radius_ := 1, color_ := (), texture_ := none,
           texturex_ := Vector.zero, texturey_ := Vector.zero,
           texturez_ := Vector.zero } : Sphere ℝ Unit Unit)
        ⟨3, 0, 0⟩ ⟨-2, 0, 0⟩ (1 / 2) 10 = some t) ∧
    Sphere.Solve Real.sqrt
        ({ center_ := ⟨0, 0, 0⟩, radius_ := 1, color_ := (), texture_ := none,
           texturex_ := Vector.zero, texturey_ := Vector.zero,
           texturez_ := Vector.zero } : Sphere ℝ Unit Unit)
        ⟨3, 0, 0⟩ ⟨-2, 0, 0⟩ (1 / 2) 10 = some 1 ∧
    ((1 : ℝ) ≠ -1) ∧ ((0 : ℝ) < 1) ∧
    ((((⟨3, 0, 0⟩ : Vector ℝ).add ((⟨-2, 0, 0⟩ : Vector ℝ).scale 1)).sub ⟨0, 0, 0⟩).dot
        (((⟨3, 0, 0⟩ : Vector ℝ).add ((⟨-2, 0, 0⟩ : Vector ℝ).scale 1)).sub ⟨0, 0, 0⟩)
      = (1 : ℝ) * 1) := by
  have hD : (⟨-2, 0, 0⟩ : Vector ℝ) ≠ Vector.zero := by
    intro h
    have := congrArg Vector.x_ h
    simp [Vector.zero] at this
  have hres : Sphere.Solve Real.sqrt
        ({ center_ := ⟨0, 0, 0⟩, radius_ := 1, color_ := (), texture_ := none,
           texturex_ := Vector.zero, texturey_ := Vector.zero,
           texturez_ := Vector.zero } : Sphere ℝ Unit Unit)
        ⟨3, 0, 0⟩ ⟨-2, 0, 0⟩ (1 / 2) 10 = some 1 := by
    simp only [Sphere.Solve, Vector.sub, Vector.dot]
    rw [SolveQuadratic_eval _ _ _ _ _ 4 (by norm_num) (by norm_num) (by norm_num)]
    norm_num
  have h := @Sphere_Solve_hit_on_sphere Unit Unit
    { center_ := ⟨0, 0, 0⟩, radius_ := 1, color_ := (), texture_ := none,
      texturex_ := Vector.zero, texturey_ := Vector.zero, texturez_ := Vector.zero }
    ⟨3, 0, 0⟩ ⟨-2, 0, 0⟩ (1 / 2) 10 hD (by norm_num)
  exact ⟨⟨hD, by norm_num⟩, h.1, hres, by norm_num, h.2 1 hres (by norm_num)⟩

/-- What `Cylinder::Solve` makes of the value `t` delivered by the solver. -/
theorem Cylinder.Solve_of_some {Color Texture : Type} (cy : Cylinder ℝ Color Texture)
    (O D : Vector ℝ) (mind maxd t : ℝ)
    (hsq : SolveQuadratic Real.sqrt
          (1 - cy.B_.dot D * cy.B_.dot D)
          (2 * ((O.sub cy.A_).dot D - cy.B_.dot D * (O.sub cy.A_).dot cy.B_))
          (-((O.sub cy.A_).dot cy.B_ * (O.sub cy.A_).dot cy.B_)
            - (cy.radius_ * cy.radius_ - (O.sub cy.A_).dot (O.sub cy.A_)))
          mind maxd = some t) :
    cy.Solve Real.sqrt O D mind maxd
      = some (if 0 < t ∧ 0 < cy.span_ ∧
            ((O.sub cy.A_).dot cy.B_ + t * cy.B_.dot D < -cy.span_
              ∨ (O.sub cy.A_).dot cy.B_ + t * cy.B_.dot D > cy.span_)
          then -1 else t) := by
  by_cases ht : 0 < t
  · by_cases hspan : 0 < cy.span_
    · by_cases halpha : (O.sub cy.A_).dot cy.B_ + t * cy.B_.dot D < -cy.span_
          ∨ (O.sub cy.A_).dot cy.B_ + t * cy.B_.dot D > cy.span_
      · rw [if_pos ⟨ht, hspan, halpha⟩]
        simp only [Cylinder.Solve, hsq, Option.bind_eq_bind, Option.some_bind, Option.pure_def,
          gt_iff_lt, ht, hspan, if_true]
        rw [if_pos halpha]
      · rw [if_neg (fun h => halpha h.2.2)]
        simp only [Cylinder.Solve, hsq, Option.bind_eq_bind, Option.some_bind, Option.pure_def,
          gt_iff_lt, ht, hspan, if_true]
        rw [if_neg halpha]
    · rw [if_neg (fun h => hspan h.2.1)]
      simp only [Cylinder.Solve, hsq, Option.bind_eq_bind, Option.some_bind, Option.pure_def,
        gt_iff_lt, ht, hspan, if_true, if_false]
  · rw [if_neg (fun h => ht h.1)]
    simp only [Cylinder.Solve, hsq, Option.bind_eq_bind, Option.some_bind, Option.pure_def,
      gt_iff_lt, ht, if_false]

/-- C22, amended: over exact reals (no operation rounded), for every cylinder
with a unit axis `B`, every ray `(O, D)` with `|D| = 1` and `(B·D)² ≠ 1` and
every window with `mind > 0`, `Cylinder::Solve` returns a value; and if that
value `t` is not the sentinel `-1`, it is
positive, the point `P = O + t D` is at distance `r` from the axis,
`|(P − A) − ((P − A)·B) B|² = r²`, and, when `span > 0`, its axial coordinate
satisfies `−span ≤ (P − A)·B ≤ span`. -/
theorem Cylinder_Solve_hit_on_cylinder {Color Texture : Type}
    (cy : Cylinder ℝ Color Texture) (O D : Vector ℝ) (mind maxd : ℝ)
    (hB : cy.B_.dot cy.B_ = 1) (hD : D.dot D = 1) (hne : (cy.B_.dot D) ^ 2 ≠ 1)
    (hmind : 0 < mind) :
    (∃ t : ℝ, cy.Solve Real.sqrt O D mind maxd = some t) ∧
    ∀ t : ℝ, cy.Solve Real.sqrt O D mind maxd = some t → t ≠ -1 →
      0 < t ∧
      ((((O.add (D.scale t)).sub cy.A_).sub
          (cy.B_.scale (((O.add (D.scale t)).sub cy.A_).dot cy.B_))).dot
        (((O.add (D.scale t)).sub cy.A_).sub
          (cy.B_.scale (((O.add (D.scale t)).sub cy.A_).dot cy.B_)))
        = cy.radius_ * cy.radius_) ∧
      (0 < cy.span_ →
        -cy.span_ ≤ ((O.add (D.scale t)).sub cy.A_).dot cy.B_ ∧
        ((O.add (D.scale t)).sub cy.A_).dot cy.B_ ≤ cy.span_) := by
  have haa : 1 - cy.B_.dot D * cy.B_.dot D ≠ 0 := by
    intro h
    apply hne
    rw [pow_two]
    linarith
  obtain ⟨t0, hsq, -⟩ := SolveQuadratic_range (1 - cy.B_.dot D * cy.B_.dot D)
    (2 * ((O.sub cy.A_).dot D - cy.B_.dot D * (O.sub cy.A_).dot cy.B_))
    (-((O.sub cy.A_).dot cy.B_ * (O.sub cy.A_).dot cy.B_)
      - (cy.radius_ * cy.radius_ - (O.sub cy.A_).dot (O.sub cy.A_))) mind maxd haa
  have hsolve := Cylinder.Solve_of_some cy O D mind maxd t0 hsq
  refine ⟨⟨_, hsolve⟩, ?_⟩
  intro t hres ht
  rw [hsolve] at hres
  have hval := Option.some.inj hres
  by_cases hcond : 0 < t0 ∧ 0 < cy.span_ ∧
      ((O.sub cy.A_).dot cy.B_ + t0 * cy.B_.dot D < -cy.span_
        ∨ (O.sub cy.A_).dot cy.B_ + t0 * cy.B_.dot D > cy.span_)
  · rw [if_pos hcond] at hval
    exact absurd hval.symm ht
  · rw [if_neg hcond] at hval
    subst hval
    obtain ⟨hroot, hlo, -⟩ := SolveQuadratic_root _ _ _ mind maxd t0 haa hsq ht
    have hpos : 0 < t0 := lt_of_lt_of_le hmind hlo
    obtain ⟨A, B, r, span, col, tex, tx, ty⟩ := cy
    obtain ⟨ax, ay, az⟩ := A
    obtain ⟨bx, byy, bz⟩ := B
    obtain ⟨ox, oy, oz⟩ := O
    obtain ⟨dx, dy, dz⟩ := D
    simp only [Vector.sub, Vector.dot, Vector.add, Vector.scale] at hroot hcond hB hD ⊢
    refine ⟨hpos, ?_, ?_⟩
    · linear_combination hroot
        + ((ox + dx * t0 - ax) * bx + (oy + dy * t0 - ay) * byy
            + (oz + dz * t0 - az) * bz) ^ 2 * hB
        + t0 ^ 2 * hD
    · intro hspan
      have hin : ¬ ((ox - ax) * bx + (oy - ay) * byy + (oz - az) * bz
            + t0 * (bx * dx + byy * dy + bz * dz) < -span
          ∨ (ox - ax) * bx + (oy - ay) * byy + (oz - az) * bz
            + t0 * (bx * dx + byy * dy + bz * dz) > span) :=
        fun h => hcond ⟨hpos, hspan, h⟩
      have h1 := not_lt.mp (fun h => hin (Or.inl h))
      have h2 := not_lt.mp (fun h => hin (Or.inr h))
      constructor
      · linarith
      · linarith

theorem Cylinder_Solve_hit_on_cylinder_witness :
    (Vector.dot (⟨0, 0, 1⟩ : Vector ℝ) ⟨0, 0, 1⟩ = 1 ∧
      Vector.dot (⟨1, 0, 0⟩ : Vector ℝ) ⟨1, 0, 0⟩ = 1 ∧
      (Vector.dot (⟨0, 0, 1⟩ : Vector ℝ) ⟨1, 0, 0⟩) ^ 2 ≠ 1 ∧ (0 : ℝ) < 1 / 2) ∧
    Cylinder.Solve Real.sqrt
        ({ A_ := ⟨0, 0, 0⟩, B_ := ⟨0, 0, 1⟩, radius_ := 1, span_ := 2, color_ := (),
           texture_ := none, texturex_ := Vector.zero,
           texturey_ := Vector.zero } : Cylinder ℝ Unit Unit)
        ⟨-3, 0, 1⟩ ⟨1, 0, 0⟩ (1 / 2) 10 = some 2 ∧
    ((2 : ℝ) ≠ -1) ∧ ((0 : ℝ) < 2) ∧
    (((((⟨-3, 0, 1⟩ : Vector ℝ).add ((⟨1, 0, 0⟩ : Vector ℝ).scale 2)).sub ⟨0, 0, 0⟩).sub
        ((⟨0, 0, 1⟩ : Vector ℝ).scale
          ((((⟨-3, 0, 1⟩ : Vector ℝ).add ((⟨1, 0, 0⟩ : Vector ℝ).scale 2)).sub
            ⟨0, 0, 0⟩).dot ⟨0, 0, 1⟩))).dot
      ((((⟨-3, 0, 1⟩ : Vector ℝ).add ((⟨1, 0, 0⟩ : Vector ℝ).scale 2)).sub ⟨0, 0, 0⟩).sub
        ((⟨0, 0, 1⟩ : Vector ℝ).scale
          ((((⟨-3, 0, 1⟩ : Vector ℝ).add ((⟨1, 0, 0⟩ : Vector ℝ).scale 2)).sub
            ⟨0, 0, 0⟩).dot ⟨0, 0, 1⟩)))
      = (1 : ℝ) * 1) ∧
    ((0 : ℝ) < 2 ∧
      -(2 : ℝ) ≤ (((⟨-3, 0, 1⟩ : Vector ℝ).add ((⟨1, 0, 0⟩ : Vector ℝ).scale 2)).sub
          ⟨0, 0, 0⟩).dot ⟨0, 0, 1⟩ ∧
      (((⟨-3, 0, 1⟩ : Vector ℝ).add ((⟨1, 0, 0⟩ : Vector ℝ).scale 2)).sub
          ⟨0, 0, 0⟩).dot ⟨0, 0, 1⟩ ≤ (2 : ℝ)) := by
  have hB : Vector.dot (⟨0, 0, 1⟩ : Vector ℝ) ⟨0, 0, 1⟩ = 1 := by norm_num [Vector.dot]
  have hD : Vector.dot (⟨1, 0, 0⟩ : Vector ℝ) ⟨1, 0, 0⟩ = 1 := by norm_num [Vector.dot]
  have hne : (Vector.dot (⟨0, 0, 1⟩ : Vector ℝ) ⟨1, 0, 0⟩) ^ 2 ≠ 1 := by
    norm_num [Vector.dot]
  have hsq : SolveQuadratic Real.sqrt
      (1 - Vector.dot (⟨0, 0, 1⟩ : Vector ℝ) ⟨1, 0, 0⟩ * Vector.dot (⟨0, 0, 1⟩ : Vector ℝ) ⟨1, 0, 0⟩)
      (2 * (((⟨-3, 0, 1⟩ : Vector ℝ).sub ⟨0, 0, 0⟩).dot ⟨1, 0, 0⟩
        - Vector.dot (⟨0, 0, 1⟩ : Vector ℝ) ⟨1, 0, 0⟩
          * ((⟨-3, 0, 1⟩ : Vector ℝ).sub ⟨0, 0, 0⟩).dot ⟨0, 0, 1⟩))
      (-(((⟨-3, 0, 1⟩ : Vector ℝ).sub ⟨0, 0, 0⟩).dot ⟨0, 0, 1⟩
          * ((⟨-3, 0, 1⟩ : Vector ℝ).sub ⟨0, 0, 0⟩).dot ⟨0, 0, 1⟩)
        - ((1 : ℝ) * 1 - ((⟨-3, 0, 1⟩ : Vector ℝ).sub ⟨0, 0, 0⟩).dot
            ((⟨-3, 0, 1⟩ : Vector ℝ).sub ⟨0, 0, 0⟩)))
      (1 / 2) 10 = some 2 := by
    simp only [Vector.sub, Vector.dot]
    rw [SolveQuadratic_eval _ _ _ _ _ 2 (by norm_num) (by norm_num) (by norm_num)]
    norm_num
  have hres : Cylinder.Solve Real.sqrt
        ({ A_ := ⟨0, 0, 0⟩, B_ := ⟨0, 0, 1⟩, radius_ := 1, span_ := 2, color_ := (),
           texture_ := none, texturex_ := Vector.zero,
           texturey_ := Vector.zero } : Cylinder ℝ Unit Unit)
        ⟨-3, 0, 1⟩ ⟨1, 0, 0⟩ (1 / 2) 10 = some 2 := by
    rw [Cylinder.Solve_of_some
      ({ A_ := ⟨0, 0, 0⟩, B_ := ⟨0, 0, 1⟩, radius_ := 1, span_ := 2, color_ := (),
         texture_ := none, texturex_ := Vector.zero,
         texturey_ := Vector.zero } : Cylinder ℝ Unit Unit)
      ⟨-3, 0, 1⟩ ⟨1, 0, 0⟩ (1 / 2) 10 2 hsq, if_neg]
    simp only [Vector.sub, Vector.dot]
    norm_num
  have h := (@Cylinder_Solve_hit_on_cylinder Unit Unit
    { A_ := ⟨0, 0, 0⟩, B_ := ⟨0, 0, 1⟩, radius_ := 1, span_ := 2, color_ := (),
      texture_ := none, texturex_ := Vector.zero, texturey_ := Vector.zero }
    ⟨-3, 0, 1⟩ ⟨1, 0, 0⟩ (1 / 2) 10 hB hD hne (by norm_num)).2 2 hres (by norm_num)
  exact ⟨⟨hB, hD, hne, by norm_num⟩, hres, by norm_num, h.1, h.2.1,
    by norm_num, h.2.2 (by norm_num)⟩


/-! ## A ray from inside a sphere -/

/-- C27, amended: over exact reals (no operation rounded), for every sphere,
every origin `O` with `|O − C| < r`, every direction `D ≠ 0` and every window
with `mind ≥ 0`, `Sphere::Solve` returns the sentinel `-1`; yet the ray leaves
the sphere at a positive distance `t`: the point `O + t D` lies on the
sphere. -/
theorem Sphere_Solve_from_inside {Color Texture : Type} (s : Sphere ℝ Color Texture)
    (O D : Vector ℝ) (mind maxd : ℝ)
    (hin : Vector.Len Real.sqrt (O.sub s.center_) < s.radius_)
    (hD : D ≠ Vector.zero) (hmind : 0 ≤ mind) :
    s.Solve Real.sqrt O D mind maxd = some (-1) ∧
    ∃ t : ℝ, 0 < t ∧
      ((O.add (D.scale t)).sub s.center_).dot ((O.add (D.scale t)).sub s.center_)
        = s.radius_ * s.radius_ := by
  have ha : 0 < D.dot D := Vector.dot_self_pos D hD
  have hlen0 : 0 ≤ Vector.Len Real.sqrt (O.sub s.center_) := Vector.Len_nonneg _
  have hc : (O.sub s.center_).dot (O.sub s.center_) - s.radius_ * s.radius_ < 0 := by
    have h1 := Vector.Len_mul_self (O.sub s.center_)
    have h2 : Vector.Len Real.sqrt (O.sub s.center_) * Vector.Len Real.sqrt (O.sub s.center_)
        < s.radius_ * s.radius_ := mul_self_lt_mul_self hlen0 hin
    have h3 : (O.sub s.center_).dot (O.sub s.center_)
        = Vector.Len Real.sqrt (O.sub s.center_) * Vector.Len Real.sqrt (O.sub s.center_) :=
      h1.symm
    linarith
  have hroot : ∀ (a b c : ℝ), 0 < a → c < 0 →
      SolveQuadratic Real.sqrt a b c mind maxd = some (-1) ∧
      ∃ t : ℝ, 0 < t ∧ a * t ^ 2 + b * t + c = 0 := by
    intro a b c ha hc
    have hdelta : 0 < b * b - 4 * a * c := by nlinarith [mul_self_nonneg b, mul_pos ha (neg_pos.mpr hc)]
    have hs : 0 < Real.sqrt (b * b - 4 * a * c) := Real.sqrt_pos.mpr hdelta
    have hss := Real.mul_self_sqrt hdelta.le
    generalize Real.sqrt (b * b - 4 * a * c) = q at hs hss
    have hqb : b * b < q * q := by nlinarith [mul_pos ha (neg_pos.mpr hc)]
    have hq1 : b < q := by
      by_contra h
      have := mul_self_le_mul_self hs.le (not_lt.mp h)
      linarith
    have hq2 : -b < q := by
      by_contra h
      have := mul_self_le_mul_self hs.le (not_lt.mp h)
      nlinarith
    constructor
    · rw [SolveQuadratic_eval a b c mind maxd q ha.ne' hs hss, if_pos]
      left
      refine lt_of_le_of_lt (min_le_left _ _) (lt_of_lt_of_le ?_ hmind)
      exact div_neg_of_neg_of_pos (by linarith) (by linarith)
    · refine ⟨(-b + q) / (2 * a), div_pos (by linarith) (by linarith), ?_⟩
      field_simp
      nlinarith
  obtain ⟨h1, t, ht, hroot⟩ := hroot (D.dot D) (2 * D.dot (O.sub s.center_))
    ((O.sub s.center_).dot (O.sub s.center_) - s.radius_ * s.radius_) ha hc
  refine ⟨h1, t, ht, ?_⟩
  obtain ⟨C, r, col, tex, tx, ty, tz⟩ := s
  obtain ⟨cx, cy, cz⟩ := C
  obtain ⟨ox, oy, oz⟩ := O
  obtain ⟨dx, dy, dz⟩ := D
  simp only [Vector.sub, Vector.dot, Vector.add, Vector.scale] at hroot ⊢
  linear_combination hroot

theorem Sphere_Solve_from_inside_witness :
    (Vector.Len Real.sqrt ((⟨0, 0, 0⟩ : Vector ℝ).sub ⟨0, 0, 0⟩) < (1 : ℝ) ∧
      (⟨1, 0, 0⟩ : Vector ℝ) ≠ Vector.zero ∧ (0 : ℝ) ≤ 0) ∧
    Sphere.Solve Real.sqrt
        ({ center_ := ⟨0, 0, 0⟩, radius_ := 1, color_ := (), texture_ := none,
           texturex_ := Vector.zero, texturey_ := Vector.zero,
           texturez_ := Vector.zero } : Sphere ℝ Unit Unit)
        ⟨0, 0, 0⟩ ⟨1, 0, 0⟩ 0 10 = some (-1) ∧
    ∃ t : ℝ, 0 < t ∧
      (((⟨0, 0, 0⟩ : Vector ℝ).add ((⟨1, 0, 0⟩ : Vector ℝ).scale t)).sub ⟨0, 0, 0⟩).dot
          (((⟨0, 0, 0⟩ : Vector ℝ).add ((⟨1, 0, 0⟩ : Vector ℝ).scale t)).sub ⟨0, 0, 0⟩)
        = (1 : ℝ) * 1 := by
  have hin : Vector.Len Real.sqrt ((⟨0, 0, 0⟩ : Vector ℝ).sub ⟨0, 0, 0⟩) < (1 : ℝ) := by
    simp [Vector.Len, Vector.sub]
  have hD : (⟨1, 0, 0⟩ : Vector ℝ) ≠ Vector.zero := by
    intro h
    have := congrArg Vector.x_ h
    simp [Vector.zero] at this
  exact ⟨⟨hin, hD, le_refl 0⟩,
    @Sphere_Solve_from_inside Unit Unit
      { center_ := ⟨0, 0, 0⟩, radius_ := 1, color_ := (), texture_ := none,
        texturex_ := Vector.zero, texturey_ := Vector.zero, texturez_ := Vector.zero }
      ⟨0, 0, 0⟩ ⟨1, 0, 0⟩ 0 10 hin hD (le_refl 0)⟩


/-! ## Rays parallel to the axis of a cylinder -/

/-- With the leading coefficient `0` the solver divides by zero, whatever the
other coefficients are: `0.5 / a` when `b ≠ 0`, `-b / (2 a)` when `b = 0`. -/
theorem SolveQuadratic_zero_leading (b c mint maxt : ℝ) :
    SolveQuadratic Real.sqrt 0 b c mint maxt = none := by
  by_cases hb : b = 0
  · simp [SolveQuadratic, hb, divide]
  · have hpos : 0 < b * b := mul_self_pos.mpr hb
    simp [SolveQuadratic, hb, divide, not_lt.mpr hpos.le]

theorem sumsq_eq_zero (u v w : ℝ) (h : u ^ 2 + v ^ 2 + w ^ 2 = 0) :
    u = 0 ∧ v = 0 ∧ w = 0 := by
  have hu := sq_nonneg u
  have hv := sq_nonneg v
  have hw := sq_nonneg w
  refine ⟨?_, ?_, ?_⟩
  · exact pow_eq_zero_iff two_ne_zero |>.mp (le_antisymm (by linarith) hu)
  · exact pow_eq_zero_iff two_ne_zero |>.mp (le_antisymm (by linarith) hv)
  · exact pow_eq_zero_iff two_ne_zero |>.mp (le_antisymm (by linarith) hw)

/-- Unit vectors `B`, `D` with `(B·D)² = 1` are equal or opposite. -/
theorem Vector.parallel_of_unit (B D : Vector ℝ) (hB : B.dot B = 1) (hD : D.dot D = 1) :
    1 - B.dot D * B.dot D = 0 ↔ (D = B ∨ D = B.scale (-1)) := by
  obtain ⟨bx, byy, bz⟩ := B
  obtain ⟨dx, dy, dz⟩ := D
  simp only [Vector.dot, Vector.scale] at hB hD ⊢
  constructor
  · intro h
    have hsum : (dx - (bx * dx + byy * dy + bz * dz) * bx) ^ 2
        + (dy - (bx * dx + byy * dy + bz * dz) * byy) ^ 2
        + (dz - (bx * dx + byy * dy + bz * dz) * bz) ^ 2 = 0 := by
      linear_combination h + (bx * dx + byy * dy + bz * dz) ^ 2 * hB + hD
    obtain ⟨e1, e2, e3⟩ := sumsq_eq_zero _ _ _ hsum
    rw [sub_eq_zero] at e1 e2 e3
    have hk : (bx * dx + byy * dy + bz * dz - 1) * (bx * dx + byy * dy + bz * dz + 1) = 0 := by
      linear_combination -h
    rcases mul_eq_zero.mp hk with hk1 | hk1
    · left
      have hk2 : bx * dx + byy * dy + bz * dz = 1 := by linarith
      rw [hk2] at e1 e2 e3
      rw [e1, e2, e3]
      simp
    · right
      have hk2 : bx * dx + byy * dy + bz * dz = -1 := by linarith
      rw [hk2] at e1 e2 e3
      rw [e1, e2, e3]
      simp [mul_comm]
  · rintro (h | h)
    · injection h with h1 h2 h3
      subst h1 h2 h3
      linear_combination (-1 - (dx * dx + dy * dy + dz * dz)) * hD
    · injection h with h1 h2 h3
      subst h1 h2 h3
      linear_combination (-1 - (bx * bx + byy * byy + bz * bz)) * hB

/-- C28: for every cylinder with a unit axis `B` and every unit direction `D`,
the leading coefficient `1 − (B·D)²` of the quadratic of `Cylinder::Solve` is
zero exactly when `D = B` or `D = −B`; for every such ray the solver, and so
`Cylinder::Solve`, reaches a division by zero; for every other unit ray
`Cylinder::Solve` returns a value. -/
theorem Cylinder_Solve_parallel_divides {Color Texture : Type}
    (cy : Cylinder ℝ Color Texture) (O D : Vector ℝ) (mind maxd : ℝ)
    (hB : cy.B_.dot cy.B_ = 1) (hD : D.dot D = 1) :
    (1 - cy.B_.dot D * cy.B_.dot D = 0 ↔ (D = cy.B_ ∨ D = cy.B_.scale (-1))) ∧
    ((D = cy.B_ ∨ D = cy.B_.scale (-1)) →
      SolveQuadratic Real.sqrt
          (1 - cy.B_.dot D * cy.B_.dot D)
          (2 * ((O.sub cy.A_).dot D - cy.B_.dot D * (O.sub cy.A_).dot cy.B_))
          (-((O.sub cy.A_).dot cy.B_ * (O.sub cy.A_).dot cy.B_)
            - (cy.radius_ * cy.radius_ - (O.sub cy.A_).dot (O.sub cy.A_)))
          mind maxd = none ∧
      cy.Solve Real.sqrt O D mind maxd = none) ∧
    (¬ (D = cy.B_ ∨ D = cy.B_.scale (-1)) →
      ∃ t : ℝ, cy.Solve Real.sqrt O D mind maxd = some t) := by
  have hpar := Vector.parallel_of_unit cy.B_ D hB hD
  refine ⟨hpar, ?_, ?_⟩
  · intro h
    have haa := hpar.mpr h
    have hsq : SolveQuadratic Real.sqrt
          (1 - cy.B_.dot D * cy.B_.dot D)
          (2 * ((O.sub cy.A_).dot D - cy.B_.dot D * (O.sub cy.A_).dot cy.B_))
          (-((O.sub cy.A_).dot cy.B_ * (O.sub cy.A_).dot cy.B_)
            - (cy.radius_ * cy.radius_ - (O.sub cy.A_).dot (O.sub cy.A_)))
          mind maxd = none := by
      rw [haa]
      exact SolveQuadratic_zero_leading _ _ mind maxd
    refine ⟨hsq, ?_⟩
    simp only [Cylinder.Solve, hsq, Option.bind_eq_bind, Option.none_bind]
  · intro h
    have haa : 1 - cy.B_.dot D * cy.B_.dot D ≠ 0 := fun h0 => h (hpar.mp h0)
    obtain ⟨t0, hsq, -⟩ := SolveQuadratic_range (1 - cy.B_.dot D * cy.B_.dot D)
      (2 * ((O.sub cy.A_).dot D - cy.B_.dot D * (O.sub cy.A_).dot cy.B_))
      (-((O.sub cy.A_).dot cy.B_ * (O.sub cy.A_).dot cy.B_)
        - (cy.radius_ * cy.radius_ - (O.sub cy.A_).dot (O.sub cy.A_))) mind maxd haa
    exact ⟨_, Cylinder.Solve_of_some cy O D mind maxd t0 hsq⟩

theorem Cylinder_Solve_parallel_divides_witness :
    (Vector.dot (⟨0, 0, 1⟩ : Vector ℝ) ⟨0, 0, 1⟩ = 1 ∧
      Vector.dot (⟨0, 0, -1⟩ : Vector ℝ) ⟨0, 0, -1⟩ = 1 ∧
      ((⟨0, 0, -1⟩ : Vector ℝ) = ⟨0, 0, 1⟩
        ∨ (⟨0, 0, -1⟩ : Vector ℝ) = (⟨0, 0, 1⟩ : Vector ℝ).scale (-1))) ∧
    Cylinder.Solve Real.sqrt
        ({ A_ := ⟨0, 0, 0⟩, B_ := ⟨0, 0, 1⟩, radius_ := 1, span_ := 2, color_ := (),
           texture_ := none, texturex_ := Vector.zero,
           texturey_ := Vector.zero } : Cylinder ℝ Unit Unit)
        ⟨3, 0, 5⟩ ⟨0, 0, -1⟩ 1 10 = none ∧
    (Vector.dot (⟨1, 0, 0⟩ : Vector ℝ) ⟨1, 0, 0⟩ = 1 ∧
      ¬ ((⟨1, 0, 0⟩ : Vector ℝ) = ⟨0, 0, 1⟩
        ∨ (⟨1, 0, 0⟩ : Vector ℝ) = (⟨0, 0, 1⟩ : Vector ℝ).scale (-1))) ∧
    ∃ t : ℝ, Cylinder.Solve Real.sqrt
        ({ A_ := ⟨0, 0, 0⟩, B_ := ⟨0, 0, 1⟩, radius_ := 1, span_ := 2, color_ := (),
           texture_ := none, texturex_ := Vector.zero,
           texturey_ := Vector.zero } : Cylinder ℝ Unit Unit)
        ⟨3, 0, 5⟩ ⟨1, 0, 0⟩ 1 10 = some t := by
  have hB : Vector.dot (⟨0, 0, 1⟩ : Vector ℝ) ⟨0, 0, 1⟩ = 1 := by norm_num [Vector.dot]
  have hD : Vector.dot (⟨0, 0, -1⟩ : Vector ℝ) ⟨0, 0, -1⟩ = 1 := by norm_num [Vector.dot]
  have hpar : (⟨0, 0, -1⟩ : Vector ℝ) = ⟨0, 0, 1⟩
      ∨ (⟨0, 0, -1⟩ : Vector ℝ) = (⟨0, 0, 1⟩ : Vector ℝ).scale (-1) := by
    right
    simp [Vector.scale]
  have hD2 : Vector.dot (⟨1, 0, 0⟩ : Vector ℝ) ⟨1, 0, 0⟩ = 1 := by norm_num [Vector.dot]
  have hnpar : ¬ ((⟨1, 0, 0⟩ : Vector ℝ) = ⟨0, 0, 1⟩
      ∨ (⟨1, 0, 0⟩ : Vector ℝ) = (⟨0, 0, 1⟩ : Vector ℝ).scale (-1)) := by
    rintro (h | h)
    · have := congrArg Vector.x_ h
      norm_num at this
    · have := congrArg Vector.x_ h
      norm_num [Vector.scale] at this
  exact ⟨⟨hB, hD, hpar⟩,
    ((@Cylinder_Solve_parallel_divides Unit Unit
      { A_ := ⟨0, 0, 0⟩, B_ := ⟨0, 0, 1⟩, radius_ := 1, span_ := 2, color_ := (),
        texture_ := none, texturex_ := Vector.zero, texturey_ := Vector.zero }
      ⟨3, 0, 5⟩ ⟨0, 0, -1⟩ 1 10 hB hD).2.1 hpar).2,
    ⟨hD2, hnpar⟩,
    (@Cylinder_Solve_parallel_divides Unit Unit
      { A_ := ⟨0, 0, 0⟩, B_ := ⟨0, 0, 1⟩, radius_ := 1, span_ := 2, color_ := (),
        texture_ := none, texturex_ := Vector.zero, texturey_ := Vector.zero }
      ⟨3, 0, 5⟩ ⟨1, 0, 0⟩ 1 10 hB hD2).2.2 hnpar⟩

/-! ## `TokenizeLine`: the pieces of a line -/

theorem find_eq_none {l : List Char} {c : Char} : find l c = none ↔ c ∉ l := by
  induction l with
  | nil => simp [find]
  | cons x xs ih =>
    by_cases h : x = c
    · simp [find, h]
    · simp only [find, if_neg h, Option.map_eq_none', ih, List.mem_cons, not_or]
      exact ⟨fun h2 => ⟨fun h3 => h h3.symm, h2⟩, fun h2 => h2.2⟩

theorem find_eq_some {l : List Char} {c : Char} {i : Nat} (h : find l c = some i) :
    l = l.take i ++ c :: l.drop (i + 1) ∧ c ∉ l.take i ∧ i < l.length := by
  induction l generalizing i with
  | nil => simp [find] at h
  | cons x xs ih =>
    by_cases hx : x = c
    · simp only [find, if_pos hx, Option.some.injEq] at h
      subst h
      simp [hx]
    · simp only [find, if_neg hx, Option.map_eq_some'] at h
      obtain ⟨j, hj, rfl⟩ := h
      obtain ⟨h1, h2, h3⟩ := ih hj
      refine ⟨?_, ?_, ?_⟩
      · simp only [List.take_succ_cons, List.drop_succ_cons, List.cons_append]
        rw [← h1]
      · simp only [List.take_succ_cons, List.mem_cons, not_or]
        exact ⟨fun h4 => hx h4.symm, h2⟩
      · simp only [List.length_cons]
        omega

/-- Splitting at the first space: the piece before it, then the pieces of the
rest. -/
theorem splitOn_of_find {l : List Char} {i : Nat} (h : find l ' ' = some i) :
    l.splitOn ' ' = l.take i :: (l.drop (i + 1)).splitOn ' ' := by
  obtain ⟨h1, h2, -⟩ := find_eq_some h
  conv_lhs => rw [h1]
  unfold List.splitOn
  exact List.splitOnP_first (fun c => c == ' ') _ (fun x hx hp => by
    rw [beq_iff_eq] at hp
    subst hp
    exact h2 hx) ' ' (by simp) _

theorem splitOn_of_find_none {l : List Char} (h : find l ' ' = none) :
    l.splitOn ' ' = [l] := by
  unfold List.splitOn
  exact List.splitOnP_eq_single (fun c => c == ' ') _ (fun x hx hp => by
    rw [beq_iff_eq] at hp
    subst hp
    exact find_eq_none.1 h hx)

/-- On a line without tabs the loop of `TokenizeLine` ends, and it does what
`TokenizeLine.store` does with the non-empty pieces between the spaces. -/
theorem TokenizeLine.loop_eq_store (maxtokens size : Nat) :
    ∀ (fuel : Nat) (chars : List Char) (ti : Nat) (tokens : Nat → String),
      '\t' ∉ chars → chars.length < fuel →
      TokenizeLine.loop maxtokens size fuel chars ti tokens
        = TokenizeLine.store maxtokens size
            ((chars.splitOn ' ').filter (fun w => w ≠ [])) ti tokens := by
  intro fuel
  induction fuel with
  | zero =>
    intro chars ti tokens _ hlen
    exact absurd hlen (Nat.not_lt_zero _)
  | succ fuel ih =>
    intro chars ti tokens htab hlen
    rw [TokenizeLine.loop]
    cases hf : find chars ' ' with
    | some i =>
      obtain ⟨h1, h2, h3⟩ := find_eq_some hf
      have htok : (if i > 0 then chars.take i else []) = chars.take i := by
        by_cases hi : i > 0
        · rw [if_pos hi]
        · have : i = 0 := by omega
          subst this
          simp
      have hrest := ih (chars.drop (i + 1))
      have htab2 : '\t' ∉ chars.drop (i + 1) := fun h => htab (List.mem_of_mem_drop h)
      have hlen2 : (chars.drop (i + 1)).length < fuel := by
        rw [List.length_drop]
        omega
      simp only [htok]
      rw [splitOn_of_find hf]
      by_cases hne : chars.take i = []
      · rw [List.filter_cons_of_neg (by simp [hne])]
        simp only [hne, ne_eq, not_true_eq_false, if_false]
        exact hrest ti tokens htab2 hlen2
      · rw [List.filter_cons_of_pos (by simp [hne])]
        simp only [ne_eq, hne, not_false_eq_true, if_true]
        rw [TokenizeLine.store]
        by_cases hsz : ti < size
        · simp only [hsz, if_true]
          by_cases hti : ti + 1 > maxtokens
          · simp only [hti, if_true]
          · simp only [hti, if_false]
            exact hrest (ti + 1) _ htab2 hlen2
        · simp only [hsz, if_false]
    | none =>
      have hft : find chars '\t' = none := find_eq_none.2 htab
      simp only [hft]
      rw [splitOn_of_find_none hf]
      by_cases hne : chars = []
      · subst hne
        simp [TokenizeLine.store]
      · rw [List.filter_cons_of_pos (by simp [hne])]
        simp only [ne_eq, hne, not_false_eq_true, if_true, List.filter_nil]
        rw [TokenizeLine.store]
        by_cases hsz : ti < size
        · simp only [hsz, if_true]
          by_cases hti : ti + 1 > maxtokens
          · simp only [hti, if_true]
          · simp only [hti, if_false, TokenizeLine.store]
        · simp only [hsz, if_false]

/-- What `TokenizeLine.store` returns when the pieces fit, within `maxtokens`
and within the array: `true`, and the pieces are in the array from `ti` on, the
rest of the array being as it was. -/
theorem TokenizeLine.store_true (maxtokens size : Nat) :
    ∀ (ws : List (List Char)) (ti : Nat) (tokens : Nat → String),
      ti + ws.length ≤ maxtokens → ti + ws.length ≤ size →
      ∃ tokens2 : Nat → String,
        TokenizeLine.store maxtokens size ws ti tokens
          = some (true, tokens2, ti + ws.length) ∧
        (∀ k, (h : k < ws.length) → tokens2 (ti + k) = String.mk (ws.get ⟨k, h⟩)) ∧
        ∀ k, (k < ti ∨ ti + ws.length ≤ k) → tokens2 k = tokens k := by
  intro ws
  induction ws with
  | nil =>
    intro ti tokens _ _
    exact ⟨tokens, rfl, fun k h => absurd h (Nat.not_lt_zero _), fun _ _ => rfl⟩
  | cons w ws ih =>
    intro ti tokens hfit hsize
    simp only [List.length_cons] at hfit hsize
    obtain ⟨tokens2, h1, h2, h3⟩ := ih (ti + 1)
      (fun k => if k = ti then String.mk w else tokens k) (by omega) (by omega)
    refine ⟨tokens2, ?_, ?_, ?_⟩
    · rw [TokenizeLine.store]
      simp only [show ti < size by omega, if_true,
        show ¬ (ti + 1 > maxtokens) by omega, if_false, List.length_cons]
      rw [h1]
      simp only [Option.some.injEq, Prod.mk.injEq, true_and]
      omega
    · intro k hk
      cases k with
      | zero =>
        rw [Nat.add_zero, h3 ti (Or.inl (Nat.lt_succ_self _))]
        simp
      | succ k =>
        have := h2 k (by simpa using hk)
        rw [show ti + (k + 1) = ti + 1 + k by omega, this]
        rfl
    · intro k hk
      simp only [List.length_cons] at hk
      rw [h3 k (by omega)]
      have : k ≠ ti := by omega
      simp [this]

/-- When there are more than `maxtokens` pieces and the array has more than
`maxtokens` strings, `TokenizeLine.store` returns `false`, having stored a piece
at the index `maxtokens`. -/
theorem TokenizeLine.store_false (maxtokens size : Nat) (hsize : maxtokens < size) :
    ∀ (ws : List (List Char)) (ti : Nat) (tokens : Nat → String),
      ti ≤ maxtokens → ti + ws.length > maxtokens →
      ∃ (tokens2 : Nat → String) (h : maxtokens - ti < ws.length),
        TokenizeLine.store maxtokens size ws ti tokens
          = some (false, tokens2, maxtokens + 1) ∧
        tokens2 maxtokens = String.mk (ws.get ⟨maxtokens - ti, h⟩) ∧
        ∀ k, (k < ti ∨ maxtokens < k) → tokens2 k = tokens k := by
  intro ws
  induction ws with
  | nil =>
    intro ti tokens h1 h2
    simp only [List.length_nil] at h2
    omega
  | cons w ws ih =>
    intro ti tokens hti hfit
    simp only [List.length_cons] at hfit
    by_cases hlast : ti + 1 > maxtokens
    · have heq : ti = maxtokens := by omega
      subst heq
      refine ⟨fun k => if k = ti then String.mk w else tokens k, by simp, ?_, ?_, ?_⟩
      · rw [TokenizeLine.store]
        simp only [hsize, hlast, if_true]
      · simp
      · intro k hk
        have : k ≠ ti := by omega
        simp [this]
    · obtain ⟨tokens2, h, h1, h2, h3⟩ := ih (ti + 1)
        (fun k => if k = ti then String.mk w else tokens k) (by omega) (by omega)
      refine ⟨tokens2, by simp only [List.length_cons]; omega, ?_, ?_, ?_⟩
      · rw [TokenizeLine.store]
        simp only [show ti < size by omega, if_true, hlast, if_false]
        exact h1
      · rw [h2]
        congr 1
        have hsub : maxtokens - ti = (maxtokens - (ti + 1)) + 1 := by omega
        simp only [hsub, List.get_cons_succ]
      · intro k hk
        rw [h3 k (by omega)]
        have : k ≠ ti := by omega
        simp [this]

/-- When the array has at most `maxtokens` strings and there are more pieces
than it holds, `TokenizeLine.store` stores outside the array. -/
theorem TokenizeLine.store_fault (maxtokens size : Nat) (hsize : size ≤ maxtokens) :
    ∀ (ws : List (List Char)) (ti : Nat) (tokens : Nat → String),
      ti ≤ size → ti + ws.length > size →
      TokenizeLine.store maxtokens size ws ti tokens = none := by
  intro ws
  induction ws with
  | nil =>
    intro ti tokens h1 h2
    simp only [List.length_nil] at h2
    omega
  | cons w ws ih =>
    intro ti tokens hti hfit
    simp only [List.length_cons] at hfit
    rw [TokenizeLine.store]
    by_cases hsz : ti < size
    · simp only [hsz, if_true, show ¬ (ti + 1 > maxtokens) by omega, if_false]
      exact ih (ti + 1) _ (by omega) (by omega)
    · simp only [hsz, if_false]

theorem take_find_hash (chars : List Char) :
    (match find chars '#' with
      | some i => chars.take i
      | none => chars) = chars.takeWhile (fun c => c ≠ '#') := by
  induction chars with
  | nil => rfl
  | cons x xs ih =>
    by_cases hx : x = '#'
    · simp [find, hx]
    · simp only [find, if_neg hx]
      rw [List.takeWhile_cons_of_pos (by simpa using hx)]
      cases hf : find xs '#' with
      | none =>
        rw [hf] at ih
        simp only [Option.map_none']
        rw [← ih]
      | some i =>
        rw [hf] at ih
        simp only [Option.map_some', List.take_succ_cons]
        rw [← ih]

theorem mem_takeWhile_imp {α : Type} (p : α → Bool) (l : List α) (x : α)
    (h : x ∈ l.takeWhile p) : x ∈ l :=
  (List.takeWhile_prefix p).subset h

/-- A piece of a line of spaces only is empty. -/
theorem splitOn_spaces (l : List Char) (h : ∀ c ∈ l, c = ' ') :
    (l.splitOn ' ').filter (fun w => w ≠ []) = [] := by
  induction l with
  | nil => rfl
  | cons x xs ih =>
    have hx : x = ' ' := h x (List.mem_cons_self _ _)
    subst hx
    have := ih (fun c hc => h c (List.mem_cons_of_mem _ hc))
    unfold List.splitOn at this ⊢
    rw [List.splitOnP_cons]
    simp only [beq_self_eq_true, if_true]
    rw [List.filter_cons_of_neg (by simp)]
    exact this

/-- C24 fails on a line with too many pieces: `false` is returned only after a
store outside the array of the caller.  For every line without a tab, every
`maxtokens` and every array `tokens` of `size` strings, with `specTokens` the
non-empty pieces between the spaces of the part of the line before its first
`#`: when there are at most `maxtokens` pieces and the array holds them,
`TokenizeLine` returns `true`, sets `*ntokens` to the number of pieces and
stores piece `i` in `tokens[i]`; a line whose part before the first `#` holds
spaces only yields `true` with `*ntokens = 0`.  When there are more than
`maxtokens` pieces, piece number `maxtokens` is stored in `tokens[maxtokens]`
before anything is returned: with an array of more than `maxtokens` strings
`false` is returned and `*ntokens` is left as it is; with an array of
`maxtokens` strings or fewer, as passed by both callers, the store is outside
the array and nothing is returned.  So `false` is returned if and only if there
are more than `maxtokens` pieces and the array has more than `maxtokens`
strings. -/
theorem TokenizeLine_spec (line : String) (maxtokens size : Nat) (tokens : Nat → String)
    (ntokens : Nat) (htab : '\t' ∉ line.data) :
    ((specTokens line).length ≤ maxtokens → (specTokens line).length ≤ size →
      ∃ tokens2 : Nat → String,
        TokenizeLine line maxtokens size tokens ntokens
          = some (true, tokens2, (specTokens line).length) ∧
        ∀ i, (h : i < (specTokens line).length) →
          tokens2 i = (specTokens line).get ⟨i, h⟩) ∧
    ((∀ c ∈ line.data.takeWhile (fun c => c ≠ '#'), c = ' ') →
      ∃ tokens2 : Nat → String,
        TokenizeLine line maxtokens size tokens ntokens = some (true, tokens2, 0)) ∧
    ((specTokens line).length > maxtokens → maxtokens < size →
      ∃ (tokens2 : Nat → String) (h : maxtokens < (specTokens line).length),
        TokenizeLine line maxtokens size tokens ntokens = some (false, tokens2, ntokens) ∧
        tokens2 maxtokens = (specTokens line).get ⟨maxtokens, h⟩) ∧
    (size ≤ maxtokens → (specTokens line).length > size →
      TokenizeLine line maxtokens size tokens ntokens = none) ∧
    ((∃ (tokens2 : Nat → String) (n : Nat),
        TokenizeLine line maxtokens size tokens ntokens = some (false, tokens2, n))
      ↔ ((specTokens line).length > maxtokens ∧ maxtokens < size)) := by
  have hloop := TokenizeLine.loop_eq_store maxtokens size
    ((line.data.takeWhile (fun c => c ≠ '#')).length + 1)
    (line.data.takeWhile (fun c => c ≠ '#')) 0 tokens
    (fun h => htab (mem_takeWhile_imp _ _ _ h)) (Nat.lt_succ_self _)
  have hlen : (specTokens line).length
      = (((line.data.takeWhile (fun c => c ≠ '#')).splitOn ' ').filter
          (fun w => w ≠ [])).length := by
    simp [specTokens]
  have hget : ∀ i (h1 : i < (((line.data.takeWhile (fun c => c ≠ '#')).splitOn ' ').filter
        (fun w => w ≠ [])).length) (h2 : i < (specTokens line).length),
      String.mk ((((line.data.takeWhile (fun c => c ≠ '#')).splitOn ' ').filter
        (fun w => w ≠ [])).get ⟨i, h1⟩) = (specTokens line).get ⟨i, h2⟩ := by
    intro i h1 h2
    simp [specTokens]
  generalize ((line.data.takeWhile (fun c => c ≠ '#')).splitOn ' ').filter
    (fun w => w ≠ []) = W at hloop hlen hget
  have hfalse : (specTokens line).length > maxtokens → maxtokens < size →
      ∃ (tokens2 : Nat → String) (h : maxtokens < (specTokens line).length),
        TokenizeLine line maxtokens size tokens ntokens = some (false, tokens2, ntokens) ∧
        tokens2 maxtokens = (specTokens line).get ⟨maxtokens, h⟩ := by
    intro h hsize
    have h0 := h
    rw [hlen] at h
    obtain ⟨tokens2, hk, h1, h2, -⟩ := TokenizeLine.store_false maxtokens size hsize W 0 tokens
      (Nat.zero_le _) (by omega)
    refine ⟨tokens2, h0, ?_, ?_⟩
    · simp only [TokenizeLine, take_find_hash, hloop, h1]
    · rw [h2, ← hget maxtokens (by omega) h0]
      rfl
  have htrue : (specTokens line).length ≤ maxtokens → (specTokens line).length ≤ size →
      ∃ tokens2 : Nat → String,
        TokenizeLine line maxtokens size tokens ntokens
          = some (true, tokens2, (specTokens line).length) ∧
        ∀ i, (h : i < (specTokens line).length) →
          tokens2 i = (specTokens line).get ⟨i, h⟩ := by
    intro h hsize
    rw [hlen] at h hsize
    obtain ⟨tokens2, h1, h2, -⟩ := TokenizeLine.store_true maxtokens size W 0 tokens
      (by omega) (by omega)
    refine ⟨tokens2, ?_, ?_⟩
    · simp only [TokenizeLine, take_find_hash, hloop, h1, hlen, Nat.zero_add]
    · intro i hi
      have hi2 := hi
      rw [hlen] at hi2
      have := h2 i hi2
      rw [Nat.zero_add] at this
      rw [this]
      exact hget i hi2 hi
  have hfault : size ≤ maxtokens → (specTokens line).length > size →
      TokenizeLine line maxtokens size tokens ntokens = none := by
    intro hsize h
    rw [hlen] at h
    have h1 := TokenizeLine.store_fault maxtokens size hsize W 0 tokens (Nat.zero_le _)
      (by omega)
    simp only [TokenizeLine, take_find_hash, hloop, h1]
  refine ⟨htrue, ?_, hfalse, hfault, ⟨?_, fun h =>
    (hfalse h.1 h.2).elim (fun t ht => ⟨t, ntokens, ht.2.1⟩)⟩⟩
  · intro hsp
    have h0 : (specTokens line).length = 0 := by
      simp only [specTokens, List.length_map]
      rw [splitOn_spaces _ hsp]
      rfl
    obtain ⟨tokens2, h1, -⟩ := htrue (by omega) (by omega)
    rw [h0] at h1
    exact ⟨tokens2, h1⟩
  · rintro ⟨tokens2, n, hres⟩
    by_cases hsize : maxtokens < size
    · refine ⟨?_, hsize⟩
      by_contra hle
      obtain ⟨tokens3, h3, -⟩ := htrue (by omega) (by omega)
      rw [h3] at hres
      simp at hres
    · by_cases hfit : (specTokens line).length ≤ size
      · obtain ⟨tokens3, h3, -⟩ := htrue (by omega) hfit
        rw [h3] at hres
        simp at hres
      · rw [hfault (by omega) (by omega)] at hres
        simp at hres

/-- The statement of C24 at the line `radius  1 # of the ball`, of two pieces,
and at the line `position 1 2 3 4`, of five: with `maxtokens = MAX_TOKENS` and
an array of `MAX_TOKENS` strings, as in `Parser::Parse`, the first line yields
`true` and its two pieces, and on the second the fifth piece is stored outside
the array; with an array of one more string `false` is returned after the
store in `tokens[MAX_TOKENS]`. -/
theorem TokenizeLine_spec_witness :
    ('\t' ∉ "radius  1 # of the ball".data ∧ '\t' ∉ "position 1 2 3 4".data) ∧
    (specTokens "radius  1 # of the ball" = ["radius", "1"] ∧
      specTokens "position 1 2 3 4" = ["position", "1", "2", "3", "4"]) ∧
    (∃ tokens2 : Nat → String,
      TokenizeLine "radius  1 # of the ball" MAX_TOKENS MAX_TOKENS (fun _ => "") 0
        = some (true, tokens2, 2) ∧
      tokens2 0 = "radius" ∧ tokens2 1 = "1") ∧
    TokenizeLine "position 1 2 3 4" MAX_TOKENS MAX_TOKENS (fun _ => "") 0 = none ∧
    (∃ tokens2 : Nat → String,
      TokenizeLine "position 1 2 3 4" MAX_TOKENS (MAX_TOKENS + 1) (fun _ => "") 0
        = some (false, tokens2, 0) ∧
      tokens2 MAX_TOKENS = "4") := by
  have htab : '\t' ∉ "radius  1 # of the ball".data := by decide
  have htab2 : '\t' ∉ "position 1 2 3 4".data := by decide
  have hspec : specTokens "radius  1 # of the ball" = ["radius", "1"] := by decide
  have hspec2 : specTokens "position 1 2 3 4" = ["position", "1", "2", "3", "4"] := by
    decide
  have h := TokenizeLine_spec "radius  1 # of the ball" MAX_TOKENS MAX_TOKENS
    (fun _ => "") 0 htab
  have h1 := TokenizeLine_spec "position 1 2 3 4" MAX_TOKENS MAX_TOKENS (fun _ => "") 0 htab2
  have h2 := TokenizeLine_spec "position 1 2 3 4" MAX_TOKENS (MAX_TOKENS + 1)
    (fun _ => "") 0 htab2
  refine ⟨⟨htab, htab2⟩, ⟨hspec, hspec2⟩, ?_, ?_, ?_⟩
  · obtain ⟨tokens2, h2, h3⟩ := h.1 (by rw [hspec]; decide) (by rw [hspec]; decide)
    refine ⟨tokens2, ?_, ?_, ?_⟩
    · rw [h2, hspec]
      rfl
    · rw [h3 0 (by rw [hspec]; decide)]
      simp [hspec]
    · rw [h3 1 (by rw [hspec]; decide)]
      simp [hspec]
  · exact h1.2.2.2.1 (by decide) (by rw [hspec2]; decide)
  · obtain ⟨tokens2, hk, h3, h4⟩ := h2.2.2.1 (by rw [hspec2]; decide) (by decide)
    refine ⟨tokens2, h3, ?_⟩
    rw [h4]
    simp [hspec2, MAX_TOKENS]

/-- A round of the loop of `TokenizeLine` that finds a separator at `i`. -/
theorem TokenizeLine.loop_some (maxtokens size fuel : Nat) (chars : List Char) (ti : Nat)
    (tokens : Nat → String) (i : Nat)
    (h : (match find chars ' ' with
      | some i => some i
      | none => find chars '\t') = some i) :
    TokenizeLine.loop maxtokens size (fuel + 1) chars ti tokens
      = if chars.take i ≠ [] then
          if ti < size then
            if ti + 1 > maxtokens then
              some (false, fun k => if k = ti then String.mk (chars.take i) else tokens k,
                ti + 1)
            else
              TokenizeLine.loop maxtokens size fuel (chars.drop (i + 1)) (ti + 1)
                (fun k => if k = ti then String.mk (chars.take i) else tokens k)
          else none
        else TokenizeLine.loop maxtokens size fuel (chars.drop (i + 1)) ti tokens := by
  have htok : (if i > 0 then chars.take i else []) = chars.take i := by
    by_cases hi : i > 0
    · rw [if_pos hi]
    · have : i = 0 := by omega
      subst this
      simp
  rw [TokenizeLine.loop]
  simp only [h, htok]

/-- The round of the loop of `TokenizeLine` that finds no separator. -/
theorem TokenizeLine.loop_none (maxtokens size fuel : Nat) (chars : List Char) (ti : Nat)
    (tokens : Nat → String)
    (h : (match find chars ' ' with
      | some i => some i
      | none => find chars '\t') = none) :
    TokenizeLine.loop maxtokens size (fuel + 1) chars ti tokens
      = if chars ≠ [] then
          if ti < size then
            if ti + 1 > maxtokens then
              some (false, fun k => if k = ti then String.mk chars else tokens k, ti + 1)
            else
              some (true, fun k => if k = ti then String.mk chars else tokens k, ti + 1)
          else none
        else some (true, tokens, ti) := by
  rw [TokenizeLine.loop]
  simp only [h]

/-- The separator found in a round: it lies in the line, and no space comes
before it. -/
theorem TokenizeLine.separator (chars : List Char) (i : Nat)
    (h : (match find chars ' ' with
      | some i => some i
      | none => find chars '\t') = some i) :
    i < chars.length ∧ ' ' ∉ chars.take i := by
  cases hf : find chars ' ' with
  | some j =>
    rw [hf] at h
    have hij : j = i := Option.some.inj h
    subst hij
    obtain ⟨-, h2, h3⟩ := find_eq_some hf
    exact ⟨h3, h2⟩
  | none =>
    rw [hf] at h
    obtain ⟨-, -, h3⟩ := find_eq_some h
    exact ⟨h3, fun hm => find_eq_none.1 hf (List.mem_of_mem_take hm)⟩

/-- With no separator found, the line holds no space. -/
theorem TokenizeLine.no_separator (chars : List Char)
    (h : (match find chars ' ' with
      | some i => some i
      | none => find chars '\t') = none) :
    ' ' ∉ chars := by
  cases hf : find chars ' ' with
  | some j =>
    rw [hf] at h
    exact absurd h (by simp)
  | none => exact find_eq_none.1 hf

/-- The loop of `TokenizeLine` on any line, with an array of more than
`maxtokens` strings: it ends; its stores are at the indices from `ti` up to the
final count, which is at most `maxtokens` when the result is `true` and is
`maxtokens + 1` when it is `false`; and each stored token is a non-empty run of
characters of the line without a space. -/
theorem TokenizeLine.loop_props (maxtokens size : Nat) (hsize : maxtokens < size) :
    ∀ (fuel : Nat) (chars : List Char) (ti : Nat) (tokens : Nat → String),
      chars.length < fuel → ti ≤ maxtokens →
      ∃ (b : Bool) (tokens2 : Nat → String) (n : Nat),
        TokenizeLine.loop maxtokens size fuel chars ti tokens = some (b, tokens2, n) ∧
        ti ≤ n ∧ (b = true → n ≤ maxtokens) ∧ (b = false → n = maxtokens + 1) ∧
        (∀ k, (k < ti ∨ n ≤ k) → tokens2 k = tokens k) ∧
        ∀ k, ti ≤ k → k < n →
          ∃ tok : List Char, tokens2 k = String.mk tok ∧ tok ≠ [] ∧ ' ' ∉ tok ∧
            ∀ c ∈ tok, c ∈ chars := by
  intro fuel
  induction fuel with
  | zero =>
    intro chars ti tokens hlen
    exact absurd hlen (Nat.not_lt_zero _)
  | succ fuel ih =>
    intro chars ti tokens hlen hti
    cases hsep : (match find chars ' ' with
      | some i => some i
      | none => find chars '\t') with
    | some i =>
      obtain ⟨hi, hsp⟩ := TokenizeLine.separator chars i hsep
      have hlen2 : (chars.drop (i + 1)).length < fuel := by
        rw [List.length_drop]
        omega
      rw [TokenizeLine.loop_some maxtokens size fuel chars ti tokens i hsep]
      by_cases hne : chars.take i = []
      · rw [if_neg (not_not.mpr hne)]
        obtain ⟨b, tokens2, n, h1, h2, h3, h4, h5, h6⟩ :=
          ih (chars.drop (i + 1)) ti tokens hlen2 hti
        refine ⟨b, tokens2, n, h1, h2, h3, h4, h5, ?_⟩
        intro k hk1 hk2
        obtain ⟨tok, ht1, ht2, ht3, ht4⟩ := h6 k hk1 hk2
        exact ⟨tok, ht1, ht2, ht3, fun c hc => List.mem_of_mem_drop (ht4 c hc)⟩
      · rw [if_pos hne, if_pos (show ti < size by omega)]
        by_cases hfull : ti + 1 > maxtokens
        · rw [if_pos hfull]
          refine ⟨false, _, ti + 1, rfl, Nat.le_succ _, fun h => absurd h (by simp),
            fun _ => by omega, ?_, ?_⟩
          · intro k hk
            have : k ≠ ti := by omega
            simp [this]
          · intro k hk1 hk2
            have : k = ti := by omega
            subst this
            exact ⟨chars.take i, by simp, hne, hsp, fun c hc => List.mem_of_mem_take hc⟩
        · rw [if_neg hfull]
          obtain ⟨b, tokens2, n, h1, h2, h3, h4, h5, h6⟩ :=
            ih (chars.drop (i + 1)) (ti + 1)
              (fun k => if k = ti then String.mk (chars.take i) else tokens k) hlen2
              (by omega)
          refine ⟨b, tokens2, n, h1, by omega, h3, h4, ?_, ?_⟩
          · intro k hk
            rw [h5 k (by omega)]
            have : k ≠ ti := by omega
            simp [this]
          · intro k hk1 hk2
            by_cases hkt : k = ti
            · subst hkt
              rw [h5 k (Or.inl (Nat.lt_succ_self _))]
              exact ⟨chars.take i, by simp, hne, hsp, fun c hc => List.mem_of_mem_take hc⟩
            · obtain ⟨tok, ht1, ht2, ht3, ht4⟩ := h6 k (by omega) hk2
              exact ⟨tok, ht1, ht2, ht3, fun c hc => List.mem_of_mem_drop (ht4 c hc)⟩
    | none =>
      have hsp := TokenizeLine.no_separator chars hsep
      rw [TokenizeLine.loop_none maxtokens size fuel chars ti tokens hsep]
      by_cases hne : chars = []
      · rw [if_neg (not_not.mpr hne)]
        exact ⟨true, tokens, ti, rfl, le_refl _, fun _ => hti, fun h => absurd h (by simp),
          fun _ _ => rfl, fun k hk1 hk2 => absurd hk2 (by omega)⟩
      · rw [if_pos hne, if_pos (show ti < size by omega)]
        by_cases hfull : ti + 1 > maxtokens
        · rw [if_pos hfull]
          refine ⟨false, _, ti + 1, rfl, Nat.le_succ _, fun h => absurd h (by simp),
            fun _ => by omega, ?_, ?_⟩
          · intro k hk
            have : k ≠ ti := by omega
            simp [this]
          · intro k hk1 hk2
            have : k = ti := by omega
            subst this
            exact ⟨chars, by simp, hne, hsp, fun c hc => hc⟩
        · rw [if_neg hfull]
          refine ⟨true, _, ti + 1, rfl, Nat.le_succ _, fun _ => by omega,
            fun h => absurd h (by simp), ?_, ?_⟩
          · intro k hk
            have : k ≠ ti := by omega
            simp [this]
          · intro k hk1 hk2
            have : k = ti := by omega
            subst this
            exact ⟨chars, by simp, hne, hsp, fun c hc => hc⟩

/-- The loop of `TokenizeLine` with an array of `size` strings, told from the
loop with an array of `maxtokens + 1` strings, which holds every store: the
result is the same when the final count, one more than the index of the last
store, is at most `size`; otherwise a store is outside the array. -/
theorem TokenizeLine.loop_size (maxtokens size : Nat) :
    ∀ (fuel : Nat) (chars : List Char) (ti : Nat) (tokens : Nat → String),
      chars.length < fuel → ti ≤ maxtokens → ti ≤ size →
      TokenizeLine.loop maxtokens size fuel chars ti tokens
        = match TokenizeLine.loop maxtokens (maxtokens + 1) fuel chars ti tokens with
          | none => none
          | some (b, tokens2, n) => if n ≤ size then some (b, tokens2, n) else none := by
  intro fuel
  induction fuel with
  | zero =>
    intro chars ti tokens hlen
    exact absurd hlen (Nat.not_lt_zero _)
  | succ fuel ih =>
    intro chars ti tokens hlen hti hts
    cases hsep : (match find chars ' ' with
      | some i => some i
      | none => find chars '\t') with
    | some i =>
      obtain ⟨hi, -⟩ := TokenizeLine.separator chars i hsep
      have hlen2 : (chars.drop (i + 1)).length < fuel := by
        rw [List.length_drop]
        omega
      rw [TokenizeLine.loop_some maxtokens size fuel chars ti tokens i hsep,
        TokenizeLine.loop_some maxtokens (maxtokens + 1) fuel chars ti tokens i hsep]
      by_cases hne : chars.take i = []
      · rw [if_neg (not_not.mpr hne), if_neg (not_not.mpr hne)]
        exact ih (chars.drop (i + 1)) ti tokens hlen2 hti hts
      · rw [if_pos hne, if_pos hne, if_pos (show ti < maxtokens + 1 by omega)]
        by_cases hfull : ti + 1 > maxtokens
        · rw [if_pos hfull, if_pos hfull]
          by_cases hsz : ti < size
          · rw [if_pos hsz]
            simp only []
            rw [if_pos (show ti + 1 ≤ size by omega)]
          · rw [if_neg hsz]
            simp only []
            rw [if_neg (show ¬ (ti + 1 ≤ size) by omega)]
        · rw [if_neg hfull, if_neg hfull]
          by_cases hsz : ti < size
          · rw [if_pos hsz]
            exact ih (chars.drop (i + 1)) (ti + 1) _ hlen2 (by omega) (by omega)
          · rw [if_neg hsz]
            obtain ⟨b, tokens2, n, h1, h2, -⟩ :=
              TokenizeLine.loop_props maxtokens (maxtokens + 1) (Nat.lt_succ_self _) fuel
                (chars.drop (i + 1)) (ti + 1)
                (fun k => if k = ti then String.mk (chars.take i) else tokens k) hlen2
                (by omega)
            rw [h1]
            simp only []
            rw [if_neg (show ¬ (n ≤ size) by omega)]
    | none =>
      rw [TokenizeLine.loop_none maxtokens size fuel chars ti tokens hsep,
        TokenizeLine.loop_none maxtokens (maxtokens + 1) fuel chars ti tokens hsep]
      by_cases hne : chars = []
      · rw [if_neg (not_not.mpr hne), if_neg (not_not.mpr hne)]
        simp only []
        rw [if_pos hts]
      · rw [if_pos hne, if_pos hne, if_pos (show ti < maxtokens + 1 by omega)]
        by_cases hsz : ti < size
        · rw [if_pos hsz]
          by_cases hfull : ti + 1 > maxtokens
          · rw [if_pos hfull]
            simp only []
            rw [if_pos (show ti + 1 ≤ size by omega)]
          · rw [if_neg hfull]
            simp only []
            rw [if_pos (show ti + 1 ≤ size by omega)]
        · rw [if_neg hsz]
          by_cases hfull : ti + 1 > maxtokens
          · rw [if_pos hfull]
            simp only []
            rw [if_neg (show ¬ (ti + 1 ≤ size) by omega)]
          · rw [if_neg hfull]
            simp only []
            rw [if_neg (show ¬ (ti + 1 ≤ size) by omega)]

/-- The function `TokenizeLine` on any line, with an array of more than
`maxtokens` strings: it returns; when it returns `true` the count is at most
`maxtokens`, the array is as it was from the count on, and each token below the
count is a non-empty run of characters of the line with neither a space nor a
`#`; when it returns `false` the count is as it was, the array is as it was
above `maxtokens`, and a non-empty token is in `tokens[maxtokens]`. -/
theorem TokenizeLine_props (line : String) (maxtokens size : Nat) (hsize : maxtokens < size)
    (tokens : Nat → String) (ntokens : Nat) :
    ∃ (b : Bool) (tokens2 : Nat → String) (n : Nat),
      TokenizeLine line maxtokens size tokens ntokens = some (b, tokens2, n) ∧
      (b = true → n ≤ maxtokens ∧ (∀ k, n ≤ k → tokens2 k = tokens k) ∧
        ∀ k < n, ∃ tok : List Char, tokens2 k = String.mk tok ∧ tok ≠ [] ∧
          ' ' ∉ tok ∧ '#' ∉ tok ∧ ∀ c ∈ tok, c ∈ line.data) ∧
      (b = false → n = ntokens ∧ (∀ k, maxtokens < k → tokens2 k = tokens k) ∧
        ∃ tok : List Char, tokens2 maxtokens = String.mk tok ∧ tok ≠ []) := by
  obtain ⟨b, tokens2, n, h1, -, h3, h4, h5, h6⟩ := TokenizeLine.loop_props maxtokens size hsize
    ((line.data.takeWhile (fun c => c ≠ '#')).length + 1)
    (line.data.takeWhile (fun c => c ≠ '#')) 0 tokens (Nat.lt_succ_self _) (Nat.zero_le _)
  cases b with
  | true =>
    refine ⟨true, tokens2, n, ?_, fun _ => ⟨h3 rfl, fun k hk => h5 k (Or.inr hk), ?_⟩,
      fun h => absurd h (by simp)⟩
    · simp only [TokenizeLine, take_find_hash, h1]
    · intro k hk
      obtain ⟨tok, ht1, ht2, ht3, ht4⟩ := h6 k (Nat.zero_le _) hk
      refine ⟨tok, ht1, ht2, ht3, ?_, fun c hc => mem_takeWhile_imp _ _ _ (ht4 c hc)⟩
      intro hm
      have := List.mem_takeWhile_imp (ht4 _ hm)
      simp at this
  | false =>
    have hn := h4 rfl
    refine ⟨false, tokens2, ntokens, ?_, fun h => absurd h (by simp),
      fun _ => ⟨rfl, fun k hk => h5 k (Or.inr (by omega)), ?_⟩⟩
    · simp only [TokenizeLine, take_find_hash, h1]
    · obtain ⟨tok, ht1, ht2, -, -⟩ := h6 maxtokens (Nat.zero_le _) (by omega)
      exact ⟨tok, ht1, ht2⟩

/-- The function `TokenizeLine` with an array of `size` strings, told from the
call with an array of `maxtokens + 1` strings, which always returns: a `true`
with the count `n` is returned as well when `n ≤ size`, a `false` is returned
as well when `maxtokens < size`, and otherwise a store is outside the array. -/
theorem TokenizeLine_size (line : String) (maxtokens size : Nat) (tokens : Nat → String)
    (ntokens : Nat) :
    TokenizeLine line maxtokens size tokens ntokens
      = match TokenizeLine line maxtokens (maxtokens + 1) tokens ntokens with
        | none => none
        | some (true, tokens2, n) => if n ≤ size then some (true, tokens2, n) else none
        | some (false, tokens2, n) =>
          if maxtokens < size then some (false, tokens2, n) else none := by
  have hs := TokenizeLine.loop_size maxtokens size
    ((line.data.takeWhile (fun c => c ≠ '#')).length + 1)
    (line.data.takeWhile (fun c => c ≠ '#')) 0 tokens (Nat.lt_succ_self _) (Nat.zero_le _)
    (Nat.zero_le _)
  obtain ⟨b, tokens2, n, h1, -, -, h4, -, -⟩ :=
    TokenizeLine.loop_props maxtokens (maxtokens + 1) (Nat.lt_succ_self _)
      ((line.data.takeWhile (fun c => c ≠ '#')).length + 1)
      (line.data.takeWhile (fun c => c ≠ '#')) 0 tokens (Nat.lt_succ_self _) (Nat.zero_le _)
  simp only [TokenizeLine, take_find_hash]
  rw [hs, h1]
  cases b with
  | true =>
    by_cases hn : n ≤ size
    · simp only [hn, if_true]
    · simp only [hn, if_false]
  | false =>
    have hn := h4 rfl
    subst hn
    by_cases hsize : maxtokens < size
    · simp only [show maxtokens + 1 ≤ size by omega, hsize, if_true]
    · simp only [show ¬ (maxtokens + 1 ≤ size) by omega, hsize, if_false]

/-! ## The tokens of a line with a tab -/

/-- C23 fails for a line with a tab before a space: the line `a<tab>b c` is
split, with the result `true`, into the two tokens `a<tab>b` and `c`, the first
of which contains a tab, a space being looked for before a tab is. The rest
holds on every line and with every array: when `TokenizeLine` returns `true`,
no token below the count is empty and none contains a space or `#`, and none
contains a tab when the line has none. -/
theorem TokenizeLine_tab_in_token :
    (∃ tokens2 : Nat → String,
      TokenizeLine "a\tb c" MAX_TOKENS MAX_TOKENS (fun _ => "") 0 = some (true, tokens2, 2) ∧
      tokens2 0 = "a\tb" ∧ tokens2 1 = "c" ∧ '\t' ∈ (tokens2 0).data) ∧
    (∀ (line : String) (maxtokens size : Nat) (tokens : Nat → String) (ntokens : Nat)
        (tokens2 : Nat → String) (n : Nat),
      TokenizeLine line maxtokens size tokens ntokens = some (true, tokens2, n) →
      ∀ k < n, tokens2 k ≠ "" ∧ ' ' ∉ (tokens2 k).data ∧ '#' ∉ (tokens2 k).data ∧
        ('\t' ∉ line.data → '\t' ∉ (tokens2 k).data)) := by
  refine ⟨⟨_, rfl, rfl, rfl, by decide⟩, ?_⟩
  intro line maxtokens size tokens ntokens tokens2 n hres k hk
  obtain ⟨b, tokens3, m, h1, h2, -⟩ := TokenizeLine_props line maxtokens (maxtokens + 1)
    (Nat.lt_succ_self _) tokens ntokens
  rw [TokenizeLine_size, h1] at hres
  cases b with
  | false =>
    simp only [] at hres
    split_ifs at hres
    simp at hres
  | true =>
    simp only [] at hres
    split_ifs at hres
    simp only [Option.some.injEq, Prod.mk.injEq, true_and] at hres
    obtain ⟨ht, hm⟩ := hres
    subst ht hm
    obtain ⟨-, -, h3⟩ := h2 rfl
    obtain ⟨tok, ht1, ht2, ht3, ht4, ht5⟩ := h3 k hk
    rw [ht1]
    refine ⟨?_, ht3, ht4, fun htab hm => htab (ht5 _ hm)⟩
    intro h
    apply ht2
    have := congrArg String.data h
    simpa using this

theorem TokenizeLine_tab_in_token_witness :
    TokenizeLine "radius 1 # r" MAX_TOKENS MAX_TOKENS (fun _ => "") 0
      = some (true,
          (fun k => if k = 1 then "1" else if k = 0 then "radius" else ""), 2) ∧
    (∀ k < 2,
      (fun k => if k = 1 then "1" else if k = 0 then "radius" else "") k ≠ "" ∧
      ' ' ∉ ((fun k => if k = 1 then "1" else if k = 0 then "radius" else "") k).data ∧
      '#' ∉ ((fun k => if k = 1 then "1" else if k = 0 then "radius" else "") k).data ∧
      ('\t' ∉ "radius 1 # r".data →
        '\t' ∉ ((fun k => if k = 1 then "1" else if k = 0 then "radius" else "") k).data)) :=
  ⟨rfl, TokenizeLine_tab_in_token.2 "radius 1 # r" MAX_TOKENS MAX_TOKENS (fun _ => "") 0 _ 2
    rfl⟩

/-! ## The token array -/

/-- C29 fails on the path that returns `false`: for the line `a b c d e` and
`maxtokens = MAX_TOKENS = 4` the fifth token `e` is stored in `tokens[4]`, past
the end of an array of `MAX_TOKENS` strings, before `++ti > maxtokens` is
tested: with the array of `MAX_TOKENS` strings of `Parser::Parse` the store is
outside the array, and with an array of one more string `false` is returned
with `e` in `tokens[4]`. On every line and for every `maxtokens`, with an array
of more than `maxtokens` strings, `TokenizeLine` returns; no store is above the
index `maxtokens`; when it returns `true` no store is at `maxtokens` or above;
and when it returns `false` a non-empty token has been stored in
`tokens[maxtokens]`. With an array of `maxtokens` strings or fewer `false` is
never returned: on a line for which the larger array yields `false`, a store
is outside the array. -/
theorem TokenizeLine_overruns :
    (TokenizeLine "a b c d e" MAX_TOKENS MAX_TOKENS (fun _ => "") 0 = none ∧
      ∃ tokens2 : Nat → String,
        TokenizeLine "a b c d e" MAX_TOKENS (MAX_TOKENS + 1) (fun _ => "") 0
          = some (false, tokens2, 0) ∧
        tokens2 MAX_TOKENS = "e" ∧ tokens2 MAX_TOKENS ≠ (fun _ => "") MAX_TOKENS) ∧
    (∀ (line : String) (maxtokens size : Nat) (tokens : Nat → String) (ntokens : Nat),
      maxtokens < size →
      ∃ (b : Bool) (tokens2 : Nat → String) (n : Nat),
        TokenizeLine line maxtokens size tokens ntokens = some (b, tokens2, n) ∧
        (∀ k, maxtokens < k → tokens2 k = tokens k) ∧
        (b = true → ∀ k, maxtokens ≤ k → tokens2 k = tokens k) ∧
        (b = false → tokens2 maxtokens ≠ "")) ∧
    (∀ (line : String) (maxtokens size : Nat) (tokens : Nat → String) (ntokens : Nat),
      size ≤ maxtokens →
      (∀ (tokens2 : Nat → String) (n : Nat),
        TokenizeLine line maxtokens size tokens ntokens ≠ some (false, tokens2, n)) ∧
      ((∃ (tokens2 : Nat → String) (n : Nat),
          TokenizeLine line maxtokens (maxtokens + 1) tokens ntokens
            = some (false, tokens2, n)) →
        TokenizeLine line maxtokens size tokens ntokens = none)) := by
  refine ⟨⟨rfl, _, rfl, rfl, by decide⟩, ?_, ?_⟩
  · intro line maxtokens size tokens ntokens hsize
    obtain ⟨b, tokens2, n, h1, h2, h3⟩ :=
      TokenizeLine_props line maxtokens size hsize tokens ntokens
    refine ⟨b, tokens2, n, h1, ?_, ?_, ?_⟩
    · intro k hk
      cases b with
      | true =>
        obtain ⟨h4, h5, -⟩ := h2 rfl
        exact h5 k (by omega)
      | false =>
        obtain ⟨-, h5, -⟩ := h3 rfl
        exact h5 k hk
    · intro hb k hk
      obtain ⟨h4, h5, -⟩ := h2 hb
      exact h5 k (by omega)
    · intro hb
      obtain ⟨-, -, tok, ht1, ht2⟩ := h3 hb
      rw [ht1]
      intro h
      apply ht2
      have := congrArg String.data h
      simpa using this
  · intro line maxtokens size tokens ntokens hsize
    have hnot : ¬ (maxtokens < size) := by omega
    refine ⟨?_, ?_⟩
    · intro tokens2 n hres
      rw [TokenizeLine_size] at hres
      split at hres
      · simp at hres
      · split_ifs at hres
        simp at hres
      · rw [if_neg hnot] at hres
        simp at hres
    · rintro ⟨tokens2, n, hres⟩
      rw [TokenizeLine_size, hres]
      simp only []
      rw [if_neg hnot]

/-! ## `CheckFilename` -/

/-- The body of `CheckFilename`, the three `unsigned int` values named. -/
theorem CheckFilename_eq (fileGood : String → Bool) (input out : String) (ext : String)
    (position n1 n4 : Nat)
    (hpos : position = (input.data.length + (2 ^ 64 - 1)) % 2 ^ 64 % 2 ^ 32)
    (hn1 : n1 = (position + (2 ^ 32 - 1)) % 2 ^ 32)
    (hn4 : n4 = (position + (2 ^ 32 - 4)) % 2 ^ 32) :
    CheckFilename fileGood input out (some ext)
      = match at? input.data 0 with
        | none => none
        | some c0 =>
          match (if c0 ≠ '"' then some false
              else match at? input.data position with
                | none => none
                | some c1 => some (decide (c1 = '"'))) with
          | none => none
          | some false => some (false, out)
          | some true =>
            match substr input.data 1 n1 with
            | none => none
            | some trim =>
              match substr trim n4 3 with
              | none => none
              | some extension =>
                if String.mk extension ≠ ext then some (false, String.mk trim)
                else if ¬ fileGood (String.mk trim) then some (false, String.mk trim)
                else some (true, String.mk trim) := by
  delta CheckFilename
  conv_lhs => zeta
  rw [← hpos, ← hn1, ← hn4]

/-- The function `CheckFilename` on the characters `c0`, `rest`, with the last
character `c1` of the token and the name `trim` between the first and the last
character (`trim` is empty for a token of one character). -/
theorem CheckFilename_chars (fileGood : String → Bool) (input out ext : String)
    (c0 c1 : Char) (trim : List Char) (position n1 n4 : Nat)
    (hpos : position = (input.data.length + (2 ^ 64 - 1)) % 2 ^ 64 % 2 ^ 32)
    (hn1 : n1 = (position + (2 ^ 32 - 1)) % 2 ^ 32)
    (hn4 : n4 = (position + (2 ^ 32 - 4)) % 2 ^ 32)
    (hat0 : at? input.data 0 = some c0) (hat1 : at? input.data position = some c1)
    (htrim : substr input.data 1 n1 = some trim) :
    CheckFilename fileGood input out (some ext)
      = if c0 ≠ '"' ∨ c1 ≠ '"' then some (false, out)
        else match substr trim n4 3 with
          | none => none
          | some extension =>
            if String.mk extension ≠ ext then some (false, String.mk trim)
            else if ¬ fileGood (String.mk trim) then some (false, String.mk trim)
            else some (true, String.mk trim) := by
  rw [CheckFilename_eq fileGood input out ext position n1 n4 hpos hn1 hn4, hat0]
  by_cases h0 : c0 = '"'
  · by_cases h1 : c1 = '"'
    · simp only [hat1, htrim, h0, h1, ne_eq, not_true_eq_false, if_false, decide_True, or_self]
    · simp only [hat1, h0, h1, ne_eq, not_true_eq_false, not_false_eq_true, if_false,
        if_true, decide_False, or_true]
  · simp only [h0, ne_eq, not_false_eq_true, if_true, true_or]

/-- A token of one character: `CheckFilename` returns `false` unless the
character is a double quote, and then `substr` throws. -/
theorem CheckFilename_single (fileGood : String → Bool) (c0 : Char) (out ext : String) :
    CheckFilename fileGood (String.mk [c0]) out (some ext)
      = if c0 ≠ '"' then some (false, out) else none := by
  have hpos : 0 = ((String.mk [c0]).data.length + (2 ^ 64 - 1)) % 2 ^ 64 % 2 ^ 32 := by
    show 0 = ([c0].length + (2 ^ 64 - 1)) % 2 ^ 64 % 2 ^ 32
    simp only [List.length_cons, List.length_nil]
    omega
  have hn1 : 2 ^ 32 - 1 = (0 + (2 ^ 32 - 1)) % 2 ^ 32 := by omega
  have hn4 : 2 ^ 32 - 4 = (0 + (2 ^ 32 - 4)) % 2 ^ 32 := by omega
  have htrim : substr (String.mk [c0]).data 1 (2 ^ 32 - 1) = some [] := by
    show substr [c0] 1 (2 ^ 32 - 1) = some []
    simp only [substr, List.length_cons, List.length_nil]
    rw [if_neg (by omega)]
    rfl
  have hext : substr [] (2 ^ 32 - 4) 3 = none := by
    simp only [substr, List.length_nil]
    rw [if_pos (by omega)]
  rw [CheckFilename_chars fileGood (String.mk [c0]) out ext c0 c0 [] 0 (2 ^ 32 - 1)
    (2 ^ 32 - 4) hpos hn1 hn4 rfl rfl htrim, hext]
  by_cases h : c0 = '"'
  · simp only [h, ne_eq, not_true_eq_false, or_self, if_false]
  · simp only [h, ne_eq, not_false_eq_true, or_self, if_true]

/-- A token of two characters or more, `c0`, `mid`, `c1`: what `CheckFilename`
returns. -/
theorem CheckFilename_long (fileGood : String → Bool) (c0 c1 : Char) (mid : List Char)
    (out ext : String) (hlen : mid.length + 2 < 2 ^ 32) :
    CheckFilename fileGood (String.mk (c0 :: (mid ++ [c1]))) out (some ext)
      = if c0 ≠ '"' ∨ c1 ≠ '"' then some (false, out)
        else if mid.length < 3 then none
        else if String.mk (mid.drop (mid.length - 3)) ≠ ext then some (false, String.mk mid)
        else if ¬ fileGood (String.mk mid) then some (false, String.mk mid)
        else some (true, String.mk mid) := by
  have hpos : mid.length + 1
      = ((String.mk (c0 :: (mid ++ [c1]))).data.length + (2 ^ 64 - 1)) % 2 ^ 64 % 2 ^ 32 := by
    show mid.length + 1 = ((c0 :: (mid ++ [c1])).length + (2 ^ 64 - 1)) % 2 ^ 64 % 2 ^ 32
    simp only [List.length_cons, List.length_append, List.length_nil]
    omega
  have hn1 : mid.length = (mid.length + 1 + (2 ^ 32 - 1)) % 2 ^ 32 := by omega
  have hat1 : at? (String.mk (c0 :: (mid ++ [c1]))).data (mid.length + 1) = some c1 := by
    show (mid ++ [c1]).get? mid.length = some c1
    rw [List.get?_eq_getElem?, List.getElem?_append_right (le_refl _), Nat.sub_self]
    rfl
  have htrim : substr (String.mk (c0 :: (mid ++ [c1]))).data 1 mid.length = some mid := by
    show substr (c0 :: (mid ++ [c1])) 1 mid.length = some mid
    simp only [substr, List.length_cons, List.length_append, List.length_nil]
    rw [if_neg (by omega)]
    show some ((mid ++ [c1]).take mid.length) = some mid
    rw [List.take_left']
    rfl
  by_cases h3 : mid.length < 3
  · have hn4 : mid.length + 2 ^ 32 - 3 = (mid.length + 1 + (2 ^ 32 - 4)) % 2 ^ 32 := by
      omega
    have hext : substr mid (mid.length + 2 ^ 32 - 3) 3 = none := by
      simp only [substr]
      rw [if_pos (by omega)]
    rw [CheckFilename_chars fileGood _ out ext c0 c1 mid _ _ _ hpos hn1 hn4 rfl hat1 htrim,
      hext]
    simp only [h3, if_true]
  · have hn4 : mid.length - 3 = (mid.length + 1 + (2 ^ 32 - 4)) % 2 ^ 32 := by omega
    have hext : substr mid (mid.length - 3) 3 = some (mid.drop (mid.length - 3)) := by
      simp only [substr]
      rw [if_neg (by omega), List.take_of_length_le (by rw [List.length_drop]; omega)]
    rw [CheckFilename_chars fileGood _ out ext c0 c1 mid _ _ _ hpos hn1 hn4 rfl hat1 htrim,
      hext]
    simp only [h3, if_false]

/-- C26 fails for a quoted name of fewer than three characters: for the tokens
`"ab"`, `"a"`, `""` and `"` the call `trim.substr (position - 4, 3)` throws
`std::out_of_range`, the difference `position - 4` of type `unsigned int`
wrapping around, where the claim has `false` returned. The rest holds: for a
non-empty token of fewer than `2³²` characters `CheckFilename` throws exactly
when the token starts and ends with a double quote and has at most four
characters; and when it returns `true`, the token is the result `out` between
two double quotes, `out` ends with the three characters of `ext`, and the file
`out` can be opened. So `Parser::CreateEntry` does not return `codeFilename`
for a sphere with the line `texture "a"`: the exception leaves it. -/
theorem CheckFilename_short_name_throws :
    (∀ (fileGood : String → Bool) (out : String),
      CheckFilename fileGood "\"ab\"" out (some "png") = none ∧
      CheckFilename fileGood "\"a\"" out (some "png") = none ∧
      CheckFilename fileGood "\"\"" out (some "png") = none ∧
      CheckFilename fileGood "\"" out (some "png") = none) ∧
    (∀ (fileGood : String → Bool) (input out ext : String),
      input.data ≠ [] → input.data.length < 2 ^ 32 →
      (CheckFilename fileGood input out (some ext) = none ↔
        (input.data.head? = some '"' ∧ input.data.getLast? = some '"' ∧
          input.data.length ≤ 4)) ∧
      ∀ r : String, CheckFilename fileGood input out (some ext) = some (true, r) →
        input.data = '"' :: (r.data ++ ['"']) ∧ (∃ pre : List Char, r.data = pre ++ ext.data) ∧
        ext.data.length = 3 ∧ fileGood r = true) ∧
    CreateEntry sampleStrtod (fun _ => true) "sphere"
      (sampleCollect [["position", "0", "0", "0"], ["radius", "1"], ["texture", "\"a\""]])
      (sampleSizes [["position", "0", "0", "0"], ["radius", "1"], ["texture", "\"a\""]])
      3 Entry.new = none := by
  refine ⟨fun fileGood out => ⟨rfl, rfl, rfl, rfl⟩, ?_, rfl⟩
  intro fileGood input out ext hne hlen
  obtain ⟨L⟩ := input
  simp only at hne hlen ⊢
  cases L with
  | nil => exact absurd rfl hne
  | cons c0 rest =>
    rcases List.eq_nil_or_concat rest with hrest | ⟨mid, c1, hrest⟩
    · subst hrest
      rw [CheckFilename_single]
      by_cases h0 : c0 = '"'
      · simp [h0]
      · simp [h0]
    · rw [List.concat_eq_append] at hrest
      subst hrest
      have hlenL : (c0 :: (mid ++ [c1])).length = mid.length + 2 := by
        simp only [List.length_cons, List.length_append, List.length_nil]
      have hlast : (c0 :: (mid ++ [c1])).getLast? = some c1 := by
        rw [← List.cons_append, List.getLast?_append]
        rfl
      have hhead : (c0 :: (mid ++ [c1])).head? = some c0 := rfl
      rw [hlenL] at hlen
      rw [CheckFilename_long fileGood c0 c1 mid out ext hlen, hhead, hlast, hlenL]
      simp only [Option.some.injEq]
      by_cases h01 : c0 ≠ '"' ∨ c1 ≠ '"'
      · rw [if_pos h01]
        refine ⟨⟨fun h => Option.noConfusion h, ?_⟩, fun r hr => ?_⟩
        · rintro ⟨a, b, -⟩
          rcases h01 with h | h
          · exact absurd a h
          · exact absurd b h
        · simp only [Option.some.injEq, Prod.mk.injEq, Bool.false_eq_true, false_and] at hr
      · rw [if_neg h01]
        have hc0 : c0 = '"' := not_not.mp (fun h => h01 (Or.inl h))
        have hc1 : c1 = '"' := not_not.mp (fun h => h01 (Or.inr h))
        by_cases h3 : mid.length < 3
        · rw [if_pos h3]
          exact ⟨⟨fun _ => ⟨hc0, hc1, by omega⟩, fun _ => rfl⟩,
            fun r hr => Option.noConfusion hr⟩
        · rw [if_neg h3]
          have hnot : ¬ (c0 = '"' ∧ c1 = '"' ∧ mid.length + 2 ≤ 4) := fun h => by omega
          by_cases hext : String.mk (mid.drop (mid.length - 3)) ≠ ext
          · rw [if_pos hext]
            refine ⟨⟨fun h => Option.noConfusion h, fun h => absurd h hnot⟩, fun r hr => ?_⟩
            simp only [Option.some.injEq, Prod.mk.injEq, Bool.false_eq_true, false_and] at hr
          · rw [if_neg hext]
            by_cases hgood : ¬ fileGood (String.mk mid)
            · rw [if_pos hgood]
              refine ⟨⟨fun h => Option.noConfusion h, fun h => absurd h hnot⟩,
                fun r hr => ?_⟩
              simp only [Option.some.injEq, Prod.mk.injEq, Bool.false_eq_true, false_and]
                at hr
            · rw [if_neg hgood]
              refine ⟨⟨fun h => Option.noConfusion h, fun h => absurd h hnot⟩,
                fun r hr => ?_⟩
              simp only [Option.some.injEq, Prod.mk.injEq, true_and] at hr
              subst hr
              have hext2 : ext = String.mk (mid.drop (mid.length - 3)) :=
                (not_not.mp hext).symm
              subst hext2
              refine ⟨by rw [hc0, hc1], ⟨mid.take (mid.length - 3), ?_⟩, ?_, ?_⟩
              · exact (List.take_append_drop _ _).symm
              · simp only [List.length_drop]
                omega
              · simpa using hgood

theorem CheckFilename_short_name_throws_witness :
    ("\"a.png\"".data ≠ [] ∧ "\"a.png\"".data.length < 2 ^ 32) ∧
    CheckFilename (fun _ => true) "\"a.png\"" "" (some "png") = some (true, "a.png") ∧
    ("\"a.png\"".data = '"' :: ("a.png".data ++ ['"']) ∧
      (∃ pre : List Char, "a.png".data = pre ++ "png".data) ∧
      "png".data.length = 3 ∧ (fun _ => true) "a.png" = true) :=
  ⟨⟨by decide, by decide⟩, rfl,
    ((CheckFilename_short_name_throws.2.1 (fun _ => true) "\"a.png\"" "" "png"
      (by decide) (by decide)).2 "a.png" rfl)⟩

/-! ## The checks of `Parser::CreateEntry`, one by one -/

/-- The tables of the motifs: the count `nparameters` is the length of the
table, the labels of a table are distinct, and no identifier is `0`. -/
theorem kEntries_tables :
    ∀ motif ∈ kEntries, motif.nparameters = motif.parameters.length ∧
      (motif.parameters.map (fun p => p.label)).Nodup ∧
      ∀ q ∈ motif.parameters, q.id ≠ 0 := by
  decide

/-- The search for a label that no parameter carries ends with `found`
false. -/
theorem findParameter_eq_none (ps : List MotifParameter) (label : String)
    (h : ∀ p ∈ ps, p.label ≠ label) : findParameter ps label = none := by
  induction ps with
  | nil => rfl
  | cons q rest ih =>
    have hq : q.label ≠ label := h q (List.mem_cons_self _ _)
    simp only [findParameter, if_neg hq, Option.map_eq_none']
    exact ih (fun p hp => h p (List.mem_cons_of_mem _ hp))

/-- In a table of distinct labels the search for the label of a parameter finds
that parameter. -/
theorem findParameter_of_mem (ps : List MotifParameter)
    (hnodup : (ps.map (fun p => p.label)).Nodup) (p : MotifParameter) (hp : p ∈ ps) :
    ∃ j : Nat, findParameter ps p.label = some (j, p) := by
  induction ps with
  | nil => exact absurd hp (List.not_mem_nil _)
  | cons q rest ih =>
    rw [List.map_cons, List.nodup_cons] at hnodup
    by_cases hq : q.label = p.label
    · have hpq : p = q := by
        rcases List.mem_cons.1 hp with h | h
        · exact h
        · exfalso
          apply hnodup.1
          rw [hq]
          exact List.mem_map_of_mem (fun p => p.label) h
      subst hpq
      exact ⟨0, by simp [findParameter]⟩
    · have hp2 : p ∈ rest := by
        rcases List.mem_cons.1 hp with h | h
        · exact absurd (by rw [h]) hq
        · exact h
      obtain ⟨j, hj⟩ := ih hnodup.2 hp2
      exact ⟨j + 1, by simp [findParameter, hq, hj]⟩

/-- The round of a parameter line whose label is outside the motif. -/
theorem CreateEntry.collectible_codeUnknown {K : Type} [LinearOrderedField K]
    (strtod : String → Option K) (fileGood : String → Bool) (motif : MotifEntry)
    (collect : Nat → Nat → String) (sizes : Nat → Nat) (i : Nat) (st : CreateState K)
    (hfind : findParameter (motif.parameters.take motif.nparameters) (collect i 0) = none) :
    CreateEntry.collectible strtod fileGood motif collect sizes i st
      = Flow.ret (ParserCode_t.codeUnknown, st.entry) := by
  unfold CreateEntry.collectible
  simp only [hfind]

/-- The round of a parameter line whose parameter is marked already. -/
theorem CreateEntry.collectible_codeRepeated {K : Type} [LinearOrderedField K]
    (strtod : String → Option K) (fileGood : String → Bool) (motif : MotifEntry)
    (collect : Nat → Nat → String) (sizes : Nat → Nat) (i : Nat) (st : CreateState K)
    (j : Nat) (p : MotifParameter)
    (hfind : findParameter (motif.parameters.take motif.nparameters) (collect i 0) = some (j, p))
    (hbit : CHECK_BIT st.checklist j = true) :
    CreateEntry.collectible strtod fileGood motif collect sizes i st
      = Flow.ret (ParserCode_t.codeRepeated, st.entry) := by
  unfold CreateEntry.collectible
  simp only [hfind, hbit, if_true]

/-- The round of a parameter line with a wrong number of tokens. -/
theorem CreateEntry.collectible_codeSize {K : Type} [LinearOrderedField K]
    (strtod : String → Option K) (fileGood : String → Bool) (motif : MotifEntry)
    (collect : Nat → Nat → String) (sizes : Nat → Nat) (i : Nat) (st : CreateState K)
    (j : Nat) (p : MotifParameter)
    (hfind : findParameter (motif.parameters.take motif.nparameters) (collect i 0) = some (j, p))
    (hbit : CHECK_BIT st.checklist j = false)
    (hconf : CreateEntry.conflict motif j p (st.checklist ||| MAKE_MASK j) = false)
    (hsize : sizes i ≠ (if CHECK_BIT p.flags flagVector then 4 else 2)) :
    CreateEntry.collectible strtod fileGood motif collect sizes i st
      = Flow.ret (ParserCode_t.codeSize, st.entry) := by
  unfold CreateEntry.collectible
  simp only [hfind, hbit, hconf, Bool.false_eq_true, if_false, ne_eq, hsize, not_false_eq_true,
    if_true]

/-- No conflict is found for a parameter whose alternative is marked by none of
the lines before. -/
theorem CreateEntry.conflict_of_not_listed {K : Type} [LinearOrderedField K]
    (strtod : String → Option K) (fileGood : String → Bool) (motif : MotifEntry)
    (collect : Nat → Nat → String) (sizes : Nat → Nat) (i : Nat) (entry : Entry K)
    (st : CreateState K)
    (h : forLoop (CreateEntry.collectible strtod fileGood motif collect sizes) i 0
      (CreateEntry.init motif entry) = Flow.next st)
    (j : Nat) (p : MotifParameter)
    (hno : ∀ q ∈ motif.parameters, q.id = p.replace → ∀ i' < i, collect i' 0 ≠ q.label) :
    CreateEntry.conflict motif j p (st.checklist ||| MAKE_MASK j) = false := by
  simp only [CreateEntry.conflict]
  rw [List.any_eq_false]
  intro k _
  cases hget : motif.parameters.get? k with
  | none => simp
  | some q =>
    simp only [Bool.and_eq_true, decide_eq_true_eq, not_and]
    rintro ⟨hjk, hrep⟩ hbit
    rw [CHECK_BIT_or_MAKE_MASK] at hbit
    simp only [Bool.or_eq_true, decide_eq_true_eq, hjk, or_false] at hbit
    rcases (CreateEntry.collectibles_bits strtod fileGood motif collect sizes i _ st h k).1 hbit
      with h0 | ⟨i', hi', p', hp'⟩
    · rw [show (CreateEntry.init motif entry).checklist = 0 from rfl, CHECK_BIT_zero] at h0
      exact absurd h0 (by simp)
    · obtain ⟨hg, hl⟩ := findParameter_some _ _ _ _ hp'
      have hg2 := (get?_of_take _ _ _ _ hg).1
      rw [hget] at hg2
      cases hg2
      exact hno q (mem_of_get? _ _ _ hget) hrep.symm i' hi' hl.symm

/-- The lines of an entry that `Parser::CreateEntry` goes through carry
different labels. -/
theorem CreateEntry.labels_distinct {K : Type} [LinearOrderedField K]
    (strtod : String → Option K) (fileGood : String → Bool) (motif : MotifEntry)
    (collect : Nat → Nat → String) (sizes : Nat → Nat) (ncol : Nat) (entry : Entry K)
    (st1 : CreateState K)
    (h1 : forLoop (CreateEntry.collectible strtod fileGood motif collect sizes) ncol 0
      (CreateEntry.init motif entry) = Flow.next st1)
    (i1 i2 : Nat) (h12 : i1 < i2) (hi2 : i2 < ncol) : collect i1 0 ≠ collect i2 0 := by
  intro heq
  obtain ⟨s1, s2, hpre, hbody, -⟩ := forLoop_round _ ncol 0 _ st1 h1 i2 hi2
  rw [Nat.zero_add] at hbody
  obtain ⟨j, p, hfind, hbit, -⟩ :=
    CreateEntry.collectible_next strtod fileGood motif collect sizes i2 s1 s2 hbody
  have hmarked : CHECK_BIT s1.checklist j = true :=
    (CreateEntry.collectibles_bits strtod fileGood motif collect sizes i2 _ s1 hpre j).2
      (Or.inr ⟨i1, h12, p, by rw [heq]; exact hfind⟩)
  rw [hbit] at hmarked
  exact absurd hmarked (by simp)

/-- A label outside the motif yields `codeUnknown`. -/
theorem CreateEntry_codeUnknown {K : Type} [LinearOrderedField K]
    (strtod : String → Option K) (fileGood : String → Bool) (entryLabel : String)
    (collect : Nat → Nat → String) (sizes : Nat → Nat) (ncol : Nat) (entry : Entry K)
    (motif : MotifEntry)
    (hfind : kEntries.find? (fun motif => decide (motif.label = entryLabel)) = some motif)
    (i : Nat) (hi : i < ncol)
    (hacc : ∃ (code : ParserCode_t) (e1 : Entry K),
      CreateEntry strtod fileGood entryLabel collect sizes i entry = some (code, e1) ∧
      (code = ParserCode_t.codeOK ∨ code = ParserCode_t.codeMissing))
    (hunknown : ∀ p ∈ motif.parameters, p.label ≠ collect i 0) :
    ∃ e2 : Entry K, CreateEntry strtod fileGood entryLabel collect sizes ncol entry
      = some (ParserCode_t.codeUnknown, e2) := by
  obtain ⟨code, e1, hc1, hc2⟩ := hacc
  obtain ⟨st, hst⟩ := CreateEntry_lines_accepted strtod fileGood entryLabel collect sizes i
    entry motif hfind code e1 hc1 hc2
  have hnone : findParameter (motif.parameters.take motif.nparameters) (collect i 0) = none :=
    findParameter_eq_none _ _ (fun p hp => hunknown p (List.mem_of_mem_take hp))
  have hround := CreateEntry.collectible_codeUnknown strtod fileGood motif collect sizes i st
    hnone
  exact ⟨st.entry, (CreateEntry_cases strtod fileGood entryLabel collect sizes ncol entry motif
    hfind).1 _ (forLoop_ret_at _ ncol i _ st _ hi hst hround)⟩

/-- A second occurrence of a label yields `codeRepeated`. -/
theorem CreateEntry_codeRepeated {K : Type} [LinearOrderedField K]
    (strtod : String → Option K) (fileGood : String → Bool) (entryLabel : String)
    (collect : Nat → Nat → String) (sizes : Nat → Nat) (ncol : Nat) (entry : Entry K)
    (motif : MotifEntry)
    (hfind : kEntries.find? (fun motif => decide (motif.label = entryLabel)) = some motif)
    (i : Nat) (hi : i < ncol)
    (hacc : ∃ (code : ParserCode_t) (e1 : Entry K),
      CreateEntry strtod fileGood entryLabel collect sizes i entry = some (code, e1) ∧
      (code = ParserCode_t.codeOK ∨ code = ParserCode_t.codeMissing))
    (hsecond : ∃ i' < i, collect i' 0 = collect i 0) :
    ∃ e2 : Entry K, CreateEntry strtod fileGood entryLabel collect sizes ncol entry
      = some (ParserCode_t.codeRepeated, e2) := by
  obtain ⟨code, e1, hc1, hc2⟩ := hacc
  obtain ⟨st, hst⟩ := CreateEntry_lines_accepted strtod fileGood entryLabel collect sizes i
    entry motif hfind code e1 hc1 hc2
  obtain ⟨i', hi', hlab⟩ := hsecond
  obtain ⟨-, -, hrows⟩ :=
    CreateEntry.collectibles_rows strtod fileGood motif collect sizes i _ st hst
  obtain ⟨-, j, p, hfp, -⟩ := hrows i' hi'
  have hmarked : CHECK_BIT st.checklist j = true :=
    (CreateEntry.collectibles_bits strtod fileGood motif collect sizes i _ st hst j).2
      (Or.inr ⟨i', hi', p, hfp⟩)
  have hround := CreateEntry.collectible_codeRepeated strtod fileGood motif collect sizes i st
    j p (by rw [← hlab]; exact hfp) hmarked
  exact ⟨st.entry, (CreateEntry_cases strtod fileGood entryLabel collect sizes ncol entry motif
    hfind).1 _ (forLoop_ret_at _ ncol i _ st _ hi hst hround)⟩

/-- A wrong number of components yields `codeSize`. -/
theorem CreateEntry_codeSize {K : Type} [LinearOrderedField K]
    (strtod : String → Option K) (fileGood : String → Bool) (entryLabel : String)
    (collect : Nat → Nat → String) (sizes : Nat → Nat) (ncol : Nat) (entry : Entry K)
    (motif : MotifEntry)
    (hfind : kEntries.find? (fun motif => decide (motif.label = entryLabel)) = some motif)
    (i : Nat) (hi : i < ncol)
    (hacc : ∃ (code : ParserCode_t) (e1 : Entry K),
      CreateEntry strtod fileGood entryLabel collect sizes i entry = some (code, e1) ∧
      (code = ParserCode_t.codeOK ∨ code = ParserCode_t.codeMissing))
    (p : MotifParameter) (hp : p ∈ motif.parameters) (hlab : p.label = collect i 0)
    (hnew : ∀ i' < i, collect i' 0 ≠ collect i 0)
    (hno : ∀ q ∈ motif.parameters, q.id = p.replace → ∀ i' < i, collect i' 0 ≠ q.label)
    (hsize : sizes i ≠ (if CHECK_BIT p.flags flagVector then 4 else 2)) :
    ∃ e2 : Entry K, CreateEntry strtod fileGood entryLabel collect sizes ncol entry
      = some (ParserCode_t.codeSize, e2) := by
  obtain ⟨code, e1, hc1, hc2⟩ := hacc
  obtain ⟨st, hst⟩ := CreateEntry_lines_accepted strtod fileGood entryLabel collect sizes i
    entry motif hfind code e1 hc1 hc2
  obtain ⟨hn, hnodup, -⟩ := kEntries_tables motif (List.mem_of_find?_eq_some hfind)
  have htake : motif.parameters.take motif.nparameters = motif.parameters := by
    rw [hn, List.take_length]
  obtain ⟨j, hj⟩ := findParameter_of_mem motif.parameters hnodup p hp
  have hget := (findParameter_some _ _ _ _ hj).1
  have hbit : CHECK_BIT st.checklist j = false := by
    apply CreateEntry.first_not_marked strtod fileGood motif collect sizes i entry st hst j
      (collect i 0) hnew
    intro q hq
    rw [htake, hget] at hq
    cases hq
    exact hlab
  have hconf := CreateEntry.conflict_of_not_listed strtod fileGood motif collect sizes i entry
    st hst j p hno
  have hround := CreateEntry.collectible_codeSize strtod fileGood motif collect sizes i st j p
    (by rw [htake, ← hlab]; exact hj) hbit hconf hsize
  exact ⟨st.entry, (CreateEntry_cases strtod fileGood entryLabel collect sizes ncol entry motif
    hfind).1 _ (forLoop_ret_at _ ncol i _ st _ hi hst hround)⟩

/-- What `codeOK` tells about the lines and the motif. -/
theorem CreateEntry_codeOK_lines {K : Type} [LinearOrderedField K]
    (strtod : String → Option K) (fileGood : String → Bool) (entryLabel : String)
    (collect : Nat → Nat → String) (sizes : Nat → Nat) (ncol : Nat) (entry e : Entry K)
    (motif : MotifEntry)
    (hfind : kEntries.find? (fun motif => decide (motif.label = entryLabel)) = some motif)
    (h : CreateEntry strtod fileGood entryLabel collect sizes ncol entry
      = some (ParserCode_t.codeOK, e)) :
    (∀ i < ncol, ∃ p ∈ motif.parameters, p.label = collect i 0) ∧
    (∀ i1 < ncol, ∀ i2 < ncol, i1 ≠ i2 → collect i1 0 ≠ collect i2 0) ∧
    (∀ i < ncol, ∀ p ∈ motif.parameters, p.label = collect i 0 →
      sizes i = (if CHECK_BIT p.flags flagVector then 4 else 2)) ∧
    (∀ p ∈ motif.parameters, CHECK_BIT p.flags flagOptional = false → p.replace = 0 →
      ∃ i < ncol, collect i 0 = p.label) := by
  obtain ⟨st1, st2, h1, h2, -⟩ := CreateEntry_codeOK strtod fileGood entryLabel collect sizes
    ncol entry motif hfind e h
  obtain ⟨hn, hnodup, -⟩ := kEntries_tables motif (List.mem_of_find?_eq_some hfind)
  have htake : motif.parameters.take motif.nparameters = motif.parameters := by
    rw [hn, List.take_length]
  obtain ⟨-, -, hrows⟩ :=
    CreateEntry.collectibles_rows strtod fileGood motif collect sizes ncol _ st1 h1
  refine ⟨?_, ?_, ?_, ?_⟩
  · intro i hi
    obtain ⟨-, j, p, hfp, -⟩ := hrows i hi
    rw [htake] at hfp
    obtain ⟨hg, hl⟩ := findParameter_some _ _ _ _ hfp
    exact ⟨p, mem_of_get? _ _ _ hg, hl⟩
  · intro i1 hi1 i2 hi2 hne
    rcases Nat.lt_or_gt_of_ne hne with h12 | h12
    · exact CreateEntry.labels_distinct strtod fileGood motif collect sizes ncol entry st1 h1
        i1 i2 h12 hi2
    · exact (CreateEntry.labels_distinct strtod fileGood motif collect sizes ncol entry st1 h1
        i2 i1 h12 hi1).symm
  · intro i hi p hp hlab
    obtain ⟨-, j, p', hfp, hsize, -⟩ := hrows i hi
    rw [htake] at hfp
    obtain ⟨j2, hj2⟩ := findParameter_of_mem motif.parameters hnodup p hp
    rw [hlab, hfp] at hj2
    simp only [Option.some.injEq, Prod.mk.injEq] at hj2
    rw [← hj2.2]
    exact hsize
  · intro p hp hopt hrep
    obtain ⟨-, -, -, -, hall, -⟩ :=
      CreateEntry.parameters_through strtod motif motif.nparameters st1 st2 h2
    obtain ⟨j, hj⟩ := findParameter_of_mem motif.parameters hnodup p hp
    have hget := (findParameter_some _ _ _ _ hj).1
    have hjn : j < motif.nparameters := by
      rw [hn]
      rw [List.get?_eq_getElem?, List.getElem?_eq_some] at hget
      exact hget.1
    obtain ⟨p', hp', hcase⟩ := hall j hjn
    rw [hget] at hp'
    cases hp'
    have hbit : CHECK_BIT st1.checklist j = true := by
      rcases hcase with hb | ho | hr
      · exact hb
      · rw [hopt] at ho
        exact absurd ho (by simp)
      · exact absurd hrep hr.1
    exact (CreateEntry.marked_iff_listed strtod fileGood motif collect sizes ncol entry st1 h1
      hn j p hj).1 hbit

/-- C25: for the motif of every entry kind, `Parser::CreateEntry` returns
`codeOK` only if the label of every parameter line belongs to the motif, no two
lines carry the same label, the line of a vector parameter has four tokens (the
label and three components) and the line of a scalar or text parameter two, and
every parameter that is neither optional nor has an alternative is listed. With
the lines before line `i` accepted (they make `CreateEntry` return `codeOK` or
`codeMissing`): a label of line `i` outside the motif yields `codeUnknown`; a
label of line `i` that a line before carries yields `codeRepeated`; a wrong
number of tokens in line `i`, whose label and the label of whose alternative no
line before carries, yields `codeSize`. And when all the lines are accepted but
a parameter that is neither optional nor has an alternative is not listed, the
code is `codeMissing`. -/
theorem CreateEntry_checks {K : Type} [LinearOrderedField K]
    (strtod : String → Option K) (fileGood : String → Bool) (entryLabel : String)
    (collect : Nat → Nat → String) (sizes : Nat → Nat) (ncol : Nat) (entry : Entry K)
    (motif : MotifEntry)
    (hfind : kEntries.find? (fun motif => decide (motif.label = entryLabel)) = some motif) :
    (∀ e : Entry K,
      CreateEntry strtod fileGood entryLabel collect sizes ncol entry
        = some (ParserCode_t.codeOK, e) →
      (∀ i < ncol, ∃ p ∈ motif.parameters, p.label = collect i 0) ∧
      (∀ i1 < ncol, ∀ i2 < ncol, i1 ≠ i2 → collect i1 0 ≠ collect i2 0) ∧
      (∀ i < ncol, ∀ p ∈ motif.parameters, p.label = collect i 0 →
        sizes i = (if CHECK_BIT p.flags flagVector then 4 else 2)) ∧
      (∀ p ∈ motif.parameters, CHECK_BIT p.flags flagOptional = false → p.replace = 0 →
        ∃ i < ncol, collect i 0 = p.label)) ∧
    (∀ i < ncol,
      (∃ (code : ParserCode_t) (e1 : Entry K),
        CreateEntry strtod fileGood entryLabel collect sizes i entry = some (code, e1) ∧
        (code = ParserCode_t.codeOK ∨ code = ParserCode_t.codeMissing)) →
      (∀ p ∈ motif.parameters, p.label ≠ collect i 0) →
      ∃ e2 : Entry K, CreateEntry strtod fileGood entryLabel collect sizes ncol entry
        = some (ParserCode_t.codeUnknown, e2)) ∧
    (∀ i < ncol,
      (∃ (code : ParserCode_t) (e1 : Entry K),
        CreateEntry strtod fileGood entryLabel collect sizes i entry = some (code, e1) ∧
        (code = ParserCode_t.codeOK ∨ code = ParserCode_t.codeMissing)) →
      (∃ i' < i, collect i' 0 = collect i 0) →
      ∃ e2 : Entry K, CreateEntry strtod fileGood entryLabel collect sizes ncol entry
        = some (ParserCode_t.codeRepeated, e2)) ∧
    (∀ i < ncol,
      (∃ (code : ParserCode_t) (e1 : Entry K),
        CreateEntry strtod fileGood entryLabel collect sizes i entry = some (code, e1) ∧
        (code = ParserCode_t.codeOK ∨ code = ParserCode_t.codeMissing)) →
      ∀ p ∈ motif.parameters, p.label = collect i 0 →
      (∀ i' < i, collect i' 0 ≠ collect i 0) →
      (∀ q ∈ motif.parameters, q.id = p.replace → ∀ i' < i, collect i' 0 ≠ q.label) →
      sizes i ≠ (if CHECK_BIT p.flags flagVector then 4 else 2) →
      ∃ e2 : Entry K, CreateEntry strtod fileGood entryLabel collect sizes ncol entry
        = some (ParserCode_t.codeSize, e2)) ∧
    (∀ (code : ParserCode_t) (e : Entry K),
      CreateEntry strtod fileGood entryLabel collect sizes ncol entry = some (code, e) →
      code = ParserCode_t.codeOK ∨ code = ParserCode_t.codeMissing →
      ∀ p ∈ motif.parameters, CHECK_BIT p.flags flagOptional = false → p.replace = 0 →
      (¬ ∃ i < ncol, collect i 0 = p.label) →
      code = ParserCode_t.codeMissing) := by
  refine ⟨?_, ?_, ?_, ?_, ?_⟩
  · intro e h
    exact CreateEntry_codeOK_lines strtod fileGood entryLabel collect sizes ncol entry e motif
      hfind h
  · intro i hi hacc hunknown
    exact CreateEntry_codeUnknown strtod fileGood entryLabel collect sizes ncol entry motif
      hfind i hi hacc hunknown
  · intro i hi hacc hsecond
    exact CreateEntry_codeRepeated strtod fileGood entryLabel collect sizes ncol entry motif
      hfind i hi hacc hsecond
  · intro i hi hacc p hp hlab hnew hno hsize
    exact CreateEntry_codeSize strtod fileGood entryLabel collect sizes ncol entry motif
      hfind i hi hacc p hp hlab hnew hno hsize
  · intro code e h hcode p hp hopt hrep hnot
    rcases hcode with hc | hc
    · exfalso
      subst hc
      exact hnot ((CreateEntry_codeOK_lines strtod fileGood entryLabel collect sizes ncol entry
        e motif hfind h).2.2.2 p hp hopt hrep)
    · exact hc

theorem CreateEntry_checks_witness :
    kEntries.find? (fun motif => decide (motif.label = "sphere"))
      = some ⟨EntryID_t.entrySphere, "sphere", false, 0, kSphere.length, kSphere⟩ ∧
    (∃ e : Entry ℚ,
      CreateEntry sampleStrtod (fun _ => true) "sphere"
        (sampleCollect [["position", "0", "0", "0"], ["radius", "1"], ["color", "1", "1", "1"]])
        (sampleSizes [["position", "0", "0", "0"], ["radius", "1"], ["color", "1", "1", "1"]])
        3 Entry.new = some (ParserCode_t.codeOK, e)) ∧
    (∀ i < 3, ∃ p ∈ kSphere, p.label
      = sampleCollect [["position", "0", "0", "0"], ["radius", "1"], ["color", "1", "1", "1"]]
          i 0) ∧
    (∃ e2 : Entry ℚ,
      CreateEntry sampleStrtod (fun _ => true) "sphere"
        (sampleCollect [["position", "0", "0", "0"], ["height", "1"]])
        (sampleSizes [["position", "0", "0", "0"], ["height", "1"]])
        2 Entry.new = some (ParserCode_t.codeUnknown, e2)) ∧
    (∃ e2 : Entry ℚ,
      CreateEntry sampleStrtod (fun _ => true) "sphere"
        (sampleCollect [["position", "0", "0", "0"], ["position", "0", "0", "0"]])
        (sampleSizes [["position", "0", "0", "0"], ["position", "0", "0", "0"]])
        2 Entry.new = some (ParserCode_t.codeRepeated, e2)) ∧
    (∃ e2 : Entry ℚ,
      CreateEntry sampleStrtod (fun _ => true) "sphere"
        (sampleCollect [["position", "0", "0"]])
        (sampleSizes [["position", "0", "0"]])
        1 Entry.new = some (ParserCode_t.codeSize, e2)) ∧
    (∃ e : Entry ℚ,
      CreateEntry sampleStrtod (fun _ => true) "sphere"
        (sampleCollect [["position", "0", "0", "0"], ["color", "1", "1", "1"]])
        (sampleSizes [["position", "0", "0", "0"], ["color", "1", "1", "1"]])
        2 Entry.new = some (ParserCode_t.codeMissing, e)) ∧
    ParserCode_t.codeMissing = ParserCode_t.codeMissing := by
  refine ⟨find_sphere, ⟨_, rfl⟩, ?_, ?_, ?_, ?_, ⟨_, rfl⟩, ?_⟩
  · exact ((CreateEntry_checks sampleStrtod (fun _ => true) "sphere"
      (sampleCollect [["position", "0", "0", "0"], ["radius", "1"], ["color", "1", "1", "1"]])
      (sampleSizes [["position", "0", "0", "0"], ["radius", "1"], ["color", "1", "1", "1"]])
      3 Entry.new _ find_sphere).1 _ rfl).1
  · exact (CreateEntry_checks sampleStrtod (fun _ => true) "sphere"
      (sampleCollect [["position", "0", "0", "0"], ["height", "1"]])
      (sampleSizes [["position", "0", "0", "0"], ["height", "1"]])
      2 Entry.new _ find_sphere).2.1 1 (by decide) ⟨_, _, rfl, Or.inr rfl⟩ (by decide)
  · exact (CreateEntry_checks sampleStrtod (fun _ => true) "sphere"
      (sampleCollect [["position", "0", "0", "0"], ["position", "0", "0", "0"]])
      (sampleSizes [["position", "0", "0", "0"], ["position", "0", "0", "0"]])
      2 Entry.new _ find_sphere).2.2.1 1 (by decide) ⟨_, _, rfl, Or.inr rfl⟩
      ⟨0, by decide, rfl⟩
  · exact (CreateEntry_checks sampleStrtod (fun _ => true) "sphere"
      (sampleCollect [["position", "0", "0"]])
      (sampleSizes [["position", "0", "0"]])
      1 Entry.new _ find_sphere).2.2.2.1 0 (by decide) ⟨_, _, rfl, Or.inr rfl⟩
      ⟨1, 0, "position", "", BIT_VECTOR⟩ (by simp [kSphere]) rfl
      (fun i' hi' => absurd hi' (Nat.not_lt_zero _))
      (fun _ _ _ i' hi' => absurd hi' (Nat.not_lt_zero _)) (by decide)
  · exact (CreateEntry_checks sampleStrtod (fun _ => true) "sphere"
      (sampleCollect [["position", "0", "0", "0"], ["color", "1", "1", "1"]])
      (sampleSizes [["position", "0", "0", "0"], ["color", "1", "1", "1"]])
      2 Entry.new _ find_sphere).2.2.2.2 ParserCode_t.codeMissing _ rfl (Or.inr rfl)
      ⟨2, 0, "radius", "", BIT_REAL ||| BIT_CHECK_POSITIVE⟩ (by simp [kSphere]) (by decide) rfl
      (by decide)

/-! ## The routines in binary64 arithmetic

The theorems on the numeric routines above read `double` as an exact real.
Read in binary64 arithmetic, the arithmetic of the compiled program, several of
them fail at concrete inputs: a square underflows to zero or overflows to an
infinity, a difference of infinities is a NaN (every comparison of the window
test is false of a NaN, so it is returned), and a rounded root falls on the
other side of a limit of the window.  Each statement below is evaluated in the
model `Double`. -/

set_option exponentiation.threshold 10000
set_option maxRecDepth 100000

/-- C3, as stated, fails in binary64 arithmetic.  For the sphere of radius `9`
about the origin and the origin `O = (0, 5, 12)`, at distance `d = 13 > 9`, the
ray of direction `(C − O)/d` and the window `[4, 100]`, which holds
`d − r = 4`, `Sphere::Solve` returns the sentinel `-1`, not `4`.  For the
sphere of radius `0.1` and the origin `(0, 0, 13)`, where the direction
`(C − O)/d` is `(0, 0, −1)` without rounding, it returns `12.900000000000045`,
not `d − r = 12.9`. -/
theorem Sphere_Solve_through_centre_counterexample :
    (Double.lt 0 9 = true ∧
      Binary64.Vector.Len (Binary64.Vector.sub ⟨0, 0, 0⟩ ⟨0, 5, 12⟩) = 13 ∧
      Double.lt 9 13 = true ∧ (13 : Double) - 9 = 4 ∧
      Double.le 4 ((13 : Double) - 9) = true ∧ Double.le ((13 : Double) - 9) 100 = true ∧
      Binary64.Sphere.Solve
          ({ center_ := ⟨0, 0, 0⟩, radius_ := 9, color_ := (), texture_ := none,
             texturex_ := ⟨0, 0, 0⟩, texturey_ := ⟨0, 0, 0⟩,
             texturez_ := ⟨0, 0, 0⟩ } : Sphere Double Unit Unit)
          ⟨0, 5, 12⟩
          (Binary64.Vector.scale (Binary64.Vector.sub ⟨0, 0, 0⟩ ⟨0, 5, 12⟩) (1 / 13)) 4 100
        = -1) ∧
    (Double.lt 0 0.1 = true ∧
      Binary64.Vector.Len (Binary64.Vector.sub ⟨0, 0, 0⟩ ⟨0, 0, 13⟩) = 13 ∧
      Double.lt 0.1 13 = true ∧ (13 : Double) - 0.1 = 12.9 ∧
      Double.le 1 ((13 : Double) - 0.1) = true ∧ Double.le ((13 : Double) - 0.1) 100 = true ∧
      Binary64.Vector.scale (Binary64.Vector.sub ⟨0, 0, 0⟩ ⟨0, 0, 13⟩) (1 / 13)
        = ⟨0, 0, -1⟩ ∧
      Binary64.Sphere.Solve
          ({ center_ := ⟨0, 0, 0⟩, radius_ := 0.1, color_ := (), texture_ := none,
             texturex_ := ⟨0, 0, 0⟩, texturey_ := ⟨0, 0, 0⟩,
             texturez_ := ⟨0, 0, 0⟩ } : Sphere Double Unit Unit)
          ⟨0, 0, 13⟩
          (Binary64.Vector.scale (Binary64.Vector.sub ⟨0, 0, 0⟩ ⟨0, 0, 13⟩) (1 / 13)) 1 100
        = 12.900000000000045 ∧
      Double.eq 12.900000000000045 ((13 : Double) - 0.1) = false) := by
  decide

/-- C4, as stated, fails in binary64 arithmetic.  For the plane through
`C = (−1e308, 0, 0)` with the unit normal `N = (0, 1, 0)`, the ray from
`O = (1e308, 5, 0)` along `D = (0, −1, 0)` and the window `[1, 100]`, `D·N` is
`-1`, not zero, and the plane is hit at distance `5`; but `O − C` overflows,
`(O − C)·N` is a NaN and `Plane::Solve` returns a NaN: neither a distance of
the window nor the sentinel.  For the plane `y = 0`, the ray from `(0, 1, 0)`
along `(0, −49, 0)` and the window `[0, 100]` it returns the distance
`t = 0.02040816326530612` of the window, and the point `O + t D` does not
satisfy the plane equation: `(O + t D − C)·N` is `1.1102230246251565e-16`. -/
theorem Plane_Solve_spec_counterexample :
    (Binary64.Vector.dot ⟨0, -1, 0⟩ ⟨0, 1, 0⟩ = -1 ∧
      Double.ne (Binary64.Vector.dot ⟨0, -1, 0⟩ ⟨0, 1, 0⟩) 0 = true ∧
      Binary64.Vector.dot (Binary64.Vector.sub ⟨1e308, 5, 0⟩ ⟨-1e308, 0, 0⟩) ⟨0, 1, 0⟩
        = Double.nan ∧
      Binary64.Plane.Solve
          ({ center_ := ⟨-1e308, 0, 0⟩, normal_ := ⟨0, 1, 0⟩, scale_ := 1, color_ := (),
             texture_ := none, texturex_ := ⟨0, 0, 0⟩,
             texturey_ := ⟨0, 0, 0⟩ } : Plane Double Unit Unit)
          ⟨1e308, 5, 0⟩ ⟨0, -1, 0⟩ 1 100
        = Double.nan ∧
      Double.eq Double.nan (-1) = false ∧
      (Double.le 1 Double.nan && Double.le Double.nan 100) = false) ∧
    (Double.ne (Binary64.Vector.dot ⟨0, -49, 0⟩ ⟨0, 1, 0⟩) 0 = true ∧
      Binary64.Plane.Solve
          ({ center_ := ⟨0, 0, 0⟩, normal_ := ⟨0, 1, 0⟩, scale_ := 1, color_ := (),
             texture_ := none, texturex_ := ⟨0, 0, 0⟩,
             texturey_ := ⟨0, 0, 0⟩ } : Plane Double Unit Unit)
          ⟨0, 1, 0⟩ ⟨0, -49, 0⟩ 0 100
        = 0.02040816326530612 ∧
      (Double.le 0 0.02040816326530612 && Double.le 0.02040816326530612 100) = true ∧
      Binary64.Vector.dot
          (Binary64.Vector.sub
            (Binary64.Vector.add ⟨0, 1, 0⟩
              (Binary64.Vector.scale ⟨0, -49, 0⟩ 0.02040816326530612))
            ⟨0, 0, 0⟩)
          ⟨0, 1, 0⟩
        = 1.1102230246251565e-16 ∧
      Double.eq 1.1102230246251565e-16 0 = false) := by
  decide

/-- C8, as stated, fails in binary64 arithmetic.  The vectors `(1e-200, 0, 0)`
and `(1e200, 0, 0)` are not zero, and `Vector::Normalize_InPlace` maps both to
the zero vector (the square of the first underflows to zero; the square of
the second overflows, and `1.0 / len` is zero): the result has length `0`, not
`1`.  The vector `(0, 1, 1)` is mapped to a vector of length
`0.9999999999999999`. -/
theorem Normalize_InPlace_spec_counterexample :
    (Double.ne 1e-200 0 = true ∧
      Binary64.Vector.Normalize_InPlace ⟨1e-200, 0, 0⟩ = ⟨0, 0, 0⟩ ∧
      Binary64.Vector.Len (Binary64.Vector.Normalize_InPlace ⟨1e-200, 0, 0⟩) = 0) ∧
    (Double.ne 1e200 0 = true ∧
      Binary64.Vector.Normalize_InPlace ⟨1e200, 0, 0⟩ = ⟨0, 0, 0⟩ ∧
      Binary64.Vector.Len (Binary64.Vector.Normalize_InPlace ⟨1e200, 0, 0⟩) = 0) ∧
    (Binary64.Vector.Normalize_InPlace ⟨0, 1, 1⟩
        = ⟨0, 0.7071067811865475, 0.7071067811865475⟩ ∧
      Binary64.Vector.Len (Binary64.Vector.Normalize_InPlace ⟨0, 1, 1⟩)
        = 0.9999999999999999 ∧
      Double.eq 0.9999999999999999 1 = false) := by
  decide

/-- C9, as stated, fails in binary64 arithmetic.  For the unit sphere about the
origin, the ray from `(1e200, 0, 0)` along `(−1, 0, 0)`, whose leading
coefficient `D·D` is `1`, and the window `[1, 1e300]` with
`0 < mind ≤ maxd`, `Sphere::Solve` returns a NaN (`T·T` overflows and the
discriminant is a difference of infinities): the result is not the sentinel,
is not a distance of the window and is not negative, while no hit is
reported. -/
theorem Solve_result_convention_counterexample :
    Double.lt 0 1 = true ∧ Double.le 1 1e300 = true ∧
    Binary64.Vector.dot ⟨-1, 0, 0⟩ ⟨-1, 0, 0⟩ = 1 ∧
    Double.ne (Binary64.Vector.dot ⟨-1, 0, 0⟩ ⟨-1, 0, 0⟩) 0 = true ∧
    Binary64.Sphere.Solve
        ({ center_ := ⟨0, 0, 0⟩, radius_ := 1, color_ := (), texture_ := none,
           texturex_ := ⟨0, 0, 0⟩, texturey_ := ⟨0, 0, 0⟩,
           texturez_ := ⟨0, 0, 0⟩ } : Sphere Double Unit Unit)
        ⟨1e200, 0, 0⟩ ⟨-1, 0, 0⟩ 1 1e300
      = Double.nan ∧
    Double.eq Double.nan (-1) = false ∧
    (Double.le 1 Double.nan && Double.le Double.nan 1e300) = false ∧
    Double.lt Double.nan 0 = false := by
  decide

/-- C12, as stated, fails in binary64 arithmetic.  For the cylinder about the z
axis (unit axis `B = (0, 0, 1)`, origin `A = (0, 0, 0)`) and the hit
`(1e-200, 0, 5)`, which is not on the axis, `Cylinder::GetNormal` returns the
zero vector, not the unit vector `(1, 0, 0)`; for the sphere about the origin
and the hit `(1e-200, 0, 0)`, which is not the centre, `Sphere::GetNormal`
returns the zero vector. -/
theorem GetNormal_spec_counterexample :
    Binary64.Vector.dot ⟨0, 0, 1⟩ ⟨0, 0, 1⟩ = 1 ∧
    Double.ne 1e-200 0 = true ∧
    Binary64.Cylinder.GetNormal
        ({ A_ := ⟨0, 0, 0⟩, B_ := ⟨0, 0, 1⟩, radius_ := 1, span_ := -1, color_ := (),
           texture_ := none, texturex_ := ⟨0, 0, 0⟩,
           texturey_ := ⟨0, 0, 0⟩ } : Cylinder Double Unit Unit)
        ⟨1e-200, 0, 5⟩
      = ⟨0, 0, 0⟩ ∧
    Binary64.Sphere.GetNormal
        ({ center_ := ⟨0, 0, 0⟩, radius_ := 1, color_ := (), texture_ := none,
           texturex_ := ⟨0, 0, 0⟩, texturey_ := ⟨0, 0, 0⟩,
           texturez_ := ⟨0, 0, 0⟩ } : Sphere Double Unit Unit)
        ⟨1e-200, 0, 0⟩
      = ⟨0, 0, 0⟩ := by
  decide

/-- C19, as stated, fails in binary64 arithmetic.  The textured plane built
from the normal `(0, 1, 2)`, with `(1, 0, 0)` as the vector returned by
`GenerateUnitVector` (not parallel to the stored normal: their cross product
is not zero), has a `texturex_` of length `1.0000000000000002`.  The textured
plane built from the non-zero normal `(1e-200, 0, 0)` stores the zero vector
as `normal_`, and `texturex_` and `texturey_` are the zero vector. -/
theorem texture_bases_orthonormal_counterexample :
    (Binary64.Vector.cross ⟨1, 0, 0⟩
        (Binary64.Plane.new (fun _ => ⟨1, 0, 0⟩) ⟨0, 0, 0⟩ ⟨0, 1, 2⟩ 1 () (some ()) :
          Plane Double Unit Unit).normal_ ≠ ⟨0, 0, 0⟩ ∧
      (Binary64.Plane.new (fun _ => ⟨1, 0, 0⟩) ⟨0, 0, 0⟩ ⟨0, 1, 2⟩ 1 () (some ()) :
          Plane Double Unit Unit).texturex_
        = ⟨0, -0.8944271909999161, 0.44721359549995804⟩ ∧
      Binary64.Vector.Len
          (Binary64.Plane.new (fun _ => ⟨1, 0, 0⟩) ⟨0, 0, 0⟩ ⟨0, 1, 2⟩ 1 () (some ()) :
            Plane Double Unit Unit).texturex_
        = 1.0000000000000002 ∧
      Double.eq 1.0000000000000002 1 = false) ∧
    (Double.ne 1e-200 0 = true ∧
      (Binary64.Plane.new (fun _ => ⟨0, 1, 0⟩) ⟨0, 0, 0⟩ ⟨1e-200, 0, 0⟩ 1 () (some ()) :
          Plane Double Unit Unit).normal_ = ⟨0, 0, 0⟩ ∧
      (Binary64.Plane.new (fun _ => ⟨0, 1, 0⟩) ⟨0, 0, 0⟩ ⟨1e-200, 0, 0⟩ 1 () (some ()) :
          Plane Double Unit Unit).texturex_ = ⟨0, 0, 0⟩ ∧
      (Binary64.Plane.new (fun _ => ⟨0, 1, 0⟩) ⟨0, 0, 0⟩ ⟨1e-200, 0, 0⟩ 1 () (some ()) :
          Plane Double Unit Unit).texturey_ = ⟨0, 0, 0⟩) := by
  decide

/-- C21, as stated, fails in binary64 arithmetic.  For the unit sphere about
the origin, the ray from `(1e200, 0, 0)` along `D = (−1, 0, 0) ≠ 0` and the
window `[1, 1e300]`, `Sphere::Solve` returns a NaN, a value other than the
sentinel, and `|P − C|²` at `P = O + t D` is a NaN, not `r²`.  For the ray from
`(0.5, 0, −3)` along `(0, 0, 1)` and the window `[1, 100]` it returns
`t = 2.1339745962155616`, and `|P − C|²` is `0.9999999999999996`, not
`r² = 1`. -/
theorem Sphere_Solve_hit_on_sphere_counterexample :
    (Double.ne (-1) 0 = true ∧ Double.lt 0 1 = true ∧
      Binary64.Sphere.Solve
          ({ center_ := ⟨0, 0, 0⟩, radius_ := 1, color_ := (), texture_ := none,
             texturex_ := ⟨0, 0, 0⟩, texturey_ := ⟨0, 0, 0⟩,
             texturez_ := ⟨0, 0, 0⟩ } : Sphere Double Unit Unit)
          ⟨1e200, 0, 0⟩ ⟨-1, 0, 0⟩ 1 1e300
        = Double.nan ∧
      Double.ne Double.nan (-1) = true ∧
      Binary64.Vector.dot
          (Binary64.Vector.sub
            (Binary64.Vector.add ⟨1e200, 0, 0⟩ (Binary64.Vector.scale ⟨-1, 0, 0⟩ Double.nan))
            ⟨0, 0, 0⟩)
          (Binary64.Vector.sub
            (Binary64.Vector.add ⟨1e200, 0, 0⟩ (Binary64.Vector.scale ⟨-1, 0, 0⟩ Double.nan))
            ⟨0, 0, 0⟩)
        = Double.nan ∧
      Double.eq Double.nan ((1 : Double) * 1) = false) ∧
    (Double.ne 1 0 = true ∧ Double.lt 0 1 = true ∧
      Binary64.Sphere.Solve
          ({ center_ := ⟨0, 0, 0⟩, radius_ := 1, color_ := (), texture_ := none,
             texturex_ := ⟨0, 0, 0⟩, texturey_ := ⟨0, 0, 0⟩,
             texturez_ := ⟨0, 0, 0⟩ } : Sphere Double Unit Unit)
          ⟨0.5, 0, -3⟩ ⟨0, 0, 1⟩ 1 100
        = 2.1339745962155616 ∧
      Double.ne 2.1339745962155616 (-1) = true ∧
      Binary64.Vector.dot
          (Binary64.Vector.sub
            (Binary64.Vector.add ⟨0.5, 0, -3⟩
              (Binary64.Vector.scale ⟨0, 0, 1⟩ 2.1339745962155616))
            ⟨0, 0, 0⟩)
          (Binary64.Vector.sub
            (Binary64.Vector.add ⟨0.5, 0, -3⟩
              (Binary64.Vector.scale ⟨0, 0, 1⟩ 2.1339745962155616))
            ⟨0, 0, 0⟩)
        = 0.9999999999999996 ∧
      Double.eq 0.9999999999999996 ((1 : Double) * 1) = false) := by
  decide

/-- C22, as stated, fails in binary64 arithmetic.  For the cylinder of radius
`1` about the z axis (unit axis `B = (0, 0, 1)`, without a span), the unit
direction `D = (1, 0, 0)` with `(B·D)² = 0 ≠ 1`: on the ray from
`(−1e200, 0, 0)` and the window `[1, 1e300]` `Cylinder::Solve` returns a NaN, a
value other than the sentinel; on the ray from `(−3, 0.5, 0)` and the window
`[1, 100]` it returns `t = 2.1339745962155616`, and the squared distance of
`P = O + t D` from the axis is `0.9999999999999996`, not `r² = 1`. -/
theorem Cylinder_Solve_hit_on_cylinder_counterexample :
    (Binary64.Vector.dot ⟨0, 0, 1⟩ ⟨0, 0, 1⟩ = 1 ∧
      Binary64.Vector.dot ⟨1, 0, 0⟩ ⟨1, 0, 0⟩ = 1 ∧
      Binary64.Vector.dot ⟨0, 0, 1⟩ ⟨1, 0, 0⟩ = 0 ∧ Double.lt 0 1 = true) ∧
    (Binary64.Cylinder.Solve
          ({ A_ := ⟨0, 0, 0⟩, B_ := ⟨0, 0, 1⟩, radius_ := 1, span_ := -1, color_ := (),
             texture_ := none, texturex_ := ⟨0, 0, 0⟩,
             texturey_ := ⟨0, 0, 0⟩ } : Cylinder Double Unit Unit)
          ⟨-1e200, 0, 0⟩ ⟨1, 0, 0⟩ 1 1e300
        = Double.nan ∧
      Double.ne Double.nan (-1) = true) ∧
    (Binary64.Cylinder.Solve
          ({ A_ := ⟨0, 0, 0⟩, B_ := ⟨0, 0, 1⟩, radius_ := 1, span_ := -1, color_ := (),
             texture_ := none, texturex_ := ⟨0, 0, 0⟩,
             texturey_ := ⟨0, 0, 0⟩ } : Cylinder Double Unit Unit)
          ⟨-3, 0.5, 0⟩ ⟨1, 0, 0⟩ 1 100
        = 2.1339745962155616 ∧
      Double.ne 2.1339745962155616 (-1) = true ∧
      Binary64.Vector.dot
          (Binary64.Vector.sub
            (Binary64.Vector.sub
              (Binary64.Vector.add ⟨-3, 0.5, 0⟩
                (Binary64.Vector.scale ⟨1, 0, 0⟩ 2.1339745962155616))
              ⟨0, 0, 0⟩)
            (Binary64.Vector.scale ⟨0, 0, 1⟩
              (Binary64.Vector.dot
                (Binary64.Vector.sub
                  (Binary64.Vector.add ⟨-3, 0.5, 0⟩
                    (Binary64.Vector.scale ⟨1, 0, 0⟩ 2.1339745962155616))
                  ⟨0, 0, 0⟩)
                ⟨0, 0, 1⟩)))
          (Binary64.Vector.sub
            (Binary64.Vector.sub
              (Binary64.Vector.add ⟨-3, 0.5, 0⟩
                (Binary64.Vector.scale ⟨1, 0, 0⟩ 2.1339745962155616))
              ⟨0, 0, 0⟩)
            (Binary64.Vector.scale ⟨0, 0, 1⟩
              (Binary64.Vector.dot
                (Binary64.Vector.sub
                  (Binary64.Vector.add ⟨-3, 0.5, 0⟩
                    (Binary64.Vector.scale ⟨1, 0, 0⟩ 2.1339745962155616))
                  ⟨0, 0, 0⟩)
                ⟨0, 0, 1⟩)))
        = 0.9999999999999996 ∧
      Double.eq 0.9999999999999996 ((1 : Double) * 1) = false) := by
  decide

/-- C27, as stated, fails in binary64 arithmetic.  For the sphere of radius
`4.242640687119286` about the origin, the origin `O = (0, 3, 3)` strictly
inside (`|O − C| = 4.242640687119285 < r`), the direction
`D = (0, −3, −3) ≠ 0` and the window `[0, 100]`, `Sphere::Solve` returns `0`,
not the sentinel `-1`: the smaller root, negative and tiny, is rounded to
zero and passes the test against `mind = 0`. -/
theorem Sphere_Solve_from_inside_counterexample :
    Binary64.Vector.Len (Binary64.Vector.sub ⟨0, 3, 3⟩ ⟨0, 0, 0⟩) = 4.242640687119285 ∧
    Double.lt (Binary64.Vector.Len (Binary64.Vector.sub ⟨0, 3, 3⟩ ⟨0, 0, 0⟩))
      4.242640687119286 = true ∧
    Double.ne (-3) 0 = true ∧ Double.le 0 0 = true ∧
    Binary64.Sphere.Solve
        ({ center_ := ⟨0, 0, 0⟩, radius_ := 4.242640687119286, color_ := (),
           texture_ := none, texturex_ := ⟨0, 0, 0⟩, texturey_ := ⟨0, 0, 0⟩,
           texturez_ := ⟨0, 0, 0⟩ } : Sphere Double Unit Unit)
        ⟨0, 3, 3⟩ ⟨0, -3, -3⟩ 0 100
      = 0 ∧
    Double.eq 0 (-1) = false := by
  decide

end Mrtp
